import Mathlib

/-!
# migcontroller: a shallow embedding of the volume-resize engine

The engine of `internal/controller` is embedded as functions over an explicit
cluster state.  The orchestrator client is a state-passing interface: every call
is served from a `World`, after the rest of the cluster has acted (`Env.drift`),
unless the run forces an error on it (`Env.fault`).  Every computation yields the
log of its calls with their outcomes, so that ordering properties of the engine
are properties of that log.

Machine integers (`int32`) are `Int`; no arithmetic of the engine can overflow
(`currentReplica + 1` is guarded by `currentReplica < maxReplica`).
-/

namespace MigController

/-! ## Library values: string maps, formatting, quantities, errors -/

/-- A Go `map[string]string`, as an association list. -/
abbrev StrMap := List (String × String)

/-- Map lookup `m[k]` with the `ok` flag. -/
def StrMap.get? (m : StrMap) (k : String) : Option String :=
  (m.find? (fun kv => kv.1 == k)).map (fun kv => kv.2)

/-- Map assignment `m[k] = v`. -/
def StrMap.set (m : StrMap) (k v : String) : StrMap :=
  if m.any (fun kv => kv.1 == k) then m.map (fun kv => if kv.1 == k then (k, v) else kv)
  else m ++ [(k, v)]

/-- Map removal `delete(m, k)`. -/
def StrMap.erase (m : StrMap) (k : String) : StrMap :=
  m.filter (fun kv => !(kv.1 == k))

/-- The verb `%d` applied to an `int32`. -/
def fmtInt (i : Int) : String := toString i

/-- The double quote character. -/
def dquote : Char := Char.ofNat 34

/-- The backslash character. -/
def bslash : Char := Char.ofNat 92

/-- The function `strconv.IsPrint`, which `strconv.Quote` asks about every rune.
Up to U+00FF it is the test the function makes in its own code: U+0020 to
U+007E, and U+00A1 to U+00FF without the soft hyphen U+00AD.  Above U+00FF the
function looks the rune up in the Unicode tables of the standard library; the
tables are no part of the repository and `wide` stands for them. -/
def isPrint (wide : Char → Bool) (c : Char) : Bool :=
  if c.toNat ≤ 255 then
    if 32 ≤ c.toNat ∧ c.toNat ≤ 126 then true
    else if 161 ≤ c.toNat then c.toNat != 173
    else false
  else wide c

/-- The hexadecimal digit (lower case) of the four bits of `n` from bit `shift` on. -/
def hexDigit (n shift : Nat) : Char := Nat.digitChar ((n >>> shift) % 16)

/-- One rune of `strconv.Quote` (`appendEscapedRune`): the quote and the
backslash are escaped; a printable rune is kept; of the others the control
characters get their short or two-digit hexadecimal escape and the rest the
escape with four hexadecimal digits, or with eight from U+10000 on.  A string
holds valid runes only, so the escapes of invalid bytes do not occur. -/
def quoteRune (wide : Char → Bool) (c : Char) : List Char :=
  if c = dquote then [bslash, dquote]
  else if c = bslash then [bslash, bslash]
  else if isPrint wide c then [c]
  else if c.toNat = 7 then [bslash, 'a']
  else if c.toNat = 8 then [bslash, 'b']
  else if c.toNat = 12 then [bslash, 'f']
  else if c.toNat = 10 then [bslash, 'n']
  else if c.toNat = 13 then [bslash, 'r']
  else if c.toNat = 9 then [bslash, 't']
  else if c.toNat = 11 then [bslash, 'v']
  else if c.toNat < 32 ∨ c.toNat = 127 then
    [bslash, 'x', hexDigit c.toNat 4, hexDigit c.toNat 0]
  else if c.toNat < 65536 then
    [bslash, 'u', hexDigit c.toNat 12, hexDigit c.toNat 8, hexDigit c.toNat 4, hexDigit c.toNat 0]
  else
    [bslash, 'U', hexDigit c.toNat 28, hexDigit c.toNat 24, hexDigit c.toNat 20, hexDigit c.toNat 16,
      hexDigit c.toNat 12, hexDigit c.toNat 8, hexDigit c.toNat 4, hexDigit c.toNat 0]

/-- The verb `%q` applied to a string (`strconv.Quote`), given the tables `wide`
of the printable runes above U+00FF. -/
def goQuote (wide : Char → Bool) (s : String) : String :=
  String.mk ([dquote] ++ (s.toList.flatMap (quoteRune wide)) ++ [dquote])

/-- Substring test, as `strings.Contains` and testify's `assert.Contains` on strings. -/
def Contains (s sub : String) : Prop := sub.toList <:+: s.toList

instance (s sub : String) : Decidable (Contains s sub) := by
  unfold Contains; infer_instance

/-- A `resource.Quantity`: its numeric value in units of 10^-9 (the finest scale a
quantity holds) and its canonical text, the result of `String()`. -/
structure Quantity where
  nano : Int := 0
  text : String := "0"
  deriving DecidableEq, Repr, Inhabited

/-- The method `Quantity.Cmp`: -1, 0 or 1. -/
def Quantity.Cmp (a b : Quantity) : Int :=
  if a.nano < b.nano then -1 else if a.nano = b.nano then 0 else 1

/-- The method `Quantity.String`. -/
def Quantity.String (q : Quantity) : String := q.text

/-- A `corev1.ResourceList`. -/
abbrev ResourceList := List (String × Quantity)

/-- The constant `corev1.ResourceStorage`. -/
def ResourceStorage : String := "storage"

/-- The indexing `rl[name]` with the `ok` flag. -/
def ResourceList.get? (rl : ResourceList) (name : String) : Option Quantity :=
  (rl.find? (fun kv => kv.1 == name)).map (fun kv => kv.2)

/-- The assignment `rl[name] = q`. -/
def ResourceList.set (rl : ResourceList) (name : String) (q : Quantity) : ResourceList :=
  if rl.any (fun kv => kv.1 == name) then rl.map (fun kv => if kv.1 == name then (name, q) else kv)
  else rl ++ [(name, q)]

/-- The method `ResourceList.Storage` of `k8s.io/api/core/v1`: the storage entry, or
a zero quantity when the list has none.  It never returns nil. -/
def ResourceList.Storage (rl : ResourceList) : Option Quantity :=
  match rl.get? ResourceStorage with
  | some q => some q
  | none => some { nano := 0, text := "0" }

/-- Why an API call failed, as told apart by `apierrors.IsNotFound` and
`apierrors.IsAlreadyExists`. -/
inductive Reason
  | notFound
  | alreadyExists
  | canceled
  | other
  deriving DecidableEq, Repr, Inhabited

/-- A Go `error`: the text of `Error()` and the reason found by unwrapping. -/
structure Err where
  reason : Reason
  msg : String
  deriving DecidableEq, Repr, Inhabited

/-- The expression `fmt.Errorf(pre + "%w", err)`. -/
def Err.wrap (pre : String) (e : Err) : Err := { e with msg := pre ++ e.msg }

/-- The expression `fmt.Errorf(msg)` without a wrapped error. -/
def errorf (msg : String) : Err := { reason := Reason.other, msg := msg }

/-- The predicate `apierrors.IsNotFound`. -/
def IsNotFound (e : Err) : Bool := e.reason == Reason.notFound

/-- The predicate `apierrors.IsAlreadyExists`. -/
def IsAlreadyExists (e : Err) : Bool := e.reason == Reason.alreadyExists

/-! ## Constants (`constants.go`) -/

def PhasePending : String := "Pending"
def PhaseValidating : String := "Validating"
def PhaseSyncing : String := "Syncing"
def PhaseReplacing : String := "Replacing"
def PhaseCompleted : String := "Completed"
def PhaseFailed : String := "Failed"

def VolumeStatusPending : String := "Pending"
def VolumeStatusSyncing : String := "Syncing"
def VolumeStatusSynced : String := "Synced"
def VolumeStatusReplacing : String := "Replacing"
def VolumeStatusCompleted : String := "Completed"
def VolumeStatusFailed : String := "Failed"

def AnnotationOldPVName : String := "storage.maurice.fr/old-pv-name"
def AnnotationManagedBy : String := "storage.maurice.fr/managed-by"
def AnnotationSTSDeleted : String := "storage.maurice.fr/sts-deleted"
def AnnotationSTSBackup : String := "storage.maurice.fr/sts-backup-cm"
def ConfigMapKeySTSSpec : String := "statefulset.json"
def LabelMigrationName : String := "storage.maurice.fr/migration-name"
def LabelReplica : String := "storage.maurice.fr/replica"
def LabelVolumeName : String := "storage.maurice.fr/volume-name"
def FinalizerName : String := "storage.maurice.fr/finalizer"
def DefaultMigratorImage : String := "mauricethomas/migcontroller-migrator:latest"
def MessageMigrationCompleted : String := "Migration completed successfully"

/-- The pod phases of `corev1`. -/
def PodPending : String := "Pending"
def PodRunning : String := "Running"
def PodSucceeded : String := "Succeeded"
def PodFailed : String := "Failed"
def PodUnknown : String := "Unknown"

def ClaimBound : String := "Bound"
def PersistentVolumeReclaimRetain : String := "Retain"
def PersistentVolumeReclaimDelete : String := "Delete"
def VolumeBindingWaitForFirstConsumer : String := "WaitForFirstConsumer"
def RestartPolicyNever : String := "Never"
def PullIfNotPresent : String := "IfNotPresent"

/-! ## Objects of the platform (the fields the engine reads or writes) -/

/-- The struct `metav1.ObjectMeta`. -/
structure ObjectMeta where
  Name : String := ""
  Namespace : String := ""
  Labels : StrMap := []
  Annotations : StrMap := []
  Finalizers : List String := []
  DeletionTimestamp : Option Nat := none
  ResourceVersion : String := ""
  UID : String := ""
  CreationTimestamp : Nat := 0
  Generation : Int := 0
  ManagedFields : List String := []
  deriving DecidableEq, Repr, Inhabited

/-- One entry of `metav1.LabelSelector.MatchExpressions`. -/
structure LabelSelectorRequirement where
  Key : String
  Operator : String
  Values : List String := []
  deriving DecidableEq, Repr, Inhabited

/-- The struct `metav1.LabelSelector`. -/
structure LabelSelector where
  MatchLabels : StrMap := []
  MatchExpressions : List LabelSelectorRequirement := []
  deriving DecidableEq, Repr, Inhabited

structure PersistentVolumeClaimSpec where
  AccessModes : List String := []
  StorageClassName : Option String := none
  VolumeName : String := ""
  Requests : ResourceList := []
  deriving DecidableEq, Repr, Inhabited

structure PersistentVolumeClaimStatus where
  Phase : String := ""
  deriving DecidableEq, Repr, Inhabited

/-- The struct `corev1.PersistentVolumeClaim` (a claim). -/
structure PersistentVolumeClaim where
  Meta : ObjectMeta := {}
  Spec : PersistentVolumeClaimSpec := {}
  Status : PersistentVolumeClaimStatus := {}
  deriving DecidableEq, Repr, Inhabited

/-- The struct `corev1.ObjectReference`, as far as a claim reference goes. -/
structure ObjectReference where
  Namespace : String := ""
  Name : String := ""
  UID : String := ""
  deriving DecidableEq, Repr, Inhabited

structure PersistentVolumeSpec where
  Capacity : ResourceList := []
  PersistentVolumeReclaimPolicy : String := ""
  ClaimRef : Option ObjectReference := none
  StorageClassName : String := ""
  deriving DecidableEq, Repr, Inhabited

/-- The struct `corev1.PersistentVolume` (a backing volume, cluster-scoped). -/
structure PersistentVolume where
  Meta : ObjectMeta := {}
  Spec : PersistentVolumeSpec := {}
  deriving DecidableEq, Repr, Inhabited

structure EnvVar where
  Name : String
  Value : String
  deriving DecidableEq, Repr, Inhabited

structure VolumeMount where
  Name : String
  MountPath : String
  deriving DecidableEq, Repr, Inhabited

structure Container where
  Name : String := ""
  Image : String := ""
  ImagePullPolicy : String := ""
  Env : List EnvVar := []
  VolumeMounts : List VolumeMount := []
  deriving DecidableEq, Repr, Inhabited

/-- A `corev1.Volume` whose source is a claim. -/
structure Volume where
  Name : String
  ClaimName : String
  deriving DecidableEq, Repr, Inhabited

structure PodSecurityContext where
  RunAsUser : Option Int := none
  RunAsGroup : Option Int := none
  deriving DecidableEq, Repr, Inhabited

structure PodSpec where
  RestartPolicy : String := ""
  SecurityContext : Option PodSecurityContext := none
  Containers : List Container := []
  Volumes : List Volume := []
  deriving DecidableEq, Repr, Inhabited

structure PodStatus where
  Phase : String := ""
  deriving DecidableEq, Repr, Inhabited

/-- The struct `corev1.Pod`. -/
structure Pod where
  Meta : ObjectMeta := {}
  Spec : PodSpec := {}
  Status : PodStatus := {}
  deriving DecidableEq, Repr, Inhabited

structure PodTemplateSpec where
  Labels : StrMap := []
  Spec : PodSpec := {}
  deriving DecidableEq, Repr, Inhabited

structure StatefulSetSpec where
  Replicas : Option Int := none
  Selector : Option LabelSelector := none
  ServiceName : String := ""
  Template : PodTemplateSpec := {}
  VolumeClaimTemplates : List PersistentVolumeClaim := []
  deriving DecidableEq, Repr, Inhabited

/-- The struct `appsv1.StatefulSet` (the parent workload). -/
structure StatefulSet where
  Meta : ObjectMeta := {}
  Spec : StatefulSetSpec := {}
  deriving DecidableEq, Repr, Inhabited

/-- The struct `corev1.ConfigMap` (the key-value object of the backup). -/
structure ConfigMap where
  Meta : ObjectMeta := {}
  Data : StrMap := []
  deriving DecidableEq, Repr, Inhabited

structure PodDisruptionBudgetSpec where
  Selector : Option LabelSelector := none
  deriving DecidableEq, Repr, Inhabited

structure PodDisruptionBudgetStatus where
  DisruptionsAllowed : Int := 0
  deriving DecidableEq, Repr, Inhabited

/-- The struct `policyv1.PodDisruptionBudget`. -/
structure PodDisruptionBudget where
  Meta : ObjectMeta := {}
  Spec : PodDisruptionBudgetSpec := {}
  Status : PodDisruptionBudgetStatus := {}
  deriving DecidableEq, Repr, Inhabited

/-- The struct `storagev1.StorageClass` (cluster-scoped). -/
structure StorageClass where
  Meta : ObjectMeta := {}
  VolumeBindingMode : Option String := none
  deriving DecidableEq, Repr, Inhabited

/-! ## The request object (`api/v1alpha1/volumeresize_types.go`) -/

structure VolumeResizeTarget where
  Name : String := ""
  NewSize : Quantity := {}
  StorageClass : Option String := none
  deriving DecidableEq, Repr, Inhabited

structure VolumeResizeSpec where
  StatefulSetName : String := ""
  Volumes : List VolumeResizeTarget := []
  deriving DecidableEq, Repr, Inhabited

structure VolumeStatus where
  VolumeName : String := ""
  Replica : Int := 0
  Phase : String := ""
  OldPVCName : String := ""
  NewPVCName : String := ""
  OldPVName : String := ""
  Message : String := ""
  deriving DecidableEq, Repr, Inhabited

structure VolumeResizeStatus where
  Phase : String := ""
  VolumeStatuses : List VolumeStatus := []
  CurrentReplica : Option Int := none
  CurrentVolume : String := ""
  Message : String := ""
  StartTime : Option Nat := none
  CompletionTime : Option Nat := none
  BackupConfigMapName : String := ""
  deriving DecidableEq, Repr, Inhabited

structure VolumeResize where
  Meta : ObjectMeta := {}
  Spec : VolumeResizeSpec := {}
  Status : VolumeResizeStatus := {}
  deriving DecidableEq, Repr, Inhabited

/-! ## The cluster and the client -/

/-- The resource types the engine talks about. -/
inductive Kind
  | volumeResize
  | statefulSet
  | pod
  | pvc
  | pv
  | configMap
  | pdb
  | storageClass
  deriving DecidableEq, Repr, Inhabited

/-- The Go type of the objects of a kind. -/
@[reducible] def Kind.T : Kind → Type
  | .volumeResize => VolumeResize
  | .statefulSet => StatefulSet
  | .pod => Pod
  | .pvc => PersistentVolumeClaim
  | .pv => PersistentVolume
  | .configMap => ConfigMap
  | .pdb => PodDisruptionBudget
  | .storageClass => StorageClass

/-- The metadata of an object. -/
def Kind.meta : (k : Kind) → k.T → ObjectMeta
  | .volumeResize, o => o.Meta
  | .statefulSet, o => o.Meta
  | .pod, o => o.Meta
  | .pvc, o => o.Meta
  | .pv, o => o.Meta
  | .configMap, o => o.Meta
  | .pdb, o => o.Meta
  | .storageClass, o => o.Meta

/-- Replace the metadata of an object. -/
def Kind.withMeta : (k : Kind) → k.T → ObjectMeta → k.T
  | .volumeResize, o, m => { o with Meta := m }
  | .statefulSet, o, m => { o with Meta := m }
  | .pod, o, m => { o with Meta := m }
  | .pvc, o, m => { o with Meta := m }
  | .pv, o, m => { o with Meta := m }
  | .configMap, o, m => { o with Meta := m }
  | .pdb, o, m => { o with Meta := m }
  | .storageClass, o, m => { o with Meta := m }

/-- What an update of the main resource stores: the status is a sub-resource of the
request, of claims, of pods and of budgets, and an update of the main resource
leaves the stored status as it is. -/
def Kind.mergeMain : (k : Kind) → (stored new : k.T) → k.T
  | .volumeResize, stored, new => { new with Status := stored.Status }
  | .statefulSet, _, new => new
  | .pod, stored, new => { new with Status := stored.Status }
  | .pvc, stored, new => { new with Status := stored.Status }
  | .pv, _, new => new
  | .configMap, _, new => new
  | .pdb, stored, new => { new with Status := stored.Status }
  | .storageClass, _, new => new

/-- What an update of the status sub-resource stores: the new status on the stored
metadata and spec. -/
def Kind.mergeStatus : (k : Kind) → (stored new : k.T) → k.T
  | .volumeResize, stored, new => { stored with Status := new.Status }
  | .statefulSet, stored, _ => stored
  | .pod, stored, new => { stored with Status := new.Status }
  | .pvc, stored, new => { stored with Status := new.Status }
  | .pv, stored, _ => stored
  | .configMap, stored, _ => stored
  | .pdb, stored, new => { stored with Status := new.Status }
  | .storageClass, stored, _ => stored

/-- The plural resource name used in the text of API errors. -/
def Kind.resource : Kind → String
  | .volumeResize => "volumeresizes.storage.maurice.fr"
  | .statefulSet => "statefulsets.apps"
  | .pod => "pods"
  | .pvc => "persistentvolumeclaims"
  | .pv => "persistentvolumes"
  | .configMap => "configmaps"
  | .pdb => "poddisruptionbudgets.policy"
  | .storageClass => "storageclasses.storage.k8s.io"

/-- The state of the cluster: the objects of each kind. -/
structure World where
  volumeResizes : List VolumeResize := []
  statefulSets : List StatefulSet := []
  pods : List Pod := []
  pvcs : List PersistentVolumeClaim := []
  pvs : List PersistentVolume := []
  configMaps : List ConfigMap := []
  pdbs : List PodDisruptionBudget := []
  storageClasses : List StorageClass := []
  deriving DecidableEq, Repr, Inhabited

/-- The objects of one kind. -/
def World.objs : (k : Kind) → World → List k.T
  | .volumeResize, w => w.volumeResizes
  | .statefulSet, w => w.statefulSets
  | .pod, w => w.pods
  | .pvc, w => w.pvcs
  | .pv, w => w.pvs
  | .configMap, w => w.configMaps
  | .pdb, w => w.pdbs
  | .storageClass, w => w.storageClasses

/-- Replace the objects of one kind. -/
def World.setObjs : (k : Kind) → World → List k.T → World
  | .volumeResize, w, l => { w with volumeResizes := l }
  | .statefulSet, w, l => { w with statefulSets := l }
  | .pod, w, l => { w with pods := l }
  | .pvc, w, l => { w with pvcs := l }
  | .pv, w, l => { w with pvs := l }
  | .configMap, w, l => { w with configMaps := l }
  | .pdb, w, l => { w with pdbs := l }
  | .storageClass, w, l => { w with storageClasses := l }

/-- Whether an object has the given namespace and name. -/
def Kind.hasKey (k : Kind) (ns name : String) (o : k.T) : Bool :=
  (k.meta o).Namespace == ns && (k.meta o).Name == name

/-- Whether an object carries every label of a `client.MatchingLabels` selector. -/
def matchesLabels (sel labels : StrMap) : Bool :=
  sel.all (fun kv => labels.get? kv.1 == some kv.2)

/-- A request to the API server. -/
inductive Op
  | get (k : Kind) (ns name : String)
  | list (k : Kind) (ns : String) (labels : StrMap)
  | create (k : Kind) (obj : k.T)
  | update (k : Kind) (obj : k.T)
  | statusUpdate (k : Kind) (obj : k.T)
  | delete (k : Kind) (ns name : String) (orphan : Bool)

/-- One entry of the log: a request and the error it returned, if any. -/
structure Call where
  op : Op
  err : Option Err

/-- The tables of printable runes of the API server, which formats its own
replies: the server is no part of the repository, and its replies are written
as by a server that holds every rune above U+00FF printable.  The engine does
not read the text of a reply, it only copies it into its messages. -/
def serverWide : Char → Bool := fun _ => true

/-- The text of a not-found error of the API server. -/
def notFoundErr (k : Kind) (name : String) : Err :=
  { reason := Reason.notFound, msg := k.resource ++ " " ++ goQuote serverWide name ++ " not found" }

/-- The text of an already-exists error of the API server. -/
def alreadyExistsErr (k : Kind) (name : String) : Err :=
  { reason := Reason.alreadyExists
    msg := k.resource ++ " " ++ goQuote serverWide name ++ " already exists" }

/-- How the API server answers a request in a given state of the cluster. -/
def World.serveGet (w : World) (k : Kind) (ns name : String) : Except Err k.T :=
  match (w.objs k).find? (k.hasKey ns name) with
  | some o => .ok o
  | none => .error (notFoundErr k name)

/-- A list request: the objects of the namespace carrying the labels. -/
def World.serveList (w : World) (k : Kind) (ns : String) (labels : StrMap) : List k.T :=
  (w.objs k).filter (fun o => (k.meta o).Namespace == ns && matchesLabels labels (k.meta o).Labels)

/-- A create request: refused when an object of that key exists. -/
def World.serveCreate (w : World) (k : Kind) (obj : k.T) : Except Err k.T × World :=
  if (w.objs k).any (k.hasKey (k.meta obj).Namespace (k.meta obj).Name) then
    (.error (alreadyExistsErr k (k.meta obj).Name), w)
  else (.ok obj, w.setObjs k (w.objs k ++ [obj]))

/-- Replace the first element of a list that satisfies `p`. -/
def replaceFirst {α : Type} (p : α → Bool) (o : α) : List α → List α
  | [] => []
  | x :: xs => if p x then o :: xs else x :: replaceFirst p o xs

/-- An update that removes the last finalizer of an object whose deletion was
requested makes the object go away. -/
def Kind.lastFinalizerRemoved (k : Kind) (stored new : k.T) : Bool :=
  (k.meta stored).DeletionTimestamp.isSome && !(k.meta stored).Finalizers.isEmpty &&
    (k.meta new).Finalizers.isEmpty

/-- An update request of the main resource: the stored object of that key is
replaced (its deletion timestamp cannot be changed), or goes away when the update
removes its last finalizer. -/
def World.serveUpdate (w : World) (k : Kind) (obj : k.T) : Except Err k.T × World :=
  match (w.objs k).find? (k.hasKey (k.meta obj).Namespace (k.meta obj).Name) with
  | none => (.error (notFoundErr k (k.meta obj).Name), w)
  | some stored =>
    let o := k.withMeta (k.mergeMain stored obj)
      { k.meta obj with DeletionTimestamp := (k.meta stored).DeletionTimestamp }
    if k.lastFinalizerRemoved stored obj then
      (.ok o, w.setObjs k ((w.objs k).eraseP (k.hasKey (k.meta obj).Namespace (k.meta obj).Name)))
    else
      (.ok o, w.setObjs k (replaceFirst (k.hasKey (k.meta obj).Namespace (k.meta obj).Name) o (w.objs k)))

/-- An update request of the status sub-resource. -/
def World.serveStatusUpdate (w : World) (k : Kind) (obj : k.T) : Except Err k.T × World :=
  match (w.objs k).find? (k.hasKey (k.meta obj).Namespace (k.meta obj).Name) with
  | none => (.error (notFoundErr k (k.meta obj).Name), w)
  | some stored =>
    let o := k.mergeStatus stored obj
    (.ok o, w.setObjs k (replaceFirst (k.hasKey (k.meta obj).Namespace (k.meta obj).Name) o (w.objs k)))

/-- A delete request at time `now`: an object without finalizers goes away, an
object with finalizers is only marked with a deletion timestamp. -/
def World.serveDelete (w : World) (k : Kind) (ns name : String) (now : Nat) : Except Err Unit × World :=
  match (w.objs k).find? (k.hasKey ns name) with
  | none => (.error (notFoundErr k name), w)
  | some stored =>
    if (k.meta stored).Finalizers.isEmpty then
      (.ok (), w.setObjs k ((w.objs k).eraseP (k.hasKey ns name)))
    else
      (.ok (), w.setObjs k (replaceFirst (k.hasKey ns name)
        (k.withMeta stored
          { k.meta stored with DeletionTimestamp := some ((k.meta stored).DeletionTimestamp.getD now) })
        (w.objs k)))

/-- What a run of the engine does not decide: for the n-th request to the API
server, the error forced on it (if any), what the rest of the cluster did just
before it, and how long it took (milliseconds); whether the context is found
cancelled at a wait; and the library functions the engine calls on objects
(`json.Marshal`, `json.Unmarshal` on a workload, whether
`labels.ValidatedSelectorFromSet` accepts a label set, and which runes above
U+00FF `strconv.IsPrint` holds printable when the engine formats with `%q`). -/
structure Env where
  fault : Nat → Option Err := fun _ => none
  drift : Nat → World → World := fun _ w => w
  latency : Nat → Nat := fun _ => 0
  cancelled : Nat → Bool := fun _ => false
  jsonMarshal : StatefulSet → Except Err String := fun _ => .ok ""
  jsonUnmarshal : String → Except Err StatefulSet := fun _ => .ok {}
  validLabelSet : StrMap → Bool := fun _ => true
  isPrintWide : Char → Bool := fun _ => true

/-- The state of a run: the cluster, the number of requests made so far and the
clock (milliseconds). -/
structure St where
  world : World := {}
  calls : Nat := 0
  now : Nat := 0

/-- What a computation yields: its value, the state it leaves and the requests it
made, in order. -/
structure Out (α : Type) where
  val : α
  st : St
  log : List Call

/-- A computation of the engine. -/
def M (α : Type) : Type := Env → St → Out α

instance : Monad M where
  pure a := fun _ s => { val := a, st := s, log := [] }
  bind m f := fun env s =>
    { val := (f (m env s).val env (m env s).st).val
      st := (f (m env s).val env (m env s).st).st
      log := (m env s).log ++ (f (m env s).val env (m env s).st).log }

/-- The environment of the run. -/
def getEnv : M Env := fun env s => { val := env, st := s, log := [] }

/-- The function `time.Now`. -/
def timeNow : M Nat := fun _ s => { val := s.now, st := s, log := [] }

/-- The function `time.Sleep` (milliseconds). -/
def timeSleep (d : Nat) : M Unit := fun _ s => { val := (), st := { s with now := s.now + d }, log := [] }

/-- The statement `select { case <-ctx.Done(): ...; case <-time.After(d): }`:
true when the context is done, otherwise `d` milliseconds pass. -/
def ctxDoneOrAfter (d : Nat) : M Bool := fun env s =>
  if env.cancelled s.calls then { val := true, st := s, log := [] }
  else { val := false, st := { s with now := s.now + d }, log := [] }

/-- The value of `ctx.Err()` once the context is done. -/
def ctxErr : Err := { reason := Reason.canceled, msg := "context canceled" }

/-- The error of an answer, if it is one. -/
def errOf {α : Type} : Except Err α → Option Err
  | .ok _ => none
  | .error e => some e

/-- One request to the API server: the rest of the cluster acts, time passes, then
either the forced error comes back and nothing is written, or the server answers
from the state of the cluster.  The request is logged with its outcome. -/
def call {α : Type} (op : Op) (serve : World → Nat → Except Err α × World) : M (Except Err α) :=
  fun env s =>
    match env.fault s.calls with
    | some e =>
      { val := .error e
        st := { world := env.drift s.calls s.world, calls := s.calls + 1, now := s.now + env.latency s.calls }
        log := [{ op := op, err := some e }] }
    | none =>
      { val := (serve (env.drift s.calls s.world) (s.now + env.latency s.calls)).1
        st := { world := (serve (env.drift s.calls s.world) (s.now + env.latency s.calls)).2
                calls := s.calls + 1, now := s.now + env.latency s.calls }
        log := [{ op := op, err := errOf (serve (env.drift s.calls s.world) (s.now + env.latency s.calls)).1 }] }

/-- The method `client.Get`. -/
def Client.Get (k : Kind) (ns name : String) : M (Except Err k.T) :=
  call (Op.get k ns name) (fun w _ => (w.serveGet k ns name, w))

/-- The method `client.List` with `InNamespace` and `MatchingLabels`. -/
def Client.List (k : Kind) (ns : String) (labels : StrMap) : M (Except Err (List k.T)) :=
  call (Op.list k ns labels) (fun w _ => (.ok (w.serveList k ns labels), w))

/-- The method `client.Create`. -/
def Client.Create (k : Kind) (obj : k.T) : M (Except Err k.T) :=
  call (Op.create k obj) (fun w _ => w.serveCreate k obj)

/-- The method `client.Update`; the answer replaces the object in memory. -/
def Client.Update (k : Kind) (obj : k.T) : M (Except Err k.T) :=
  call (Op.update k obj) (fun w _ => w.serveUpdate k obj)

/-- The method `client.Status().Update`; the answer replaces the object in memory. -/
def Client.StatusUpdate (k : Kind) (obj : k.T) : M (Except Err k.T) :=
  call (Op.statusUpdate k obj) (fun w _ => w.serveStatusUpdate k obj)

/-- The method `client.Delete`, with orphan propagation when `orphan` is set. -/
def Client.Delete (k : Kind) (ns name : String) (orphan : Bool) : M (Except Err Unit) :=
  call (Op.delete k ns name orphan) (fun w now => w.serveDelete k ns name now)

/-! ## Naming and claims (`pvc.go`) -/

def getOriginalPVCName (volumeName stsName : String) (replica : Int) : String :=
  volumeName ++ "-" ++ stsName ++ "-" ++ fmtInt replica

def getTempPVCName (volumeName stsName : String) (replica : Int) : String :=
  volumeName ++ "-" ++ stsName ++ "-" ++ fmtInt replica ++ "-new"

def getPVC (ns name : String) : M (Except Err PersistentVolumeClaim) :=
  Client.Get Kind.pvc ns name

def createTempPVC (vr : VolumeResize) (vol : VolumeResizeTarget)
    (originalPVC : PersistentVolumeClaim) (replica : Int) : M (Except Err PersistentVolumeClaim) := do
  let tempPVCName := getTempPVCName vol.Name vr.Spec.StatefulSetName replica
  match ← getPVC vr.Meta.Namespace tempPVCName with
  | .ok existingPVC => pure (.ok existingPVC)
  | .error err =>
    if !IsNotFound err then
      pure (.error (err.wrap "failed to check for existing temp PVC: "))
    else
      let storageClassName :=
        match vol.StorageClass with
        | some sc => some sc
        | none => originalPVC.Spec.StorageClassName
      let tempPVC : PersistentVolumeClaim :=
        { Meta :=
            { Name := tempPVCName
              Namespace := vr.Meta.Namespace
              Labels := [(LabelMigrationName, vr.Meta.Name), (LabelReplica, fmtInt replica),
                         (LabelVolumeName, vol.Name)]
              Annotations := [(AnnotationManagedBy, "volume-resize-operator")] }
          Spec :=
            { AccessModes := originalPVC.Spec.AccessModes
              StorageClassName := storageClassName
              Requests := [(ResourceStorage, vol.NewSize)] } }
      match ← Client.Create Kind.pvc tempPVC with
      | .error err => pure (.error (err.wrap "failed to create temp PVC: "))
      | .ok created => pure (.ok created)

def setRetainOnPV (pvName : String) : M (Option Err) := do
  match ← Client.Get Kind.pv "" pvName with
  | .error err => pure (some (err.wrap ("failed to get PV " ++ pvName ++ ": ")))
  | .ok pv =>
    if pv.Spec.PersistentVolumeReclaimPolicy = PersistentVolumeReclaimRetain then
      pure none
    else
      match ← Client.Update Kind.pv
          { pv with Spec := { pv.Spec with PersistentVolumeReclaimPolicy := PersistentVolumeReclaimRetain } } with
      | .error err => pure (some (err.wrap ("failed to update PV " ++ pvName ++ " reclaim policy: ")))
      | .ok _ => pure none

/-- The two loops `for range 60` of `replacePVC`: poll the claim until it is not
found; an error other than not-found ends the swap, and so does a cancelled
context.  After the last round the loop is left whatever the claim's state. -/
def replacePVC.waitDeleted (ns name pre : String) : Nat → M (Option Err)
  | 0 => pure none
  | n + 1 => do
    match ← getPVC ns name with
    | .error err =>
      if IsNotFound err then pure none
      else pure (some (err.wrap pre))
    | .ok _ =>
      if ← ctxDoneOrAfter 1000 then pure (some ctxErr)
      else replacePVC.waitDeleted ns name pre n

/-- The test `err != nil && !apierrors.IsNotFound(err)`: the error, unless it is
nil or a not-found. -/
def exceptNotFound {α : Type} : Except Err α → Option Err
  | .ok _ => none
  | .error err => if IsNotFound err then none else some err

def replacePVC (vr : VolumeResize) (vol : VolumeResizeTarget) (replica : Int) : M (Option Err) := do
  let originalPVCName := getOriginalPVCName vol.Name vr.Spec.StatefulSetName replica
  let tempPVCName := getTempPVCName vol.Name vr.Spec.StatefulSetName replica
  match ← getPVC vr.Meta.Namespace tempPVCName with
  | .error err => pure (some (err.wrap "failed to get temp PVC: "))
  | .ok tempPVC =>
  let newPVName := tempPVC.Spec.VolumeName
  if newPVName = "" then
    pure (some (errorf ("temp PVC " ++ tempPVCName ++ " is not bound to a PV")))
  else
  match ← getPVC vr.Meta.Namespace originalPVCName with
  | .error err => pure (some (err.wrap "failed to get original PVC: "))
  | .ok originalPVC =>
  let originalLabels := originalPVC.Meta.Labels
  match ← Client.Get Kind.pv "" newPVName with
  | .error err => pure (some (err.wrap "failed to get new PV: "))
  | .ok newPV =>
  match ← Client.Update Kind.pv
      { newPV with Spec := { newPV.Spec with PersistentVolumeReclaimPolicy := PersistentVolumeReclaimRetain } } with
  | .error err => pure (some (err.wrap "failed to set retain policy on new PV: "))
  | .ok _ =>
  match exceptNotFound (← Client.Delete Kind.pvc tempPVC.Meta.Namespace tempPVC.Meta.Name false) with
  | some err => pure (some (err.wrap "failed to delete temp PVC: "))
  | none =>
  match ← replacePVC.waitDeleted vr.Meta.Namespace tempPVCName "error checking temp PVC deletion: " 60 with
  | some err => pure (some err)
  | none =>
  match ← Client.Get Kind.pv "" newPVName with
  | .error err => pure (some (err.wrap "failed to get new PV after temp PVC deletion: "))
  | .ok newPV =>
  match ← Client.Update Kind.pv { newPV with Spec := { newPV.Spec with ClaimRef := none } } with
  | .error err => pure (some (err.wrap "failed to clear claimRef on new PV: "))
  | .ok _ =>
  match exceptNotFound (← Client.Delete Kind.pvc originalPVC.Meta.Namespace originalPVC.Meta.Name false) with
  | some err => pure (some (err.wrap "failed to delete original PVC: "))
  | none =>
  match ← replacePVC.waitDeleted vr.Meta.Namespace originalPVCName "error checking PVC deletion: " 60 with
  | some err => pure (some err)
  | none =>
  let newPVC : PersistentVolumeClaim :=
    { Meta := { Name := originalPVCName, Namespace := vr.Meta.Namespace, Labels := originalLabels }
      Spec :=
        { AccessModes := tempPVC.Spec.AccessModes
          StorageClassName := tempPVC.Spec.StorageClassName
          VolumeName := newPVName
          Requests := [(ResourceStorage, vol.NewSize)] } }
  match ← Client.Create Kind.pvc newPVC with
  | .error err => pure (some (err.wrap "failed to create new PVC with original name: "))
  | .ok _ => pure none

/-! ## The parent workload and its backup (`statefulset.go`) -/

def deepCopySTSSpec (sts : StatefulSet) : StatefulSet := sts

def deleteSTSOrphan (sts : StatefulSet) : M (Except Err StatefulSet) := do
  let stsCopy := deepCopySTSSpec sts
  match exceptNotFound (← Client.Delete Kind.statefulSet sts.Meta.Namespace sts.Meta.Name true) with
  | some err => pure (.error (err.wrap "failed to delete StatefulSet with orphan policy: "))
  | none => pure (.ok stsCopy)

def getPodName (stsName : String) (replica : Int) : String :=
  stsName ++ "-" ++ fmtInt replica

def deletePod (ns stsName : String) (replica : Int) : M (Option Err) := do
  let podName := getPodName stsName replica
  match exceptNotFound (← Client.Delete Kind.pod ns podName false) with
  | some err => pure (some (err.wrap ("failed to delete pod " ++ podName ++ ": ")))
  | none => pure none

/-- The loop of `waitForPodTermination`.  Every round that goes on sleeps one
second, so at most `timeout / 1000 + 1` rounds start before the deadline; with
that many rounds of fuel the loop is left through the clock, and the case of no
fuel returns what the passed deadline returns. -/
def waitForPodTermination.loop (ns podName : String) (deadline : Nat) : Nat → M (Option Err)
  | 0 => pure (some (errorf ("timeout waiting for pod " ++ podName ++ " to terminate")))
  | fuel + 1 => do
    if (← timeNow) < deadline then
      match ← Client.Get Kind.pod ns podName with
      | .error err =>
        if IsNotFound err then pure none
        else pure (some (err.wrap "error checking pod status: "))
      | .ok _ => do
        timeSleep 1000
        waitForPodTermination.loop ns podName deadline fuel
    else
      pure (some (errorf ("timeout waiting for pod " ++ podName ++ " to terminate")))

def waitForPodTermination (ns podName : String) (timeout : Nat) : M (Option Err) := do
  let deadline := (← timeNow) + timeout
  waitForPodTermination.loop ns podName deadline (timeout / 1000 + 1)

def getSTSBackupConfigMapName (vrName : String) : String :=
  vrName ++ "-sts-backup"

def backupSTSToConfigMap (vr : VolumeResize) (sts : StatefulSet) : M (Option Err) := do
  let cmName := getSTSBackupConfigMapName vr.Meta.Name
  match ← Client.Get Kind.configMap vr.Meta.Namespace cmName with
  | .ok _ => pure none
  | .error err =>
    if !IsNotFound err then
      pure (some (err.wrap "failed to check for existing backup ConfigMap: "))
    else
      match (← getEnv).jsonMarshal sts with
      | .error err => pure (some (err.wrap "failed to serialize StatefulSet: "))
      | .ok stsJSON =>
        let cm : ConfigMap :=
          { Meta :=
              { Name := cmName
                Namespace := vr.Meta.Namespace
                Labels := [(LabelMigrationName, vr.Meta.Name)]
                Annotations := [(AnnotationManagedBy, "volume-resize-operator")] }
            Data := [(ConfigMapKeySTSSpec, stsJSON)] }
        match ← Client.Create Kind.configMap cm with
        | .error err => pure (some (err.wrap "failed to create backup ConfigMap: "))
        | .ok _ => pure none

def getSTSFromBackupConfigMap (ns vrName : String) : M (Except Err StatefulSet) := do
  let cmName := getSTSBackupConfigMapName vrName
  match ← Client.Get Kind.configMap ns cmName with
  | .error err => pure (.error (err.wrap "failed to get backup ConfigMap: "))
  | .ok cm =>
    match cm.Data.get? ConfigMapKeySTSSpec with
    | none => pure (.error (errorf ("backup ConfigMap missing " ++ ConfigMapKeySTSSpec ++ " key")))
    | some stsJSON =>
      match (← getEnv).jsonUnmarshal stsJSON with
      | .error err => pure (.error (err.wrap "failed to deserialize StatefulSet: "))
      | .ok sts => pure (.ok sts)

def recreateSTS (stsSpec : StatefulSet) : M (Option Err) := do
  let newSTS : StatefulSet :=
    { Meta :=
        { Name := stsSpec.Meta.Name
          Namespace := stsSpec.Meta.Namespace
          Labels := stsSpec.Meta.Labels
          Annotations := stsSpec.Meta.Annotations }
      Spec := stsSpec.Spec }
  let newSTS : StatefulSet :=
    { newSTS with Meta := { newSTS.Meta with
        ResourceVersion := "", UID := "", CreationTimestamp := 0, Generation := 0, ManagedFields := [] } }
  match ← Client.Create Kind.statefulSet newSTS with
  | .error err => pure (some (err.wrap "failed to recreate StatefulSet: "))
  | .ok _ => pure none

/-! ## The copy pod (`migrator.go`) -/

def buildMigratorPod (vr : VolumeResize) (vol : VolumeResizeTarget) (replica : Int)
    (oldPVCName newPVCName : String) : Pod :=
  let podName := vr.Meta.Name ++ "-migrator-" ++ fmtInt replica ++ "-" ++ vol.Name
  { Meta :=
      { Name := podName
        Namespace := vr.Meta.Namespace
        Labels := [(LabelMigrationName, vr.Meta.Name), (LabelReplica, fmtInt replica),
                   (LabelVolumeName, vol.Name)]
        Annotations := [(AnnotationManagedBy, "volume-resize-operator")] }
    Spec :=
      { RestartPolicy := RestartPolicyNever
        SecurityContext := some { RunAsUser := some 0, RunAsGroup := some 0 }
        Containers :=
          [{ Name := "migrator"
             Image := DefaultMigratorImage
             ImagePullPolicy := PullIfNotPresent
             Env := [{ Name := "SOURCE_PATH", Value := "/source" },
                     { Name := "DEST_PATH", Value := "/dest" }]
             VolumeMounts := [{ Name := "source", MountPath := "/source" },
                              { Name := "dest", MountPath := "/dest" }] }]
        Volumes := [{ Name := "source", ClaimName := oldPVCName },
                    { Name := "dest", ClaimName := newPVCName }] } }

def createMigratorPod (vr : VolumeResize) (vol : VolumeResizeTarget) (replica : Int)
    (oldPVCName newPVCName : String) : M (Except Err Pod) := do
  let pod := buildMigratorPod vr vol replica oldPVCName newPVCName
  match ← Client.Get Kind.pod pod.Meta.Namespace pod.Meta.Name with
  | .ok existingPod => pure (.ok existingPod)
  | .error err =>
    if !IsNotFound err then
      pure (.error (err.wrap "failed to check for existing migrator pod: "))
    else
      match ← Client.Create Kind.pod pod with
      | .error err => pure (.error (err.wrap "failed to create migrator pod: "))
      | .ok created => pure (.ok created)

/-- The loop of `waitForMigrationComplete`.  Every round that goes on sleeps two
seconds, so at most `timeout / 2000 + 1` rounds start before the deadline; the
case of no fuel returns what the passed deadline returns. -/
def waitForMigrationComplete.loop (podName ns : String) (deadline : Nat) : Nat → M (Option Err)
  | 0 => pure (some (errorf "timeout waiting for migration to complete"))
  | fuel + 1 => do
    if (← timeNow) < deadline then
      match ← Client.Get Kind.pod ns podName with
      | .error err => pure (some (err.wrap "failed to get migration pod status: "))
      | .ok pod =>
        if pod.Status.Phase = PodSucceeded then pure none
        else if pod.Status.Phase = PodFailed then pure (some (errorf "migration pod failed"))
        else do
          timeSleep 2000
          waitForMigrationComplete.loop podName ns deadline fuel
    else
      pure (some (errorf "timeout waiting for migration to complete"))

def waitForMigrationComplete (podName ns : String) (timeout : Nat) : M (Option Err) := do
  let deadline := (← timeNow) + timeout
  waitForMigrationComplete.loop podName ns deadline (timeout / 2000 + 1)

def cleanupMigratorPod (podName ns : String) : M (Option Err) := do
  match exceptNotFound (← Client.Delete Kind.pod ns podName false) with
  | some err => pure (some (err.wrap "failed to delete migrator pod: "))
  | none => pure none

def getMigratorPodName (vrName volName : String) (replica : Int) : String :=
  vrName ++ "-migrator-" ++ fmtInt replica ++ "-" ++ volName

/-! ## The validator (`validation.go`) -/

structure ValidationResult where
  Valid : Bool := false
  Message : String := ""
  deriving DecidableEq, Repr, Inhabited

def validateStatefulSetExists (ns name : String) : M (Option StatefulSet × ValidationResult) := do
  match ← Client.Get Kind.statefulSet ns name with
  | .error err =>
    pure (none, { Valid := false, Message := "StatefulSet " ++ name ++ " not found: " ++ err.msg })
  | .ok sts => pure (some sts, { Valid := true })

/-- The loop over the targets of `validateVolumeTargets`: the first target whose
name is no key of `templateNames` ends it. -/
def validateVolumeTargets.loop (wide : Char → Bool) (templateNames : List String) :
    List VolumeResizeTarget → ValidationResult
  | [] => { Valid := true }
  | vol :: rest =>
    if !(templateNames.contains vol.Name) then
      { Valid := false
        Message := "volume " ++ goQuote wide vol.Name ++ " not found in StatefulSet volumeClaimTemplates" }
    else validateVolumeTargets.loop wide templateNames rest

/-- The function `validateVolumeTargets` (validation.go, lines 52-68); `wide` is
the table of printable runes that the `%q` of its message consults. -/
def validateVolumeTargets (wide : Char → Bool) (sts : StatefulSet) (volumes : List VolumeResizeTarget) :
    ValidationResult :=
  let templateNames := sts.Spec.VolumeClaimTemplates.map (fun vct => vct.Meta.Name)
  validateVolumeTargets.loop wide templateNames volumes

def validateSizeReduction (ns stsName : String) (vol : VolumeResizeTarget) : M ValidationResult := do
  let pvcName := getOriginalPVCName vol.Name stsName 0
  match ← getPVC ns pvcName with
  | .error err =>
    pure { Valid := false, Message := "failed to get PVC " ++ pvcName ++ ": " ++ err.msg }
  | .ok pvc =>
    match pvc.Spec.Requests.Storage with
    | none =>
      pure { Valid := false, Message := "PVC " ++ pvcName ++ " has no storage request" }
    | some currentSize =>
      if vol.NewSize.Cmp currentSize ≥ 0 then
        pure { Valid := false
               Message := "newSize (" ++ vol.NewSize.String ++ ") must be smaller than current size ("
                 ++ currentSize.String ++ ") for volume " ++ vol.Name }
      else pure { Valid := true }

/-- The loop over the budgets of `validatePDBAllowsDisruption`.  The selector built
by `labels.ValidatedSelectorFromSet` from `MatchLabels` matches a label set that
has every pair of it; `MatchExpressions` is not read. -/
def validatePDBAllowsDisruption.loop (env : Env) (podLabels : StrMap) : List PodDisruptionBudget → ValidationResult
  | [] => { Valid := true }
  | pdb :: rest =>
    match pdb.Spec.Selector with
    | none => validatePDBAllowsDisruption.loop env podLabels rest
    | some sel =>
      if !(env.validLabelSet sel.MatchLabels) then validatePDBAllowsDisruption.loop env podLabels rest
      else if matchesLabels sel.MatchLabels podLabels then
        if pdb.Status.DisruptionsAllowed < 1 then
          { Valid := false
            Message := "PodDisruptionBudget " ++ pdb.Meta.Name ++ " does not allow disruptions (disruptionsAllowed="
              ++ fmtInt pdb.Status.DisruptionsAllowed ++ ")" }
        else validatePDBAllowsDisruption.loop env podLabels rest
      else validatePDBAllowsDisruption.loop env podLabels rest

def validatePDBAllowsDisruption (sts : StatefulSet) : M ValidationResult := do
  match ← Client.List Kind.pdb sts.Meta.Namespace [] with
  | .error err =>
    pure { Valid := false, Message := "failed to list PodDisruptionBudgets: " ++ err.msg }
  | .ok pdbList =>
    let podLabels := sts.Spec.Template.Labels
    pure (validatePDBAllowsDisruption.loop (← getEnv) podLabels pdbList)

/-! ## The reconciler (`volumeresize_controller.go`) -/

/-- The struct `ctrl.Result`; `RequeueAfter` in milliseconds. -/
structure Result where
  Requeue : Bool := false
  RequeueAfter : Nat := 0
  deriving DecidableEq, Repr, Inhabited

/-- How a reconciliation ends: it returns a result and an error (nil or not), or
it panics (a nil `CurrentReplica`, an index into an empty target list). -/
inductive Ret
  | ret (res : Result) (err : Option Err)
  | panic (msg : String)
  deriving DecidableEq, Repr, Inhabited

def setFailed (vr : VolumeResize) (message : String) : M Ret := do
  let vr := { vr with Status := { vr.Status with Phase := PhaseFailed, Message := message } }
  match ← Client.StatusUpdate Kind.volumeResize vr with
  | .error err => pure (Ret.ret {} (some err))
  | .ok _ => pure (Ret.ret {} none)

/-- The loop of `updateVolumeStatus`: the first entry of the pair gets the phase
and the message, and the loop returns. -/
def updateVolumeStatus.loop (volName : String) (replica : Int) (phase message : String) :
    List VolumeStatus → List VolumeStatus
  | [] => []
  | vs :: rest =>
    if vs.VolumeName = volName ∧ vs.Replica = replica then
      { vs with Phase := phase, Message := message } :: rest
    else vs :: updateVolumeStatus.loop volName replica phase message rest

def updateVolumeStatus (vr : VolumeResize) (volName : String) (replica : Int) (phase message : String) :
    VolumeResize :=
  { vr with Status := { vr.Status with
      VolumeStatuses := updateVolumeStatus.loop volName replica phase message vr.Status.VolumeStatuses } }

def updateVolumeStatusInList (statuses : List VolumeStatus) (volName : String) (replica : Int)
    (updateFn : VolumeStatus → VolumeStatus) : List VolumeStatus :=
  statuses.map (fun vs => if vs.VolumeName = volName ∧ vs.Replica = replica then updateFn vs else vs)

/-- The result is `none` when the function panics: it reads `vr.Spec.Volumes[0]`
of an empty target list. -/
def getNextVolumeReplica (vr : VolumeResize) (currentReplica : Int) (currentVol : String) :
    Option (Int × String × Bool) :=
  let volIdx := (vr.Spec.Volumes.findIdx? (fun v => v.Name == currentVol)).getD 0
  match vr.Spec.Volumes.get? (volIdx + 1) with
  | some next => some (currentReplica, next.Name, false)
  | none =>
    let maxReplica := vr.Status.VolumeStatuses.foldl
      (fun maxReplica vs => if vs.Replica > maxReplica then vs.Replica else maxReplica) (0 : Int)
    if currentReplica < maxReplica then
      match vr.Spec.Volumes.head? with
      | some first => some (currentReplica + 1, first.Name, false)
      | none => none
    else some (0, "", true)

def handlePending (vr : VolumeResize) : M Ret := do
  let now ← timeNow
  let vr := { vr with Status := { vr.Status with
      StartTime := some now, VolumeStatuses := [], Phase := PhaseValidating,
      Message := "Starting validation" } }
  match ← Client.StatusUpdate Kind.volumeResize vr with
  | .error err => pure (Ret.ret {} (some err))
  | .ok _ => pure (Ret.ret { Requeue := true } none)

/-- The loop over the targets of `handleValidating`: the first invalid result ends it. -/
def handleValidating.sizeLoop (ns stsName : String) : List VolumeResizeTarget → M ValidationResult
  | [] => pure { Valid := true }
  | vol :: rest => do
    let result ← validateSizeReduction ns stsName vol
    if !result.Valid then pure result
    else handleValidating.sizeLoop ns stsName rest

/-- The two loops of `handleValidating` that fill `VolumeStatuses`: for each replica
index below `replicas`, one entry per target. -/
def handleValidating.initStatuses (replicas : Int) (volumes : List VolumeResizeTarget) : List VolumeStatus :=
  (List.range replicas.toNat).flatMap (fun i =>
    volumes.map (fun vol =>
      ({ VolumeName := vol.Name, Replica := (i : Int), Phase := VolumeStatusPending } : VolumeStatus)))

def handleValidating (vr : VolumeResize) : M Ret := do
  let (sts?, result) ← validateStatefulSetExists vr.Meta.Namespace vr.Spec.StatefulSetName
  if !result.Valid then setFailed vr result.Message
  else
  match sts? with
  | none => pure (Ret.panic "nil pointer dereference")
  | some sts =>
  let result := validateVolumeTargets (← getEnv).isPrintWide sts vr.Spec.Volumes
  if !result.Valid then setFailed vr result.Message
  else
  let result ← handleValidating.sizeLoop vr.Meta.Namespace vr.Spec.StatefulSetName vr.Spec.Volumes
  if !result.Valid then setFailed vr result.Message
  else
  let result ← validatePDBAllowsDisruption sts
  if !result.Valid then setFailed vr result.Message
  else
  let replicas : Int :=
    match sts.Spec.Replicas with
    | some n => n
    | none => 1
  let vr := { vr with Status := { vr.Status with
      VolumeStatuses := vr.Status.VolumeStatuses ++ handleValidating.initStatuses replicas vr.Spec.Volumes } }
  match vr.Spec.Volumes.head? with
  | none => pure (Ret.panic "index out of range [0] with length 0")
  | some first =>
  let vr := { vr with Status := { vr.Status with
      Phase := PhaseSyncing, CurrentReplica := some 0, CurrentVolume := first.Name,
      Message := "Validation complete, starting sync" } }
  match ← Client.StatusUpdate Kind.volumeResize vr with
  | .error err => pure (Ret.ret {} (some err))
  | .ok _ => pure (Ret.ret { Requeue := true } none)

/-- The steps of `handleSyncing` that advance the cursor (lines 190-206 and
408-427): the next pair, or phase Completed after the last one. -/
def handleSyncing.advance (vr : VolumeResize) (replica : Int) (volName : String) : M Ret := do
  match getNextVolumeReplica vr replica volName with
  | none => pure (Ret.panic "index out of range [0] with length 0")
  | some (nextReplica, nextVol, done) =>
  let now ← timeNow
  let vr : VolumeResize :=
    if done then
      { vr with Status := { vr.Status with
          Phase := PhaseCompleted, CompletionTime := some now, Message := MessageMigrationCompleted,
          CurrentReplica := none, CurrentVolume := "" } }
    else
      { vr with Status := { vr.Status with
          CurrentReplica := some nextReplica, CurrentVolume := nextVol,
          Message := "Migrating replica " ++ fmtInt nextReplica ++ " volume " ++ nextVol } }
  match ← Client.StatusUpdate Kind.volumeResize vr with
  | .error err => pure (Ret.ret {} (some err))
  | .ok _ => pure (Ret.ret { Requeue := true } none)

/-- The update of the claim templates before the recreation (lines 364-375).  The
assignment of line 369 panics on a template whose request map is nil; a
`ResourceList` stands for a map that exists. -/
def handleSyncing.updateTemplates (stsSpec : StatefulSet) (volumes : List VolumeResizeTarget) : StatefulSet :=
  { stsSpec with Spec := { stsSpec.Spec with
      VolumeClaimTemplates := stsSpec.Spec.VolumeClaimTemplates.map (fun vct =>
        volumes.foldl (fun vct v =>
          if vct.Meta.Name = v.Name then
            let vct := { vct with Spec := { vct.Spec with
                Requests := vct.Spec.Requests.set ResourceStorage v.NewSize } }
            match v.StorageClass with
            | some sc => { vct with Spec := { vct.Spec with StorageClassName := some sc } }
            | none => vct
          else vct) vct) } }

/-- The end of `handleSyncing` (lines 351-428), from the status write that persists
the completed pair to the advance of the cursor. -/
def handleSyncing.recreate (vr : VolumeResize) (replica : Int) (volName : String) : M Ret := do
  match ← Client.StatusUpdate Kind.volumeResize vr with
  | .error err => pure (Ret.ret {} (some err))
  | .ok vr =>
  match ← getSTSFromBackupConfigMap vr.Meta.Namespace vr.Meta.Name with
  | .error err => setFailed vr ("failed to get STS from backup: " ++ err.msg)
  | .ok stsSpec =>
  let stsSpec := handleSyncing.updateTemplates stsSpec vr.Spec.Volumes
  match (← recreateSTS stsSpec).filter (fun err => !IsAlreadyExists err) with
  | some err => setFailed vr ("failed to recreate STS: " ++ err.msg)
  | none =>
  let vr := { vr with Meta := { vr.Meta with Annotations := vr.Meta.Annotations.erase AnnotationSTSDeleted } }
  match ← Client.Update Kind.volumeResize vr with
  | .error err => pure (Ret.ret {} (some err))
  | .ok vr =>
  let podName := getPodName vr.Spec.StatefulSetName replica
  match ← Client.Get Kind.pod vr.Meta.Namespace podName with
  | .error err =>
    if IsNotFound err then pure (Ret.ret { RequeueAfter := 5000 } none)
    else pure (Ret.ret {} (some err))
  | .ok pod =>
  if pod.Status.Phase ≠ PodRunning then pure (Ret.ret { RequeueAfter := 5000 } none)
  else handleSyncing.advance vr replica volName

/-- The middle of `handleSyncing` (lines 303-349): the replica pod is deleted, the
copy pod is created and polled, and the claim is swapped. -/
def handleSyncing.migrate (vr : VolumeResize) (vol : VolumeResizeTarget) (replica : Int)
    (volName originalPVCName tempPVCName : String) : M Ret := do
  let podName := getPodName vr.Spec.StatefulSetName replica
  let _ ← deletePod vr.Meta.Namespace vr.Spec.StatefulSetName replica
  match ← waitForPodTermination vr.Meta.Namespace podName 120000 with
  | some _ => pure (Ret.ret { RequeueAfter := 5000 } none)
  | none =>
  match ← createMigratorPod vr vol replica originalPVCName tempPVCName with
  | .error err => setFailed vr ("failed to create migrator pod: " ++ err.msg)
  | .ok migratorPod =>
  let stop : Option Ret ←
    (do
      match ← waitForMigrationComplete migratorPod.Meta.Name vr.Meta.Namespace 3600000 with
      | none => pure none
      | some _ =>
        match ← Client.Get Kind.pod vr.Meta.Namespace migratorPod.Meta.Name with
        | .error _ => pure none
        | .ok pod =>
          if pod.Status.Phase = PodRunning ∨ pod.Status.Phase = PodPending then
            pure (some (Ret.ret { RequeueAfter := 10000 } none))
          else if pod.Status.Phase = PodFailed then
            (do let r ← setFailed vr "migration pod failed"; pure (some r))
          else pure none)
  match stop with
  | some r => pure r
  | none =>
  let _ ← cleanupMigratorPod migratorPod.Meta.Name vr.Meta.Namespace
  let vr := updateVolumeStatus vr volName replica VolumeStatusSynced "Migration complete"
  match ← replacePVC vr vol replica with
  | some err => setFailed vr ("failed to replace PVC: " ++ err.msg)
  | none =>
  let vr := updateVolumeStatus vr volName replica VolumeStatusCompleted "PVC replaced"
  handleSyncing.recreate vr replica volName

/-- The part of `handleSyncing` that deletes the parent workload (lines 266-301),
when the annotation does not say it is deleted; the result is the request in
memory, or the return of the handler. -/
def handleSyncing.deleteSTS (vr : VolumeResize) : M (Except Ret VolumeResize) := do
  if vr.Meta.Annotations.get? AnnotationSTSDeleted ≠ some "true" then
    match ← Client.Get Kind.statefulSet vr.Meta.Namespace vr.Spec.StatefulSetName with
    | .error err =>
      if !IsNotFound err then pure (.error (Ret.ret {} (some err)))
      else pure (.ok vr)
    | .ok sts =>
    match ← backupSTSToConfigMap vr sts with
    | some err => do
      let r ← setFailed vr ("failed to backup STS to ConfigMap: " ++ err.msg)
      pure (.error r)
    | none =>
    match ← deleteSTSOrphan sts with
    | .error err => do
      let r ← setFailed vr ("failed to delete STS: " ++ err.msg)
      pure (.error r)
    | .ok _ =>
    let annotations := (vr.Meta.Annotations.set AnnotationSTSDeleted "true").set AnnotationSTSBackup (getSTSBackupConfigMapName vr.Meta.Name)
    let vr := { vr with Meta := { vr.Meta with Annotations := annotations } }
    match ← Client.Update Kind.volumeResize vr with
    | .error err => pure (.error (Ret.ret {} (some err)))
    | .ok vr =>
    let vr := { vr with Status := { vr.Status with
        BackupConfigMapName := getSTSBackupConfigMapName vr.Meta.Name } }
    match ← Client.StatusUpdate Kind.volumeResize vr with
    | .error err => pure (.error (Ret.ret {} (some err)))
    | .ok vr => pure (.ok vr)
  else pure (.ok vr)

def handleSyncing (vr : VolumeResize) : M Ret := do
  match vr.Status.CurrentReplica with
  | none => pure (Ret.panic "nil pointer dereference")
  | some replica =>
  let volName := vr.Status.CurrentVolume
  if vr.Status.VolumeStatuses.any (fun vs =>
      vs.VolumeName == volName && vs.Replica == replica && vs.Phase == VolumeStatusCompleted) then
    handleSyncing.advance vr replica volName
  else
  let vol : VolumeResizeTarget := (vr.Spec.Volumes.find? (fun v => v.Name == volName)).getD {}
  let originalPVCName := getOriginalPVCName volName vr.Spec.StatefulSetName replica
  match ← getPVC vr.Meta.Namespace originalPVCName with
  | .error err => setFailed vr ("failed to get original PVC: " ++ err.msg)
  | .ok originalPVC =>
  let tempPVCName := getTempPVCName volName vr.Spec.StatefulSetName replica
  match ← createTempPVC vr vol originalPVC replica with
  | .error err => setFailed vr ("failed to create temp PVC: " ++ err.msg)
  | .ok tempPVC =>
  let waitForBinding : Bool ←
    (match tempPVC.Spec.StorageClassName with
     | none => pure true
     | some scName =>
       if scName = "" then pure true
       else do
         match ← Client.Get Kind.storageClass "" scName with
         | .error _ => pure true
         | .ok sc => pure (!(sc.VolumeBindingMode == some VolumeBindingWaitForFirstConsumer)))
  if waitForBinding ∧ tempPVC.Status.Phase ≠ ClaimBound then
    pure (Ret.ret { RequeueAfter := 5000 } none)
  else
  let oldPVName := originalPVC.Spec.VolumeName
  match ← setRetainOnPV oldPVName with
  | some err => setFailed vr ("failed to set retain on PV: " ++ err.msg)
  | none =>
  let vr := updateVolumeStatus vr volName replica VolumeStatusSyncing "Preparing migration"
  let vr := { vr with Status := { vr.Status with
      VolumeStatuses := updateVolumeStatusInList vr.Status.VolumeStatuses volName replica (fun vs =>
        { vs with OldPVCName := originalPVCName, NewPVCName := tempPVCName, OldPVName := oldPVName }) } }
  match ← handleSyncing.deleteSTS vr with
  | .error r => pure r
  | .ok vr => handleSyncing.migrate vr vol replica volName originalPVCName tempPVCName

def handleReplacing (vr : VolumeResize) : M Ret := do
  let now ← timeNow
  let vr := { vr with Status := { vr.Status with
      Phase := PhaseCompleted, CompletionTime := some now, Message := MessageMigrationCompleted } }
  match ← Client.StatusUpdate Kind.volumeResize vr with
  | .error err => pure (Ret.ret {} (some err))
  | .ok _ => pure (Ret.ret {} none)

/-- The loops of `handleDeletion` over a list: a delete for each item, its error
only logged. -/
def handleDeletion.deleteAll (k : Kind) : List k.T → M Unit
  | [] => pure ()
  | o :: rest => do
    let _ ← Client.Delete k (k.meta o).Namespace (k.meta o).Name false
    handleDeletion.deleteAll k rest

def handleDeletion (vr : VolumeResize) : M Ret := do
  match ← Client.List Kind.pvc vr.Meta.Namespace [(LabelMigrationName, vr.Meta.Name)] with
  | .error _ => pure ()
  | .ok pvcList => handleDeletion.deleteAll Kind.pvc pvcList
  match ← Client.List Kind.pod vr.Meta.Namespace [(LabelMigrationName, vr.Meta.Name)] with
  | .error _ => pure ()
  | .ok podList => handleDeletion.deleteAll Kind.pod podList
  let vr := { vr with Meta := { vr.Meta with
      Finalizers := vr.Meta.Finalizers.filter (fun f => !(f == FinalizerName)) } }
  match ← Client.Update Kind.volumeResize vr with
  | .error err => pure (Ret.ret {} (some err))
  | .ok _ => pure (Ret.ret {} none)

def Reconcile (ns name : String) : M Ret := do
  match ← Client.Get Kind.volumeResize ns name with
  | .error err =>
    if IsNotFound err then pure (Ret.ret {} none)
    else pure (Ret.ret {} (some err))
  | .ok vr =>
  if vr.Meta.DeletionTimestamp.isSome then handleDeletion vr
  else if !(vr.Meta.Finalizers.contains FinalizerName) then do
    let vr := { vr with Meta := { vr.Meta with Finalizers := vr.Meta.Finalizers ++ [FinalizerName] } }
    match ← Client.Update Kind.volumeResize vr with
    | .error err => pure (Ret.ret {} (some err))
    | .ok _ => pure (Ret.ret { Requeue := true } none)
  else if vr.Status.Phase = "" ∨ vr.Status.Phase = PhasePending then handlePending vr
  else if vr.Status.Phase = PhaseValidating then handleValidating vr
  else if vr.Status.Phase = PhaseSyncing then handleSyncing vr
  else if vr.Status.Phase = PhaseReplacing then handleReplacing vr
  else if vr.Status.Phase = PhaseCompleted ∨ vr.Status.Phase = PhaseFailed then pure (Ret.ret {} none)
  else pure (Ret.ret {} none)

/-! ## Definitions used to state the properties -/

/-- A name that `%q` leaves as it is: every rune of it is printable
(`strconv.IsPrint`) and is neither the double quote nor the backslash. -/
def plainName (wide : Char → Bool) (s : String) : Prop :=
  ∀ c ∈ s.toList, c ≠ dquote ∧ c ≠ bslash ∧ isPrint wide c = true

/-- A name of printable ASCII characters (U+0020 to U+007E) other than the double
quote and the backslash. -/
def asciiName (s : String) : Prop :=
  ∀ c ∈ s.toList, c ≠ dquote ∧ c ≠ bslash ∧ 32 ≤ c.toNat ∧ c.toNat ≤ 126

/-- A target name with a double quote in it: a, double quote, b. -/
def quotedName : String := String.mk ['a', dquote, 'b']

/-- A parent workload with the one claim template `data`. -/
def stsData : StatefulSet :=
  { Meta := { Name := "web", Namespace := "default" }
    Spec := { Replicas := some 1, Template := { Labels := [("app", "web")] }
              VolumeClaimTemplates := [{ Meta := { Name := "data" } }] } }

/-- The pairs the cursor visits from `(replica, vol)` on, by iterating
`getNextVolumeReplica` until it reports done (at most `fuel` pairs). -/
def cursorWalk (vr : VolumeResize) : Nat → Int → String → List (Int × String)
  | 0, _, _ => []
  | fuel + 1, replica, vol =>
    (replica, vol) ::
      match getNextVolumeReplica vr replica vol with
      | some (nextReplica, nextVol, false) => cursorWalk vr fuel nextReplica nextVol
      | _ => []

/-- The pairs (replica, target) in replica-major order: for each replica index
below `replicas`, the target names in spec order. -/
def replicaMajor (replicas : Nat) (volumes : List VolumeResizeTarget) : List (Int × String) :=
  (List.range replicas).flatMap (fun r => volumes.map (fun v => ((r : Int), v.Name)))

/-- The key of an entry of `VolumeStatuses`. -/
def VolumeStatus.key (vs : VolumeStatus) : Int × String := (vs.Replica, vs.VolumeName)

/-- The pairs in replica-major order from the pair (replica `r`, target number `j`)
to the last pair of replica `R - 1`. -/
def replicaMajorFrom (R : Nat) (volumes : List VolumeResizeTarget) (r j : Nat) : List (Int × String) :=
  (volumes.drop j).map (fun v => ((r : Int), v.Name)) ++
    (List.range' (r + 1) (R - (r + 1))).flatMap (fun r' => volumes.map (fun v => ((r' : Int), v.Name)))

/-- A request for the targets `data` and `logs`, validated for two replicas. -/
def vrTwoByTwo : VolumeResize :=
  { Meta := { Name := "resize", Namespace := "default", Finalizers := [FinalizerName] }
    Spec := { StatefulSetName := "web"
              Volumes := [{ Name := "data", NewSize := { nano := 500, text := "500n" } },
                          { Name := "logs", NewSize := { nano := 250, text := "250n" } }] }
    Status := { Phase := PhaseSyncing, CurrentReplica := some 0, CurrentVolume := "data"
                VolumeStatuses := handleValidating.initStatuses 2
                  [{ Name := "data", NewSize := { nano := 500, text := "500n" } },
                   { Name := "logs", NewSize := { nano := 250, text := "250n" } }] } }

/-- A target of negative size: `newSize: "-1"`. -/
def negativeTarget : VolumeResizeTarget :=
  { Name := "data", NewSize := { nano := -1000000000, text := "-1" } }

/-- A cluster whose replica-0 claim `data-web-0` carries no storage request. -/
def worldNoRequest : World :=
  { statefulSets := [stsData]
    pvcs := [{ Meta := { Name := "data-web-0", Namespace := "default" }
               Spec := { AccessModes := ["ReadWriteOnce"], VolumeName := "pv-old-0", Requests := [] }
               Status := { Phase := ClaimBound } }] }

/-- Whether a requirement of `MatchExpressions` holds of a label set, as the
platform defines the operators `In`, `NotIn`, `Exists` and `DoesNotExist`. -/
def LabelSelectorRequirement.Matches (req : LabelSelectorRequirement) (labels : StrMap) : Bool :=
  if req.Operator = "In" then
    match labels.get? req.Key with
    | some v => req.Values.contains v
    | none => false
  else if req.Operator = "NotIn" then
    match labels.get? req.Key with
    | some v => !(req.Values.contains v)
    | none => true
  else if req.Operator = "Exists" then (labels.get? req.Key).isSome
  else if req.Operator = "DoesNotExist" then (labels.get? req.Key).isNone
  else false

/-- Whether a label selector matches a label set, as the platform defines it
(`metav1.LabelSelectorAsSelector`): every pair of `MatchLabels` is in the set and
every requirement of `MatchExpressions` holds. -/
def LabelSelector.Matches (sel : LabelSelector) (labels : StrMap) : Bool :=
  matchesLabels sel.MatchLabels labels && sel.MatchExpressions.all (fun req => req.Matches labels)

/-- A budget for the pods labelled `app=web` of tier `cache`, with no disruption
allowed. -/
def pdbCache : PodDisruptionBudget :=
  { Meta := { Name := "cache-pdb", Namespace := "default" }
    Spec := { Selector := some { MatchLabels := [("app", "web")],
                                 MatchExpressions := [{ Key := "tier", Operator := "In", Values := ["cache"] }] } }
    Status := { DisruptionsAllowed := 0 } }

/-- A cluster with the parent `web` (pods labelled `app=web`, no tier) and the
budget `cache-pdb`. -/
def worldCachePDB : World :=
  { statefulSets := [stsData], pdbs := [pdbCache] }

/-- Run checks in order as long as they are valid: the state and the log after the
last one, or `none` when one of them is invalid. -/
def runValid : List (M ValidationResult) → Env → St → Option (St × List Call)
  | [], _, s => some (s, [])
  | c :: cs, env, s =>
    if (c env s).val.Valid then
      (runValid cs env (c env s).st).map (fun r => (r.1, (c env s).log ++ r.2))
    else none

/-- The request as `setFailed` writes it: phase Failed and the message, the rest of
the status as it was. -/
def failedRequest (vr : VolumeResize) (message : String) : VolumeResize :=
  { vr with Status := { vr.Status with Phase := PhaseFailed, Message := message } }

/-- The entry of `VolumeStatuses` that validation writes for a pair. -/
def pendingStatus (replica : Nat) (vol : VolumeResizeTarget) : VolumeStatus :=
  { VolumeName := vol.Name, Replica := (replica : Int), Phase := VolumeStatusPending,
    OldPVCName := "", NewPVCName := "", OldPVName := "", Message := "" }

/-- The quantity `1Gi`. -/
def oneGi : Quantity := { nano := 1073741824000000000, text := "1Gi" }

/-- The quantity `500Mi`. -/
def fiveHundredMi : Quantity := { nano := 524288000000000000, text := "500Mi" }

/-- The parent workload `web`: two replicas, pods labelled `app=web`, one claim
template `data` of 1Gi. -/
def stsWeb : StatefulSet :=
  { Meta := { Name := "web", Namespace := "default", UID := "sts-uid", ResourceVersion := "7" }
    Spec := { Replicas := some 2, ServiceName := "web", Template := { Labels := [("app", "web")] }
              VolumeClaimTemplates :=
                [{ Meta := { Name := "data" }
                   Spec := { AccessModes := ["ReadWriteOnce"], StorageClassName := some "standard",
                             Requests := [(ResourceStorage, oneGi)] } }] } }

/-- The request `resize` (target `data` to 500Mi) in phase Validating, as
`handlePending` leaves it. -/
def vrWeb : VolumeResize :=
  { Meta := { Name := "resize", Namespace := "default", Finalizers := [FinalizerName] }
    Spec := { StatefulSetName := "web", Volumes := [{ Name := "data", NewSize := fiveHundredMi }] }
    Status := { Phase := PhaseValidating, VolumeStatuses := [], Message := "Starting validation",
                StartTime := some 0 } }

/-- The original claim of a replica of `web`, bound to its volume. -/
def pvcWeb (replica : Nat) : PersistentVolumeClaim :=
  { Meta := { Name := "data-web-" ++ toString replica, Namespace := "default", Labels := [("app", "web")] }
    Spec := { AccessModes := ["ReadWriteOnce"], StorageClassName := some "standard",
              VolumeName := "pv-old-" ++ toString replica, Requests := [(ResourceStorage, oneGi)] }
    Status := { Phase := ClaimBound } }

/-- A cluster with the parent `web`, its two claims and the request `resize`. -/
def worldWeb : World :=
  { volumeResizes := [vrWeb]
    statefulSets := [stsWeb]
    pvcs := [pvcWeb 0, pvcWeb 1]
    pvs := [{ Meta := { Name := "pv-old-0" }, Spec := { PersistentVolumeReclaimPolicy := PersistentVolumeReclaimDelete } },
            { Meta := { Name := "pv-old-1" }, Spec := { PersistentVolumeReclaimPolicy := PersistentVolumeReclaimDelete } }]
    storageClasses := [{ Meta := { Name := "standard" } }] }

/-- The cluster `worldWeb` without the parent workload. -/
def worldNoParent : World := { worldWeb with statefulSets := [] }

/-- Whether a request is a delete of an object of the given kind. -/
def Op.isDelete (k : Kind) : Op → Bool
  | .delete k2 _ _ _ => k2 == k
  | _ => false

/-- The volume as `replacePVC` and `setRetainOnPV` send it: reclaim policy Retain,
the rest as fetched. -/
def retained (pv : PersistentVolume) : PersistentVolume :=
  { pv with Spec := { pv.Spec with PersistentVolumeReclaimPolicy := PersistentVolumeReclaimRetain } }

/-- A request in words: the verb, the resource and the key of the object. -/
def Op.summary : Op → String
  | .get k ns name => "get " ++ k.resource ++ " " ++ ns ++ "/" ++ name
  | .list k ns _ => "list " ++ k.resource ++ " " ++ ns
  | .create k obj => "create " ++ k.resource ++ " " ++ (k.meta obj).Namespace ++ "/" ++ (k.meta obj).Name
  | .update k obj => "update " ++ k.resource ++ " " ++ (k.meta obj).Namespace ++ "/" ++ (k.meta obj).Name
  | .statusUpdate k obj =>
    "update status " ++ k.resource ++ " " ++ (k.meta obj).Namespace ++ "/" ++ (k.meta obj).Name
  | .delete k ns name _ => "delete " ++ k.resource ++ " " ++ ns ++ "/" ++ name

/-- A logged request in words, with its outcome. -/
def Call.summary (c : Call) : String :=
  c.op.summary ++ (match c.err with
    | none => ": ok"
    | some e => ": " ++ e.msg)

/-- The request `resize` in phase Syncing with the cursor on (0, data), as
validation leaves it for the two replicas of `web`. -/
def vrSync : VolumeResize :=
  { Meta := { Name := "resize", Namespace := "default", Finalizers := [FinalizerName] }
    Spec := { StatefulSetName := "web", Volumes := [{ Name := "data", NewSize := fiveHundredMi }] }
    Status := { Phase := PhaseSyncing, CurrentReplica := some 0, CurrentVolume := "data"
                VolumeStatuses := handleValidating.initStatuses 2 [{ Name := "data", NewSize := fiveHundredMi }]
                Message := "Validation complete, starting sync", StartTime := some 0 } }

/-- A running pod of the parent `web`. -/
def podWeb (replica : Nat) : Pod :=
  { Meta := { Name := "web-" ++ toString replica, Namespace := "default", Labels := [("app", "web")] }
    Status := { Phase := PodRunning } }

/-- The transient claim of replica 0, bound to the new volume `pv-new-0`. -/
def pvcTemp : PersistentVolumeClaim :=
  { Meta := { Name := "data-web-0-new", Namespace := "default"
              Labels := [(LabelMigrationName, "resize"), (LabelReplica, "0"), (LabelVolumeName, "data")] }
    Spec := { AccessModes := ["ReadWriteOnce"], StorageClassName := some "standard",
              VolumeName := "pv-new-0", Requests := [(ResourceStorage, fiveHundredMi)] }
    Status := { Phase := ClaimBound } }

/-- A cluster in the middle of the migration of replica 0: the transient claim
exists and is bound, the parent and its pods are running, no copy pod exists yet. -/
def worldSync : World :=
  { volumeResizes := [vrSync]
    statefulSets := [stsWeb]
    pods := [podWeb 0, podWeb 1]
    pvcs := [pvcWeb 0, pvcWeb 1, pvcTemp]
    pvs := [{ Meta := { Name := "pv-old-0" }, Spec := { PersistentVolumeReclaimPolicy := PersistentVolumeReclaimDelete } },
            { Meta := { Name := "pv-old-1" }, Spec := { PersistentVolumeReclaimPolicy := PersistentVolumeReclaimDelete } },
            { Meta := { Name := "pv-new-0" }
              Spec := { PersistentVolumeReclaimPolicy := PersistentVolumeReclaimDelete
                        ClaimRef := some { Namespace := "default", Name := "data-web-0-new" } } }]
    storageClasses := [{ Meta := { Name := "standard" } }] }

/-- A run in which the API server answers every request; the backup of the parent
`web` decodes to `web`. -/
def envQuiet : Env :=
  { jsonMarshal := fun _ => .ok "web.json", jsonUnmarshal := fun _ => .ok stsWeb }

/-- A run in which the two reads of the copy pod (requests number 16 and 17 of the
reconciliation) fail with a server timeout, and every other request is answered. -/
def envPodUnreadable : Env :=
  { fault := fun n =>
      if n = 16 ∨ n = 17 then some { reason := Reason.other, msg := "etcdserver: request timed out" }
      else none
    jsonMarshal := fun _ => .ok "web.json"
    jsonUnmarshal := fun _ => .ok stsWeb }

/-- Whether a request is a create of an object of the given kind. -/
def Op.isCreate (k : Kind) : Op → Bool
  | .create k2 _ => k2 == k
  | _ => false

/-- The names of the persistent volumes of the cluster. -/
def pvNames (w : World) : List String := w.pvs.map (fun pv => pv.Meta.Name)

/-- The rest of the cluster leaves the persistent volumes as they are. -/
def DriftKeepsPVs (env : Env) : Prop := ∀ n w, (env.drift n w).pvs = w.pvs

/-- A computation that issues neither a delete nor a create of a persistent volume
and, when nothing else touches the volumes, leaves the same volumes in the
cluster. -/
structure PVSafe {α : Type} (m : M α) : Prop where
  run : ∀ env s,
    (∀ c ∈ (m env s).log, Op.isDelete Kind.pv c.op = false ∧ Op.isCreate Kind.pv c.op = false) ∧
    (DriftKeepsPVs env → pvNames (m env s).st.world = pvNames s.world)

/-- The same for a computation that runs in a state where `pv` is the volume of
name `n`, as a get just returned it. -/
structure PVSafeGiven {α : Type} (n : String) (pv : PersistentVolume) (m : M α) : Prop where
  run : ∀ env s,
    (∀ c ∈ (m env s).log, Op.isDelete Kind.pv c.op = false ∧ Op.isCreate Kind.pv c.op = false) ∧
    (DriftKeepsPVs env → s.world.pvs.find? (Kind.hasKey Kind.pv "" n) = some pv →
      pvNames (m env s).st.world = pvNames s.world)

/-- A run in which the API server answers every request and nothing else writes to
the cluster. -/
def Env.Calm (env : Env) : Prop := (∀ n, env.fault n = none) ∧ ∀ n w, env.drift n w = w

/-- The claim `createTempPVC` builds and sends when no claim of the transient name
is found. -/
def tempClaim (vr : VolumeResize) (vol : VolumeResizeTarget) (originalPVC : PersistentVolumeClaim)
    (replica : Int) : PersistentVolumeClaim :=
  { Meta :=
      { Name := getTempPVCName vol.Name vr.Spec.StatefulSetName replica
        Namespace := vr.Meta.Namespace
        Labels := [(LabelMigrationName, vr.Meta.Name), (LabelReplica, fmtInt replica),
                   (LabelVolumeName, vol.Name)]
        Annotations := [(AnnotationManagedBy, "volume-resize-operator")] }
    Spec :=
      { AccessModes := originalPVC.Spec.AccessModes
        StorageClassName := (match vol.StorageClass with
          | some sc => some sc
          | none => originalPVC.Spec.StorageClassName)
        Requests := [(ResourceStorage, vol.NewSize)] } }

/-- A claim of the transient name of replica 0 left in the cluster by somebody else:
no storage request, no labels. -/
def pvcStale : PersistentVolumeClaim :=
  { Meta := { Name := "data-web-0-new", Namespace := "default" }
    Spec := { AccessModes := ["ReadWriteMany"], StorageClassName := some "slow" } }

/-- The cluster `worldWeb` with the claim `pvcStale` in it. -/
def worldStale : World := { worldWeb with pvcs := [pvcWeb 0, pvcWeb 1, pvcStale] }

/-- The claim `replacePVC` creates at the end of the swap, from the transient and
the original claim it read at the start. -/
def swappedClaim (vr : VolumeResize) (vol : VolumeResizeTarget) (replica : Int)
    (tempPVC originalPVC : PersistentVolumeClaim) : PersistentVolumeClaim :=
  { Meta := { Name := getOriginalPVCName vol.Name vr.Spec.StatefulSetName replica
              Namespace := vr.Meta.Namespace, Labels := originalPVC.Meta.Labels }
    Spec :=
      { AccessModes := tempPVC.Spec.AccessModes
        StorageClassName := tempPVC.Spec.StorageClassName
        VolumeName := tempPVC.Spec.VolumeName
        Requests := [(ResourceStorage, vol.NewSize)] } }

/-- An outcome which, when it carries no error, has `c` as its last request. -/
def EndsAt (c : Call) (o : Out (Option Err)) : Prop :=
  o.val = none → o.log.getLast? = some c

/-- A computation which, whenever it returns no error, has `c` as its last request. -/
structure EndsWith (c : Call) (m : M (Option Err)) : Prop where
  run : ∀ env s, EndsAt c (m env s)

/-- The transient claim of replica 0 with the finalizer the platform puts on every
claim, which keeps a deleted claim present until the platform removes it. -/
def pvcTempProtected : PersistentVolumeClaim :=
  { pvcTemp with Meta := { pvcTemp.Meta with Finalizers := ["kubernetes.io/pvc-protection"] } }

/-- The cluster `worldSync` with the protected transient claim. -/
def worldProtected : World := { worldSync with pvcs := [pvcWeb 0, pvcWeb 1, pvcTempProtected] }

/-- The workload `recreateSTS` sends: name, namespace, labels, annotations and spec
of the stored one, the fields set by the server cleared. -/
def recreatedSTS (stsSpec : StatefulSet) : StatefulSet :=
  { Meta := { Name := stsSpec.Meta.Name, Namespace := stsSpec.Meta.Namespace
              Labels := stsSpec.Meta.Labels, Annotations := stsSpec.Meta.Annotations }
    Spec := stsSpec.Spec }

/-- The backup object `backupSTSToConfigMap` creates for the encoded workload `j`. -/
def backupConfigMap (vr : VolumeResize) (j : String) : ConfigMap :=
  { Meta := { Name := getSTSBackupConfigMapName vr.Meta.Name, Namespace := vr.Meta.Namespace
              Labels := [(LabelMigrationName, vr.Meta.Name)]
              Annotations := [(AnnotationManagedBy, "volume-resize-operator")] }
    Data := [(ConfigMapKeySTSSpec, j)] }

/-- The request `resize` as a reconciliation that stopped between the swap and the
recreation leaves it: phase Syncing, the cursor on (0, data), the annotation
`sts-deleted` still "true", and the given entries of `VolumeStatuses`. -/
def vrCrashed (statuses : List VolumeStatus) : VolumeResize :=
  { Meta := { Name := "resize", Namespace := "default", Finalizers := [FinalizerName]
              Annotations := [(AnnotationSTSDeleted, "true"),
                              (AnnotationSTSBackup, getSTSBackupConfigMapName "resize")] }
    Spec := { StatefulSetName := "web", Volumes := [{ Name := "data", NewSize := fiveHundredMi }] }
    Status := { Phase := PhaseSyncing, CurrentReplica := some 0, CurrentVolume := "data"
                VolumeStatuses := statuses, BackupConfigMapName := getSTSBackupConfigMapName "resize"
                Message := "Validation complete, starting sync", StartTime := some 0 } }

/-- The entry of the pair (replica, data) in the given phase. -/
def statusOf (replica : Int) (phase : String) : VolumeStatus :=
  { VolumeName := "data", Replica := replica, Phase := phase }

/-- The cluster after the swap of the pair (0, data) and before the recreation of
the parent: the claim `data-web-0` is on the new volume, the parent `web` is
absent, its backup exists, the pod `web-0` is deleted. -/
def worldCrashed (statuses : List VolumeStatus) : World :=
  { volumeResizes := [vrCrashed statuses]
    statefulSets := []
    pods := [podWeb 1]
    pvcs := [pvcWeb 1,
             { Meta := { Name := "data-web-0", Namespace := "default", Labels := [("app", "web")] }
               Spec := { AccessModes := ["ReadWriteOnce"], StorageClassName := some "standard",
                         VolumeName := "pv-new-0", Requests := [(ResourceStorage, fiveHundredMi)] } }]
    pvs := [{ Meta := { Name := "pv-old-0" }, Spec := { PersistentVolumeReclaimPolicy := PersistentVolumeReclaimRetain } },
            { Meta := { Name := "pv-old-1" }, Spec := { PersistentVolumeReclaimPolicy := PersistentVolumeReclaimDelete } },
            { Meta := { Name := "pv-new-0" }, Spec := { PersistentVolumeReclaimPolicy := PersistentVolumeReclaimRetain } }]
    configMaps := [{ Meta := { Name := getSTSBackupConfigMapName "resize", Namespace := "default" }
                     Data := [(ConfigMapKeySTSSpec, "web.json")] }]
    storageClasses := [{ Meta := { Name := "standard" } }] }

/-- The copy pod of the pair (0, data), finished. -/
def podCopyDone : Pod :=
  { Meta := { Name := getMigratorPodName "resize" "data" 0, Namespace := "default"
              Labels := [(LabelMigrationName, "resize")] }
    Status := { Phase := PodSucceeded } }

/-- The cluster `worldSync` once the copy pod of the pair (0, data) has finished. -/
def worldCopied : World := { worldSync with pods := [podWeb 0, podWeb 1, podCopyDone] }

/-- The verb of a request. -/
inductive Verb
  | get
  | list
  | create
  | update
  | statusUpdate
  | delete
  deriving DecidableEq, Repr, Inhabited

/-- The verb and the kind of a request. -/
def Op.tag : Op → Verb × Kind
  | .get k _ _ => (Verb.get, k)
  | .list k _ _ => (Verb.list, k)
  | .create k _ => (Verb.create, k)
  | .update k _ => (Verb.update, k)
  | .statusUpdate k _ => (Verb.statusUpdate, k)
  | .delete k _ _ _ => (Verb.delete, k)

/-- A computation all of whose requests have their verb and kind in `tags`. -/
structure Footprint (tags : List (Verb × Kind)) {α : Type} (m : M α) : Prop where
  run : ∀ env s, ∀ c ∈ (m env s).log, c.op.tag ∈ tags

/-- The first entry of the pair in the list, when the list has one, is Completed. -/
def pairCompleted (statuses : List VolumeStatus) (volName : String) (replica : Int) : Prop :=
  ∀ vs, statuses.find? (fun vs => decide (vs.VolumeName = volName ∧ vs.Replica = replica)) = some vs →
    vs.Phase = VolumeStatusCompleted

/-- The requests `handleSyncing` can make before the status write that persists the
completed pair: all of its requests but the create of the parent workload. -/
def beforeRecreate : List (Verb × Kind) :=
  [(Verb.delete, Kind.pod), (Verb.get, Kind.pod), (Verb.create, Kind.pod),
   (Verb.statusUpdate, Kind.volumeResize), (Verb.get, Kind.pvc), (Verb.get, Kind.pv),
   (Verb.update, Kind.pv), (Verb.delete, Kind.pvc), (Verb.create, Kind.pvc),
   (Verb.get, Kind.configMap), (Verb.update, Kind.volumeResize), (Verb.get, Kind.storageClass),
   (Verb.get, Kind.statefulSet), (Verb.create, Kind.configMap), (Verb.delete, Kind.statefulSet)]

/-- A computation that creates no parent workload, or whose run ends with a run of
the end of `handleSyncing` on a request in which the pair was just marked
Completed, with no create of a parent workload before it. -/
structure RecreateLast (replica : Int) (volName : String) (m : M Ret) : Prop where
  run : ∀ env s,
    (∀ c ∈ (m env s).log, Op.isCreate Kind.statefulSet c.op = false) ∨
    ∃ (pre : List Call) (vr0 : VolumeResize) (s0 : St),
      (m env s).log = pre ++ (handleSyncing.recreate
        (updateVolumeStatus vr0 volName replica VolumeStatusCompleted "PVC replaced")
        replica volName env s0).log ∧
      (m env s).val = (handleSyncing.recreate
        (updateVolumeStatus vr0 volName replica VolumeStatusCompleted "PVC replaced")
        replica volName env s0).val ∧
      ∀ c ∈ pre, Op.isCreate Kind.statefulSet c.op = false

/-- The parent `web` scaled down to zero replicas. -/
def stsIdle : StatefulSet := { stsWeb with Spec := { stsWeb.Spec with Replicas := some 0 } }

/-- The request `resize` as validation leaves it for the parent `stsIdle`: phase
Syncing, the cursor on (0, data), and no entry in `VolumeStatuses`. -/
def vrIdle : VolumeResize := { vrSync with Status := { vrSync.Status with VolumeStatuses := [] } }

/-- A cluster with the idle parent and the request `resize` in phase Validating. -/
def worldIdleValidating : World :=
  { volumeResizes := [vrWeb], statefulSets := [stsIdle], pvcs := [pvcWeb 0]
    pvs := [{ Meta := { Name := "pv-old-0" }, Spec := { PersistentVolumeReclaimPolicy := PersistentVolumeReclaimDelete } }]
    storageClasses := [{ Meta := { Name := "standard" } }] }

/-- A cluster in the middle of the migration of the pair (0, data) of the idle
parent: the transient claim is bound and the copy pod has finished. -/
def worldIdle : World :=
  { worldSync with volumeResizes := [vrIdle], statefulSets := [stsIdle], pods := [podCopyDone] }

/-- A run in which every request is answered; the backup decodes to `stsIdle`. -/
def envIdle : Env :=
  { jsonMarshal := fun _ => .ok "web.json", jsonUnmarshal := fun _ => .ok stsIdle }

/-- The entries of `VolumeStatuses` a status write of a request carries. -/
def Call.writtenStatuses (c : Call) : Option (List (Int × String × String)) :=
  match c.op with
  | .statusUpdate .volumeResize w =>
    some (w.Status.VolumeStatuses.map (fun vs => (vs.Replica, vs.VolumeName, vs.Phase)))
  | _ => none

/-- Every entry of the log that satisfies `Q` has an entry that satisfies `P`
before it. -/
def Precedes (P Q : Call → Prop) (l : List Call) : Prop :=
  ∀ (i : Nat) (c : Call), l[i]? = some c → Q c → ∃ (j : Nat) (b : Call), j < i ∧ l[j]? = some b ∧ P b

/-- A computation in whose log every `Q` request comes after a `P` request. -/
structure Guarded (P Q : Call → Prop) {α : Type} (m : M α) : Prop where
  run : ∀ env s, Precedes P Q (m env s).log

/-- A request that shows the backup object of the request `name` of namespace `ns`
in the cluster: a read that found it or a create of it that succeeded. -/
def BackupOK (ns name : String) (c : Call) : Prop :=
  c.err = none ∧
    (c.op = Op.get Kind.configMap ns (getSTSBackupConfigMapName name) ∨
     ∃ cm : ConfigMap, c.op = Op.create Kind.configMap cm ∧ cm.Meta.Namespace = ns ∧
       cm.Meta.Name = getSTSBackupConfigMapName name)

/-- A delete of a parent workload. -/
def DeletesParent (c : Call) : Prop := Op.isDelete Kind.statefulSet c.op = true

/-- An update of a request that carries the annotation `sts-deleted` with the
value "true". -/
def StampsDeleted (c : Call) : Prop :=
  ∃ w : VolumeResize, c.op = Op.update Kind.volumeResize w ∧
    w.Meta.Annotations.get? AnnotationSTSDeleted = some "true"

/-- Nothing else writes to the cluster during the run. -/
def NoDrift (env : Env) : Prop := ∀ n w, env.drift n w = w

/-- The backup object of the request `name` of namespace `ns` is in the cluster. -/
def backupPresent (w : World) (ns name : String) : Prop :=
  w.configMaps.any (Kind.hasKey Kind.configMap ns (getSTSBackupConfigMapName name)) = true

/-- The metadata carry the annotation `sts-deleted` with the value "true". -/
def Stamped (m : ObjectMeta) : Prop := m.Annotations.get? AnnotationSTSDeleted = some "true"

/-- A request with these metadata has its backup object in the cluster when it is
stamped. -/
def MetaGood (w : World) (m : ObjectMeta) : Prop := Stamped m → backupPresent w m.Namespace m.Name

/-- Every request of the cluster that carries the annotation `sts-deleted` = "true"
has its backup object in the cluster. -/
def BackupInv (w : World) : Prop := ∀ vr ∈ w.volumeResizes, MetaGood w vr.Meta

/-- The backup objects of the first cluster are in the second. -/
def Grows (w w2 : World) : Prop := ∀ ns name, backupPresent w ns name → backupPresent w2 ns name

/-- A step of the cluster that keeps the backup objects and the metadata of the
requests. -/
def QuietStep (w w2 : World) : Prop :=
  Grows w w2 ∧ ∀ vr2 ∈ w2.volumeResizes, ∃ vr ∈ w.volumeResizes, vr2.Meta = vr.Meta

/-- A computation that, when nothing else writes to the cluster, keeps the backup
objects and the metadata of the requests. -/
structure Quiet {α : Type} (m : M α) : Prop where
  run : ∀ env s, NoDrift env → QuietStep s.world (m env s).st.world

/-- A computation that keeps the invariant of the backups when the in-memory
request, of metadata `x`, has its backup if it is stamped. -/
structure KeepsGiven (x : ObjectMeta) {α : Type} (m : M α) : Prop where
  run : ∀ env s, NoDrift env → BackupInv s.world → MetaGood s.world x →
    BackupInv (m env s).st.world ∧ Grows s.world (m env s).st.world

/-- A computation that keeps the invariant of the backups. -/
structure Keeps {α : Type} (m : M α) : Prop where
  run : ∀ env s, NoDrift env → BackupInv s.world →
    BackupInv (m env s).st.world ∧ Grows s.world (m env s).st.world

/-- The same with a result: when the result is a request, it has its backup if it
is stamped. -/
structure KeepsPost (x : ObjectMeta) (m : M (Except Ret VolumeResize)) : Prop where
  run : ∀ env s, NoDrift env → BackupInv s.world → MetaGood s.world x →
    BackupInv (m env s).st.world ∧ Grows s.world (m env s).st.world ∧
    ∀ vr, (m env s).val = .ok vr → MetaGood (m env s).st.world vr.Meta

/-- The same for a computation that starts when the backup object of the request
`name` of namespace `ns` is in the cluster. -/
structure KeepsPresent (ns name : String) (m : M (Except Ret VolumeResize)) : Prop where
  run : ∀ env s, NoDrift env → BackupInv s.world → backupPresent s.world ns name →
    BackupInv (m env s).st.world ∧ Grows s.world (m env s).st.world ∧
    ∀ vr, (m env s).val = .ok vr → MetaGood (m env s).st.world vr.Meta

/-- The claims referenced by the pod volumes that a container of the pod mounts at `path`. -/
def claimsMountedAt (pod : Pod) (path : String) : List String :=
  pod.Spec.Containers.flatMap (fun c =>
    (c.VolumeMounts.filter (fun m => m.MountPath == path)).flatMap (fun m =>
      (pod.Spec.Volumes.filter (fun v => v.Name == m.Name)).map (fun v => v.ClaimName)))

/-- The delete request `handleDeletion` sends for a listed object. -/
def deleteOf (k : Kind) (o : k.T) : Op := Op.delete k (k.meta o).Namespace (k.meta o).Name false

/-- The request as `handleDeletion` sends it back: without the finalizer of the engine. -/
def withoutFinalizer (vr : VolumeResize) : VolumeResize :=
  { vr with Meta := { vr.Meta with
      Finalizers := vr.Meta.Finalizers.filter (fun f => !(f == FinalizerName)) } }

/-- The items of a list answer; none when the list request failed. -/
def itemsOf {α : Type} : Except Err (List α) → List α
  | .ok l => l
  | .error _ => []

/-- The request of `worldSync` after its deletion was asked for at time 7. -/
def vrDeleting : VolumeResize :=
  { vrSync with Meta := { vrSync.Meta with DeletionTimestamp := some 7 } }

/-- The cluster `worldSync` with the request being deleted. -/
def worldDeleting : World := { worldSync with volumeResizes := [vrDeleting] }

/-- A target list that names the template `data` twice. -/
def targetsTwice : List VolumeResizeTarget :=
  [{ Name := "data", NewSize := fiveHundredMi }, { Name := "data", NewSize := fiveHundredMi }]

/-- The request `resize` for the targets `targetsTwice`, in phase Syncing with the
cursor on the pair (0, data) and the given `VolumeStatuses`. -/
def vrTwice (statuses : List VolumeStatus) : VolumeResize :=
  { vrSync with
    Spec := { vrSync.Spec with Volumes := targetsTwice }
    Status := { vrSync.Status with
      VolumeStatuses := statuses, Message := "Migrating replica 0 volume data" } }

/-- The entries validation writes for `targetsTwice` and two replicas, all Completed. -/
def statusesTwiceCompleted : List VolumeStatus :=
  (handleValidating.initStatuses 2 targetsTwice).map (fun vs => { vs with Phase := VolumeStatusCompleted })

/-- A cluster in which every pair of the request `vrTwice` is Completed. -/
def worldTwice : World := { worldSync with volumeResizes := [vrTwice statusesTwiceCompleted] }

/-- Lines 237-245 of `handleSyncing`: whether the engine waits for the transient
claim to be bound (not when its storage class binds on first consumer). -/
def handleSyncing.waitForBinding (tempPVC : PersistentVolumeClaim) : M Bool :=
  match tempPVC.Spec.StorageClassName with
  | none => pure true
  | some scName =>
    if scName = "" then pure true
    else do
      match ← Client.Get Kind.storageClass "" scName with
      | .error _ => pure true
      | .ok sc => pure (!(sc.VolumeBindingMode == some VolumeBindingWaitForFirstConsumer))

/-- Lines 258-264 of `handleSyncing`: the entry of the pair is set to Syncing and
gets the names of the claims and of the old volume. -/
def handleSyncing.prepared (vr : VolumeResize) (volName : String) (replica : Int)
    (originalPVCName tempPVCName oldPVName : String) : VolumeResize :=
  { updateVolumeStatus vr volName replica VolumeStatusSyncing "Preparing migration" with
    Status := { (updateVolumeStatus vr volName replica VolumeStatusSyncing "Preparing migration").Status with
      VolumeStatuses := updateVolumeStatusInList
        (updateVolumeStatus vr volName replica VolumeStatusSyncing "Preparing migration").Status.VolumeStatuses
        volName replica (fun vs =>
          { vs with OldPVCName := originalPVCName, NewPVCName := tempPVCName, OldPVName := oldPVName }) } }

/-- A run in which the second request (the read of the original claim, after the
read of the request) fails with a server timeout. -/
def envClaimUnreadable : Env :=
  { fault := fun n =>
      if n = 1 then some { reason := Reason.other, msg := "etcdserver: request timed out" } else none
    jsonMarshal := fun _ => .ok "web.json", jsonUnmarshal := fun _ => .ok stsWeb }

/-- Lines 368-373 of `handleSyncing`: one target applied to one claim template. -/
def handleSyncing.applyTarget (vct : PersistentVolumeClaim) (v : VolumeResizeTarget) :
    PersistentVolumeClaim :=
  if vct.Meta.Name = v.Name then
    let vct := { vct with Spec := { vct.Spec with
        Requests := vct.Spec.Requests.set ResourceStorage v.NewSize } }
    match v.StorageClass with
    | some sc => { vct with Spec := { vct.Spec with StorageClassName := some sc } }
    | none => vct
  else vct

/-- The last target of the list that has the given name. -/
def lastNamed (volumes : List VolumeResizeTarget) (name : String) : Option VolumeResizeTarget :=
  (volumes.filter (fun v => v.Name == name)).getLast?

/-- The storage class of the last target of the given name that sets one. -/
def lastOverride (volumes : List VolumeResizeTarget) (name : String) : Option String :=
  ((volumes.filter (fun v => v.Name == name && v.StorageClass.isSome)).getLast?).bind
    (fun v => v.StorageClass)

/-- The quantity `256Mi`. -/
def twoFiftySixMi : Quantity := { nano := 268435456000000000, text := "256Mi" }

/-- Two targets that both name the template `data`: the first asks for 500Mi on
the class `fast`, the second for 256Mi. -/
def targetsClash : List VolumeResizeTarget :=
  [{ Name := "data", NewSize := fiveHundredMi, StorageClass := some "fast" },
   { Name := "data", NewSize := twoFiftySixMi }]

/-- The claim template `data` of the parent `web`. -/
def templateData : PersistentVolumeClaim :=
  { Meta := { Name := "data" }
    Spec := { AccessModes := ["ReadWriteOnce"], StorageClassName := some "standard",
              Requests := [(ResourceStorage, oneGi)] } }

/-- The key of a request: its namespace and its name. -/
def VolumeResize.key (vr : VolumeResize) : String × String := (vr.Meta.Namespace, vr.Meta.Name)

/-- No two requests of the list have the same namespace and name. -/
def UniqueRequests (l : List VolumeResize) : Prop := (l.map VolumeResize.key).Nodup

/-- The progress a status records for the targets `vols`: the keys of
`VolumeStatuses` are those written at validation for some replica count `R >= 1`,
in that order, and either the phase is Completed, the cursor is cleared and every
entry is Completed, or the phase is Syncing or Failed, the cursor is on the pair
of a replica `r < R` and the target number `j`, and the `r * n + j` entries that
precede that pair in cursor order are Completed (`n` targets). -/
def Progress (vols : List VolumeResizeTarget) (st : VolumeResizeStatus) : Prop :=
  ∃ R : Nat, 1 ≤ R ∧ st.VolumeStatuses.map VolumeStatus.key = replicaMajor R vols ∧
    ((st.Phase = PhaseCompleted ∧ st.CurrentReplica = none ∧ st.CurrentVolume = "" ∧
        ∀ p ∈ st.VolumeStatuses.map (fun vs => vs.Phase), p = VolumeStatusCompleted) ∨
     ((st.Phase = PhaseSyncing ∨ st.Phase = PhaseFailed) ∧
        ∃ (r j : Nat) (v : VolumeResizeTarget), r < R ∧ vols[j]? = some v ∧
          st.CurrentReplica = some (r : Int) ∧ st.CurrentVolume = v.Name ∧
          ∀ p ∈ (st.VolumeStatuses.map (fun vs => vs.Phase)).take (r * vols.length + j),
            p = VolumeStatusCompleted))

/-- A request past validation: its target names are pairwise distinct and its
status records progress for its targets. -/
def Validated (vr : VolumeResize) : Prop :=
  (vr.Spec.Volumes.map (fun v => v.Name)).Nodup ∧ Progress vr.Spec.Volumes vr.Status

/-- The invariant of Syncing for the request of the given key: the requests of the
cluster have distinct keys and the one of that key is past validation. -/
def ProgressInvAt (key : String × String) (w : World) : Prop :=
  UniqueRequests w.volumeResizes ∧ ∀ vr ∈ w.volumeResizes, vr.key = key → Validated vr

/-- The pair has an entry in phase Completed. -/
def DonePair (replica : Int) (volName : String) (st : VolumeResizeStatus) : Prop :=
  ∃ vs ∈ st.VolumeStatuses, vs.VolumeName = volName ∧ vs.Replica = replica ∧
    vs.Phase = VolumeStatusCompleted

/-- When `a` has the key watched: `a` is past validation and is the stored request
of that key, as far as targets and status go. -/
def Stored (key : String × String) (a : VolumeResize) (l : List VolumeResize) : Prop :=
  a.key = key → Validated a ∧
    ∀ stored ∈ l, stored.key = key → stored.Spec.Volumes = a.Spec.Volumes ∧ stored.Status = a.Status

/-- When the request in memory `vr` has the key watched: it is past validation and
has the targets and the cursor of the stored request of that key. -/
def Mem (key : String × String) (vr : VolumeResize) (l : List VolumeResize) : Prop :=
  vr.key = key → Validated vr ∧
    ∀ stored ∈ l, stored.key = key → stored.Spec.Volumes = vr.Spec.Volumes ∧
      stored.Status.CurrentReplica = vr.Status.CurrentReplica ∧
      stored.Status.CurrentVolume = vr.Status.CurrentVolume

/-- A computation that leaves the requests of the cluster as they are when nothing
else writes to the cluster. -/
structure Frames {α : Type} (m : M α) : Prop where
  run : ∀ env s, NoDrift env → (m env s).st.world.volumeResizes = s.world.volumeResizes

/-- A computation that keeps the invariant of Syncing when it starts in a cluster
whose requests satisfy `P`. -/
structure KeepsProgress (key : String × String) (P : List VolumeResize → Prop) {α : Type} (m : M α) :
    Prop where
  run : ∀ env s, NoDrift env → ProgressInvAt key s.world → P s.world.volumeResizes →
    ProgressInvAt key (m env s).st.world

/-- The same with a result: the cluster it leaves and its result satisfy `Q`. -/
structure Carries (key : String × String) (P : List VolumeResize → Prop) {α : Type}
    (Q : α → List VolumeResize → Prop) (m : M α) : Prop where
  run : ∀ env s, NoDrift env → ProgressInvAt key s.world → P s.world.volumeResizes →
    ProgressInvAt key (m env s).st.world ∧ Q (m env s).val (m env s).st.world.volumeResizes

/-! ## Theorems -/

/-! ### Running computations -/

@[simp] theorem pure_val {α : Type} (a : α) (env : Env) (s : St) :
    ((pure a : M α) env s).val = a := rfl

@[simp] theorem pure_st {α : Type} (a : α) (env : Env) (s : St) :
    ((pure a : M α) env s).st = s := rfl

@[simp] theorem pure_log {α : Type} (a : α) (env : Env) (s : St) :
    ((pure a : M α) env s).log = [] := rfl

@[simp] theorem bind_val {α β : Type} (m : M α) (f : α → M β) (env : Env) (s : St) :
    ((m >>= f) env s).val = (f (m env s).val env (m env s).st).val := rfl

@[simp] theorem bind_st {α β : Type} (m : M α) (f : α → M β) (env : Env) (s : St) :
    ((m >>= f) env s).st = (f (m env s).val env (m env s).st).st := rfl

@[simp] theorem bind_log {α β : Type} (m : M α) (f : α → M β) (env : Env) (s : St) :
    ((m >>= f) env s).log = (m env s).log ++ (f (m env s).val env (m env s).st).log := rfl

@[simp] theorem getEnv_val (env : Env) (s : St) : (getEnv env s).val = env := rfl

@[simp] theorem getEnv_st (env : Env) (s : St) : (getEnv env s).st = s := rfl

@[simp] theorem getEnv_log (env : Env) (s : St) : (getEnv env s).log = [] := rfl

/-! ### Formatting -/

theorem flatMap_quoteRune_of_plain (wide : Char → Bool) (l : List Char)
    (h : ∀ c ∈ l, c ≠ dquote ∧ c ≠ bslash ∧ isPrint wide c = true) :
    l.flatMap (quoteRune wide) = l := by
  induction l with
  | nil => rfl
  | cons c t ih =>
    have hc := h c (List.mem_cons_self c t)
    have ht := ih (fun x hx => h x (List.mem_cons_of_mem c hx))
    have hq : quoteRune wide c = [c] := by
      unfold quoteRune
      obtain ⟨h1, h2, h3⟩ := hc
      simp only [h1, h2, h3, if_false, if_true]
    simp [List.flatMap_cons, hq, ht]

theorem quoteRune_not_printable (wide : Char → Bool) :
    quoteRune wide (Char.ofNat 133) = [bslash, 'u', '0', '0', '8', '5'] ∧
    quoteRune wide (Char.ofNat 160) = [bslash, 'u', '0', '0', 'a', '0'] ∧
    quoteRune wide (Char.ofNat 173) = [bslash, 'u', '0', '0', 'a', 'd'] ∧
    quoteRune wide (Char.ofNat 127) = [bslash, 'x', '7', 'f'] ∧
    quoteRune wide (Char.ofNat 233) = [Char.ofNat 233] :=
  ⟨rfl, rfl, rfl, rfl, rfl⟩

theorem quoteRune_wide :
    quoteRune (fun _ => false) (Char.ofNat 8203) = [bslash, 'u', '2', '0', '0', 'b'] ∧
    quoteRune (fun _ => true) (Char.ofNat 955) = [Char.ofNat 955] ∧
    quoteRune (fun _ => false) (Char.ofNat 917505) =
      [bslash, 'U', '0', '0', '0', 'e', '0', '0', '0', '1'] := by
  decide

theorem isPrint_of_ascii (wide : Char → Bool) (c : Char) (h1 : 32 ≤ c.toNat) (h2 : c.toNat ≤ 126) :
    isPrint wide c = true := by
  unfold isPrint
  have e1 : c.toNat ≤ 255 := by omega
  simp only [e1, h1, h2, and_self, if_true]

theorem plainName_of_asciiName (wide : Char → Bool) (s : String) (h : asciiName s) : plainName wide s :=
  fun c hc => ⟨(h c hc).1, (h c hc).2.1, isPrint_of_ascii wide c (h c hc).2.2.1 (h c hc).2.2.2⟩

theorem contains_mid (a b c : String) : Contains (a ++ b ++ c) b := by
  unfold Contains
  refine ⟨a.toList, c.toList, ?_⟩
  simp [String.toList, String.data_append]

theorem contains_trans {s t u : String} (h1 : Contains s t) (h2 : Contains t u) : Contains s u := by
  unfold Contains at *
  exact List.IsInfix.trans h2 h1

theorem goQuote_contains_plain (wide : Char → Bool) (s : String) (h : plainName wide s) :
    Contains (goQuote wide s) s := by
  unfold Contains goQuote
  rw [flatMap_quoteRune_of_plain wide s.toList h]
  exact ⟨[dquote], [dquote], by simp [String.toList]⟩

/-! ### The validator: target names -/

theorem validateVolumeTargets_loop_valid (wide : Char → Bool) (names : List String)
    (volumes : List VolumeResizeTarget) :
    (validateVolumeTargets.loop wide names volumes).Valid = true ↔ ∀ vol ∈ volumes, vol.Name ∈ names := by
  induction volumes with
  | nil => simp [validateVolumeTargets.loop]
  | cons v t ih =>
    unfold validateVolumeTargets.loop
    by_cases hv : v.Name ∈ names
    · simp [hv, ih]
    · simp [hv]

theorem validateVolumeTargets_loop_invalid (wide : Char → Bool) (names : List String)
    (volumes : List VolumeResizeTarget)
    (h : (validateVolumeTargets.loop wide names volumes).Valid = false) :
    ∃ pre vol post, volumes = pre ++ vol :: post ∧ (∀ v ∈ pre, v.Name ∈ names) ∧ vol.Name ∉ names ∧
      (validateVolumeTargets.loop wide names volumes).Message =
        "volume " ++ goQuote wide vol.Name ++ " not found in StatefulSet volumeClaimTemplates" := by
  induction volumes with
  | nil => simp [validateVolumeTargets.loop] at h
  | cons v t ih =>
    unfold validateVolumeTargets.loop at h ⊢
    by_cases hv : v.Name ∈ names
    · have hc : names.contains v.Name = true := by simpa using hv
      simp only [hc, Bool.not_true, Bool.false_eq_true, if_false] at h ⊢
      obtain ⟨pre, vol, post, e, hpre, hvol, hmsg⟩ := ih h
      refine ⟨v :: pre, vol, post, by simp [e], ?_, hvol, hmsg⟩
      intro x hx
      rcases List.mem_cons.mp hx with rfl | hx
      · exact hv
      · exact hpre x hx
    · refine ⟨[], v, t, rfl, by simp, hv, ?_⟩
      simp [hv]

theorem mem_templateNames (sts : StatefulSet) (n : String) :
    n ∈ sts.Spec.VolumeClaimTemplates.map (fun vct => vct.Meta.Name) ↔
      ∃ vct ∈ sts.Spec.VolumeClaimTemplates, vct.Meta.Name = n := by
  simp [List.mem_map]

/-- C9 (as amended): whatever runes above U+00FF the formatting library holds
printable (`wide`), `validateVolumeTargets` is valid exactly when every target
name is the name of some claim template of the parent; when it is invalid, the
message is `volume <quoted name> not found in StatefulSet volumeClaimTemplates`
for the first target, in spec order, that matches no template: it contains
"not found" and the name as quoted by `%q`, hence the name itself when every
rune of the name is printable and none is a double quote or a backslash, in
particular when the name is made of printable ASCII characters other than
these two. -/
theorem validateVolumeTargets_spec (wide : Char → Bool) (sts : StatefulSet)
    (volumes : List VolumeResizeTarget) :
    ((validateVolumeTargets wide sts volumes).Valid = true ↔
        ∀ vol ∈ volumes, ∃ vct ∈ sts.Spec.VolumeClaimTemplates, vct.Meta.Name = vol.Name) ∧
    ((validateVolumeTargets wide sts volumes).Valid = false →
        ∃ pre vol post, volumes = pre ++ vol :: post ∧
          (∀ v ∈ pre, ∃ vct ∈ sts.Spec.VolumeClaimTemplates, vct.Meta.Name = v.Name) ∧
          (¬ ∃ vct ∈ sts.Spec.VolumeClaimTemplates, vct.Meta.Name = vol.Name) ∧
          (validateVolumeTargets wide sts volumes).Message =
            "volume " ++ goQuote wide vol.Name ++ " not found in StatefulSet volumeClaimTemplates" ∧
          Contains (validateVolumeTargets wide sts volumes).Message "not found" ∧
          Contains (validateVolumeTargets wide sts volumes).Message (goQuote wide vol.Name) ∧
          (plainName wide vol.Name → Contains (validateVolumeTargets wide sts volumes).Message vol.Name) ∧
          (asciiName vol.Name → Contains (validateVolumeTargets wide sts volumes).Message vol.Name)) := by
  constructor
  · unfold validateVolumeTargets
    rw [validateVolumeTargets_loop_valid]
    constructor
    · intro h vol hvol
      exact (mem_templateNames sts vol.Name).mp (h vol hvol)
    · intro h vol hvol
      exact (mem_templateNames sts vol.Name).mpr (h vol hvol)
  · intro h
    unfold validateVolumeTargets at h ⊢
    obtain ⟨pre, vol, post, e, hpre, hvol, hmsg⟩ := validateVolumeTargets_loop_invalid _ _ _ h
    have hplain : plainName wide vol.Name →
        Contains ("volume " ++ goQuote wide vol.Name ++ " not found in StatefulSet volumeClaimTemplates")
          vol.Name :=
      fun hp => contains_trans (contains_mid _ _ _) (goQuote_contains_plain wide vol.Name hp)
    refine ⟨pre, vol, post, e, ?_, ?_, hmsg, ?_, ?_, ?_, ?_⟩
    · intro v hv
      exact (mem_templateNames sts v.Name).mp (hpre v hv)
    · intro hex
      exact hvol ((mem_templateNames sts vol.Name).mpr hex)
    · rw [hmsg]
      have h1 : Contains ("volume " ++ goQuote wide vol.Name ++ " not found in StatefulSet volumeClaimTemplates")
          " not found in StatefulSet volumeClaimTemplates" :=
        ⟨("volume " ++ goQuote wide vol.Name).toList, [], by simp [String.toList, String.data_append]⟩
      have h2 : Contains " not found in StatefulSet volumeClaimTemplates" "not found" := by decide
      exact contains_trans h1 h2
    · rw [hmsg]
      exact contains_mid _ _ _
    · intro hp
      rw [hmsg]
      exact hplain hp
    · intro hp
      rw [hmsg]
      exact hplain (plainName_of_asciiName wide vol.Name hp)

/-- C9 (as stated) fails: for the target name a, double quote, b, which matches no
template of the parent, the message is `volume "a\"b" not found ...`; it holds
the quoted form of the name and not the name, whatever the table of the
printable runes above U+00FF is (here: none of them, and all of them). -/
theorem validateVolumeTargets_message_lacks_name :
    ((validateVolumeTargets (fun _ => false) stsData [{ Name := quotedName }]).Valid = false ∧
      ¬ Contains (validateVolumeTargets (fun _ => false) stsData [{ Name := quotedName }]).Message
          quotedName) ∧
    ((validateVolumeTargets (fun _ => true) stsData [{ Name := quotedName }]).Valid = false ∧
      ¬ Contains (validateVolumeTargets (fun _ => true) stsData [{ Name := quotedName }]).Message
          quotedName) := by
  decide

/-! ### The cursor -/

theorem foldl_maxReplica_ge (l : List VolumeStatus) (init : Int) :
    init ≤ l.foldl (fun m vs => if vs.Replica > m then vs.Replica else m) init ∧
    (∀ vs ∈ l, vs.Replica ≤ l.foldl (fun m vs => if vs.Replica > m then vs.Replica else m) init) ∧
    (l.foldl (fun m vs => if vs.Replica > m then vs.Replica else m) init = init ∨
      ∃ vs ∈ l, l.foldl (fun m vs => if vs.Replica > m then vs.Replica else m) init = vs.Replica) := by
  induction l generalizing init with
  | nil => simp
  | cons a t ih =>
    simp only [List.foldl_cons]
    by_cases hgt : a.Replica > init
    · simp only [hgt, if_true]
      obtain ⟨h1, h2, h3⟩ := ih a.Replica
      refine ⟨by omega, ?_, ?_⟩
      · intro vs hvs
        rcases List.mem_cons.mp hvs with rfl | hvs
        · exact h1
        · exact h2 vs hvs
      · right
        rcases h3 with h3 | ⟨vs, hvs, h3⟩
        · exact ⟨a, List.mem_cons_self a t, h3⟩
        · exact ⟨vs, List.mem_cons_of_mem a hvs, h3⟩
    · simp only [hgt, if_false]
      obtain ⟨h1, h2, h3⟩ := ih init
      refine ⟨h1, ?_, ?_⟩
      · intro vs hvs
        rcases List.mem_cons.mp hvs with rfl | hvs
        · omega
        · exact h2 vs hvs
      · rcases h3 with h3 | ⟨vs, hvs, h3⟩
        · exact Or.inl h3
        · exact Or.inr ⟨vs, List.mem_cons_of_mem a hvs, h3⟩

theorem findIdx?_name_of_nodup (volumes : List VolumeResizeTarget)
    (hnd : (volumes.map (fun v => v.Name)).Nodup) (j : Nat) (v : VolumeResizeTarget)
    (hj : volumes[j]? = some v) :
    volumes.findIdx? (fun x => x.Name == v.Name) = some j := by
  induction volumes generalizing j with
  | nil => simp at hj
  | cons a t ih =>
    cases j with
    | zero =>
      simp at hj
      subst hj
      simp [List.findIdx?_cons]
    | succ j =>
      simp at hj
      have hnd2 := (List.nodup_cons.mp hnd)
      have hne : ¬ a.Name = v.Name := by
        intro e
        apply hnd2.1
        show a.Name ∈ List.map (fun v => v.Name) t
        rw [e]
        have : v ∈ t := List.mem_iff_getElem?.mpr ⟨j, hj⟩
        exact List.mem_map_of_mem _ this
      have := ih hnd2.2 j hj
      simp [List.findIdx?_cons, hne, this]

theorem mem_replicaMajor (R : Nat) (volumes : List VolumeResizeTarget) (p : Int × String) :
    p ∈ replicaMajor R volumes ↔ ∃ r, r < R ∧ ∃ v ∈ volumes, ((r : Int), v.Name) = p := by
  simp [replicaMajor, List.mem_flatMap, List.mem_range, List.mem_map]

theorem initStatuses_keys (R : Nat) (volumes : List VolumeResizeTarget) :
    (handleValidating.initStatuses (R : Int) volumes).map VolumeStatus.key = replicaMajor R volumes := by
  unfold handleValidating.initStatuses replicaMajor
  simp [List.map_flatMap, VolumeStatus.key, Function.comp_def]

theorem maxReplica_of_keys (statuses : List VolumeStatus) (R : Nat) (hR : 1 ≤ R)
    (volumes : List VolumeResizeTarget) (hne : volumes ≠ [])
    (hkeys : statuses.map VolumeStatus.key = replicaMajor R volumes) :
    statuses.foldl (fun m vs => if vs.Replica > m then vs.Replica else m) (0 : Int) = (R : Int) - 1 := by
  obtain ⟨h1, h2, h3⟩ := foldl_maxReplica_ge statuses 0
  have hrep : ∀ vs ∈ statuses, vs.Replica ≤ (R : Int) - 1 := by
    intro vs hvs
    have : vs.key ∈ replicaMajor R volumes := by
      rw [← hkeys]; exact List.mem_map_of_mem _ hvs
    obtain ⟨r, hr, v, _, e⟩ := (mem_replicaMajor R volumes vs.key).mp this
    have : (r : Int) = vs.Replica := congrArg Prod.fst e
    omega
  have hlow : (R : Int) - 1 ≤ statuses.foldl (fun m vs => if vs.Replica > m then vs.Replica else m) (0 : Int) := by
    obtain ⟨v, t, rfl⟩ := List.exists_cons_of_ne_nil hne
    have hm : (((R - 1 : Nat) : Int), v.Name) ∈ replicaMajor R (v :: t) :=
      (mem_replicaMajor R (v :: t) _).mpr ⟨R - 1, by omega, v, List.mem_cons_self v t, rfl⟩
    rw [← hkeys] at hm
    obtain ⟨vs, hvs, e⟩ := List.mem_map.mp hm
    have e1 : vs.Replica = ((R - 1 : Nat) : Int) := congrArg Prod.fst e
    have := h2 vs hvs
    omega
  rcases h3 with h3 | ⟨vs, hvs, h3⟩
  · omega
  · have := hrep vs hvs
    omega

theorem getNextVolumeReplica_step (vr : VolumeResize) (R : Nat) (hR : 1 ≤ R)
    (hnd : (vr.Spec.Volumes.map (fun v => v.Name)).Nodup)
    (hkeys : vr.Status.VolumeStatuses.map VolumeStatus.key = replicaMajor R vr.Spec.Volumes)
    (r : Nat) (j : Nat) (v : VolumeResizeTarget) (hj : vr.Spec.Volumes[j]? = some v) :
    getNextVolumeReplica vr (r : Int) v.Name =
      match vr.Spec.Volumes[j + 1]? with
      | some next => some ((r : Int), next.Name, false)
      | none =>
        if r + 1 < R then
          match vr.Spec.Volumes.head? with
          | some first => some (((r + 1 : Nat) : Int), first.Name, false)
          | none => none
        else some (0, "", true) := by
  have hne : vr.Spec.Volumes ≠ [] := by
    intro e; rw [e] at hj; simp at hj
  unfold getNextVolumeReplica
  simp only [findIdx?_name_of_nodup vr.Spec.Volumes hnd j v hj, Option.getD_some, List.get?_eq_getElem?]
  cases hnext : vr.Spec.Volumes[j + 1]? with
  | some next => rfl
  | none =>
    simp only [maxReplica_of_keys vr.Status.VolumeStatuses R hR vr.Spec.Volumes hne hkeys]
    by_cases hlt : r + 1 < R
    · have : (r : Int) < (R : Int) - 1 := by omega
      simp only [this, hlt, if_true]
      cases vr.Spec.Volumes.head? with
      | none => rfl
      | some first => simp
    · have : ¬ (r : Int) < (R : Int) - 1 := by omega
      simp only [this, hlt, if_false]

theorem replicaMajorFrom_zero (R : Nat) (hR : 1 ≤ R) (volumes : List VolumeResizeTarget) :
    replicaMajorFrom R volumes 0 0 = replicaMajor R volumes := by
  unfold replicaMajorFrom replicaMajor
  obtain ⟨k, rfl⟩ : ∃ k, R = k + 1 := ⟨R - 1, by omega⟩
  rw [List.range_eq_range', List.range'_succ]
  simp [List.flatMap_cons]

theorem cursorWalk_eq (vr : VolumeResize) (R : Nat) (hR : 1 ≤ R)
    (hnd : (vr.Spec.Volumes.map (fun v => v.Name)).Nodup)
    (hkeys : vr.Status.VolumeStatuses.map VolumeStatus.key = replicaMajor R vr.Spec.Volumes)
    (fuel : Nat) : ∀ (r j : Nat) (v : VolumeResizeTarget), r < R → vr.Spec.Volumes[j]? = some v →
      (replicaMajorFrom R vr.Spec.Volumes r j).length ≤ fuel →
      cursorWalk vr fuel (r : Int) v.Name = replicaMajorFrom R vr.Spec.Volumes r j := by
  induction fuel with
  | zero =>
    intro r j v _ hj hlen
    have hjlt : j < vr.Spec.Volumes.length := (List.getElem?_eq_some_iff.mp hj).1
    have hd : vr.Spec.Volumes.drop j = v :: vr.Spec.Volumes.drop (j + 1) := by
      rw [List.drop_eq_getElem_cons hjlt]
      congr 1
      exact (List.getElem?_eq_some_iff.mp hj).2
    simp [replicaMajorFrom, hd] at hlen
  | succ fuel ih =>
    intro r j v hr hj hlen
    have hjlt : j < vr.Spec.Volumes.length := (List.getElem?_eq_some_iff.mp hj).1
    have hd : vr.Spec.Volumes.drop j = v :: vr.Spec.Volumes.drop (j + 1) := by
      rw [List.drop_eq_getElem_cons hjlt]
      congr 1
      exact (List.getElem?_eq_some_iff.mp hj).2
    have hsplit : replicaMajorFrom R vr.Spec.Volumes r j =
        ((r : Int), v.Name) :: ((vr.Spec.Volumes.drop (j + 1)).map (fun v => ((r : Int), v.Name)) ++
          (List.range' (r + 1) (R - (r + 1))).flatMap
            (fun r' => vr.Spec.Volumes.map (fun v => ((r' : Int), v.Name)))) := by
      simp [replicaMajorFrom, hd]
    unfold cursorWalk
    rw [getNextVolumeReplica_step vr R hR hnd hkeys r j v hj, hsplit]
    congr 1
    cases hnext : vr.Spec.Volumes[j + 1]? with
    | some next =>
      simp only []
      have := ih r (j + 1) next hr hnext (by
        rw [hsplit] at hlen
        simp only [List.length_cons] at hlen
        unfold replicaMajorFrom
        omega)
      rw [this]
      rfl
    | none =>
      have hdrop : vr.Spec.Volumes.drop (j + 1) = [] := by
        apply List.drop_eq_nil_of_le
        exact List.getElem?_eq_none_iff.mp hnext
      by_cases hlt : r + 1 < R
      · obtain ⟨first, rest, hv⟩ : ∃ first rest, vr.Spec.Volumes = first :: rest := by
          cases hvv : vr.Spec.Volumes with
          | nil => rw [hvv] at hjlt; simp at hjlt
          | cons a t => exact ⟨a, t, rfl⟩
        have h0 : vr.Spec.Volumes[0]? = some first := by rw [hv]; simp
        have hrange : List.range' (r + 1) (R - (r + 1)) =
            (r + 1) :: List.range' (r + 1 + 1) (R - (r + 1 + 1)) := by
          obtain ⟨k, hk⟩ : ∃ k, R - (r + 1) = k + 1 := ⟨R - (r + 1) - 1, by omega⟩
          rw [hk, List.range'_succ]
          congr 2
          omega
        have hnextsplit : replicaMajorFrom R vr.Spec.Volumes (r + 1) 0 =
            (List.range' (r + 1) (R - (r + 1))).flatMap
              (fun r' => vr.Spec.Volumes.map (fun v => ((r' : Int), v.Name))) := by
          rw [hrange]
          simp [replicaMajorFrom, List.flatMap_cons]
        have := ih (r + 1) 0 first hlt h0 (by
          rw [hsplit] at hlen
          rw [hnextsplit]
          simp only [List.length_cons, hdrop, List.map_nil, List.nil_append] at hlen
          omega)
        have hhead : vr.Spec.Volumes.head? = some first := by rw [hv]; rfl
        simp only [hlt, if_true, hhead, hdrop, List.map_nil, List.nil_append]
        rw [this, hnextsplit]
      · have hz : R - (r + 1) = 0 := by omega
        simp [hlt, hdrop, hz]

theorem replicaMajor_length (R : Nat) (volumes : List VolumeResizeTarget) :
    (replicaMajor R volumes).length = R * volumes.length := by
  unfold replicaMajor
  induction R with
  | zero => simp
  | succ k ih =>
    rw [List.range_succ, List.flatMap_append, List.length_append, ih]
    simp [List.flatMap_cons, Nat.succ_mul]

theorem replicaMajor_nodup (R : Nat) (volumes : List VolumeResizeTarget)
    (hnd : (volumes.map (fun v => v.Name)).Nodup) : (replicaMajor R volumes).Nodup := by
  unfold replicaMajor
  rw [List.nodup_flatMap]
  constructor
  · intro r _
    have : (volumes.map (fun v => ((r : Int), v.Name))) =
        (volumes.map (fun v => v.Name)).map (fun n => ((r : Int), n)) := by
      simp [List.map_map, Function.comp_def]
    rw [this]
    exact List.Nodup.map (fun a b h => (Prod.mk.inj h).2) hnd
  · apply List.Pairwise.imp _ (List.nodup_range R)
    intro a b hab
    show List.Disjoint _ _
    intro p hp1 hp2
    obtain ⟨v1, _, e1⟩ := List.mem_map.mp hp1
    obtain ⟨v2, _, e2⟩ := List.mem_map.mp hp2
    have : (a : Int) = (b : Int) := by
      have := congrArg Prod.fst (e1.trans e2.symm)
      simpa using this
    exact hab (by exact_mod_cast this)

/-- C4: for a request with a non-empty list of targets of pairwise distinct names,
whose `VolumeStatuses` has the keys written at validation for `replicas >= 1`
replicas, iterating `getNextVolumeReplica` from `(0, volumes[0])` visits exactly
the pairs (r, v) with r below `replicas` and v a target, in replica-major order,
each once, and reports done exactly after the pair of the last replica and the
last target; more fuel visits nothing more. -/
theorem cursor_order (vr : VolumeResize) (replicas : Int) (hR : 1 ≤ replicas)
    (first : VolumeResizeTarget) (rest : List VolumeResizeTarget)
    (hvols : vr.Spec.Volumes = first :: rest)
    (hnd : (vr.Spec.Volumes.map (fun v => v.Name)).Nodup)
    (hkeys : vr.Status.VolumeStatuses.map VolumeStatus.key =
      (handleValidating.initStatuses replicas vr.Spec.Volumes).map VolumeStatus.key)
    (fuel : Nat) (hfuel : replicas.toNat * vr.Spec.Volumes.length ≤ fuel) :
    cursorWalk vr fuel 0 first.Name = replicaMajor replicas.toNat vr.Spec.Volumes ∧
    (replicaMajor replicas.toNat vr.Spec.Volumes).Nodup ∧
    (replicaMajor replicas.toNat vr.Spec.Volumes).length = replicas.toNat * vr.Spec.Volumes.length ∧
    (∀ (r j : Nat) (v : VolumeResizeTarget), r < replicas.toNat → vr.Spec.Volumes[j]? = some v →
      ∃ nr nv done, getNextVolumeReplica vr (r : Int) v.Name = some (nr, nv, done) ∧
        (done = true ↔ (r + 1 = replicas.toNat ∧ j + 1 = vr.Spec.Volumes.length))) := by
  have hcast : ((replicas.toNat : Nat) : Int) = replicas := Int.toNat_of_nonneg (by omega)
  have hR1 : 1 ≤ replicas.toNat := by omega
  have hk : vr.Status.VolumeStatuses.map VolumeStatus.key = replicaMajor replicas.toNat vr.Spec.Volumes := by
    rw [hkeys, ← initStatuses_keys, hcast]
  have h0 : vr.Spec.Volumes[0]? = some first := by rw [hvols]; simp
  refine ⟨?_, replicaMajor_nodup _ _ hnd, replicaMajor_length _ _, ?_⟩
  · have := cursorWalk_eq vr replicas.toNat hR1 hnd hk fuel 0 0 first (by omega) h0 (by
      rw [replicaMajorFrom_zero _ hR1, replicaMajor_length]; exact hfuel)
    rw [replicaMajorFrom_zero _ hR1] at this
    simpa using this
  · intro r j v hr hj
    have hjlt : j < vr.Spec.Volumes.length := (List.getElem?_eq_some_iff.mp hj).1
    rw [getNextVolumeReplica_step vr replicas.toNat hR1 hnd hk r j v hj]
    cases hnext : vr.Spec.Volumes[j + 1]? with
    | some next =>
      have : j + 1 < vr.Spec.Volumes.length := (List.getElem?_eq_some_iff.mp hnext).1
      exact ⟨_, _, false, rfl, by constructor <;> intro h <;> simp at h <;> omega⟩
    | none =>
      have hge : vr.Spec.Volumes.length ≤ j + 1 := List.getElem?_eq_none_iff.mp hnext
      by_cases hlt : r + 1 < replicas.toNat
      · have hhead : vr.Spec.Volumes.head? = some first := by rw [hvols]; rfl
        simp only [hlt, if_true, hhead]
        exact ⟨_, _, false, rfl, by constructor <;> intro h <;> simp at h <;> omega⟩
      · simp only [hlt, if_false]
        exact ⟨_, _, true, rfl, by constructor <;> intro _ <;> first | rfl | (constructor <;> omega)⟩

/-- C4 at the request for `data` and `logs` with two replicas: the cursor visits
(0, data), (0, logs), (1, data), (1, logs). -/
theorem cursor_order_witness :
    (1 : Int) ≤ 2 ∧
    cursorWalk vrTwoByTwo 4 0 "data" = replicaMajor (2 : Int).toNat vrTwoByTwo.Spec.Volumes ∧
    replicaMajor (2 : Int).toNat vrTwoByTwo.Spec.Volumes = [(0, "data"), (0, "logs"), (1, "data"), (1, "logs")] :=
  ⟨by decide,
   (cursor_order vrTwoByTwo 2 (by decide) { Name := "data", NewSize := { nano := 500, text := "500n" } }
      [{ Name := "logs", NewSize := { nano := 250, text := "250n" } }] rfl (by decide) rfl 4 (by decide)).1,
   by decide⟩

/-! ### The validator: sizes and budgets -/

theorem cmp_nonneg_iff (a b : Quantity) : a.Cmp b ≥ 0 ↔ b.nano ≤ a.nano := by
  unfold Quantity.Cmp
  by_cases h1 : a.nano < b.nano
  · simp only [h1, if_true]; constructor <;> intro h <;> omega
  · by_cases h2 : a.nano = b.nano
    · simp only [h1, h2, if_true, if_false]; constructor <;> intro _ <;> omega
    · simp only [h1, h2, if_false]; constructor <;> intro _ <;> omega

theorem storage_of_entry (rl : ResourceList) (q : Quantity) (h : rl.get? ResourceStorage = some q) :
    rl.Storage = some q := by
  unfold ResourceList.Storage
  rw [h]

theorem storage_isSome (rl : ResourceList) : ∃ q, rl.Storage = some q := by
  unfold ResourceList.Storage
  cases rl.get? ResourceStorage with
  | none => exact ⟨_, rfl⟩
  | some q => exact ⟨q, rfl⟩

theorem validateSizeReduction_log_eq (ns stsName : String) (vol : VolumeResizeTarget) (env : Env) (s : St) :
    (validateSizeReduction ns stsName vol env s).log =
      (getPVC ns (getOriginalPVCName vol.Name stsName 0) env s).log := by
  simp only [validateSizeReduction, bind_log]
  cases (getPVC ns (getOriginalPVCName vol.Name stsName 0) env s).val with
  | error e => simp
  | ok pvc =>
    simp only []
    cases pvc.Spec.Requests.Storage with
    | none => simp
    | some cur => simp only []; split <;> simp

/-- C7: `validateSizeReduction` makes one request, the fetch of the replica-0 claim
`<volume>-<workload>-0`, and returns valid if and only if that fetch succeeds and
`newSize` is strictly less than the claim's storage request (as
`Requests.Storage()` reads it); a `newSize` equal to or greater than it is
rejected with a message that contains "must be smaller"; and for a claim that
carries a storage request `q`, the target is accepted exactly when
`newSize < q`. -/
theorem validateSizeReduction_spec (ns stsName : String) (vol : VolumeResizeTarget) (env : Env) (s : St) :
    (validateSizeReduction ns stsName vol env s).log =
        (getPVC ns (getOriginalPVCName vol.Name stsName 0) env s).log ∧
    ((validateSizeReduction ns stsName vol env s).val.Valid = true ↔
        ∃ pvc cur, (getPVC ns (getOriginalPVCName vol.Name stsName 0) env s).val = .ok pvc ∧
          pvc.Spec.Requests.Storage = some cur ∧ vol.NewSize.nano < cur.nano) ∧
    (∀ pvc cur, (getPVC ns (getOriginalPVCName vol.Name stsName 0) env s).val = .ok pvc →
        pvc.Spec.Requests.Storage = some cur → cur.nano ≤ vol.NewSize.nano →
        (validateSizeReduction ns stsName vol env s).val.Valid = false ∧
        Contains (validateSizeReduction ns stsName vol env s).val.Message "must be smaller") ∧
    (∀ pvc q, (getPVC ns (getOriginalPVCName vol.Name stsName 0) env s).val = .ok pvc →
        pvc.Spec.Requests.get? ResourceStorage = some q →
        ((validateSizeReduction ns stsName vol env s).val.Valid = true ↔ vol.NewSize.nano < q.nano)) := by
  have key : ∀ pvc cur, (getPVC ns (getOriginalPVCName vol.Name stsName 0) env s).val = .ok pvc →
      pvc.Spec.Requests.Storage = some cur →
      (validateSizeReduction ns stsName vol env s).val =
        if vol.NewSize.Cmp cur ≥ 0 then
          { Valid := false
            Message := "newSize (" ++ vol.NewSize.String ++ ") must be smaller than current size ("
              ++ cur.String ++ ") for volume " ++ vol.Name }
        else { Valid := true } := by
    intro pvc cur hf hs
    simp only [validateSizeReduction, bind_val, hf, hs]
    split <;> rfl
  refine ⟨validateSizeReduction_log_eq ns stsName vol env s, ?_, ?_, ?_⟩
  · constructor
    · intro hv
      cases hf : (getPVC ns (getOriginalPVCName vol.Name stsName 0) env s).val with
      | error e =>
        simp [validateSizeReduction, hf] at hv
      | ok pvc =>
        obtain ⟨cur, hs⟩ := storage_isSome pvc.Spec.Requests
        refine ⟨pvc, cur, rfl, hs, ?_⟩
        rw [key pvc cur hf hs] at hv
        by_cases hc : vol.NewSize.Cmp cur ≥ 0
        · simp [hc] at hv
        · have := (cmp_nonneg_iff vol.NewSize cur).not.mp hc
          omega
    · rintro ⟨pvc, cur, hf, hs, hlt⟩
      rw [key pvc cur hf hs]
      have hc : ¬ vol.NewSize.Cmp cur ≥ 0 := by
        rw [cmp_nonneg_iff]; omega
      simp [hc]
  · intro pvc cur hf hs hle
    rw [key pvc cur hf hs]
    have hc : vol.NewSize.Cmp cur ≥ 0 := (cmp_nonneg_iff _ _).mpr hle
    simp only [hc, if_true, true_and]
    have h1 : Contains ("newSize (" ++ vol.NewSize.String ++ ") must be smaller than current size ("
        ++ cur.String ++ ") for volume " ++ vol.Name) ") must be smaller than current size (" :=
      ⟨("newSize (" ++ vol.NewSize.String).toList, (cur.String ++ ") for volume " ++ vol.Name).toList,
        by simp [String.toList, String.data_append]⟩
    exact contains_trans h1 (by decide)
  · intro pvc q hf hq
    have hs := storage_of_entry _ _ hq
    rw [key pvc q hf hs]
    by_cases hc : vol.NewSize.Cmp q ≥ 0
    · have := (cmp_nonneg_iff vol.NewSize q).mp hc
      simp only [hc, if_true]
      constructor
      · intro h; simp at h
      · intro h; omega
    · have := (cmp_nonneg_iff vol.NewSize q).not.mp hc
      simp only [hc, if_false]
      constructor
      · intro _; omega
      · intro _; trivial

/-- C8 fails on the code: `ResourceList.Storage` returns a zero quantity, never nil,
when the claim has no storage request, so the nil test of `validateSizeReduction`
never fires; a claim without storage request is compared as a request of zero, and
a target of negative size is accepted. -/
theorem validateSizeReduction_accepts_claim_without_request :
    (worldNoRequest.pvcs.map (fun pvc => (pvc.Meta.Name, pvc.Spec.Requests))) = [("data-web-0", [])] ∧
    (validateSizeReduction "default" "web" negativeTarget {} { world := worldNoRequest }).val =
      { Valid := true, Message := "" } := by
  decide

/-- C10 fails on the code: the budget `cache-pdb` selects pods labelled `app=web`
with `tier in (cache)`; the pod template of the parent has no tier label, so the
selector does not match it, yet `validatePDBAllowsDisruption` reads `MatchLabels`
only and fails the validation on that budget. -/
theorem validatePDBAllowsDisruption_rejects_on_unmatched_budget :
    (pdbCache.Spec.Selector.map (fun sel => sel.Matches stsData.Spec.Template.Labels)) = some false ∧
    (validatePDBAllowsDisruption stsData {} { world := worldCachePDB }).val =
      { Valid := false
        Message := "PodDisruptionBudget cache-pdb does not allow disruptions (disruptionsAllowed=0)" } := by
  decide

/-! ### Requests and their log -/

theorem call_log {α : Type} (op : Op) (serve : World → Nat → Except Err α × World) (env : Env) (s : St) :
    (call op serve env s).log = [{ op := op, err := errOf (call op serve env s).val }] := by
  unfold call
  split <;> rfl

theorem setFailed_def (vr : VolumeResize) (message : String) :
    setFailed vr message =
      (Client.StatusUpdate Kind.volumeResize (failedRequest vr message) >>= fun r =>
        match r with
        | .error err => pure (Ret.ret {} (some err))
        | .ok _ => pure (Ret.ret {} none)) := rfl

theorem setFailed_run (vr : VolumeResize) (message : String) (env : Env) (s : St) :
    ∃ err, (setFailed vr message env s).val = Ret.ret {} err ∧
      (setFailed vr message env s).log =
        [{ op := Op.statusUpdate Kind.volumeResize (failedRequest vr message), err := err }] := by
  refine ⟨errOf (Client.StatusUpdate Kind.volumeResize (failedRequest vr message) env s).val, ?_, ?_⟩
  · rw [setFailed_def]
    simp only [bind_val]
    cases (Client.StatusUpdate Kind.volumeResize (failedRequest vr message) env s).val <;> rfl
  · rw [setFailed_def]
    simp only [bind_log]
    have hl : (Client.StatusUpdate Kind.volumeResize (failedRequest vr message) env s).log =
        [{ op := Op.statusUpdate Kind.volumeResize (failedRequest vr message),
           err := errOf (Client.StatusUpdate Kind.volumeResize (failedRequest vr message) env s).val }] :=
      call_log _ _ env s
    rw [hl]
    cases (Client.StatusUpdate Kind.volumeResize (failedRequest vr message) env s).val <;> simp

theorem sizeLoop_valid (ns stsName : String) (env : Env) (volumes : List VolumeResizeTarget) :
    ∀ (s s1 : St) (l1 : List Call),
      runValid (volumes.map (validateSizeReduction ns stsName)) env s = some (s1, l1) →
      (handleValidating.sizeLoop ns stsName volumes env s).val.Valid = true ∧
      (handleValidating.sizeLoop ns stsName volumes env s).st = s1 ∧
      (handleValidating.sizeLoop ns stsName volumes env s).log = l1 := by
  induction volumes with
  | nil =>
    intro s s1 l1 h
    simp [runValid] at h
    simp [handleValidating.sizeLoop, h.1, h.2]
  | cons v t ih =>
    intro s s1 l1 h
    simp only [List.map_cons, runValid] at h
    by_cases hv : (validateSizeReduction ns stsName v env s).val.Valid = true
    · simp only [hv, if_true, Option.map_eq_some'] at h
      obtain ⟨⟨s2, l2⟩, hr, he⟩ := h
      obtain ⟨h1, h2, h3⟩ := ih _ _ _ hr
      simp only [Prod.mk.injEq] at he
      simp only [handleValidating.sizeLoop, bind_val, bind_st, bind_log, hv, Bool.not_true,
        Bool.false_eq_true, if_false]
      exact ⟨h1, h2.trans he.1, by rw [h3]; exact he.2⟩
    · simp [hv] at h

theorem sizeLoop_invalid (ns stsName : String) (env : Env) (pre : List VolumeResizeTarget)
    (v : VolumeResizeTarget) (post : List VolumeResizeTarget) :
    ∀ (s s1 : St) (l1 : List Call),
      runValid (pre.map (validateSizeReduction ns stsName)) env s = some (s1, l1) →
      (validateSizeReduction ns stsName v env s1).val.Valid = false →
      (handleValidating.sizeLoop ns stsName (pre ++ v :: post) env s).val =
          (validateSizeReduction ns stsName v env s1).val ∧
      (handleValidating.sizeLoop ns stsName (pre ++ v :: post) env s).st =
          (validateSizeReduction ns stsName v env s1).st ∧
      (handleValidating.sizeLoop ns stsName (pre ++ v :: post) env s).log =
          l1 ++ (validateSizeReduction ns stsName v env s1).log := by
  induction pre with
  | nil =>
    intro s s1 l1 h hv
    simp [runValid] at h
    obtain ⟨rfl, rfl⟩ := h
    simp [handleValidating.sizeLoop, hv]
  | cons a t ih =>
    intro s s1 l1 h hv
    simp only [List.map_cons, runValid] at h
    by_cases ha : (validateSizeReduction ns stsName a env s).val.Valid = true
    · simp only [ha, if_true, Option.map_eq_some'] at h
      obtain ⟨⟨s2, l2⟩, hr, he⟩ := h
      simp only [Prod.mk.injEq] at he
      obtain ⟨he1, he2⟩ := he
      subst he1
      obtain ⟨h1, h2, h3⟩ := ih _ _ _ hr hv
      simp only [List.cons_append, handleValidating.sizeLoop, bind_val, bind_st, bind_log, ha,
        Bool.not_true, Bool.false_eq_true, if_false, List.append_eq]
      refine ⟨h1, h2, ?_⟩
      rw [h3, ← he2, List.append_assoc]
    · simp [ha] at h

theorem handleValidating_fails_exists (vr : VolumeResize) (env : Env) (s : St)
    (h : (validateStatefulSetExists vr.Meta.Namespace vr.Spec.StatefulSetName env s).val.2.Valid = false) :
    ∃ err, (handleValidating vr env s).val = Ret.ret {} err ∧
      (handleValidating vr env s).log =
        (validateStatefulSetExists vr.Meta.Namespace vr.Spec.StatefulSetName env s).log ++
        [{ op := Op.statusUpdate Kind.volumeResize (failedRequest vr
              (validateStatefulSetExists vr.Meta.Namespace vr.Spec.StatefulSetName env s).val.2.Message),
           err := err }] := by
  obtain ⟨err, h1, h2⟩ := setFailed_run vr
    (validateStatefulSetExists vr.Meta.Namespace vr.Spec.StatefulSetName env s).val.2.Message env
    (validateStatefulSetExists vr.Meta.Namespace vr.Spec.StatefulSetName env s).st
  refine ⟨err, ?_, ?_⟩
  · rw [← h1]
    simp only [handleValidating, bind_val, bind_log, bind_st]
    rcases he : (validateStatefulSetExists vr.Meta.Namespace vr.Spec.StatefulSetName env s).val with ⟨sts?, result⟩
    rw [he] at h
    simp only [] at h
    simp only [h]
    rfl
  · rw [← h2]
    simp only [handleValidating, bind_val, bind_log, bind_st]
    rcases he : (validateStatefulSetExists vr.Meta.Namespace vr.Spec.StatefulSetName env s).val with ⟨sts?, result⟩
    rw [he] at h
    simp only [] at h
    simp only [h]
    rfl

theorem handleValidating_fails_names (vr : VolumeResize) (env : Env) (s : St) (sts : StatefulSet)
    (hs : (validateStatefulSetExists vr.Meta.Namespace vr.Spec.StatefulSetName env s).val.1 = some sts)
    (h : (validateStatefulSetExists vr.Meta.Namespace vr.Spec.StatefulSetName env s).val.2.Valid = true)
    (hn : (validateVolumeTargets env.isPrintWide sts vr.Spec.Volumes).Valid = false) :
    ∃ err, (handleValidating vr env s).val = Ret.ret {} err ∧
      (handleValidating vr env s).log =
        (validateStatefulSetExists vr.Meta.Namespace vr.Spec.StatefulSetName env s).log ++
        [{ op := Op.statusUpdate Kind.volumeResize (failedRequest vr
              (validateVolumeTargets env.isPrintWide sts vr.Spec.Volumes).Message),
           err := err }] := by
  obtain ⟨err, h1, h2⟩ := setFailed_run vr (validateVolumeTargets env.isPrintWide sts vr.Spec.Volumes).Message env
    (validateStatefulSetExists vr.Meta.Namespace vr.Spec.StatefulSetName env s).st
  refine ⟨err, ?_, ?_⟩
  · rw [← h1]
    simp only [handleValidating, bind_val, bind_log, bind_st]
    rcases he : (validateStatefulSetExists vr.Meta.Namespace vr.Spec.StatefulSetName env s).val with ⟨sts?, result⟩
    rw [he] at h hs
    simp only [] at h hs
    subst hs
    simp only [h, Bool.not_true, Bool.false_eq_true, if_false, bind_val, bind_st, bind_log, getEnv_val,
      getEnv_st, getEnv_log, List.nil_append, hn, Bool.not_false, if_true]
  · rw [← h2]
    simp only [handleValidating, bind_val, bind_log, bind_st]
    rcases he : (validateStatefulSetExists vr.Meta.Namespace vr.Spec.StatefulSetName env s).val with ⟨sts?, result⟩
    rw [he] at h hs
    simp only [] at h hs
    subst hs
    simp only [h, Bool.not_true, Bool.false_eq_true, if_false, bind_val, bind_st, bind_log, getEnv_val,
      getEnv_st, getEnv_log, List.nil_append, hn, Bool.not_false, if_true]

theorem handleValidating_fails_size (vr : VolumeResize) (env : Env) (s : St) (sts : StatefulSet)
    (hs : (validateStatefulSetExists vr.Meta.Namespace vr.Spec.StatefulSetName env s).val.1 = some sts)
    (h : (validateStatefulSetExists vr.Meta.Namespace vr.Spec.StatefulSetName env s).val.2.Valid = true)
    (hn : (validateVolumeTargets env.isPrintWide sts vr.Spec.Volumes).Valid = true)
    (pre : List VolumeResizeTarget) (v : VolumeResizeTarget) (post : List VolumeResizeTarget)
    (hsplit : vr.Spec.Volumes = pre ++ v :: post) (s1 : St) (l1 : List Call)
    (hpre : runValid (pre.map (validateSizeReduction vr.Meta.Namespace vr.Spec.StatefulSetName)) env
      (validateStatefulSetExists vr.Meta.Namespace vr.Spec.StatefulSetName env s).st = some (s1, l1))
    (hv : (validateSizeReduction vr.Meta.Namespace vr.Spec.StatefulSetName v env s1).val.Valid = false) :
    ∃ err, (handleValidating vr env s).val = Ret.ret {} err ∧
      (handleValidating vr env s).log =
        (validateStatefulSetExists vr.Meta.Namespace vr.Spec.StatefulSetName env s).log ++ l1 ++
        (validateSizeReduction vr.Meta.Namespace vr.Spec.StatefulSetName v env s1).log ++
        [{ op := Op.statusUpdate Kind.volumeResize (failedRequest vr
              (validateSizeReduction vr.Meta.Namespace vr.Spec.StatefulSetName v env s1).val.Message),
           err := err }] := by
  obtain ⟨err, h1, h2⟩ := setFailed_run vr
    (validateSizeReduction vr.Meta.Namespace vr.Spec.StatefulSetName v env s1).val.Message env
    (validateSizeReduction vr.Meta.Namespace vr.Spec.StatefulSetName v env s1).st
  obtain ⟨k1, k2, k3⟩ := sizeLoop_invalid vr.Meta.Namespace vr.Spec.StatefulSetName env pre v post _ _ _ hpre hv
  rw [← hsplit] at k1 k2 k3
  refine ⟨err, ?_, ?_⟩
  · rw [← h1]
    simp only [handleValidating, bind_val, bind_log, bind_st]
    rcases he : (validateStatefulSetExists vr.Meta.Namespace vr.Spec.StatefulSetName env s).val with ⟨sts?, result⟩
    rw [he] at h hs
    simp only [] at h hs
    subst hs
    simp only [h, hn, k1, k2, k3, hv, Bool.not_true, Bool.not_false, Bool.false_eq_true, if_false, if_true,
      bind_val, bind_st, getEnv_val, getEnv_st]
  · rw [← h2]
    simp only [handleValidating, bind_val, bind_log, bind_st]
    rcases he : (validateStatefulSetExists vr.Meta.Namespace vr.Spec.StatefulSetName env s).val with ⟨sts?, result⟩
    rw [he] at h hs
    simp only [] at h hs
    subst hs
    simp only [h, hn, k1, k2, k3, hv, Bool.not_true, Bool.not_false, Bool.false_eq_true, if_false, if_true,
      bind_log, bind_st, bind_val, getEnv_val, getEnv_st, getEnv_log, List.nil_append, List.append_assoc]

theorem handleValidating_fails_pdb (vr : VolumeResize) (env : Env) (s : St) (sts : StatefulSet)
    (hs : (validateStatefulSetExists vr.Meta.Namespace vr.Spec.StatefulSetName env s).val.1 = some sts)
    (h : (validateStatefulSetExists vr.Meta.Namespace vr.Spec.StatefulSetName env s).val.2.Valid = true)
    (hn : (validateVolumeTargets env.isPrintWide sts vr.Spec.Volumes).Valid = true) (s1 : St) (l1 : List Call)
    (hsz : runValid (vr.Spec.Volumes.map (validateSizeReduction vr.Meta.Namespace vr.Spec.StatefulSetName)) env
      (validateStatefulSetExists vr.Meta.Namespace vr.Spec.StatefulSetName env s).st = some (s1, l1))
    (hp : (validatePDBAllowsDisruption sts env s1).val.Valid = false) :
    ∃ err, (handleValidating vr env s).val = Ret.ret {} err ∧
      (handleValidating vr env s).log =
        (validateStatefulSetExists vr.Meta.Namespace vr.Spec.StatefulSetName env s).log ++ l1 ++
        (validatePDBAllowsDisruption sts env s1).log ++
        [{ op := Op.statusUpdate Kind.volumeResize (failedRequest vr
              (validatePDBAllowsDisruption sts env s1).val.Message),
           err := err }] := by
  obtain ⟨err, h1, h2⟩ := setFailed_run vr (validatePDBAllowsDisruption sts env s1).val.Message env
    (validatePDBAllowsDisruption sts env s1).st
  obtain ⟨k1, k2, k3⟩ := sizeLoop_valid vr.Meta.Namespace vr.Spec.StatefulSetName env vr.Spec.Volumes _ _ _ hsz
  refine ⟨err, ?_, ?_⟩
  · rw [← h1]
    simp only [handleValidating, bind_val, bind_log, bind_st]
    rcases he : (validateStatefulSetExists vr.Meta.Namespace vr.Spec.StatefulSetName env s).val with ⟨sts?, result⟩
    rw [he] at h hs
    simp only [] at h hs
    subst hs
    simp only [h, hn, k1, k2, k3, hp, Bool.not_true, Bool.not_false, Bool.false_eq_true, if_false, if_true,
      bind_val, bind_st, getEnv_val, getEnv_st]
  · rw [← h2]
    simp only [handleValidating, bind_val, bind_log, bind_st]
    rcases he : (validateStatefulSetExists vr.Meta.Namespace vr.Spec.StatefulSetName env s).val with ⟨sts?, result⟩
    rw [he] at h hs
    simp only [] at h hs
    subst hs
    simp only [h, hn, k1, k2, k3, hp, Bool.not_true, Bool.not_false, Bool.false_eq_true, if_false, if_true,
      bind_log, bind_st, bind_val, getEnv_val, getEnv_st, getEnv_log, List.nil_append, List.append_assoc]

theorem flatMap_range_length {α : Type} (f : Nat → List α) (n : Nat) (hf : ∀ i, (f i).length = n) (R : Nat) :
    ((List.range R).flatMap f).length = R * n := by
  induction R with
  | zero => simp
  | succ k ih =>
    rw [List.range_succ, List.flatMap_append, List.length_append, ih]
    simp [List.flatMap_cons, hf, Nat.succ_mul]

theorem flatMap_range_getElem? {α : Type} (f : Nat → List α) (n : Nat) (hf : ∀ i, (f i).length = n)
    (R r j : Nat) (hr : r < R) (hj : j < n) :
    ((List.range R).flatMap f)[r * n + j]? = (f r)[j]? := by
  induction R with
  | zero => omega
  | succ k ih =>
    rw [List.range_succ, List.flatMap_append]
    have hlen := flatMap_range_length f n hf k
    by_cases hrk : r < k
    · have hlt : r * n + j < k * n := by
        have : (r + 1) * n ≤ k * n := Nat.mul_le_mul_right n hrk
        rw [Nat.succ_mul] at this
        omega
      rw [List.getElem?_append_left (by rw [hlen]; exact hlt)]
      exact ih hrk
    · have hrk2 : r = k := by omega
      subst hrk2
      rw [List.getElem?_append_right (by rw [hlen]; omega), hlen]
      simp [List.flatMap_cons]

theorem initStatuses_length (replicas : Int) (volumes : List VolumeResizeTarget) :
    (handleValidating.initStatuses replicas volumes).length = replicas.toNat * volumes.length := by
  unfold handleValidating.initStatuses
  exact flatMap_range_length _ _ (fun i => by simp) _

theorem initStatuses_getElem? (replicas : Int) (volumes : List VolumeResizeTarget) (r j : Nat)
    (v : VolumeResizeTarget) (hr : r < replicas.toNat) (hj : volumes[j]? = some v) :
    (handleValidating.initStatuses replicas volumes)[r * volumes.length + j]? = some (pendingStatus r v) := by
  unfold handleValidating.initStatuses
  have hjlt : j < volumes.length := (List.getElem?_eq_some_iff.mp hj).1
  rw [flatMap_range_getElem? _ volumes.length (fun i => by simp) _ r j hr hjlt]
  simp [List.getElem?_map, hj, pendingStatus]

theorem validateStatefulSetExists_log (ns name : String) (env : Env) (s : St) :
    ∃ err, (validateStatefulSetExists ns name env s).log =
      [{ op := Op.get Kind.statefulSet ns name, err := err }] := by
  refine ⟨errOf (Client.Get Kind.statefulSet ns name env s).val, ?_⟩
  simp only [validateStatefulSetExists, bind_log]
  have hl : (Client.Get Kind.statefulSet ns name env s).log =
      [{ op := Op.get Kind.statefulSet ns name, err := errOf (Client.Get Kind.statefulSet ns name env s).val }] :=
    call_log _ _ env s
  rw [hl]
  cases (Client.Get Kind.statefulSet ns name env s).val <;> simp

theorem validateSizeReduction_log (ns stsName : String) (vol : VolumeResizeTarget) (env : Env) (s : St) :
    ∃ err, (validateSizeReduction ns stsName vol env s).log =
      [{ op := Op.get Kind.pvc ns (getOriginalPVCName vol.Name stsName 0), err := err }] := by
  refine ⟨errOf (getPVC ns (getOriginalPVCName vol.Name stsName 0) env s).val, ?_⟩
  rw [validateSizeReduction_log_eq ns stsName vol env s]
  exact call_log _ _ env s

theorem validatePDBAllowsDisruption_log (sts : StatefulSet) (env : Env) (s : St) :
    ∃ err, (validatePDBAllowsDisruption sts env s).log =
      [{ op := Op.list Kind.pdb sts.Meta.Namespace [], err := err }] := by
  refine ⟨errOf (Client.List Kind.pdb sts.Meta.Namespace [] env s).val, ?_⟩
  simp only [validatePDBAllowsDisruption, bind_log]
  have hl : (Client.List Kind.pdb sts.Meta.Namespace [] env s).log =
      [{ op := Op.list Kind.pdb sts.Meta.Namespace [],
         err := errOf (Client.List Kind.pdb sts.Meta.Namespace [] env s).val }] :=
    call_log _ _ env s
  rw [hl]
  cases (Client.List Kind.pdb sts.Meta.Namespace [] env s).val <;> simp [getEnv]

/-- C6: `handleValidating` checks, in this order, that the parent workload exists
(one get), that the target names are template names (no request), the size of
each target in spec order (one get of a claim each), and the budgets (one list).
At the first check that is invalid it makes exactly one more request, the status
write of the request with phase Failed and that check's message, with
`VolumeStatuses` and the cursor as they were; it returns an empty `Result` (no
requeue) with the outcome of that write.  No request of a later check is made. -/
theorem handleValidating_short_circuit (vr : VolumeResize) (env : Env) (s : St) :
    ((validateStatefulSetExists vr.Meta.Namespace vr.Spec.StatefulSetName env s).val.2.Valid = false →
      ∃ err, (handleValidating vr env s).val = Ret.ret { Requeue := false, RequeueAfter := 0 } err ∧
        (handleValidating vr env s).log =
          (validateStatefulSetExists vr.Meta.Namespace vr.Spec.StatefulSetName env s).log ++
          [{ op := Op.statusUpdate Kind.volumeResize (failedRequest vr
                (validateStatefulSetExists vr.Meta.Namespace vr.Spec.StatefulSetName env s).val.2.Message),
             err := err }]) ∧
    (∀ sts, (validateStatefulSetExists vr.Meta.Namespace vr.Spec.StatefulSetName env s).val.1 = some sts →
      (validateStatefulSetExists vr.Meta.Namespace vr.Spec.StatefulSetName env s).val.2.Valid = true →
      ((validateVolumeTargets env.isPrintWide sts vr.Spec.Volumes).Valid = false →
        ∃ err, (handleValidating vr env s).val = Ret.ret { Requeue := false, RequeueAfter := 0 } err ∧
          (handleValidating vr env s).log =
            (validateStatefulSetExists vr.Meta.Namespace vr.Spec.StatefulSetName env s).log ++
            [{ op := Op.statusUpdate Kind.volumeResize (failedRequest vr
                  (validateVolumeTargets env.isPrintWide sts vr.Spec.Volumes).Message),
               err := err }]) ∧
      ((validateVolumeTargets env.isPrintWide sts vr.Spec.Volumes).Valid = true →
        (∀ pre v post s1 l1, vr.Spec.Volumes = pre ++ v :: post →
          runValid (pre.map (validateSizeReduction vr.Meta.Namespace vr.Spec.StatefulSetName)) env
            (validateStatefulSetExists vr.Meta.Namespace vr.Spec.StatefulSetName env s).st = some (s1, l1) →
          (validateSizeReduction vr.Meta.Namespace vr.Spec.StatefulSetName v env s1).val.Valid = false →
          ∃ err, (handleValidating vr env s).val = Ret.ret { Requeue := false, RequeueAfter := 0 } err ∧
            (handleValidating vr env s).log =
              (validateStatefulSetExists vr.Meta.Namespace vr.Spec.StatefulSetName env s).log ++ l1 ++
              (validateSizeReduction vr.Meta.Namespace vr.Spec.StatefulSetName v env s1).log ++
              [{ op := Op.statusUpdate Kind.volumeResize (failedRequest vr
                    (validateSizeReduction vr.Meta.Namespace vr.Spec.StatefulSetName v env s1).val.Message),
                 err := err }]) ∧
        (∀ s1 l1,
          runValid (vr.Spec.Volumes.map (validateSizeReduction vr.Meta.Namespace vr.Spec.StatefulSetName)) env
            (validateStatefulSetExists vr.Meta.Namespace vr.Spec.StatefulSetName env s).st = some (s1, l1) →
          (validatePDBAllowsDisruption sts env s1).val.Valid = false →
          ∃ err, (handleValidating vr env s).val = Ret.ret { Requeue := false, RequeueAfter := 0 } err ∧
            (handleValidating vr env s).log =
              (validateStatefulSetExists vr.Meta.Namespace vr.Spec.StatefulSetName env s).log ++ l1 ++
              (validatePDBAllowsDisruption sts env s1).log ++
              [{ op := Op.statusUpdate Kind.volumeResize (failedRequest vr
                    (validatePDBAllowsDisruption sts env s1).val.Message),
                 err := err }]))) ∧
    (∀ message, (failedRequest vr message).Status.Phase = PhaseFailed ∧
      (failedRequest vr message).Status.Message = message ∧
      (failedRequest vr message).Status.VolumeStatuses = vr.Status.VolumeStatuses ∧
      (failedRequest vr message).Status.CurrentReplica = vr.Status.CurrentReplica ∧
      (failedRequest vr message).Status.CurrentVolume = vr.Status.CurrentVolume) ∧
    ((∃ err, (validateStatefulSetExists vr.Meta.Namespace vr.Spec.StatefulSetName env s).log =
        [{ op := Op.get Kind.statefulSet vr.Meta.Namespace vr.Spec.StatefulSetName, err := err }]) ∧
      (∀ v s1, ∃ err, (validateSizeReduction vr.Meta.Namespace vr.Spec.StatefulSetName v env s1).log =
        [{ op := Op.get Kind.pvc vr.Meta.Namespace (getOriginalPVCName v.Name vr.Spec.StatefulSetName 0),
           err := err }]) ∧
      (∀ sts s1, ∃ err, (validatePDBAllowsDisruption sts env s1).log =
        [{ op := Op.list Kind.pdb sts.Meta.Namespace [], err := err }])) := by
  refine ⟨handleValidating_fails_exists vr env s, ?_, ?_, ?_⟩
  · intro sts hs h
    refine ⟨handleValidating_fails_names vr env s sts hs h, ?_⟩
    intro hn
    exact ⟨fun pre v post s1 l1 hsplit hpre hv =>
        handleValidating_fails_size vr env s sts hs h hn pre v post hsplit s1 l1 hpre hv,
      fun s1 l1 hsz hp => handleValidating_fails_pdb vr env s sts hs h hn s1 l1 hsz hp⟩
  · intro message
    exact ⟨rfl, rfl, rfl, rfl, rfl⟩
  · exact ⟨validateStatefulSetExists_log _ _ env s,
      fun v s1 => validateSizeReduction_log _ _ v env s1,
      fun sts s1 => validatePDBAllowsDisruption_log sts env s1⟩

/-- C6 at a cluster without the parent workload: the first check fails and the
only requests are the get of the parent and the status write. -/
theorem handleValidating_short_circuit_witness :
    (validateStatefulSetExists vrWeb.Meta.Namespace vrWeb.Spec.StatefulSetName {}
        { world := worldNoParent }).val.2.Valid = false ∧
    ∃ err, (handleValidating vrWeb {} { world := worldNoParent }).val =
        Ret.ret { Requeue := false, RequeueAfter := 0 } err ∧
      (handleValidating vrWeb {} { world := worldNoParent }).log =
        (validateStatefulSetExists vrWeb.Meta.Namespace vrWeb.Spec.StatefulSetName {}
          { world := worldNoParent }).log ++
        [{ op := Op.statusUpdate Kind.volumeResize (failedRequest vrWeb
              (validateStatefulSetExists vrWeb.Meta.Namespace vrWeb.Spec.StatefulSetName {}
                { world := worldNoParent }).val.2.Message),
           err := err }] :=
  ⟨by decide, (handleValidating_short_circuit vrWeb {} { world := worldNoParent }).1 (by decide)⟩

/-- C5: when every check of `handleValidating` passes on a request with a non-empty
target list and an empty `VolumeStatuses`, the one request after the checks is
the status write of the request with phase Syncing, cursor (0, volumes[0].name)
and a `VolumeStatuses` of exactly R * n entries, the entry number r * n + j being
the Pending entry of replica r and target j (replica-major, spec order), where R
is the replica count of the parent, 1 when it is unset; the handler asks for a
requeue when the write succeeds and returns the write's error otherwise. -/
theorem handleValidating_success (vr : VolumeResize) (env : Env) (s : St) (sts : StatefulSet)
    (first : VolumeResizeTarget) (rest : List VolumeResizeTarget) (s1 : St) (l1 : List Call)
    (hs : (validateStatefulSetExists vr.Meta.Namespace vr.Spec.StatefulSetName env s).val.1 = some sts)
    (h : (validateStatefulSetExists vr.Meta.Namespace vr.Spec.StatefulSetName env s).val.2.Valid = true)
    (hn : (validateVolumeTargets env.isPrintWide sts vr.Spec.Volumes).Valid = true)
    (hsz : runValid (vr.Spec.Volumes.map (validateSizeReduction vr.Meta.Namespace vr.Spec.StatefulSetName)) env
      (validateStatefulSetExists vr.Meta.Namespace vr.Spec.StatefulSetName env s).st = some (s1, l1))
    (hp : (validatePDBAllowsDisruption sts env s1).val.Valid = true)
    (hvols : vr.Spec.Volumes = first :: rest)
    (hempty : vr.Status.VolumeStatuses = []) :
    ∃ written err,
      (handleValidating vr env s).log =
        (validateStatefulSetExists vr.Meta.Namespace vr.Spec.StatefulSetName env s).log ++ l1 ++
        (validatePDBAllowsDisruption sts env s1).log ++
        [{ op := Op.statusUpdate Kind.volumeResize written, err := err }] ∧
      (handleValidating vr env s).val =
        (match err with
         | none => Ret.ret { Requeue := true, RequeueAfter := 0 } none
         | some e => Ret.ret { Requeue := false, RequeueAfter := 0 } (some e)) ∧
      written.Meta = vr.Meta ∧ written.Spec = vr.Spec ∧
      written.Status.Phase = PhaseSyncing ∧
      written.Status.CurrentReplica = some 0 ∧
      written.Status.CurrentVolume = first.Name ∧
      written.Status.VolumeStatuses.length = (sts.Spec.Replicas.getD 1).toNat * vr.Spec.Volumes.length ∧
      (∀ (r j : Nat) (v : VolumeResizeTarget), r < (sts.Spec.Replicas.getD 1).toNat →
        vr.Spec.Volumes[j]? = some v →
        written.Status.VolumeStatuses[r * vr.Spec.Volumes.length + j]? = some (pendingStatus r v)) := by
  obtain ⟨k1, k2, k3⟩ := sizeLoop_valid vr.Meta.Namespace vr.Spec.StatefulSetName env vr.Spec.Volumes _ _ _ hsz
  have hR : (match sts.Spec.Replicas with | some n => n | none => (1 : Int)) = sts.Spec.Replicas.getD 1 := by
    cases sts.Spec.Replicas <;> rfl
  have hhead : vr.Spec.Volumes.head? = some first := by rw [hvols]; rfl
  let written : VolumeResize :=
    { vr with Status := { vr.Status with
        Phase := PhaseSyncing, CurrentReplica := some 0, CurrentVolume := first.Name,
        Message := "Validation complete, starting sync",
        VolumeStatuses := vr.Status.VolumeStatuses ++
          handleValidating.initStatuses (sts.Spec.Replicas.getD 1) vr.Spec.Volumes } }
  have hl : (Client.StatusUpdate Kind.volumeResize written env (validatePDBAllowsDisruption sts env s1).st).log =
      [{ op := Op.statusUpdate Kind.volumeResize written,
         err := errOf (Client.StatusUpdate Kind.volumeResize written env
           (validatePDBAllowsDisruption sts env s1).st).val }] := call_log _ _ env _
  refine ⟨written, errOf (Client.StatusUpdate Kind.volumeResize written env
    (validatePDBAllowsDisruption sts env s1).st).val, ?_, ?_, rfl, rfl, rfl, rfl, rfl, ?_, ?_⟩
  · rw [← hl]
    simp only [handleValidating, bind_val, bind_log, bind_st]
    rcases he : (validateStatefulSetExists vr.Meta.Namespace vr.Spec.StatefulSetName env s).val with ⟨sts?, result⟩
    rw [he] at h hs
    simp only [] at h hs
    subst hs
    simp only [h, hn, k1, k2, k3, hp, hR, hhead, Bool.not_true, Bool.not_false, Bool.false_eq_true, if_false,
      if_true, bind_log, bind_st, bind_val, getEnv_val, getEnv_st, getEnv_log, List.nil_append,
      List.append_assoc]
    congr 3
    cases (Client.StatusUpdate Kind.volumeResize written env (validatePDBAllowsDisruption sts env s1).st).val <;>
      simp [written]
  · simp only [handleValidating, bind_val, bind_log, bind_st]
    rcases he : (validateStatefulSetExists vr.Meta.Namespace vr.Spec.StatefulSetName env s).val with ⟨sts?, result⟩
    rw [he] at h hs
    simp only [] at h hs
    subst hs
    simp only [h, hn, k1, k2, k3, hp, hR, hhead, Bool.not_true, Bool.not_false, Bool.false_eq_true, if_false,
      if_true, bind_log, bind_st, bind_val, getEnv_val, getEnv_st, getEnv_log, List.nil_append]
    cases hw : (Client.StatusUpdate Kind.volumeResize written env (validatePDBAllowsDisruption sts env s1).st).val <;>
      simp [written] at hw ⊢ <;> simp [hw, errOf]
  · show (vr.Status.VolumeStatuses ++ handleValidating.initStatuses (sts.Spec.Replicas.getD 1) vr.Spec.Volumes).length = _
    rw [hempty, List.nil_append, initStatuses_length]
  · intro r j v hr hj
    show (vr.Status.VolumeStatuses ++ handleValidating.initStatuses (sts.Spec.Replicas.getD 1) vr.Spec.Volumes)[_]? = _
    rw [hempty, List.nil_append]
    exact initStatuses_getElem? _ _ r j v hr hj

/-- C5 at the cluster `worldWeb` (two replicas, one target): every check passes,
the handler asks for a requeue, and the written status has the two Pending
entries of `data`, replica 0 then replica 1. -/
theorem handleValidating_success_witness :
    (handleValidating vrWeb {} { world := worldWeb }).val = Ret.ret { Requeue := true, RequeueAfter := 0 } none ∧
    ∃ written err,
      (handleValidating vrWeb {} { world := worldWeb }).log.getLast? =
        some { op := Op.statusUpdate Kind.volumeResize written, err := err } ∧
      written.Status.Phase = PhaseSyncing ∧ written.Status.CurrentReplica = some 0 ∧
      written.Status.CurrentVolume = "data" ∧
      written.Status.VolumeStatuses.length = 2 ∧
      written.Status.VolumeStatuses[1]? = some (pendingStatus 1 { Name := "data", NewSize := fiveHundredMi }) := by
  refine ⟨by decide, ?_⟩
  obtain ⟨written, err, hlog, _, _, _, hphase, hrep, hvol, hlen, hidx⟩ :=
    handleValidating_success vrWeb {} { world := worldWeb } stsWeb
      { Name := "data", NewSize := fiveHundredMi } []
      { world := worldWeb, calls := 2, now := 0 }
      [{ op := Op.get Kind.pvc "default" "data-web-0", err := none }]
      (by decide) (by decide) (by decide) rfl (by decide) rfl rfl
  refine ⟨written, err, ?_, hphase, hrep, hvol, hlen, ?_⟩
  · rw [hlog]; exact List.getLast?_concat _
  · exact hidx 1 0 _ (by decide) rfl

/-! ### The claim swap -/

@[simp] theorem Client.Get_log (k : Kind) (ns name : String) (env : Env) (s : St) :
    (Client.Get k ns name env s).log =
      [{ op := Op.get k ns name, err := errOf (Client.Get k ns name env s).val }] := call_log _ _ env s

@[simp] theorem Client.List_log (k : Kind) (ns : String) (labels : StrMap) (env : Env) (s : St) :
    (Client.List k ns labels env s).log =
      [{ op := Op.list k ns labels, err := errOf (Client.List k ns labels env s).val }] := call_log _ _ env s

@[simp] theorem Client.Create_log (k : Kind) (obj : k.T) (env : Env) (s : St) :
    (Client.Create k obj env s).log =
      [{ op := Op.create k obj, err := errOf (Client.Create k obj env s).val }] := call_log _ _ env s

@[simp] theorem Client.Update_log (k : Kind) (obj : k.T) (env : Env) (s : St) :
    (Client.Update k obj env s).log =
      [{ op := Op.update k obj, err := errOf (Client.Update k obj env s).val }] := call_log _ _ env s

@[simp] theorem Client.StatusUpdate_log (k : Kind) (obj : k.T) (env : Env) (s : St) :
    (Client.StatusUpdate k obj env s).log =
      [{ op := Op.statusUpdate k obj, err := errOf (Client.StatusUpdate k obj env s).val }] := call_log _ _ env s

@[simp] theorem Client.Delete_log (k : Kind) (ns name : String) (orphan : Bool) (env : Env) (s : St) :
    (Client.Delete k ns name orphan env s).log =
      [{ op := Op.delete k ns name orphan, err := errOf (Client.Delete k ns name orphan env s).val }] :=
  call_log _ _ env s

@[simp] theorem errOf_ok {α : Type} (a : α) : errOf (Except.ok a : Except Err α) = none := rfl

@[simp] theorem errOf_error {α : Type} (e : Err) : errOf (Except.error e : Except Err α) = some e := rfl

theorem find?_hasKey_name (k : Kind) (l : List k.T) (ns name : String) (o : k.T)
    (h : l.find? (k.hasKey ns name) = some o) : (k.meta o).Name = name ∧ (k.meta o).Namespace = ns := by
  have := List.find?_some h
  simp only [Kind.hasKey, Bool.and_eq_true, beq_iff_eq] at this
  exact ⟨this.2, this.1⟩

theorem Client.Get_ok_name (k : Kind) (ns name : String) (env : Env) (s : St) (o : k.T)
    (h : (Client.Get k ns name env s).val = .ok o) : (k.meta o).Name = name ∧ (k.meta o).Namespace = ns := by
  unfold Client.Get call at h
  split at h
  · simp at h
  · simp only [World.serveGet] at h
    split at h
    · rename_i o2 hf
      simp only [Except.ok.injEq] at h
      subst h
      exact find?_hasKey_name k _ ns name _ hf
    · simp at h

theorem replacePVC_cases (vr : VolumeResize) (vol : VolumeResizeTarget) (replica : Int) (env : Env) (s : St) :
    (∃ e e0, (replacePVC vr vol replica env s).val = some e ∧
      (replacePVC vr vol replica env s).log =
        [{ op := Op.get Kind.pvc vr.Meta.Namespace (getTempPVCName vol.Name vr.Spec.StatefulSetName replica),
           err := some e0 }]) ∨
    (∃ e, (replacePVC vr vol replica env s).val = some e ∧
      (replacePVC vr vol replica env s).log =
        [{ op := Op.get Kind.pvc vr.Meta.Namespace (getTempPVCName vol.Name vr.Spec.StatefulSetName replica),
           err := none }]) ∨
    (∃ e e0, (replacePVC vr vol replica env s).val = some e ∧
      (replacePVC vr vol replica env s).log =
        [{ op := Op.get Kind.pvc vr.Meta.Namespace (getTempPVCName vol.Name vr.Spec.StatefulSetName replica),
           err := none },
         { op := Op.get Kind.pvc vr.Meta.Namespace (getOriginalPVCName vol.Name vr.Spec.StatefulSetName replica),
           err := some e0 }]) ∨
    (∃ tempPVC e e0,
      (getPVC vr.Meta.Namespace (getTempPVCName vol.Name vr.Spec.StatefulSetName replica) env s).val =
        .ok tempPVC ∧
      (replacePVC vr vol replica env s).val = some e ∧
      (replacePVC vr vol replica env s).log =
        [{ op := Op.get Kind.pvc vr.Meta.Namespace (getTempPVCName vol.Name vr.Spec.StatefulSetName replica),
           err := none },
         { op := Op.get Kind.pvc vr.Meta.Namespace (getOriginalPVCName vol.Name vr.Spec.StatefulSetName replica),
           err := none },
         { op := Op.get Kind.pv "" tempPVC.Spec.VolumeName, err := some e0 }]) ∨
    (∃ tempPVC pv e e0,
      (getPVC vr.Meta.Namespace (getTempPVCName vol.Name vr.Spec.StatefulSetName replica) env s).val =
        .ok tempPVC ∧
      pv.Meta.Name = tempPVC.Spec.VolumeName ∧
      (replacePVC vr vol replica env s).val = some e ∧
      (replacePVC vr vol replica env s).log =
        [{ op := Op.get Kind.pvc vr.Meta.Namespace (getTempPVCName vol.Name vr.Spec.StatefulSetName replica),
           err := none },
         { op := Op.get Kind.pvc vr.Meta.Namespace (getOriginalPVCName vol.Name vr.Spec.StatefulSetName replica),
           err := none },
         { op := Op.get Kind.pv "" tempPVC.Spec.VolumeName, err := none },
         { op := Op.update Kind.pv (retained pv), err := some e0 }]) ∨
    (∃ tempPVC pv rest,
      (getPVC vr.Meta.Namespace (getTempPVCName vol.Name vr.Spec.StatefulSetName replica) env s).val =
        .ok tempPVC ∧
      pv.Meta.Name = tempPVC.Spec.VolumeName ∧
      (replacePVC vr vol replica env s).log =
        [{ op := Op.get Kind.pvc vr.Meta.Namespace (getTempPVCName vol.Name vr.Spec.StatefulSetName replica),
           err := none },
         { op := Op.get Kind.pvc vr.Meta.Namespace (getOriginalPVCName vol.Name vr.Spec.StatefulSetName replica),
           err := none },
         { op := Op.get Kind.pv "" tempPVC.Spec.VolumeName, err := none },
         { op := Op.update Kind.pv (retained pv), err := none }] ++ rest) := by
  simp only [replacePVC, bind_val, bind_log, bind_st, getPVC, Client.Get_log, Client.Update_log]
  cases h1 : (Client.Get Kind.pvc vr.Meta.Namespace
      (getTempPVCName vol.Name vr.Spec.StatefulSetName replica) env s).val with
  | error e =>
    left
    exact ⟨_, e, rfl, by simp⟩
  | ok tempPVC =>
    right
    by_cases hv : tempPVC.Spec.VolumeName = ""
    · left
      simp only [hv, if_true]
      exact ⟨_, rfl, by simp⟩
    · right
      simp only [hv, if_false, bind_val, bind_log, bind_st, Client.Get_log, Client.Update_log]
      cases h2 : (Client.Get Kind.pvc vr.Meta.Namespace
          (getOriginalPVCName vol.Name vr.Spec.StatefulSetName replica) env
          (Client.Get Kind.pvc vr.Meta.Namespace
            (getTempPVCName vol.Name vr.Spec.StatefulSetName replica) env s).st).val with
      | error e =>
        left
        exact ⟨_, e, rfl, by simp⟩
      | ok originalPVC =>
        right
        simp only [bind_val, bind_log, bind_st, Client.Get_log, Client.Update_log]
        cases h3 : (Client.Get Kind.pv "" tempPVC.Spec.VolumeName env
            (Client.Get Kind.pvc vr.Meta.Namespace
              (getOriginalPVCName vol.Name vr.Spec.StatefulSetName replica) env
              (Client.Get Kind.pvc vr.Meta.Namespace
                (getTempPVCName vol.Name vr.Spec.StatefulSetName replica) env s).st).st).val with
        | error e =>
          left
          exact ⟨tempPVC, _, e, rfl, rfl, by simp⟩
        | ok newPV =>
          right
          have hname := (Client.Get_ok_name Kind.pv "" tempPVC.Spec.VolumeName env _ newPV h3).1
          simp only [bind_val, bind_log, bind_st, Client.Get_log, Client.Update_log]
          cases h4 : (Client.Update Kind.pv
              { newPV with Spec := { newPV.Spec with PersistentVolumeReclaimPolicy := PersistentVolumeReclaimRetain } }
              env
              (Client.Get Kind.pv "" tempPVC.Spec.VolumeName env
                (Client.Get Kind.pvc vr.Meta.Namespace
                  (getOriginalPVCName vol.Name vr.Spec.StatefulSetName replica) env
                  (Client.Get Kind.pvc vr.Meta.Namespace
                    (getTempPVCName vol.Name vr.Spec.StatefulSetName replica) env s).st).st).st).val with
          | error e =>
            left
            exact ⟨tempPVC, newPV, _, e, rfl, hname, rfl, by simp [retained]⟩
          | ok _ =>
            right
            exact ⟨tempPVC, newPV, _, rfl, hname, by simp [retained]; rfl⟩

/-- C2: in every execution of `replacePVC`, a delete of a claim is preceded in the
log by a successful update of the volume the transient claim is bound to (Vnew)
that sets its reclaim policy to Retain; the third request is the fetch of Vnew
and the fourth that update, and when either fails `replacePVC` returns an error
and has issued no delete of a claim. -/
theorem replacePVC_retain_before_delete (vr : VolumeResize) (vol : VolumeResizeTarget) (replica : Int)
    (env : Env) (s : St) :
    (∀ (i : Nat) (c : Call), (replacePVC vr vol replica env s).log[i]? = some c →
      Op.isDelete Kind.pvc c.op = true →
      ∃ tempPVC pv j, j < i ∧
        (getPVC vr.Meta.Namespace (getTempPVCName vol.Name vr.Spec.StatefulSetName replica) env s).val =
          .ok tempPVC ∧
        pv.Meta.Name = tempPVC.Spec.VolumeName ∧
        (retained pv).Spec.PersistentVolumeReclaimPolicy = PersistentVolumeReclaimRetain ∧
        (replacePVC vr vol replica env s).log[j]? =
          some { op := Op.update Kind.pv (retained pv), err := none }) ∧
    (∀ c, (replacePVC vr vol replica env s).log[2]? = some c →
      ∃ tempPVC,
        (getPVC vr.Meta.Namespace (getTempPVCName vol.Name vr.Spec.StatefulSetName replica) env s).val =
          .ok tempPVC ∧
        c.op = Op.get Kind.pv "" tempPVC.Spec.VolumeName) ∧
    (∀ c, (replacePVC vr vol replica env s).log[3]? = some c →
      ∃ tempPVC pv,
        (getPVC vr.Meta.Namespace (getTempPVCName vol.Name vr.Spec.StatefulSetName replica) env s).val =
          .ok tempPVC ∧
        pv.Meta.Name = tempPVC.Spec.VolumeName ∧ c.op = Op.update Kind.pv (retained pv)) ∧
    (∀ c, ((replacePVC vr vol replica env s).log[2]? = some c ∨
        (replacePVC vr vol replica env s).log[3]? = some c) → c.err ≠ none →
      (replacePVC vr vol replica env s).val ≠ none ∧
      ∀ c2 ∈ (replacePVC vr vol replica env s).log, Op.isDelete Kind.pvc c2.op = false) := by
  rcases replacePVC_cases vr vol replica env s with
    ⟨e, e0, hv, hl⟩ | ⟨e, hv, hl⟩ | ⟨e, e0, hv, hl⟩ | ⟨tempPVC, e, e0, ht, hv, hl⟩ |
    ⟨tempPVC, pv, e, e0, ht, hn, hv, hl⟩ | ⟨tempPVC, pv, rest, ht, hn, hl⟩
  · rw [hl, hv]
    refine ⟨?_, ?_, ?_, ?_⟩
    · intro i c hi hd
      match i with
      | 0 => simp at hi; subst hi; simp [Op.isDelete] at hd
      | i + 1 => simp at hi
    · intro c hc; simp at hc
    · intro c hc; simp at hc
    · intro c hc; simp at hc
  · rw [hl, hv]
    refine ⟨?_, ?_, ?_, ?_⟩
    · intro i c hi hd
      match i with
      | 0 => simp at hi; subst hi; simp [Op.isDelete] at hd
      | i + 1 => simp at hi
    · intro c hc; simp at hc
    · intro c hc; simp at hc
    · intro c hc; simp at hc
  · rw [hl, hv]
    refine ⟨?_, ?_, ?_, ?_⟩
    · intro i c hi hd
      match i with
      | 0 => simp at hi; subst hi; simp [Op.isDelete] at hd
      | 1 => simp at hi; subst hi; simp [Op.isDelete] at hd
      | i + 2 => simp at hi
    · intro c hc; simp at hc
    · intro c hc; simp at hc
    · intro c hc; simp at hc
  · rw [hl, hv]
    refine ⟨?_, ?_, ?_, ?_⟩
    · intro i c hi hd
      match i with
      | 0 => simp at hi; subst hi; simp [Op.isDelete] at hd
      | 1 => simp at hi; subst hi; simp [Op.isDelete] at hd
      | 2 => simp at hi; subst hi; simp [Op.isDelete] at hd
      | i + 3 => simp at hi
    · intro c hc
      simp at hc
      subst hc
      exact ⟨tempPVC, ht, rfl⟩
    · intro c hc; simp at hc
    · intro c _ _
      refine ⟨by simp, ?_⟩
      intro c2 hc2
      simp at hc2
      rcases hc2 with rfl | rfl | rfl <;> rfl
  · rw [hl, hv]
    refine ⟨?_, ?_, ?_, ?_⟩
    · intro i c hi hd
      match i with
      | 0 => simp at hi; subst hi; simp [Op.isDelete] at hd
      | 1 => simp at hi; subst hi; simp [Op.isDelete] at hd
      | 2 => simp at hi; subst hi; simp [Op.isDelete] at hd
      | 3 => simp at hi; subst hi; simp [Op.isDelete] at hd
      | i + 4 => simp at hi
    · intro c hc
      simp at hc
      subst hc
      exact ⟨tempPVC, ht, rfl⟩
    · intro c hc
      simp at hc
      subst hc
      exact ⟨tempPVC, pv, ht, hn, rfl⟩
    · intro c _ _
      refine ⟨by simp, ?_⟩
      intro c2 hc2
      simp at hc2
      rcases hc2 with rfl | rfl | rfl | rfl <;> rfl
  · rw [hl]
    refine ⟨?_, ?_, ?_, ?_⟩
    · intro i c hi hd
      match i with
      | 0 => simp at hi; subst hi; simp [Op.isDelete] at hd
      | 1 => simp at hi; subst hi; simp [Op.isDelete] at hd
      | 2 => simp at hi; subst hi; simp [Op.isDelete] at hd
      | 3 => simp at hi; subst hi; simp [Op.isDelete] at hd
      | i + 4 => exact ⟨tempPVC, pv, 3, by omega, ht, hn, rfl, by simp⟩
    · intro c hc
      simp at hc
      subst hc
      exact ⟨tempPVC, ht, rfl⟩
    · intro c hc
      simp at hc
      subst hc
      exact ⟨tempPVC, pv, ht, hn, rfl⟩
    · intro c hc hne
      rcases hc with hc | hc <;> simp at hc <;> subst hc <;> simp at hne

/-- C2 at the cluster `worldSync`: the swap of replica 0 runs to its end; the
fifth request deletes the transient claim, after the update of `pv-new-0`. -/
theorem replacePVC_retain_before_delete_witness :
    (replacePVC vrSync { Name := "data", NewSize := fiveHundredMi } 0 envQuiet { world := worldSync }).log.map
        (fun c => c.op.summary) =
      ["get persistentvolumeclaims default/data-web-0-new", "get persistentvolumeclaims default/data-web-0",
       "get persistentvolumes /pv-new-0", "update persistentvolumes /pv-new-0",
       "delete persistentvolumeclaims default/data-web-0-new",
       "get persistentvolumeclaims default/data-web-0-new",
       "get persistentvolumes /pv-new-0", "update persistentvolumes /pv-new-0",
       "delete persistentvolumeclaims default/data-web-0",
       "get persistentvolumeclaims default/data-web-0",
       "create persistentvolumeclaims default/data-web-0"] ∧
    ∃ tempPVC pv j, j < 4 ∧
      (getPVC vrSync.Meta.Namespace (getTempPVCName "data" vrSync.Spec.StatefulSetName 0) envQuiet
        { world := worldSync }).val = .ok tempPVC ∧
      pv.Meta.Name = tempPVC.Spec.VolumeName ∧
      (retained pv).Spec.PersistentVolumeReclaimPolicy = PersistentVolumeReclaimRetain ∧
      (replacePVC vrSync { Name := "data", NewSize := fiveHundredMi } 0 envQuiet { world := worldSync }).log[j]? =
        some { op := Op.update Kind.pv (retained pv), err := none } :=
  ⟨by decide,
   (replacePVC_retain_before_delete vrSync { Name := "data", NewSize := fiveHundredMi } 0 envQuiet
      { world := worldSync }).1 4
      { op := Op.delete Kind.pvc "default" "data-web-0-new" false, err := none } rfl rfl⟩

/-- C1 fails on the code: in this reconciliation of the pair (0, data) the two reads
of the copy pod fail, so the pod is never observed in any phase and
`waitForMigrationComplete` returns an error; `handleSyncing` falls through,
deletes the copy pod and performs the swap: both claims are deleted, the claim
`data-web-0` is recreated on the new volume, and the pair is written Completed. -/
theorem handleSyncing_swaps_after_failed_poll :
    (Reconcile "default" "resize" envPodUnreadable { world := worldSync }).log.map (fun c => c.op.summary) =
      ["get volumeresizes.storage.maurice.fr default/resize",
       "get persistentvolumeclaims default/data-web-0",
       "get persistentvolumeclaims default/data-web-0-new",
       "get storageclasses.storage.k8s.io /standard",
       "get persistentvolumes /pv-old-0", "update persistentvolumes /pv-old-0",
       "get statefulsets.apps default/web",
       "get configmaps default/resize-sts-backup",
       "create configmaps default/resize-sts-backup",
       "delete statefulsets.apps default/web",
       "update volumeresizes.storage.maurice.fr default/resize",
       "update status volumeresizes.storage.maurice.fr default/resize",
       "delete pods default/web-0",
       "get pods default/web-0",
       "get pods default/resize-migrator-0-data",
       "create pods default/resize-migrator-0-data",
       "get pods default/resize-migrator-0-data",
       "get pods default/resize-migrator-0-data",
       "delete pods default/resize-migrator-0-data",
       "get persistentvolumeclaims default/data-web-0-new",
       "get persistentvolumeclaims default/data-web-0",
       "get persistentvolumes /pv-new-0", "update persistentvolumes /pv-new-0",
       "delete persistentvolumeclaims default/data-web-0-new",
       "get persistentvolumeclaims default/data-web-0-new",
       "get persistentvolumes /pv-new-0", "update persistentvolumes /pv-new-0",
       "delete persistentvolumeclaims default/data-web-0",
       "get persistentvolumeclaims default/data-web-0",
       "create persistentvolumeclaims default/data-web-0",
       "update status volumeresizes.storage.maurice.fr default/resize",
       "get configmaps default/resize-sts-backup",
       "create statefulsets.apps default/web",
       "update volumeresizes.storage.maurice.fr default/resize",
       "get pods default/web-0"] ∧
    ((Reconcile "default" "resize" envPodUnreadable { world := worldSync }).log.filter
        (fun c => c.op.summary == "get pods default/resize-migrator-0-data")).map (fun c => c.err.isSome) =
      [true, true, true] ∧
    (Reconcile "default" "resize" envPodUnreadable { world := worldSync }).st.world.pvcs.map
        (fun pvc => (pvc.Meta.Name, pvc.Spec.VolumeName)) =
      [("data-web-1", "pv-old-1"), ("data-web-0", "pv-new-0")] ∧
    (Reconcile "default" "resize" envPodUnreadable { world := worldSync }).st.world.volumeResizes.map
        (fun vr => vr.Status.VolumeStatuses.map (fun vs => (vs.Replica, vs.VolumeName, vs.Phase))) =
      [[(0, "data", "Completed"), (1, "data", "Pending")]] := by
  decide

/-! ### Persistent volumes are never deleted -/

theorem pvSafe_pure {α : Type} (a : α) : PVSafe (pure a : M α) := by
  refine ⟨fun env s => ?_⟩
  exact ⟨by simp, fun _ => rfl⟩

theorem pvSafe_bind {α β : Type} {m : M α} {f : α → M β} (hm : PVSafe m) (hf : ∀ a, PVSafe (f a)) :
    PVSafe (m >>= f) := by
  refine ⟨fun env s => ?_⟩
  obtain ⟨h1, h2⟩ := hm.run env s
  obtain ⟨h3, h4⟩ := (hf (m env s).val).run env (m env s).st
  refine ⟨?_, ?_⟩
  · intro c hc
    rw [bind_log] at hc
    rcases List.mem_append.mp hc with hc | hc
    · exact h1 c hc
    · exact h3 c hc
  · intro hd
    rw [bind_st, h4 hd, h2 hd]

theorem pvSafe_getEnv : PVSafe getEnv := ⟨fun _ _ => ⟨by simp [MigController.getEnv], fun _ => rfl⟩⟩

theorem pvSafe_timeNow : PVSafe timeNow := ⟨fun _ _ => ⟨by simp [MigController.timeNow], fun _ => rfl⟩⟩

theorem pvSafe_timeSleep (d : Nat) : PVSafe (timeSleep d) :=
  ⟨fun _ _ => ⟨by simp [MigController.timeSleep], fun _ => rfl⟩⟩

theorem pvSafe_ctxDoneOrAfter (d : Nat) : PVSafe (ctxDoneOrAfter d) := by
  refine ⟨fun env s => ?_⟩
  unfold MigController.ctxDoneOrAfter
  split <;> exact ⟨by simp, fun _ => rfl⟩

theorem setObjs_pvs (w : World) (k : Kind) (hk : k ≠ Kind.pv) (l : List k.T) : (w.setObjs k l).pvs = w.pvs := by
  cases k <;> first | rfl | exact absurd rfl hk

theorem pvSafe_call {α : Type} (op : Op) (serve : World → Nat → Except Err α × World)
    (hop : Op.isDelete Kind.pv op = false ∧ Op.isCreate Kind.pv op = false)
    (hserve : ∀ w now, pvNames (serve w now).2 = pvNames w) : PVSafe (call op serve) := by
  refine ⟨fun env s => ?_⟩
  refine ⟨?_, ?_⟩
  · intro c hc
    rw [call_log] at hc
    simp only [List.mem_singleton] at hc
    subst hc
    exact hop
  · intro hd
    unfold MigController.call
    split
    · simp only [pvNames, hd s.calls s.world]
    · simp only [hserve]
      simp only [pvNames, hd s.calls s.world]

theorem pvSafe_clientGet (k : Kind) (ns name : String) : PVSafe (Client.Get k ns name) :=
  pvSafe_call _ _ ⟨rfl, rfl⟩ (fun _ _ => rfl)

theorem pvSafe_clientList (k : Kind) (ns : String) (labels : StrMap) : PVSafe (Client.List k ns labels) :=
  pvSafe_call _ _ ⟨rfl, rfl⟩ (fun _ _ => rfl)

theorem pvSafe_clientCreate (k : Kind) (hk : k ≠ Kind.pv) (obj : k.T) : PVSafe (Client.Create k obj) := by
  apply pvSafe_call
  · refine ⟨rfl, ?_⟩
    simp [Op.isCreate, hk]
  · intro w _
    unfold World.serveCreate
    split
    · rfl
    · simp only [pvNames, setObjs_pvs w k hk]

theorem pvSafe_clientUpdate (k : Kind) (hk : k ≠ Kind.pv) (obj : k.T) : PVSafe (Client.Update k obj) := by
  apply pvSafe_call
  · exact ⟨rfl, rfl⟩
  · intro w _
    unfold World.serveUpdate
    split
    · rfl
    · simp only []
      split <;> simp only [pvNames, setObjs_pvs w k hk]

theorem pvSafe_clientStatusUpdate (k : Kind) (hk : k ≠ Kind.pv) (obj : k.T) : PVSafe (Client.StatusUpdate k obj) := by
  apply pvSafe_call
  · exact ⟨rfl, rfl⟩
  · intro w _
    unfold World.serveStatusUpdate
    split
    · rfl
    · simp only [pvNames, setObjs_pvs w k hk]

theorem pvSafe_clientDelete (k : Kind) (hk : k ≠ Kind.pv) (ns name : String) (orphan : Bool) :
    PVSafe (Client.Delete k ns name orphan) := by
  apply pvSafe_call
  · refine ⟨?_, rfl⟩
    simp [Op.isDelete, hk]
  · intro w now
    unfold World.serveDelete
    split
    · rfl
    · split <;> simp only [pvNames, setObjs_pvs w k hk]

theorem pvSafeGiven_of_safe {α : Type} (n : String) (pv : PersistentVolume) {m : M α} (h : PVSafe m) :
    PVSafeGiven n pv m := ⟨fun env s => ⟨(h.run env s).1, fun hd _ => (h.run env s).2 hd⟩⟩

theorem replaceFirst_names (l : List PersistentVolume) (ns n : String) (o : PersistentVolume)
    (ho : o.Meta.Name = n) :
    (replaceFirst (Kind.hasKey Kind.pv ns n) o l).map (fun pv => pv.Meta.Name) =
      l.map (fun pv => pv.Meta.Name) := by
  induction l with
  | nil => rfl
  | cons x xs ih =>
    unfold replaceFirst
    by_cases hx : Kind.hasKey Kind.pv ns n x = true
    · simp only [hx, if_true, List.map_cons]
      have : x.Meta.Name = n := by
        simp only [Kind.hasKey, Kind.meta, Bool.and_eq_true, beq_iff_eq] at hx
        exact hx.2
      rw [ho, this]
    · simp only [hx, Bool.false_eq_true, if_false, List.map_cons, ih]

theorem pvSafeGiven_update_then {α : Type} (n : String) (pv obj : PersistentVolume)
    (hmeta : obj.Meta = pv.Meta) (f : Except Err PersistentVolume → M α) (hf : ∀ r, PVSafe (f r)) :
    PVSafeGiven n pv (Client.Update Kind.pv obj >>= f) := by
  refine ⟨fun env s => ?_⟩
  obtain ⟨h3, h4⟩ := (hf (Client.Update Kind.pv obj env s).val).run env (Client.Update Kind.pv obj env s).st
  refine ⟨?_, ?_⟩
  · intro c hc
    rw [bind_log, Client.Update_log] at hc
    rcases List.mem_append.mp hc with hc | hc
    · simp only [List.mem_singleton] at hc
      subst hc
      exact ⟨rfl, rfl⟩
    · exact h3 c hc
  · intro hd hfind
    rw [bind_st, h4 hd]
    have hkey := find?_hasKey_name Kind.pv s.world.pvs "" n pv hfind
    simp only [Kind.meta] at hkey
    unfold Client.Update MigController.call
    split
    · simp only [pvNames, hd s.calls s.world]
    · simp only [World.serveUpdate, World.objs, Kind.meta, hd s.calls s.world, hmeta, hkey.1, hkey.2, hfind,
        Kind.lastFinalizerRemoved]
      have hfin : (pv.Meta.DeletionTimestamp.isSome && !pv.Meta.Finalizers.isEmpty &&
          pv.Meta.Finalizers.isEmpty) = false := by
        cases pv.Meta.DeletionTimestamp.isSome <;> cases pv.Meta.Finalizers.isEmpty <;> rfl
      simp only [hfin, Bool.false_eq_true, if_false, World.setObjs, pvNames]
      apply replaceFirst_names
      simp [Kind.withMeta]

theorem pvSafe_getPV_then {α : Type} (n : String) (f : Except Err PersistentVolume → M α)
    (herr : ∀ e, PVSafe (f (.error e))) (hok : ∀ pv, PVSafeGiven n pv (f (.ok pv))) :
    PVSafe (Client.Get Kind.pv "" n >>= f) := by
  refine ⟨fun env s => ?_⟩
  cases hv : (Client.Get Kind.pv "" n env s).val with
  | error e =>
    obtain ⟨h3, h4⟩ := (herr e).run env (Client.Get Kind.pv "" n env s).st
    refine ⟨?_, ?_⟩
    · intro c hc
      rw [bind_log, Client.Get_log, hv] at hc
      rcases List.mem_append.mp hc with hc | hc
      · simp only [List.mem_singleton] at hc
        subst hc
        exact ⟨rfl, rfl⟩
      · exact h3 c hc
    · intro hd
      rw [bind_st, hv, h4 hd]
      exact ((pvSafe_clientGet Kind.pv "" n).run env s).2 hd
  | ok pv =>
    obtain ⟨h3, h4⟩ := (hok pv).run env (Client.Get Kind.pv "" n env s).st
    refine ⟨?_, ?_⟩
    · intro c hc
      rw [bind_log, Client.Get_log, hv] at hc
      rcases List.mem_append.mp hc with hc | hc
      · simp only [List.mem_singleton] at hc
        subst hc
        exact ⟨rfl, rfl⟩
      · exact h3 c hc
    · intro hd
      have hfind : (Client.Get Kind.pv "" n env s).st.world.pvs.find? (Kind.hasKey Kind.pv "" n) = some pv := by
        unfold Client.Get MigController.call at hv ⊢
        split at hv
        · simp at hv
        · rename_i hfault
          simp only [hfault]
          simp only [World.serveGet, World.objs] at hv
          split at hv
          · rename_i o hf
            simp only [Except.ok.injEq] at hv
            subst hv
            exact hf
          · simp at hv
      rw [bind_st, hv, h4 hd hfind]
      exact ((pvSafe_clientGet Kind.pv "" n).run env s).2 hd

theorem pvSafe_getPVC (ns name : String) :
    PVSafe (getPVC ns name) := by
  unfold MigController.getPVC
  repeat (first
    | with_reducible apply pvSafe_getPV_then
    | ((with_reducible apply pvSafeGiven_update_then); rfl)
    | with_reducible apply pvSafe_bind
    | intro _
    | dsimp only
    | split
    | exact pvSafe_pure _
    | exact pvSafeGiven_of_safe _ _ (pvSafe_pure _)
    | exact pvSafe_getEnv
    | exact pvSafe_timeNow
    | exact pvSafe_timeSleep _
    | exact pvSafe_ctxDoneOrAfter _
    | exact pvSafe_clientGet _ _ _
    | exact pvSafe_clientList _ _ _
    | exact pvSafe_clientCreate _ (by decide) _
    | exact pvSafe_clientUpdate _ (by decide) _
    | exact pvSafe_clientStatusUpdate _ (by decide) _
    | exact pvSafe_clientDelete _ (by decide) _ _ _)

theorem pvSafe_createTempPVC (vr : VolumeResize) (vol : VolumeResizeTarget) (originalPVC : PersistentVolumeClaim) (replica : Int) :
    PVSafe (createTempPVC vr vol originalPVC replica) := by
  unfold MigController.createTempPVC
  repeat (first
    | with_reducible apply pvSafe_getPV_then
    | ((with_reducible apply pvSafeGiven_update_then); rfl)
    | with_reducible apply pvSafe_bind
    | intro _
    | dsimp only
    | split
    | exact pvSafe_pure _
    | exact pvSafeGiven_of_safe _ _ (pvSafe_pure _)
    | exact pvSafe_getEnv
    | exact pvSafe_timeNow
    | exact pvSafe_timeSleep _
    | exact pvSafe_ctxDoneOrAfter _
    | exact pvSafe_clientGet _ _ _
    | exact pvSafe_clientList _ _ _
    | exact pvSafe_clientCreate _ (by decide) _
    | exact pvSafe_clientUpdate _ (by decide) _
    | exact pvSafe_clientStatusUpdate _ (by decide) _
    | exact pvSafe_clientDelete _ (by decide) _ _ _
    | exact pvSafe_getPVC _ _)

theorem pvSafe_setRetainOnPV (pvName : String) :
    PVSafe (setRetainOnPV pvName) := by
  unfold MigController.setRetainOnPV
  repeat (first
    | with_reducible apply pvSafe_getPV_then
    | ((with_reducible apply pvSafeGiven_update_then); rfl)
    | with_reducible apply pvSafe_bind
    | intro _
    | dsimp only
    | split
    | exact pvSafe_pure _
    | exact pvSafeGiven_of_safe _ _ (pvSafe_pure _)
    | exact pvSafe_getEnv
    | exact pvSafe_timeNow
    | exact pvSafe_timeSleep _
    | exact pvSafe_ctxDoneOrAfter _
    | exact pvSafe_clientGet _ _ _
    | exact pvSafe_clientList _ _ _
    | exact pvSafe_clientCreate _ (by decide) _
    | exact pvSafe_clientUpdate _ (by decide) _
    | exact pvSafe_clientStatusUpdate _ (by decide) _
    | exact pvSafe_clientDelete _ (by decide) _ _ _)

theorem pvSafe_waitDeleted (ns name pre : String) (n : Nat) :
    PVSafe (replacePVC.waitDeleted ns name pre n) := by
  induction n with
  | zero =>
    unfold replacePVC.waitDeleted
    repeat (first
      | with_reducible apply pvSafe_getPV_then
      | ((with_reducible apply pvSafeGiven_update_then); rfl)
      | with_reducible apply pvSafe_bind
      | intro _
      | dsimp only
      | split
      | exact pvSafe_pure _
      | exact pvSafeGiven_of_safe _ _ (pvSafe_pure _)
      | exact pvSafe_getEnv
      | exact pvSafe_timeNow
      | exact pvSafe_timeSleep _
      | exact pvSafe_ctxDoneOrAfter _
      | exact pvSafe_clientGet _ _ _
      | exact pvSafe_clientList _ _ _
      | exact pvSafe_clientCreate _ (by decide) _
      | exact pvSafe_clientUpdate _ (by decide) _
      | exact pvSafe_clientStatusUpdate _ (by decide) _
      | exact pvSafe_clientDelete _ (by decide) _ _ _
      | exact pvSafe_getPVC _ _)
  | succ n ih =>
    unfold replacePVC.waitDeleted
    repeat (first
      | with_reducible apply pvSafe_getPV_then
      | ((with_reducible apply pvSafeGiven_update_then); rfl)
      | with_reducible apply pvSafe_bind
      | intro _
      | dsimp only
      | split
      | exact pvSafe_pure _
      | exact pvSafeGiven_of_safe _ _ (pvSafe_pure _)
      | exact pvSafe_getEnv
      | exact pvSafe_timeNow
      | exact pvSafe_timeSleep _
      | exact pvSafe_ctxDoneOrAfter _
      | exact pvSafe_clientGet _ _ _
      | exact pvSafe_clientList _ _ _
      | exact pvSafe_clientCreate _ (by decide) _
      | exact pvSafe_clientUpdate _ (by decide) _
      | exact pvSafe_clientStatusUpdate _ (by decide) _
      | exact pvSafe_clientDelete _ (by decide) _ _ _
      | exact ih
      | exact pvSafe_getPVC _ _)

theorem pvSafe_replacePVC (vr : VolumeResize) (vol : VolumeResizeTarget) (replica : Int) :
    PVSafe (replacePVC vr vol replica) := by
  unfold MigController.replacePVC
  repeat (first
    | with_reducible apply pvSafe_getPV_then
    | ((with_reducible apply pvSafeGiven_update_then); rfl)
    | with_reducible apply pvSafe_bind
    | intro _
    | dsimp only
    | split
    | exact pvSafe_pure _
    | exact pvSafeGiven_of_safe _ _ (pvSafe_pure _)
    | exact pvSafe_getEnv
    | exact pvSafe_timeNow
    | exact pvSafe_timeSleep _
    | exact pvSafe_ctxDoneOrAfter _
    | exact pvSafe_clientGet _ _ _
    | exact pvSafe_clientList _ _ _
    | exact pvSafe_clientCreate _ (by decide) _
    | exact pvSafe_clientUpdate _ (by decide) _
    | exact pvSafe_clientStatusUpdate _ (by decide) _
    | exact pvSafe_clientDelete _ (by decide) _ _ _
    | exact pvSafe_getPVC _ _
    | exact pvSafe_waitDeleted _ _ _ _)

theorem pvSafe_deleteSTSOrphan (sts : StatefulSet) :
    PVSafe (deleteSTSOrphan sts) := by
  unfold MigController.deleteSTSOrphan
  repeat (first
    | with_reducible apply pvSafe_getPV_then
    | ((with_reducible apply pvSafeGiven_update_then); rfl)
    | with_reducible apply pvSafe_bind
    | intro _
    | dsimp only
    | split
    | exact pvSafe_pure _
    | exact pvSafeGiven_of_safe _ _ (pvSafe_pure _)
    | exact pvSafe_getEnv
    | exact pvSafe_timeNow
    | exact pvSafe_timeSleep _
    | exact pvSafe_ctxDoneOrAfter _
    | exact pvSafe_clientGet _ _ _
    | exact pvSafe_clientList _ _ _
    | exact pvSafe_clientCreate _ (by decide) _
    | exact pvSafe_clientUpdate _ (by decide) _
    | exact pvSafe_clientStatusUpdate _ (by decide) _
    | exact pvSafe_clientDelete _ (by decide) _ _ _)

theorem pvSafe_deletePod (ns stsName : String) (replica : Int) :
    PVSafe (deletePod ns stsName replica) := by
  unfold MigController.deletePod
  repeat (first
    | with_reducible apply pvSafe_getPV_then
    | ((with_reducible apply pvSafeGiven_update_then); rfl)
    | with_reducible apply pvSafe_bind
    | intro _
    | dsimp only
    | split
    | exact pvSafe_pure _
    | exact pvSafeGiven_of_safe _ _ (pvSafe_pure _)
    | exact pvSafe_getEnv
    | exact pvSafe_timeNow
    | exact pvSafe_timeSleep _
    | exact pvSafe_ctxDoneOrAfter _
    | exact pvSafe_clientGet _ _ _
    | exact pvSafe_clientList _ _ _
    | exact pvSafe_clientCreate _ (by decide) _
    | exact pvSafe_clientUpdate _ (by decide) _
    | exact pvSafe_clientStatusUpdate _ (by decide) _
    | exact pvSafe_clientDelete _ (by decide) _ _ _)

theorem pvSafe_waitForPodTermination_loop (ns podName : String) (deadline fuel : Nat) :
    PVSafe (waitForPodTermination.loop ns podName deadline fuel) := by
  induction fuel with
  | zero =>
    unfold waitForPodTermination.loop
    repeat (first
      | with_reducible apply pvSafe_getPV_then
      | ((with_reducible apply pvSafeGiven_update_then); rfl)
      | with_reducible apply pvSafe_bind
      | intro _
      | dsimp only
      | split
      | exact pvSafe_pure _
      | exact pvSafeGiven_of_safe _ _ (pvSafe_pure _)
      | exact pvSafe_getEnv
      | exact pvSafe_timeNow
      | exact pvSafe_timeSleep _
      | exact pvSafe_ctxDoneOrAfter _
      | exact pvSafe_clientGet _ _ _
      | exact pvSafe_clientList _ _ _
      | exact pvSafe_clientCreate _ (by decide) _
      | exact pvSafe_clientUpdate _ (by decide) _
      | exact pvSafe_clientStatusUpdate _ (by decide) _
      | exact pvSafe_clientDelete _ (by decide) _ _ _)
  | succ fuel ih =>
    unfold waitForPodTermination.loop
    repeat (first
      | with_reducible apply pvSafe_getPV_then
      | ((with_reducible apply pvSafeGiven_update_then); rfl)
      | with_reducible apply pvSafe_bind
      | intro _
      | dsimp only
      | split
      | exact pvSafe_pure _
      | exact pvSafeGiven_of_safe _ _ (pvSafe_pure _)
      | exact pvSafe_getEnv
      | exact pvSafe_timeNow
      | exact pvSafe_timeSleep _
      | exact pvSafe_ctxDoneOrAfter _
      | exact pvSafe_clientGet _ _ _
      | exact pvSafe_clientList _ _ _
      | exact pvSafe_clientCreate _ (by decide) _
      | exact pvSafe_clientUpdate _ (by decide) _
      | exact pvSafe_clientStatusUpdate _ (by decide) _
      | exact pvSafe_clientDelete _ (by decide) _ _ _
      | exact ih)

theorem pvSafe_waitForPodTermination (ns podName : String) (timeout : Nat) :
    PVSafe (waitForPodTermination ns podName timeout) := by
  unfold MigController.waitForPodTermination
  repeat (first
    | with_reducible apply pvSafe_getPV_then
    | ((with_reducible apply pvSafeGiven_update_then); rfl)
    | with_reducible apply pvSafe_bind
    | intro _
    | dsimp only
    | split
    | exact pvSafe_pure _
    | exact pvSafeGiven_of_safe _ _ (pvSafe_pure _)
    | exact pvSafe_getEnv
    | exact pvSafe_timeNow
    | exact pvSafe_timeSleep _
    | exact pvSafe_ctxDoneOrAfter _
    | exact pvSafe_clientGet _ _ _
    | exact pvSafe_clientList _ _ _
    | exact pvSafe_clientCreate _ (by decide) _
    | exact pvSafe_clientUpdate _ (by decide) _
    | exact pvSafe_clientStatusUpdate _ (by decide) _
    | exact pvSafe_clientDelete _ (by decide) _ _ _
    | exact pvSafe_waitForPodTermination_loop _ _ _ _)

theorem pvSafe_backupSTSToConfigMap (vr : VolumeResize) (sts : StatefulSet) :
    PVSafe (backupSTSToConfigMap vr sts) := by
  unfold MigController.backupSTSToConfigMap
  repeat (first
    | with_reducible apply pvSafe_getPV_then
    | ((with_reducible apply pvSafeGiven_update_then); rfl)
    | with_reducible apply pvSafe_bind
    | intro _
    | dsimp only
    | split
    | exact pvSafe_pure _
    | exact pvSafeGiven_of_safe _ _ (pvSafe_pure _)
    | exact pvSafe_getEnv
    | exact pvSafe_timeNow
    | exact pvSafe_timeSleep _
    | exact pvSafe_ctxDoneOrAfter _
    | exact pvSafe_clientGet _ _ _
    | exact pvSafe_clientList _ _ _
    | exact pvSafe_clientCreate _ (by decide) _
    | exact pvSafe_clientUpdate _ (by decide) _
    | exact pvSafe_clientStatusUpdate _ (by decide) _
    | exact pvSafe_clientDelete _ (by decide) _ _ _)

theorem pvSafe_getSTSFromBackupConfigMap (ns vrName : String) :
    PVSafe (getSTSFromBackupConfigMap ns vrName) := by
  unfold MigController.getSTSFromBackupConfigMap
  repeat (first
    | with_reducible apply pvSafe_getPV_then
    | ((with_reducible apply pvSafeGiven_update_then); rfl)
    | with_reducible apply pvSafe_bind
    | intro _
    | dsimp only
    | split
    | exact pvSafe_pure _
    | exact pvSafeGiven_of_safe _ _ (pvSafe_pure _)
    | exact pvSafe_getEnv
    | exact pvSafe_timeNow
    | exact pvSafe_timeSleep _
    | exact pvSafe_ctxDoneOrAfter _
    | exact pvSafe_clientGet _ _ _
    | exact pvSafe_clientList _ _ _
    | exact pvSafe_clientCreate _ (by decide) _
    | exact pvSafe_clientUpdate _ (by decide) _
    | exact pvSafe_clientStatusUpdate _ (by decide) _
    | exact pvSafe_clientDelete _ (by decide) _ _ _)

theorem pvSafe_recreateSTS (stsSpec : StatefulSet) :
    PVSafe (recreateSTS stsSpec) := by
  unfold MigController.recreateSTS
  repeat (first
    | with_reducible apply pvSafe_getPV_then
    | ((with_reducible apply pvSafeGiven_update_then); rfl)
    | with_reducible apply pvSafe_bind
    | intro _
    | dsimp only
    | split
    | exact pvSafe_pure _
    | exact pvSafeGiven_of_safe _ _ (pvSafe_pure _)
    | exact pvSafe_getEnv
    | exact pvSafe_timeNow
    | exact pvSafe_timeSleep _
    | exact pvSafe_ctxDoneOrAfter _
    | exact pvSafe_clientGet _ _ _
    | exact pvSafe_clientList _ _ _
    | exact pvSafe_clientCreate _ (by decide) _
    | exact pvSafe_clientUpdate _ (by decide) _
    | exact pvSafe_clientStatusUpdate _ (by decide) _
    | exact pvSafe_clientDelete _ (by decide) _ _ _)

theorem pvSafe_createMigratorPod (vr : VolumeResize) (vol : VolumeResizeTarget) (replica : Int) (oldPVCName newPVCName : String) :
    PVSafe (createMigratorPod vr vol replica oldPVCName newPVCName) := by
  unfold MigController.createMigratorPod
  repeat (first
    | with_reducible apply pvSafe_getPV_then
    | ((with_reducible apply pvSafeGiven_update_then); rfl)
    | with_reducible apply pvSafe_bind
    | intro _
    | dsimp only
    | split
    | exact pvSafe_pure _
    | exact pvSafeGiven_of_safe _ _ (pvSafe_pure _)
    | exact pvSafe_getEnv
    | exact pvSafe_timeNow
    | exact pvSafe_timeSleep _
    | exact pvSafe_ctxDoneOrAfter _
    | exact pvSafe_clientGet _ _ _
    | exact pvSafe_clientList _ _ _
    | exact pvSafe_clientCreate _ (by decide) _
    | exact pvSafe_clientUpdate _ (by decide) _
    | exact pvSafe_clientStatusUpdate _ (by decide) _
    | exact pvSafe_clientDelete _ (by decide) _ _ _)

theorem pvSafe_waitForMigrationComplete_loop (podName ns : String) (deadline fuel : Nat) :
    PVSafe (waitForMigrationComplete.loop podName ns deadline fuel) := by
  induction fuel with
  | zero =>
    unfold waitForMigrationComplete.loop
    repeat (first
      | with_reducible apply pvSafe_getPV_then
      | ((with_reducible apply pvSafeGiven_update_then); rfl)
      | with_reducible apply pvSafe_bind
      | intro _
      | dsimp only
      | split
      | exact pvSafe_pure _
      | exact pvSafeGiven_of_safe _ _ (pvSafe_pure _)
      | exact pvSafe_getEnv
      | exact pvSafe_timeNow
      | exact pvSafe_timeSleep _
      | exact pvSafe_ctxDoneOrAfter _
      | exact pvSafe_clientGet _ _ _
      | exact pvSafe_clientList _ _ _
      | exact pvSafe_clientCreate _ (by decide) _
      | exact pvSafe_clientUpdate _ (by decide) _
      | exact pvSafe_clientStatusUpdate _ (by decide) _
      | exact pvSafe_clientDelete _ (by decide) _ _ _)
  | succ fuel ih =>
    unfold waitForMigrationComplete.loop
    repeat (first
      | with_reducible apply pvSafe_getPV_then
      | ((with_reducible apply pvSafeGiven_update_then); rfl)
      | with_reducible apply pvSafe_bind
      | intro _
      | dsimp only
      | split
      | exact pvSafe_pure _
      | exact pvSafeGiven_of_safe _ _ (pvSafe_pure _)
      | exact pvSafe_getEnv
      | exact pvSafe_timeNow
      | exact pvSafe_timeSleep _
      | exact pvSafe_ctxDoneOrAfter _
      | exact pvSafe_clientGet _ _ _
      | exact pvSafe_clientList _ _ _
      | exact pvSafe_clientCreate _ (by decide) _
      | exact pvSafe_clientUpdate _ (by decide) _
      | exact pvSafe_clientStatusUpdate _ (by decide) _
      | exact pvSafe_clientDelete _ (by decide) _ _ _
      | exact ih)

theorem pvSafe_waitForMigrationComplete (podName ns : String) (timeout : Nat) :
    PVSafe (waitForMigrationComplete podName ns timeout) := by
  unfold MigController.waitForMigrationComplete
  repeat (first
    | with_reducible apply pvSafe_getPV_then
    | ((with_reducible apply pvSafeGiven_update_then); rfl)
    | with_reducible apply pvSafe_bind
    | intro _
    | dsimp only
    | split
    | exact pvSafe_pure _
    | exact pvSafeGiven_of_safe _ _ (pvSafe_pure _)
    | exact pvSafe_getEnv
    | exact pvSafe_timeNow
    | exact pvSafe_timeSleep _
    | exact pvSafe_ctxDoneOrAfter _
    | exact pvSafe_clientGet _ _ _
    | exact pvSafe_clientList _ _ _
    | exact pvSafe_clientCreate _ (by decide) _
    | exact pvSafe_clientUpdate _ (by decide) _
    | exact pvSafe_clientStatusUpdate _ (by decide) _
    | exact pvSafe_clientDelete _ (by decide) _ _ _
    | exact pvSafe_waitForMigrationComplete_loop _ _ _ _)

theorem pvSafe_cleanupMigratorPod (podName ns : String) :
    PVSafe (cleanupMigratorPod podName ns) := by
  unfold MigController.cleanupMigratorPod
  repeat (first
    | with_reducible apply pvSafe_getPV_then
    | ((with_reducible apply pvSafeGiven_update_then); rfl)
    | with_reducible apply pvSafe_bind
    | intro _
    | dsimp only
    | split
    | exact pvSafe_pure _
    | exact pvSafeGiven_of_safe _ _ (pvSafe_pure _)
    | exact pvSafe_getEnv
    | exact pvSafe_timeNow
    | exact pvSafe_timeSleep _
    | exact pvSafe_ctxDoneOrAfter _
    | exact pvSafe_clientGet _ _ _
    | exact pvSafe_clientList _ _ _
    | exact pvSafe_clientCreate _ (by decide) _
    | exact pvSafe_clientUpdate _ (by decide) _
    | exact pvSafe_clientStatusUpdate _ (by decide) _
    | exact pvSafe_clientDelete _ (by decide) _ _ _)

theorem pvSafe_validateStatefulSetExists (ns name : String) :
    PVSafe (validateStatefulSetExists ns name) := by
  unfold MigController.validateStatefulSetExists
  repeat (first
    | with_reducible apply pvSafe_getPV_then
    | ((with_reducible apply pvSafeGiven_update_then); rfl)
    | with_reducible apply pvSafe_bind
    | intro _
    | dsimp only
    | split
    | exact pvSafe_pure _
    | exact pvSafeGiven_of_safe _ _ (pvSafe_pure _)
    | exact pvSafe_getEnv
    | exact pvSafe_timeNow
    | exact pvSafe_timeSleep _
    | exact pvSafe_ctxDoneOrAfter _
    | exact pvSafe_clientGet _ _ _
    | exact pvSafe_clientList _ _ _
    | exact pvSafe_clientCreate _ (by decide) _
    | exact pvSafe_clientUpdate _ (by decide) _
    | exact pvSafe_clientStatusUpdate _ (by decide) _
    | exact pvSafe_clientDelete _ (by decide) _ _ _)

theorem pvSafe_validateSizeReduction (ns stsName : String) (vol : VolumeResizeTarget) :
    PVSafe (validateSizeReduction ns stsName vol) := by
  unfold MigController.validateSizeReduction
  repeat (first
    | with_reducible apply pvSafe_getPV_then
    | ((with_reducible apply pvSafeGiven_update_then); rfl)
    | with_reducible apply pvSafe_bind
    | intro _
    | dsimp only
    | split
    | exact pvSafe_pure _
    | exact pvSafeGiven_of_safe _ _ (pvSafe_pure _)
    | exact pvSafe_getEnv
    | exact pvSafe_timeNow
    | exact pvSafe_timeSleep _
    | exact pvSafe_ctxDoneOrAfter _
    | exact pvSafe_clientGet _ _ _
    | exact pvSafe_clientList _ _ _
    | exact pvSafe_clientCreate _ (by decide) _
    | exact pvSafe_clientUpdate _ (by decide) _
    | exact pvSafe_clientStatusUpdate _ (by decide) _
    | exact pvSafe_clientDelete _ (by decide) _ _ _
    | exact pvSafe_getPVC _ _)

theorem pvSafe_validatePDBAllowsDisruption (sts : StatefulSet) :
    PVSafe (validatePDBAllowsDisruption sts) := by
  unfold MigController.validatePDBAllowsDisruption
  repeat (first
    | with_reducible apply pvSafe_getPV_then
    | ((with_reducible apply pvSafeGiven_update_then); rfl)
    | with_reducible apply pvSafe_bind
    | intro _
    | dsimp only
    | split
    | exact pvSafe_pure _
    | exact pvSafeGiven_of_safe _ _ (pvSafe_pure _)
    | exact pvSafe_getEnv
    | exact pvSafe_timeNow
    | exact pvSafe_timeSleep _
    | exact pvSafe_ctxDoneOrAfter _
    | exact pvSafe_clientGet _ _ _
    | exact pvSafe_clientList _ _ _
    | exact pvSafe_clientCreate _ (by decide) _
    | exact pvSafe_clientUpdate _ (by decide) _
    | exact pvSafe_clientStatusUpdate _ (by decide) _
    | exact pvSafe_clientDelete _ (by decide) _ _ _)

theorem pvSafe_setFailed (vr : VolumeResize) (message : String) :
    PVSafe (setFailed vr message) := by
  unfold MigController.setFailed
  repeat (first
    | with_reducible apply pvSafe_getPV_then
    | ((with_reducible apply pvSafeGiven_update_then); rfl)
    | with_reducible apply pvSafe_bind
    | intro _
    | dsimp only
    | split
    | exact pvSafe_pure _
    | exact pvSafeGiven_of_safe _ _ (pvSafe_pure _)
    | exact pvSafe_getEnv
    | exact pvSafe_timeNow
    | exact pvSafe_timeSleep _
    | exact pvSafe_ctxDoneOrAfter _
    | exact pvSafe_clientGet _ _ _
    | exact pvSafe_clientList _ _ _
    | exact pvSafe_clientCreate _ (by decide) _
    | exact pvSafe_clientUpdate _ (by decide) _
    | exact pvSafe_clientStatusUpdate _ (by decide) _
    | exact pvSafe_clientDelete _ (by decide) _ _ _)

theorem pvSafe_handlePending (vr : VolumeResize) :
    PVSafe (handlePending vr) := by
  unfold MigController.handlePending
  repeat (first
    | with_reducible apply pvSafe_getPV_then
    | ((with_reducible apply pvSafeGiven_update_then); rfl)
    | with_reducible apply pvSafe_bind
    | intro _
    | dsimp only
    | split
    | exact pvSafe_pure _
    | exact pvSafeGiven_of_safe _ _ (pvSafe_pure _)
    | exact pvSafe_getEnv
    | exact pvSafe_timeNow
    | exact pvSafe_timeSleep _
    | exact pvSafe_ctxDoneOrAfter _
    | exact pvSafe_clientGet _ _ _
    | exact pvSafe_clientList _ _ _
    | exact pvSafe_clientCreate _ (by decide) _
    | exact pvSafe_clientUpdate _ (by decide) _
    | exact pvSafe_clientStatusUpdate _ (by decide) _
    | exact pvSafe_clientDelete _ (by decide) _ _ _)

theorem pvSafe_sizeLoop (ns stsName : String) (volumes : List VolumeResizeTarget) :
    PVSafe (handleValidating.sizeLoop ns stsName volumes) := by
  induction volumes with
  | nil =>
    unfold handleValidating.sizeLoop
    repeat (first
      | with_reducible apply pvSafe_getPV_then
      | ((with_reducible apply pvSafeGiven_update_then); rfl)
      | with_reducible apply pvSafe_bind
      | intro _
      | dsimp only
      | split
      | exact pvSafe_pure _
      | exact pvSafeGiven_of_safe _ _ (pvSafe_pure _)
      | exact pvSafe_getEnv
      | exact pvSafe_timeNow
      | exact pvSafe_timeSleep _
      | exact pvSafe_ctxDoneOrAfter _
      | exact pvSafe_clientGet _ _ _
      | exact pvSafe_clientList _ _ _
      | exact pvSafe_clientCreate _ (by decide) _
      | exact pvSafe_clientUpdate _ (by decide) _
      | exact pvSafe_clientStatusUpdate _ (by decide) _
      | exact pvSafe_clientDelete _ (by decide) _ _ _
      | exact pvSafe_validateSizeReduction _ _ _)
  | cons v t ih =>
    unfold handleValidating.sizeLoop
    repeat (first
      | with_reducible apply pvSafe_getPV_then
      | ((with_reducible apply pvSafeGiven_update_then); rfl)
      | with_reducible apply pvSafe_bind
      | intro _
      | dsimp only
      | split
      | exact pvSafe_pure _
      | exact pvSafeGiven_of_safe _ _ (pvSafe_pure _)
      | exact pvSafe_getEnv
      | exact pvSafe_timeNow
      | exact pvSafe_timeSleep _
      | exact pvSafe_ctxDoneOrAfter _
      | exact pvSafe_clientGet _ _ _
      | exact pvSafe_clientList _ _ _
      | exact pvSafe_clientCreate _ (by decide) _
      | exact pvSafe_clientUpdate _ (by decide) _
      | exact pvSafe_clientStatusUpdate _ (by decide) _
      | exact pvSafe_clientDelete _ (by decide) _ _ _
      | exact ih
      | exact pvSafe_validateSizeReduction _ _ _)

theorem pvSafe_handleValidating (vr : VolumeResize) :
    PVSafe (handleValidating vr) := by
  unfold MigController.handleValidating
  repeat (first
    | with_reducible apply pvSafe_getPV_then
    | ((with_reducible apply pvSafeGiven_update_then); rfl)
    | with_reducible apply pvSafe_bind
    | intro _
    | dsimp only
    | split
    | exact pvSafe_pure _
    | exact pvSafeGiven_of_safe _ _ (pvSafe_pure _)
    | exact pvSafe_getEnv
    | exact pvSafe_timeNow
    | exact pvSafe_timeSleep _
    | exact pvSafe_ctxDoneOrAfter _
    | exact pvSafe_clientGet _ _ _
    | exact pvSafe_clientList _ _ _
    | exact pvSafe_clientCreate _ (by decide) _
    | exact pvSafe_clientUpdate _ (by decide) _
    | exact pvSafe_clientStatusUpdate _ (by decide) _
    | exact pvSafe_clientDelete _ (by decide) _ _ _
    | exact pvSafe_validateStatefulSetExists _ _
    | exact pvSafe_setFailed _ _
    | exact pvSafe_sizeLoop _ _ _
    | exact pvSafe_validatePDBAllowsDisruption _)

theorem pvSafe_advance (vr : VolumeResize) (replica : Int) (volName : String) :
    PVSafe (handleSyncing.advance vr replica volName) := by
  unfold handleSyncing.advance
  repeat (first
    | with_reducible apply pvSafe_getPV_then
    | ((with_reducible apply pvSafeGiven_update_then); rfl)
    | with_reducible apply pvSafe_bind
    | intro _
    | dsimp only
    | split
    | exact pvSafe_pure _
    | exact pvSafeGiven_of_safe _ _ (pvSafe_pure _)
    | exact pvSafe_getEnv
    | exact pvSafe_timeNow
    | exact pvSafe_timeSleep _
    | exact pvSafe_ctxDoneOrAfter _
    | exact pvSafe_clientGet _ _ _
    | exact pvSafe_clientList _ _ _
    | exact pvSafe_clientCreate _ (by decide) _
    | exact pvSafe_clientUpdate _ (by decide) _
    | exact pvSafe_clientStatusUpdate _ (by decide) _
    | exact pvSafe_clientDelete _ (by decide) _ _ _)

theorem pvSafe_recreate (vr : VolumeResize) (replica : Int) (volName : String) :
    PVSafe (handleSyncing.recreate vr replica volName) := by
  unfold handleSyncing.recreate
  repeat (first
    | with_reducible apply pvSafe_getPV_then
    | ((with_reducible apply pvSafeGiven_update_then); rfl)
    | with_reducible apply pvSafe_bind
    | intro _
    | dsimp only
    | split
    | exact pvSafe_pure _
    | exact pvSafeGiven_of_safe _ _ (pvSafe_pure _)
    | exact pvSafe_getEnv
    | exact pvSafe_timeNow
    | exact pvSafe_timeSleep _
    | exact pvSafe_ctxDoneOrAfter _
    | exact pvSafe_clientGet _ _ _
    | exact pvSafe_clientList _ _ _
    | exact pvSafe_clientCreate _ (by decide) _
    | exact pvSafe_clientUpdate _ (by decide) _
    | exact pvSafe_clientStatusUpdate _ (by decide) _
    | exact pvSafe_clientDelete _ (by decide) _ _ _
    | exact pvSafe_getSTSFromBackupConfigMap _ _
    | exact pvSafe_setFailed _ _
    | exact pvSafe_recreateSTS _
    | exact pvSafe_advance _ _ _)

theorem pvSafe_migrate (vr : VolumeResize) (vol : VolumeResizeTarget) (replica : Int) (volName originalPVCName tempPVCName : String) :
    PVSafe (handleSyncing.migrate vr vol replica volName originalPVCName tempPVCName) := by
  unfold handleSyncing.migrate
  repeat (first
    | with_reducible apply pvSafe_getPV_then
    | ((with_reducible apply pvSafeGiven_update_then); rfl)
    | with_reducible apply pvSafe_bind
    | intro _
    | dsimp only
    | split
    | exact pvSafe_pure _
    | exact pvSafeGiven_of_safe _ _ (pvSafe_pure _)
    | exact pvSafe_getEnv
    | exact pvSafe_timeNow
    | exact pvSafe_timeSleep _
    | exact pvSafe_ctxDoneOrAfter _
    | exact pvSafe_clientGet _ _ _
    | exact pvSafe_clientList _ _ _
    | exact pvSafe_clientCreate _ (by decide) _
    | exact pvSafe_clientUpdate _ (by decide) _
    | exact pvSafe_clientStatusUpdate _ (by decide) _
    | exact pvSafe_clientDelete _ (by decide) _ _ _
    | exact pvSafe_deletePod _ _ _
    | exact pvSafe_waitForPodTermination _ _ _
    | exact pvSafe_createMigratorPod _ _ _ _ _
    | exact pvSafe_setFailed _ _
    | exact pvSafe_waitForMigrationComplete _ _ _
    | exact pvSafe_cleanupMigratorPod _ _
    | exact pvSafe_replacePVC _ _ _
    | exact pvSafe_recreate _ _ _)

theorem pvSafe_deleteSTS (vr : VolumeResize) :
    PVSafe (handleSyncing.deleteSTS vr) := by
  unfold handleSyncing.deleteSTS
  repeat (first
    | with_reducible apply pvSafe_getPV_then
    | ((with_reducible apply pvSafeGiven_update_then); rfl)
    | with_reducible apply pvSafe_bind
    | intro _
    | dsimp only
    | split
    | exact pvSafe_pure _
    | exact pvSafeGiven_of_safe _ _ (pvSafe_pure _)
    | exact pvSafe_getEnv
    | exact pvSafe_timeNow
    | exact pvSafe_timeSleep _
    | exact pvSafe_ctxDoneOrAfter _
    | exact pvSafe_clientGet _ _ _
    | exact pvSafe_clientList _ _ _
    | exact pvSafe_clientCreate _ (by decide) _
    | exact pvSafe_clientUpdate _ (by decide) _
    | exact pvSafe_clientStatusUpdate _ (by decide) _
    | exact pvSafe_clientDelete _ (by decide) _ _ _
    | exact pvSafe_backupSTSToConfigMap _ _
    | exact pvSafe_setFailed _ _
    | exact pvSafe_deleteSTSOrphan _)

theorem pvSafe_handleSyncing (vr : VolumeResize) :
    PVSafe (handleSyncing vr) := by
  unfold MigController.handleSyncing
  repeat (first
    | with_reducible apply pvSafe_getPV_then
    | ((with_reducible apply pvSafeGiven_update_then); rfl)
    | with_reducible apply pvSafe_bind
    | intro _
    | dsimp only
    | split
    | exact pvSafe_pure _
    | exact pvSafeGiven_of_safe _ _ (pvSafe_pure _)
    | exact pvSafe_getEnv
    | exact pvSafe_timeNow
    | exact pvSafe_timeSleep _
    | exact pvSafe_ctxDoneOrAfter _
    | exact pvSafe_clientGet _ _ _
    | exact pvSafe_clientList _ _ _
    | exact pvSafe_clientCreate _ (by decide) _
    | exact pvSafe_clientUpdate _ (by decide) _
    | exact pvSafe_clientStatusUpdate _ (by decide) _
    | exact pvSafe_clientDelete _ (by decide) _ _ _
    | exact pvSafe_advance _ _ _
    | exact pvSafe_getPVC _ _
    | exact pvSafe_setFailed _ _
    | exact pvSafe_createTempPVC _ _ _ _
    | exact pvSafe_setRetainOnPV _
    | exact pvSafe_deleteSTS _
    | exact pvSafe_migrate _ _ _ _ _ _)

theorem pvSafe_handleReplacing (vr : VolumeResize) :
    PVSafe (handleReplacing vr) := by
  unfold MigController.handleReplacing
  repeat (first
    | with_reducible apply pvSafe_getPV_then
    | ((with_reducible apply pvSafeGiven_update_then); rfl)
    | with_reducible apply pvSafe_bind
    | intro _
    | dsimp only
    | split
    | exact pvSafe_pure _
    | exact pvSafeGiven_of_safe _ _ (pvSafe_pure _)
    | exact pvSafe_getEnv
    | exact pvSafe_timeNow
    | exact pvSafe_timeSleep _
    | exact pvSafe_ctxDoneOrAfter _
    | exact pvSafe_clientGet _ _ _
    | exact pvSafe_clientList _ _ _
    | exact pvSafe_clientCreate _ (by decide) _
    | exact pvSafe_clientUpdate _ (by decide) _
    | exact pvSafe_clientStatusUpdate _ (by decide) _
    | exact pvSafe_clientDelete _ (by decide) _ _ _)

theorem pvSafe_deleteAll (k : Kind) (hk : k ≠ Kind.pv) (l : List k.T) :
    PVSafe (handleDeletion.deleteAll k l) := by
  induction l with
  | nil => unfold handleDeletion.deleteAll; exact pvSafe_pure _
  | cons o rest ih =>
    unfold handleDeletion.deleteAll
    exact pvSafe_bind (pvSafe_clientDelete k hk _ _ _) (fun _ => ih)

theorem pvSafe_handleDeletion (vr : VolumeResize) :
    PVSafe (handleDeletion vr) := by
  unfold MigController.handleDeletion
  repeat (first
    | with_reducible apply pvSafe_getPV_then
    | ((with_reducible apply pvSafeGiven_update_then); rfl)
    | with_reducible apply pvSafe_bind
    | intro _
    | dsimp only
    | split
    | exact pvSafe_pure _
    | exact pvSafeGiven_of_safe _ _ (pvSafe_pure _)
    | exact pvSafe_getEnv
    | exact pvSafe_timeNow
    | exact pvSafe_timeSleep _
    | exact pvSafe_ctxDoneOrAfter _
    | exact pvSafe_clientGet _ _ _
    | exact pvSafe_clientList _ _ _
    | exact pvSafe_clientCreate _ (by decide) _
    | exact pvSafe_clientUpdate _ (by decide) _
    | exact pvSafe_clientStatusUpdate _ (by decide) _
    | exact pvSafe_clientDelete _ (by decide) _ _ _
    | exact pvSafe_deleteAll _ (by decide) _)

theorem pvSafe_Reconcile (ns name : String) :
    PVSafe (Reconcile ns name) := by
  unfold MigController.Reconcile
  repeat (first
    | with_reducible apply pvSafe_getPV_then
    | ((with_reducible apply pvSafeGiven_update_then); rfl)
    | with_reducible apply pvSafe_bind
    | intro _
    | dsimp only
    | split
    | exact pvSafe_pure _
    | exact pvSafeGiven_of_safe _ _ (pvSafe_pure _)
    | exact pvSafe_getEnv
    | exact pvSafe_timeNow
    | exact pvSafe_timeSleep _
    | exact pvSafe_ctxDoneOrAfter _
    | exact pvSafe_clientGet _ _ _
    | exact pvSafe_clientList _ _ _
    | exact pvSafe_clientCreate _ (by decide) _
    | exact pvSafe_clientUpdate _ (by decide) _
    | exact pvSafe_clientStatusUpdate _ (by decide) _
    | exact pvSafe_clientDelete _ (by decide) _ _ _
    | exact pvSafe_handleDeletion _
    | exact pvSafe_handlePending _
    | exact pvSafe_handleValidating _
    | exact pvSafe_handleSyncing _
    | exact pvSafe_handleReplacing _)

/-- C3: no step of the engine issues a delete (or a create) of a persistent volume:
in every run of `Reconcile`, from every state of the cluster, no request of the
log is one, and when nothing else touches the volumes the persistent volumes of
the cluster after the reconciliation are those before it (volumes are only
updated).  The same holds of each phase handler, of `createTempPVC`,
`setRetainOnPV`, `replacePVC` and `handleDeletion` run on their own. -/
theorem reconcile_never_deletes_volumes (ns name : String) (env : Env) (s : St) :
    (∀ c ∈ (Reconcile ns name env s).log,
      Op.isDelete Kind.pv c.op = false ∧ Op.isCreate Kind.pv c.op = false) ∧
    (DriftKeepsPVs env → pvNames (Reconcile ns name env s).st.world = pvNames s.world) ∧
    (∀ vr, PVSafe (handlePending vr) ∧ PVSafe (handleValidating vr) ∧ PVSafe (handleSyncing vr) ∧
      PVSafe (handleReplacing vr) ∧ PVSafe (handleDeletion vr)) ∧
    (∀ vr vol originalPVC replica, PVSafe (createTempPVC vr vol originalPVC replica)) ∧
    (∀ pvName, PVSafe (setRetainOnPV pvName)) ∧
    (∀ vr vol replica, PVSafe (replacePVC vr vol replica)) :=
  ⟨((pvSafe_Reconcile ns name).run env s).1, ((pvSafe_Reconcile ns name).run env s).2,
   fun vr => ⟨pvSafe_handlePending vr, pvSafe_handleValidating vr, pvSafe_handleSyncing vr,
     pvSafe_handleReplacing vr, pvSafe_handleDeletion vr⟩,
   fun vr vol originalPVC replica => pvSafe_createTempPVC vr vol originalPVC replica,
   fun pvName => pvSafe_setRetainOnPV pvName,
   fun vr vol replica => pvSafe_replacePVC vr vol replica⟩

/-- C3 at the reconciliation of `worldSync` in which the swap runs: the three
volumes of the cluster are still there, the old one included. -/
theorem reconcile_never_deletes_volumes_witness :
    DriftKeepsPVs envPodUnreadable ∧
    pvNames (Reconcile "default" "resize" envPodUnreadable { world := worldSync }).st.world =
      ["pv-old-0", "pv-old-1", "pv-new-0"] :=
  ⟨fun _ _ => rfl,
   ((reconcile_never_deletes_volumes "default" "resize" envPodUnreadable { world := worldSync }).2.1
      (fun _ _ => rfl)).trans (by decide)⟩

/-! ### The transient claim -/

theorem Client.Get_world (k : Kind) (ns name : String) (env : Env) (s : St) :
    (Client.Get k ns name env s).st.world = env.drift s.calls s.world := by
  unfold Client.Get call
  split <;> rfl

theorem Client.Get_val (k : Kind) (ns name : String) (env : Env) (s : St)
    (hf : env.fault s.calls = none) :
    (Client.Get k ns name env s).val = (env.drift s.calls s.world).serveGet k ns name := by
  unfold Client.Get call
  simp only [hf]

theorem Client.Create_val (k : Kind) (obj : k.T) (env : Env) (s : St)
    (hf : env.fault s.calls = none) :
    (Client.Create k obj env s).val = ((env.drift s.calls s.world).serveCreate k obj).1 ∧
    (Client.Create k obj env s).st.world = ((env.drift s.calls s.world).serveCreate k obj).2 := by
  unfold Client.Create call
  simp only [hf, and_self]

theorem call_calls {α : Type} (op : Op) (serve : World → Nat → Except Err α × World) (env : Env) (s : St) :
    (call op serve env s).st.calls = s.calls + 1 := by
  unfold call
  split <;> rfl

theorem createTempPVC_def (vr : VolumeResize) (vol : VolumeResizeTarget)
    (originalPVC : PersistentVolumeClaim) (replica : Int) :
    createTempPVC vr vol originalPVC replica = (do
      match ← getPVC vr.Meta.Namespace (getTempPVCName vol.Name vr.Spec.StatefulSetName replica) with
      | .ok existingPVC => pure (.ok existingPVC)
      | .error err =>
        if !IsNotFound err then
          pure (.error (err.wrap "failed to check for existing temp PVC: "))
        else
          match ← Client.Create Kind.pvc (tempClaim vr vol originalPVC replica) with
          | .error err => pure (.error (err.wrap "failed to create temp PVC: "))
          | .ok created => pure (.ok created)) := rfl

theorem createTempPVC_found (vr : VolumeResize) (vol : VolumeResizeTarget)
    (originalPVC : PersistentVolumeClaim) (replica : Int) (env : Env) (s : St)
    (existing : PersistentVolumeClaim)
    (h : (getPVC vr.Meta.Namespace (getTempPVCName vol.Name vr.Spec.StatefulSetName replica) env s).val =
      .ok existing) :
    (createTempPVC vr vol originalPVC replica env s).val = .ok existing ∧
    (createTempPVC vr vol originalPVC replica env s).log =
      [{ op := Op.get Kind.pvc vr.Meta.Namespace (getTempPVCName vol.Name vr.Spec.StatefulSetName replica),
         err := none }] ∧
    (createTempPVC vr vol originalPVC replica env s).st.world = env.drift s.calls s.world := by
  have hl : (getPVC vr.Meta.Namespace (getTempPVCName vol.Name vr.Spec.StatefulSetName replica) env s).log =
      [{ op := Op.get Kind.pvc vr.Meta.Namespace (getTempPVCName vol.Name vr.Spec.StatefulSetName replica),
         err := errOf (getPVC vr.Meta.Namespace
           (getTempPVCName vol.Name vr.Spec.StatefulSetName replica) env s).val }] := call_log _ _ env s
  have hw := Client.Get_world Kind.pvc vr.Meta.Namespace
    (getTempPVCName vol.Name vr.Spec.StatefulSetName replica) env s
  rw [createTempPVC_def]
  simp only [bind_val, bind_log, bind_st, h, hl, pure_val, pure_log, pure_st, errOf_ok, List.append_nil,
    true_and]
  exact hw

theorem createTempPVC_absent (vr : VolumeResize) (vol : VolumeResizeTarget)
    (originalPVC : PersistentVolumeClaim) (replica : Int) (env : Env) (s : St) (err : Err)
    (h : (getPVC vr.Meta.Namespace (getTempPVCName vol.Name vr.Spec.StatefulSetName replica) env s).val =
      .error err) (hnf : IsNotFound err = true) :
    (createTempPVC vr vol originalPVC replica env s).val =
      (match (Client.Create Kind.pvc (tempClaim vr vol originalPVC replica) env
          (getPVC vr.Meta.Namespace (getTempPVCName vol.Name vr.Spec.StatefulSetName replica) env s).st).val with
        | .error e => .error (e.wrap "failed to create temp PVC: ")
        | .ok created => .ok created) ∧
    (createTempPVC vr vol originalPVC replica env s).st =
      (Client.Create Kind.pvc (tempClaim vr vol originalPVC replica) env
          (getPVC vr.Meta.Namespace (getTempPVCName vol.Name vr.Spec.StatefulSetName replica) env s).st).st := by
  rw [createTempPVC_def]
  simp only [bind_val, bind_st, h, hnf, Bool.not_true, Bool.false_eq_true, if_false]
  cases hc : (Client.Create Kind.pvc (tempClaim vr vol originalPVC replica) env
        (getPVC vr.Meta.Namespace (getTempPVCName vol.Name vr.Spec.StatefulSetName replica) env s).st).val with
  | error e => simp only [pure_val, pure_st, and_self]
  | ok c => simp only [pure_val, pure_st, and_self]
theorem Client.Get_found (k : Kind) (ns name : String) (env : Env) (s : St) (o : k.T)
    (hf : env.fault s.calls = none)
    (hx : ((env.drift s.calls s.world).objs k).find? (k.hasKey ns name) = some o) :
    (Client.Get k ns name env s).val = .ok o := by
  rw [Client.Get_val k ns name env s hf]
  simp only [World.serveGet, hx]

theorem Client.Get_missing (k : Kind) (ns name : String) (env : Env) (s : St)
    (hf : env.fault s.calls = none)
    (hx : ((env.drift s.calls s.world).objs k).find? (k.hasKey ns name) = none) :
    (Client.Get k ns name env s).val = .error (notFoundErr k name) := by
  rw [Client.Get_val k ns name env s hf]
  simp only [World.serveGet, hx]

theorem tempClaim_hasKey (vr : VolumeResize) (vol : VolumeResizeTarget)
    (originalPVC : PersistentVolumeClaim) (replica : Int) :
    Kind.hasKey Kind.pvc vr.Meta.Namespace (getTempPVCName vol.Name vr.Spec.StatefulSetName replica)
      (tempClaim vr vol originalPVC replica) = true := by
  simp [Kind.hasKey, Kind.meta, tempClaim]

/-- C14: `createTempPVC` is idempotent by name.  When the read of the transient name
is answered and finds a claim, that claim is returned without error, the read
is the only request and the cluster is as the read found it; and in a calm run
two calls in a row return the same claim, the second one making only the read
and leaving the cluster as the first call left it. -/
theorem createTempPVC_idempotent (vr : VolumeResize) (vol : VolumeResizeTarget)
    (originalPVC : PersistentVolumeClaim) (replica : Int) (env : Env) (s : St) :
    (∀ existing : PersistentVolumeClaim, env.fault s.calls = none →
      (env.drift s.calls s.world).pvcs.find?
          (Kind.hasKey Kind.pvc vr.Meta.Namespace
            (getTempPVCName vol.Name vr.Spec.StatefulSetName replica)) = some existing →
      (createTempPVC vr vol originalPVC replica env s).val = .ok existing ∧
      (createTempPVC vr vol originalPVC replica env s).log =
        [{ op := Op.get Kind.pvc vr.Meta.Namespace (getTempPVCName vol.Name vr.Spec.StatefulSetName replica),
           err := none }] ∧
      (createTempPVC vr vol originalPVC replica env s).st.world = env.drift s.calls s.world) ∧
    (env.Calm → ∃ c : PersistentVolumeClaim,
      (createTempPVC vr vol originalPVC replica env s).val = .ok c ∧
      (createTempPVC vr vol originalPVC replica env
        (createTempPVC vr vol originalPVC replica env s).st).val = .ok c ∧
      (createTempPVC vr vol originalPVC replica env
        (createTempPVC vr vol originalPVC replica env s).st).st.world =
          (createTempPVC vr vol originalPVC replica env s).st.world ∧
      (createTempPVC vr vol originalPVC replica env
        (createTempPVC vr vol originalPVC replica env s).st).log =
        [{ op := Op.get Kind.pvc vr.Meta.Namespace (getTempPVCName vol.Name vr.Spec.StatefulSetName replica),
           err := none }]) := by
  have found : ∀ (s : St) (existing : PersistentVolumeClaim), env.fault s.calls = none →
      (env.drift s.calls s.world).pvcs.find?
          (Kind.hasKey Kind.pvc vr.Meta.Namespace
            (getTempPVCName vol.Name vr.Spec.StatefulSetName replica)) = some existing →
      (createTempPVC vr vol originalPVC replica env s).val = .ok existing ∧
      (createTempPVC vr vol originalPVC replica env s).log =
        [{ op := Op.get Kind.pvc vr.Meta.Namespace (getTempPVCName vol.Name vr.Spec.StatefulSetName replica),
           err := none }] ∧
      (createTempPVC vr vol originalPVC replica env s).st.world = env.drift s.calls s.world := by
    intro s existing hf hx
    exact createTempPVC_found vr vol originalPVC replica env s existing
      (Client.Get_found Kind.pvc _ _ env s existing hf hx)
  refine ⟨found s, ?_⟩
  intro hc
  cases hx : s.world.pvcs.find? (Kind.hasKey Kind.pvc vr.Meta.Namespace
      (getTempPVCName vol.Name vr.Spec.StatefulSetName replica)) with
  | some existing =>
    have h1 := found s existing (hc.1 _) (by rw [hc.2]; exact hx)
    rw [hc.2] at h1
    have h2 := found (createTempPVC vr vol originalPVC replica env s).st existing (hc.1 _)
      (by rw [hc.2, h1.2.2]; exact hx)
    rw [hc.2, h1.2.2] at h2
    exact ⟨existing, h1.1, h2.1, by rw [h2.2.2, h1.2.2], h2.2.1⟩
  | none =>
    have hg := Client.Get_missing Kind.pvc vr.Meta.Namespace
      (getTempPVCName vol.Name vr.Spec.StatefulSetName replica) env s (hc.1 _) (by rw [hc.2]; exact hx)
    have hgw := Client.Get_world Kind.pvc vr.Meta.Namespace
      (getTempPVCName vol.Name vr.Spec.StatefulSetName replica) env s
    rw [hc.2] at hgw
    have ha := createTempPVC_absent vr vol originalPVC replica env s _ hg rfl
    have hcr := Client.Create_val Kind.pvc (tempClaim vr vol originalPVC replica) env
      (getPVC vr.Meta.Namespace (getTempPVCName vol.Name vr.Spec.StatefulSetName replica) env s).st (hc.1 _)
    rw [hc.2] at hcr
    have hany : (s.world.pvcs.any (Kind.hasKey Kind.pvc vr.Meta.Namespace
        (getTempPVCName vol.Name vr.Spec.StatefulSetName replica))) = false := by
      rw [Bool.eq_false_iff]
      intro hany
      rw [List.any_eq_true] at hany
      obtain ⟨x, hx1, hx2⟩ := hany
      have := List.find?_eq_none.mp hx x hx1
      exact this hx2
    have hserve : (World.serveCreate (getPVC vr.Meta.Namespace
        (getTempPVCName vol.Name vr.Spec.StatefulSetName replica) env s).st.world Kind.pvc
        (tempClaim vr vol originalPVC replica)) =
        (.ok (tempClaim vr vol originalPVC replica),
          { s.world with pvcs := s.world.pvcs ++ [tempClaim vr vol originalPVC replica] }) := by
      show World.serveCreate (Client.Get Kind.pvc _ _ env s).st.world _ _ = _
      rw [hgw]
      unfold World.serveCreate
      have : (World.objs Kind.pvc s.world).any (Kind.hasKey Kind.pvc
          (Kind.meta Kind.pvc (tempClaim vr vol originalPVC replica)).Namespace
          (Kind.meta Kind.pvc (tempClaim vr vol originalPVC replica)).Name) = false := hany
      rw [this]
      rfl
    rw [hserve] at hcr
    have h1v : (createTempPVC vr vol originalPVC replica env s).val =
        .ok (tempClaim vr vol originalPVC replica) := by
      rw [ha.1, hcr.1]
    have h1w : (createTempPVC vr vol originalPVC replica env s).st.world =
        { s.world with pvcs := s.world.pvcs ++ [tempClaim vr vol originalPVC replica] } := by
      rw [ha.2, hcr.2]
    have h2 := found (createTempPVC vr vol originalPVC replica env s).st
      (tempClaim vr vol originalPVC replica) (hc.1 _)
      (by
        rw [hc.2, h1w]
        show (s.world.pvcs ++ [tempClaim vr vol originalPVC replica]).find? _ = _
        rw [List.find?_append, hx]
        simp [tempClaim_hasKey])
    rw [hc.2] at h2
    exact ⟨_, h1v, h2.1, h2.2.2, h2.2.1⟩

theorem createTempPVC_idempotent_witness :
    envQuiet.Calm ∧ ∃ c : PersistentVolumeClaim,
      (createTempPVC vrSync { Name := "data", NewSize := fiveHundredMi } (pvcWeb 0) 0 envQuiet
        { world := worldWeb }).val = .ok c ∧
      (createTempPVC vrSync { Name := "data", NewSize := fiveHundredMi } (pvcWeb 0) 0 envQuiet
        (createTempPVC vrSync { Name := "data", NewSize := fiveHundredMi } (pvcWeb 0) 0 envQuiet
          { world := worldWeb }).st).val = .ok c ∧
      (createTempPVC vrSync { Name := "data", NewSize := fiveHundredMi } (pvcWeb 0) 0 envQuiet
        (createTempPVC vrSync { Name := "data", NewSize := fiveHundredMi } (pvcWeb 0) 0 envQuiet
          { world := worldWeb }).st).st.world =
        (createTempPVC vrSync { Name := "data", NewSize := fiveHundredMi } (pvcWeb 0) 0 envQuiet
          { world := worldWeb }).st.world ∧
      (createTempPVC vrSync { Name := "data", NewSize := fiveHundredMi } (pvcWeb 0) 0 envQuiet
        (createTempPVC vrSync { Name := "data", NewSize := fiveHundredMi } (pvcWeb 0) 0 envQuiet
          { world := worldWeb }).st).log =
        [{ op := Op.get Kind.pvc "default" (getTempPVCName "data" "web" 0), err := none }] :=
  ⟨⟨fun _ => rfl, fun _ _ => rfl⟩,
    (createTempPVC_idempotent vrSync { Name := "data", NewSize := fiveHundredMi } (pvcWeb 0) 0 envQuiet
      { world := worldWeb }).2 ⟨fun _ => rfl, fun _ _ => rfl⟩⟩

theorem Client.Create_ok (k : Kind) (obj : k.T) (env : Env) (s : St) (c : k.T)
    (h : (Client.Create k obj env s).val = .ok c) : c = obj := by
  unfold Client.Create call at h
  split at h
  · simp at h
  · simp only [World.serveCreate] at h
    split at h
    · simp at h
    · simp only [Except.ok.injEq] at h
      exact h.symm

/-- C15, as the code has it: a claim returned by `createTempPVC` has the transient
name in the namespace of the request; when the read found no claim of that name
the claim returned is the one this call created: it requests the new size, has
the access modes of the original claim, the storage class of the target when
that is set and of the original claim otherwise, and the label
`storage.maurice.fr/migration-name` with the name of the request.  A claim that
was found is returned as it is. -/
theorem createTempPVC_returned_claim (vr : VolumeResize) (vol : VolumeResizeTarget)
    (originalPVC : PersistentVolumeClaim) (replica : Int) (env : Env) (s : St)
    (c : PersistentVolumeClaim)
    (h : (createTempPVC vr vol originalPVC replica env s).val = .ok c) :
    c.Meta.Name = getOriginalPVCName vol.Name vr.Spec.StatefulSetName replica ++ "-new" ∧
    c.Meta.Namespace = vr.Meta.Namespace ∧
    ((getPVC vr.Meta.Namespace (getTempPVCName vol.Name vr.Spec.StatefulSetName replica) env s).val = .ok c ∨
      ((∃ e, (getPVC vr.Meta.Namespace
          (getTempPVCName vol.Name vr.Spec.StatefulSetName replica) env s).val = .error e) ∧
        c.Spec.Requests = [(ResourceStorage, vol.NewSize)] ∧
        c.Spec.Requests.get? ResourceStorage = some vol.NewSize ∧
        c.Spec.AccessModes = originalPVC.Spec.AccessModes ∧
        (∀ sc, vol.StorageClass = some sc → c.Spec.StorageClassName = some sc) ∧
        (vol.StorageClass = none → c.Spec.StorageClassName = originalPVC.Spec.StorageClassName) ∧
        c.Meta.Labels.get? LabelMigrationName = some vr.Meta.Name)) := by
  have hname : getOriginalPVCName vol.Name vr.Spec.StatefulSetName replica ++ "-new" =
      getTempPVCName vol.Name vr.Spec.StatefulSetName replica := rfl
  rw [hname]
  cases hg : (getPVC vr.Meta.Namespace (getTempPVCName vol.Name vr.Spec.StatefulSetName replica) env s).val with
  | ok existing =>
    have hf := createTempPVC_found vr vol originalPVC replica env s existing hg
    rw [hf.1] at h
    simp only [Except.ok.injEq] at h
    subst h
    have hn := Client.Get_ok_name Kind.pvc _ _ env s existing hg
    exact ⟨hn.1, hn.2, Or.inl rfl⟩
  | error e =>
    by_cases hnf : IsNotFound e = true
    · have ha := createTempPVC_absent vr vol originalPVC replica env s e hg hnf
      rw [ha.1] at h
      cases hc : (Client.Create Kind.pvc (tempClaim vr vol originalPVC replica) env
          (getPVC vr.Meta.Namespace (getTempPVCName vol.Name vr.Spec.StatefulSetName replica) env s).st).val with
      | error e2 => rw [hc] at h; simp at h
      | ok created =>
        rw [hc] at h
        simp only [Except.ok.injEq] at h
        subst h
        have := Client.Create_ok Kind.pvc _ env _ created hc
        subst this
        refine ⟨rfl, rfl, Or.inr ⟨⟨e, rfl⟩, rfl, ?_, rfl, ?_, ?_, ?_⟩⟩
        · simp [tempClaim, ResourceList.get?]
        · intro sc hsc
          simp [tempClaim, hsc]
        · intro hsc
          simp [tempClaim, hsc]
        · simp [tempClaim, StrMap.get?]
    · rw [createTempPVC_def] at h
      simp only [bind_val, hg, hnf, Bool.not_false, if_true, pure_val] at h
      simp at h

theorem createTempPVC_returned_claim_witness :
    (createTempPVC vrSync { Name := "data", NewSize := fiveHundredMi } (pvcWeb 0) 0 envQuiet
        { world := worldWeb }).val =
      .ok (tempClaim vrSync { Name := "data", NewSize := fiveHundredMi } (pvcWeb 0) 0) ∧
    (tempClaim vrSync { Name := "data", NewSize := fiveHundredMi } (pvcWeb 0) 0).Meta.Name =
      getOriginalPVCName "data" "web" 0 ++ "-new" :=
  ⟨rfl, (createTempPVC_returned_claim vrSync { Name := "data", NewSize := fiveHundredMi } (pvcWeb 0) 0
    envQuiet { world := worldWeb } _ rfl).1⟩

/-- C15 fails on the code: a claim of the transient name that is already in the
cluster is returned as it is, here one without a storage request, with other
access modes, another storage class and without the migration label. -/
theorem createTempPVC_returns_stale_claim :
    (createTempPVC vrSync { Name := "data", NewSize := fiveHundredMi } (pvcWeb 0) 0 envQuiet
        { world := worldStale }).val.toOption = some pvcStale ∧
    pvcStale.Spec.Requests.get? ResourceStorage = none ∧
    pvcStale.Spec.AccessModes ≠ (pvcWeb 0).Spec.AccessModes ∧
    pvcStale.Spec.StorageClassName ≠ (pvcWeb 0).Spec.StorageClassName ∧
    pvcStale.Meta.Labels.get? LabelMigrationName = none := by
  decide

/-! ### The reclaim policy -/

theorem Client.Update_val (k : Kind) (obj : k.T) (env : Env) (s : St)
    (hf : env.fault s.calls = none) :
    (Client.Update k obj env s).val = ((env.drift s.calls s.world).serveUpdate k obj).1 ∧
    (Client.Update k obj env s).st.world = ((env.drift s.calls s.world).serveUpdate k obj).2 := by
  unfold Client.Update call
  simp only [hf, and_self]

theorem serveUpdate_retained (w : World) (pvName : String) (pv : PersistentVolume)
    (hx : w.pvs.find? (Kind.hasKey Kind.pv "" pvName) = some pv) :
    w.serveUpdate Kind.pv (retained pv) =
      (.ok (retained pv),
        { w with pvs := replaceFirst (Kind.hasKey Kind.pv "" pvName) (retained pv) w.pvs }) := by
  have hn := find?_hasKey_name Kind.pv w.pvs "" pvName pv hx
  have hk : (Kind.meta Kind.pv (retained pv)).Namespace = "" ∧
      (Kind.meta Kind.pv (retained pv)).Name = pvName := ⟨hn.2, hn.1⟩
  unfold World.serveUpdate
  rw [hk.1, hk.2]
  have hx2 : (World.objs Kind.pv w).find? (Kind.hasKey Kind.pv "" pvName) = some pv := hx
  rw [hx2]
  have hl : Kind.lastFinalizerRemoved Kind.pv pv (retained pv) = false := by
    simp only [Kind.lastFinalizerRemoved, Kind.meta, retained]
    cases pv.Meta.Finalizers.isEmpty <;> simp
  simp only [hl, Bool.false_eq_true, if_false]
  rfl

/-- C16: in a calm run `setRetainOnPV` on a volume that is in the cluster succeeds.
When the policy of the volume is already Retain the only request is the read
and the cluster is left as it was.  Otherwise the only write is one update that
carries the volume as fetched with the policy Retain (same metadata, capacity,
claim reference and storage class), and the cluster afterwards differs only in
that this volume is replaced by the one sent. -/
theorem setRetainOnPV_spec (pvName : String) (env : Env) (s : St) (pv : PersistentVolume)
    (hc : env.Calm) (hx : s.world.pvs.find? (Kind.hasKey Kind.pv "" pvName) = some pv) :
    (setRetainOnPV pvName env s).val = none ∧
    (pv.Spec.PersistentVolumeReclaimPolicy = PersistentVolumeReclaimRetain →
      (setRetainOnPV pvName env s).log = [{ op := Op.get Kind.pv "" pvName, err := none }] ∧
      (setRetainOnPV pvName env s).st.world = s.world) ∧
    (pv.Spec.PersistentVolumeReclaimPolicy ≠ PersistentVolumeReclaimRetain →
      (setRetainOnPV pvName env s).log =
        [{ op := Op.get Kind.pv "" pvName, err := none },
         { op := Op.update Kind.pv (retained pv), err := none }] ∧
      (setRetainOnPV pvName env s).st.world =
        { s.world with pvs := replaceFirst (Kind.hasKey Kind.pv "" pvName) (retained pv) s.world.pvs }) ∧
    (retained pv).Spec.PersistentVolumeReclaimPolicy = PersistentVolumeReclaimRetain ∧
    (retained pv).Meta = pv.Meta ∧ (retained pv).Spec.Capacity = pv.Spec.Capacity ∧
    (retained pv).Spec.ClaimRef = pv.Spec.ClaimRef ∧
    (retained pv).Spec.StorageClassName = pv.Spec.StorageClassName := by
  have hg : (Client.Get Kind.pv "" pvName env s).val = .ok pv :=
    Client.Get_found Kind.pv "" pvName env s pv (hc.1 _) (by rw [hc.2]; exact hx)
  have hgw := Client.Get_world Kind.pv "" pvName env s
  rw [hc.2] at hgw
  have hgl : (Client.Get Kind.pv "" pvName env s).log =
      [{ op := Op.get Kind.pv "" pvName, err := errOf (Client.Get Kind.pv "" pvName env s).val }] :=
    call_log _ _ env s
  rw [hg] at hgl
  have hu := Client.Update_val Kind.pv (retained pv) env (Client.Get Kind.pv "" pvName env s).st (hc.1 _)
  rw [hc.2, hgw, serveUpdate_retained s.world pvName pv hx] at hu
  have hul : (Client.Update Kind.pv (retained pv) env (Client.Get Kind.pv "" pvName env s).st).log =
      [{ op := Op.update Kind.pv (retained pv),
         err := errOf (Client.Update Kind.pv (retained pv) env (Client.Get Kind.pv "" pvName env s).st).val }] :=
    call_log _ _ env _
  rw [hu.1] at hul
  have hu1 := hu.1
  have hu2 := hu.2
  unfold retained at hu1 hu2 hul
  refine ⟨?_, ?_, ?_, rfl, rfl, rfl, rfl, rfl⟩
  · unfold setRetainOnPV
    simp only [bind_val, hg]
    split
    · rfl
    · simp only [bind_val, hu1, pure_val]
  · intro hp
    unfold setRetainOnPV
    simp only [bind_log, bind_st, hg, hgl, hp, if_true, pure_log, pure_st, errOf_ok, List.append_nil,
      true_and]
    exact hgw
  · intro hp
    unfold setRetainOnPV
    simp only [bind_log, bind_st, hg, hgl, hp, if_false, hul, hu1, pure_log, pure_st, errOf_ok,
      List.append_nil, List.singleton_append, true_and, retained]
    exact hu2

theorem setRetainOnPV_spec_witness :
    envQuiet.Calm ∧
    worldSync.pvs.find? (Kind.hasKey Kind.pv "" "pv-old-0") =
      some { Meta := { Name := "pv-old-0" },
             Spec := { PersistentVolumeReclaimPolicy := PersistentVolumeReclaimDelete } } ∧
    (setRetainOnPV "pv-old-0" envQuiet { world := worldSync }).val = none :=
  ⟨⟨fun _ => rfl, fun _ _ => rfl⟩, by decide,
    (setRetainOnPV_spec "pv-old-0" envQuiet { world := worldSync }
      { Meta := { Name := "pv-old-0" },
        Spec := { PersistentVolumeReclaimPolicy := PersistentVolumeReclaimDelete } }
      ⟨fun _ => rfl, fun _ _ => rfl⟩ (by decide)).1⟩

/-! ### The claim created by the swap -/

theorem endsAt_pure_some (c : Call) (e : Err) (env : Env) (s : St) :
    EndsAt c ((pure (some e) : M (Option Err)) env s) := by
  intro h
  simp at h

theorem endsAt_bind {α : Type} (c : Call) (m : M α) (f : α → M (Option Err)) (env : Env) (s : St)
    (h : EndsAt c (f (m env s).val env (m env s).st)) : EndsAt c ((m >>= f) env s) := by
  intro hv
  have h2 := h hv
  rw [bind_log]
  cases hl : (f (m env s).val env (m env s).st).log with
  | nil => rw [hl] at h2; simp at h2
  | cons x xs =>
    rw [hl] at h2
    rw [List.getLast?_append_of_ne_nil _ (by simp)]
    exact h2

theorem endsAt_create (k : Kind) (obj : k.T) (f : Except Err k.T → M (Option Err)) (env : Env) (s : St)
    (hf : ∀ r env s, (f r env s).log = [] ∧ ((f r env s).val = none → errOf r = none)) :
    EndsAt { op := Op.create k obj, err := none } ((Client.Create k obj >>= f) env s) := by
  intro hv
  rw [bind_val] at hv
  rw [bind_log, (hf _ _ _).1, List.append_nil, Client.Create_log, (hf _ _ _).2 hv]
  rfl

theorem endsWith_pure_some (c : Call) (e : Err) : EndsWith c (pure (some e)) :=
  ⟨fun env s => endsAt_pure_some c e env s⟩

theorem endsWith_bind {α : Type} (c : Call) (m : M α) (f : α → M (Option Err))
    (h : ∀ a, EndsWith c (f a)) : EndsWith c (m >>= f) :=
  ⟨fun env s => endsAt_bind c m f env s ((h _).run _ _)⟩

theorem endsWith_create (k : Kind) (obj : k.T) (f : Except Err k.T → M (Option Err))
    (hf : ∀ r env s, (f r env s).log = [] ∧ ((f r env s).val = none → errOf r = none)) :
    EndsWith { op := Op.create k obj, err := none } (Client.Create k obj >>= f) :=
  ⟨fun env s => endsAt_create k obj f env s hf⟩

/-- C17: when `replacePVC` returns without error, it has read the transient claim
and the original claim, and its last request is a successful create of a claim
in the namespace of the request that bears the original name, is bound by
`volumeName` to the volume of the transient claim, has the access modes and the
storage class of the transient claim, requests the new size and carries the
labels of the original claim. -/
theorem replacePVC_last_create (vr : VolumeResize) (vol : VolumeResizeTarget) (replica : Int)
    (env : Env) (s : St) (h : (replacePVC vr vol replica env s).val = none) :
    ∃ tempPVC originalPVC newPVC : PersistentVolumeClaim,
      (getPVC vr.Meta.Namespace (getTempPVCName vol.Name vr.Spec.StatefulSetName replica) env s).val =
        .ok tempPVC ∧
      (getPVC vr.Meta.Namespace (getOriginalPVCName vol.Name vr.Spec.StatefulSetName replica) env
        (getPVC vr.Meta.Namespace (getTempPVCName vol.Name vr.Spec.StatefulSetName replica) env s).st).val =
        .ok originalPVC ∧
      (replacePVC vr vol replica env s).log.getLast? = some { op := Op.create Kind.pvc newPVC, err := none } ∧
      newPVC.Meta.Namespace = vr.Meta.Namespace ∧
      newPVC.Meta.Name = getOriginalPVCName vol.Name vr.Spec.StatefulSetName replica ∧
      newPVC.Spec.VolumeName = tempPVC.Spec.VolumeName ∧
      newPVC.Spec.AccessModes = tempPVC.Spec.AccessModes ∧
      newPVC.Spec.StorageClassName = tempPVC.Spec.StorageClassName ∧
      newPVC.Spec.Requests.get? ResourceStorage = some vol.NewSize ∧
      newPVC.Meta.Labels = originalPVC.Meta.Labels := by
  cases h1 : (getPVC vr.Meta.Namespace (getTempPVCName vol.Name vr.Spec.StatefulSetName replica) env s).val with
  | error e =>
    unfold replacePVC at h
    rw [bind_val, h1] at h
    simp at h
  | ok tempPVC =>
    by_cases hv : tempPVC.Spec.VolumeName = ""
    · unfold replacePVC at h
      rw [bind_val, h1] at h
      simp [hv] at h
    · cases h2 : (getPVC vr.Meta.Namespace (getOriginalPVCName vol.Name vr.Spec.StatefulSetName replica) env
          (getPVC vr.Meta.Namespace (getTempPVCName vol.Name vr.Spec.StatefulSetName replica) env s).st).val with
      | error e =>
        unfold replacePVC at h
        rw [bind_val, h1] at h
        simp only [hv, if_false] at h
        rw [bind_val, h2] at h
        simp at h
      | ok originalPVC =>
        refine ⟨tempPVC, originalPVC, swappedClaim vr vol replica tempPVC originalPVC, rfl, rfl, ?_,
          rfl, rfl, rfl, rfl, rfl, ?_, rfl⟩
        · have key : EndsAt ⟨Op.create Kind.pvc (swappedClaim vr vol replica tempPVC originalPVC), none⟩
              (replacePVC vr vol replica env s) := by
            unfold replacePVC
            apply endsAt_bind
            rw [h1]
            dsimp only
            rw [if_neg hv]
            apply endsAt_bind
            rw [h2]
            dsimp only
            apply EndsWith.run
            repeat (first
              | exact endsWith_pure_some _ _
              | exact endsWith_create _ _ _ (by intro r env s; cases r <;> simp)
              | apply endsWith_bind
              | intro _
              | dsimp only
              | split)
          exact key h
        · simp [swappedClaim, ResourceList.get?]

theorem replacePVC_last_create_witness :
    (replacePVC vrSync { Name := "data", NewSize := fiveHundredMi } 0 envQuiet { world := worldSync }).val =
      none ∧
    ∃ tempPVC originalPVC newPVC : PersistentVolumeClaim,
      (getPVC "default" (getTempPVCName "data" "web" 0) envQuiet { world := worldSync }).val = .ok tempPVC ∧
      (getPVC "default" (getOriginalPVCName "data" "web" 0) envQuiet
        (getPVC "default" (getTempPVCName "data" "web" 0) envQuiet { world := worldSync }).st).val =
        .ok originalPVC ∧
      (replacePVC vrSync { Name := "data", NewSize := fiveHundredMi } 0 envQuiet
        { world := worldSync }).log.getLast? = some { op := Op.create Kind.pvc newPVC, err := none } ∧
      newPVC.Meta.Namespace = "default" ∧
      newPVC.Meta.Name = getOriginalPVCName "data" "web" 0 ∧
      newPVC.Spec.VolumeName = tempPVC.Spec.VolumeName ∧
      newPVC.Spec.AccessModes = tempPVC.Spec.AccessModes ∧
      newPVC.Spec.StorageClassName = tempPVC.Spec.StorageClassName ∧
      newPVC.Spec.Requests.get? ResourceStorage = some fiveHundredMi ∧
      newPVC.Meta.Labels = originalPVC.Meta.Labels :=
  ⟨by decide, replacePVC_last_create vrSync { Name := "data", NewSize := fiveHundredMi } 0 envQuiet
    { world := worldSync } (by decide)⟩

/-! ### The waits of the swap -/

/-- C18 fails on the code: the transient claim carries the finalizer
`kubernetes.io/pvc-protection`, so its delete only marks it and every one of the
60 polls finds it.  The loop then ends and `replacePVC` goes on: it fetches the
new volume, clears its claim reference, deletes the original claim, creates the
new claim and returns no error, with the transient claim still in the cluster. -/
theorem replacePVC_goes_on_after_sixty_polls :
    ((replacePVC vrSync { Name := "data", NewSize := fiveHundredMi } 0 envQuiet
        { world := worldProtected }).log.map Call.summary).take 5 =
      ["get persistentvolumeclaims default/data-web-0-new: ok",
       "get persistentvolumeclaims default/data-web-0: ok",
       "get persistentvolumes /pv-new-0: ok", "update persistentvolumes /pv-new-0: ok",
       "delete persistentvolumeclaims default/data-web-0-new: ok"] ∧
    (((replacePVC vrSync { Name := "data", NewSize := fiveHundredMi } 0 envQuiet
        { world := worldProtected }).log.map Call.summary).drop 5).take 60 =
      List.replicate 60 "get persistentvolumeclaims default/data-web-0-new: ok" ∧
    ((replacePVC vrSync { Name := "data", NewSize := fiveHundredMi } 0 envQuiet
        { world := worldProtected }).log.map Call.summary).drop 65 =
      ["get persistentvolumes /pv-new-0: ok", "update persistentvolumes /pv-new-0: ok",
       "delete persistentvolumeclaims default/data-web-0: ok",
       String.join ["get persistentvolumeclaims default/data-web-0: persistentvolumeclaims ",
         goQuote serverWide "data-web-0", " not found"],
       "create persistentvolumeclaims default/data-web-0: ok"] ∧
    (replacePVC vrSync { Name := "data", NewSize := fiveHundredMi } 0 envQuiet
        { world := worldProtected }).val = none ∧
    (replacePVC vrSync { Name := "data", NewSize := fiveHundredMi } 0 envQuiet
        { world := worldProtected }).st.world.pvcs.map (fun pvc => (pvc.Meta.Name, pvc.Spec.VolumeName)) =
      [("data-web-1", "pv-old-1"), ("data-web-0-new", "pv-new-0"), ("data-web-0", "pv-new-0")] ∧
    (replacePVC vrSync { Name := "data", NewSize := fiveHundredMi } 0 envQuiet
        { world := worldProtected }).st.world.pvs.map (fun pv => (pv.Meta.Name, pv.Spec.ClaimRef.isSome)) =
      [("pv-old-0", false), ("pv-old-1", false), ("pv-new-0", false)] := by
  decide

/-! ### The backup of the parent workload -/

theorem recreateSTS_def (stsSpec : StatefulSet) :
    recreateSTS stsSpec = (do
      match ← Client.Create Kind.statefulSet (recreatedSTS stsSpec) with
      | .error err => pure (some (err.wrap "failed to recreate StatefulSet: "))
      | .ok _ => pure none) := rfl

theorem recreateSTS_log (stsSpec : StatefulSet) (env : Env) (s : St) :
    (recreateSTS stsSpec env s).log =
      [{ op := Op.create Kind.statefulSet (recreatedSTS stsSpec)
         err := errOf (Client.Create Kind.statefulSet (recreatedSTS stsSpec) env s).val }] := by
  rw [recreateSTS_def]
  simp only [bind_log, Client.Create_log]
  cases (Client.Create Kind.statefulSet (recreatedSTS stsSpec) env s).val <;> simp

theorem backupSTSToConfigMap_def (vr : VolumeResize) (sts : StatefulSet) :
    backupSTSToConfigMap vr sts = (do
      match ← Client.Get Kind.configMap vr.Meta.Namespace (getSTSBackupConfigMapName vr.Meta.Name) with
      | .ok _ => pure none
      | .error err =>
        if !IsNotFound err then
          pure (some (err.wrap "failed to check for existing backup ConfigMap: "))
        else
          match (← getEnv).jsonMarshal sts with
          | .error err => pure (some (err.wrap "failed to serialize StatefulSet: "))
          | .ok stsJSON =>
            match ← Client.Create Kind.configMap (backupConfigMap vr stsJSON) with
            | .error err => pure (some (err.wrap "failed to create backup ConfigMap: "))
            | .ok _ => pure none) := rfl

theorem any_false_of_find?_none {α : Type} (p : α → Bool) (l : List α) (h : l.find? p = none) :
    l.any p = false := by
  rw [Bool.eq_false_iff]
  intro hany
  rw [List.any_eq_true] at hany
  obtain ⟨x, hx1, hx2⟩ := hany
  exact List.find?_eq_none.mp h x hx1 hx2

theorem serveCreate_absent (w : World) (k : Kind) (obj : k.T)
    (h : (w.objs k).any (k.hasKey (k.meta obj).Namespace (k.meta obj).Name) = false) :
    w.serveCreate k obj = (.ok obj, w.setObjs k (w.objs k ++ [obj])) := by
  unfold World.serveCreate
  simp only [h, Bool.false_eq_true, if_false]

/-- C20: in a calm run with no backup object in the cluster, for a workload `W`
that the JSON encoding carries over unchanged, `backupSTSToConfigMap` succeeds
and `getSTSFromBackupConfigMap` then returns `W`; and the one request of
`recreateSTS W` is a create of a workload with the name, namespace, labels,
annotations and spec of `W` and with resource version, UID, creation timestamp,
generation and managed fields cleared, which, when no workload of that name is
in the cluster, succeeds and puts that workload there. -/
theorem backup_restore_round_trip (vr : VolumeResize) (W : StatefulSet) (env : Env) (s : St) (j : String)
    (hc : env.Calm)
    (hno : s.world.configMaps.find?
      (Kind.hasKey Kind.configMap vr.Meta.Namespace (getSTSBackupConfigMapName vr.Meta.Name)) = none)
    (hm : env.jsonMarshal W = .ok j) (hu : env.jsonUnmarshal j = .ok W) :
    (backupSTSToConfigMap vr W env s).val = none ∧
    (getSTSFromBackupConfigMap vr.Meta.Namespace vr.Meta.Name env (backupSTSToConfigMap vr W env s).st).val =
      .ok W ∧
    ∀ s2 : St, ∃ newSTS : StatefulSet,
      (recreateSTS W env s2).log.map (fun c => c.op) = [Op.create Kind.statefulSet newSTS] ∧
      newSTS.Meta.Name = W.Meta.Name ∧ newSTS.Meta.Namespace = W.Meta.Namespace ∧
      newSTS.Meta.Labels = W.Meta.Labels ∧ newSTS.Meta.Annotations = W.Meta.Annotations ∧
      newSTS.Spec = W.Spec ∧
      newSTS.Meta.ResourceVersion = "" ∧ newSTS.Meta.UID = "" ∧ newSTS.Meta.CreationTimestamp = 0 ∧
      newSTS.Meta.Generation = 0 ∧ newSTS.Meta.ManagedFields = [] ∧
      (s2.world.statefulSets.any (Kind.hasKey Kind.statefulSet W.Meta.Namespace W.Meta.Name) = false →
        (recreateSTS W env s2).val = none ∧
        (recreateSTS W env s2).st.world.statefulSets = s2.world.statefulSets ++ [newSTS]) := by
  have hg := Client.Get_missing Kind.configMap vr.Meta.Namespace (getSTSBackupConfigMapName vr.Meta.Name)
    env s (hc.1 _) (by rw [hc.2]; exact hno)
  have hgw := Client.Get_world Kind.configMap vr.Meta.Namespace (getSTSBackupConfigMapName vr.Meta.Name) env s
  rw [hc.2] at hgw
  have hb : (backupSTSToConfigMap vr W env s).val = none ∧
      (backupSTSToConfigMap vr W env s).st.world =
        { s.world with configMaps := s.world.configMaps ++ [backupConfigMap vr j] } := by
    have hcr := Client.Create_val Kind.configMap (backupConfigMap vr j) env
      (Client.Get Kind.configMap vr.Meta.Namespace (getSTSBackupConfigMapName vr.Meta.Name) env s).st (hc.1 _)
    rw [hc.2, hgw, serveCreate_absent s.world Kind.configMap (backupConfigMap vr j)
      (any_false_of_find?_none _ _ hno)] at hcr
    rw [backupSTSToConfigMap_def]
    simp only [bind_val, bind_st, hg, notFoundErr, IsNotFound, beq_self_eq_true, Bool.not_true,
      Bool.false_eq_true, if_false, getEnv, hm, hcr.1, hcr.2, pure_val, pure_st, true_and]
    rfl
  refine ⟨hb.1, ?_, ?_⟩
  · have hg2 := Client.Get_found Kind.configMap vr.Meta.Namespace (getSTSBackupConfigMapName vr.Meta.Name)
      env (backupSTSToConfigMap vr W env s).st (backupConfigMap vr j) (hc.1 _)
      (by
        rw [hc.2, hb.2]
        show (s.world.configMaps ++ _).find? _ = _
        rw [List.find?_append, hno]
        simp [Kind.hasKey, Kind.meta, backupConfigMap])
    have hd : (backupConfigMap vr j).Data.get? ConfigMapKeySTSSpec = some j := by
      simp [backupConfigMap, StrMap.get?]
    unfold getSTSFromBackupConfigMap
    simp only [bind_val, bind_st, hg2, hd, getEnv, hu, pure_val]
  · intro s2
    refine ⟨recreatedSTS W, ?_, rfl, rfl, rfl, rfl, rfl, rfl, rfl, rfl, rfl, rfl, ?_⟩
    · rw [recreateSTS_log]
      rfl
    · intro habs
      have hcr := Client.Create_val Kind.statefulSet (recreatedSTS W) env s2 (hc.1 _)
      rw [hc.2, serveCreate_absent s2.world Kind.statefulSet (recreatedSTS W) habs] at hcr
      rw [recreateSTS_def]
      simp only [bind_val, bind_st, hcr.1, pure_val, pure_st, hcr.2, true_and]
      rfl

theorem backup_restore_round_trip_witness :
    envQuiet.Calm ∧
    worldSync.configMaps.find?
      (Kind.hasKey Kind.configMap "default" (getSTSBackupConfigMapName "resize")) = none ∧
    envQuiet.jsonMarshal stsWeb = .ok "web.json" ∧ envQuiet.jsonUnmarshal "web.json" = .ok stsWeb ∧
    (getSTSFromBackupConfigMap "default" "resize" envQuiet
      (backupSTSToConfigMap vrSync stsWeb envQuiet { world := worldSync }).st).val = .ok stsWeb :=
  ⟨⟨fun _ => rfl, fun _ _ => rfl⟩, by decide, rfl, rfl,
    (backup_restore_round_trip vrSync stsWeb envQuiet { world := worldSync } "web.json"
      ⟨fun _ => rfl, fun _ _ => rfl⟩ (by decide) rfl rfl).2.1⟩

/-! ### Re-entry into a pair that is already Completed -/

/-- C12 fails on the code: in the state a reconciliation leaves when it stops between
the status write of the completed pair and the recreation of the parent, the
next reconciliation finds the pair Completed and only advances the cursor: its
two requests are the read of the request and one status write, and none is a
create of the parent.  When the pair is the last one the request goes to phase
Completed with the parent still absent and the annotation still "true"; when it
is not, the cursor moves to the next pair with the parent still absent. -/
theorem handleSyncing_skips_recreate_after_crash :
    (Reconcile "default" "resize" envQuiet
        { world := worldCrashed [statusOf 0 VolumeStatusCompleted] }).log.map Call.summary =
      ["get volumeresizes.storage.maurice.fr default/resize: ok",
       "update status volumeresizes.storage.maurice.fr default/resize: ok"] ∧
    (Reconcile "default" "resize" envQuiet
        { world := worldCrashed [statusOf 0 VolumeStatusCompleted] }).val =
      Ret.ret { Requeue := true } none ∧
    (Reconcile "default" "resize" envQuiet
        { world := worldCrashed [statusOf 0 VolumeStatusCompleted] }).st.world.volumeResizes.map
        (fun vr => (vr.Status.Phase, vr.Status.CurrentReplica, vr.Status.CurrentVolume,
          vr.Meta.Annotations.get? AnnotationSTSDeleted)) =
      [("Completed", none, "", some "true")] ∧
    (Reconcile "default" "resize" envQuiet
        { world := worldCrashed [statusOf 0 VolumeStatusCompleted] }).st.world.statefulSets = [] ∧
    (Reconcile "default" "resize" envQuiet
        { world := worldCrashed [statusOf 0 VolumeStatusCompleted, statusOf 1 VolumeStatusPending] }).log.map
        Call.summary =
      ["get volumeresizes.storage.maurice.fr default/resize: ok",
       "update status volumeresizes.storage.maurice.fr default/resize: ok"] ∧
    (Reconcile "default" "resize" envQuiet
        { world := worldCrashed [statusOf 0 VolumeStatusCompleted,
            statusOf 1 VolumeStatusPending] }).st.world.volumeResizes.map
        (fun vr => (vr.Status.Phase, vr.Status.CurrentReplica, vr.Status.CurrentVolume,
          vr.Meta.Annotations.get? AnnotationSTSDeleted)) =
      [("Syncing", some 1, "data", some "true")] ∧
    (Reconcile "default" "resize" envQuiet
        { world := worldCrashed [statusOf 0 VolumeStatusCompleted,
            statusOf 1 VolumeStatusPending] }).st.world.statefulSets = [] := by
  decide

/-- C13 fails on the code: the first reconciliation swaps the claim of the pair
(0, data), recreates the parent, does not find the pod `web-0` and returns a
requeue after five seconds with the cursor on the pair.  The next
reconciliation, with the pod `web-0` still absent, finds the pair Completed and
moves the cursor to (1, data): its only requests are the read of the request
and the status write, and it reads no pod. -/
theorem cursor_moves_without_running_pod :
    (Reconcile "default" "resize" envQuiet { world := worldCopied }).val =
      Ret.ret { RequeueAfter := 5000 } none ∧
    (Reconcile "default" "resize" envQuiet { world := worldCopied }).log.getLast?.map Call.summary =
      some (String.join ["get pods default/web-0: pods ", goQuote serverWide "web-0", " not found"]) ∧
    (Reconcile "default" "resize" envQuiet { world := worldCopied }).st.world.volumeResizes.map
        (fun vr => (vr.Status.Phase, vr.Status.CurrentReplica, vr.Status.CurrentVolume)) =
      [("Syncing", some 0, "data")] ∧
    (Reconcile "default" "resize" envQuiet { world := worldCopied }).st.world.volumeResizes.map
        (fun vr => vr.Status.VolumeStatuses.map (fun vs => (vs.Replica, vs.VolumeName, vs.Phase))) =
      [[(0, "data", "Completed"), (1, "data", "Pending")]] ∧
    (Reconcile "default" "resize" envQuiet { world := worldCopied }).st.world.pods.map
        (fun pod => pod.Meta.Name) = ["web-1"] ∧
    (Reconcile "default" "resize" envQuiet
        (Reconcile "default" "resize" envQuiet { world := worldCopied }).st).log.map Call.summary =
      ["get volumeresizes.storage.maurice.fr default/resize: ok",
       "update status volumeresizes.storage.maurice.fr default/resize: ok"] ∧
    (Reconcile "default" "resize" envQuiet
        (Reconcile "default" "resize" envQuiet { world := worldCopied }).st).val =
      Ret.ret { Requeue := true } none ∧
    (Reconcile "default" "resize" envQuiet
        (Reconcile "default" "resize" envQuiet { world := worldCopied }).st).st.world.volumeResizes.map
        (fun vr => (vr.Status.Phase, vr.Status.CurrentReplica, vr.Status.CurrentVolume)) =
      [("Syncing", some 1, "data")] ∧
    (Reconcile "default" "resize" envQuiet
        (Reconcile "default" "resize" envQuiet { world := worldCopied }).st).st.world.pods.map
        (fun pod => pod.Meta.Name) = ["web-1"] := by
  decide

/-! ### The requests a function can make -/

theorem footprint_mono {α : Type} {t1 t2 : List (Verb × Kind)} {m : M α} (h : Footprint t1 m)
    (hsub : ∀ t ∈ t1, t ∈ t2) : Footprint t2 m :=
  ⟨fun env s c hc => hsub _ (h.run env s c hc)⟩

theorem footprint_pure {α : Type} (tags : List (Verb × Kind)) (a : α) : Footprint tags (pure a : M α) :=
  ⟨fun _ _ c hc => by simp at hc⟩

theorem footprint_bind {α β : Type} {tags : List (Verb × Kind)} {m : M α} {f : α → M β}
    (hm : Footprint tags m) (hf : ∀ a, Footprint tags (f a)) : Footprint tags (m >>= f) :=
  ⟨fun env s c hc => by
    rw [bind_log, List.mem_append] at hc
    rcases hc with hc | hc
    · exact hm.run env s c hc
    · exact (hf _).run env _ c hc⟩

theorem footprint_getEnv (tags : List (Verb × Kind)) : Footprint tags getEnv :=
  ⟨fun _ _ c hc => by simp [getEnv] at hc⟩

theorem footprint_timeNow (tags : List (Verb × Kind)) : Footprint tags timeNow :=
  ⟨fun _ _ c hc => by simp [timeNow] at hc⟩

theorem footprint_timeSleep (tags : List (Verb × Kind)) (d : Nat) : Footprint tags (timeSleep d) :=
  ⟨fun _ _ c hc => by simp [timeSleep] at hc⟩

theorem footprint_ctxDoneOrAfter (tags : List (Verb × Kind)) (d : Nat) :
    Footprint tags (ctxDoneOrAfter d) :=
  ⟨fun env s c hc => by
    unfold ctxDoneOrAfter at hc
    split at hc <;> simp at hc⟩

theorem footprint_clientGet (tags : List (Verb × Kind)) (k : Kind) (ns name : String)
    (h : (Verb.get, k) ∈ tags) : Footprint tags (Client.Get k ns name) :=
  ⟨fun env s c hc => by
    rw [Client.Get_log, List.mem_singleton] at hc
    subst hc
    exact h⟩

theorem footprint_clientList (tags : List (Verb × Kind)) (k : Kind) (ns : String) (labels : StrMap)
    (h : (Verb.list, k) ∈ tags) : Footprint tags (Client.List k ns labels) :=
  ⟨fun env s c hc => by
    rw [Client.List_log, List.mem_singleton] at hc
    subst hc
    exact h⟩

theorem footprint_clientCreate (tags : List (Verb × Kind)) (k : Kind) (obj : k.T)
    (h : (Verb.create, k) ∈ tags) : Footprint tags (Client.Create k obj) :=
  ⟨fun env s c hc => by
    rw [Client.Create_log, List.mem_singleton] at hc
    subst hc
    exact h⟩

theorem footprint_clientUpdate (tags : List (Verb × Kind)) (k : Kind) (obj : k.T)
    (h : (Verb.update, k) ∈ tags) : Footprint tags (Client.Update k obj) :=
  ⟨fun env s c hc => by
    rw [Client.Update_log, List.mem_singleton] at hc
    subst hc
    exact h⟩

theorem footprint_clientStatusUpdate (tags : List (Verb × Kind)) (k : Kind) (obj : k.T)
    (h : (Verb.statusUpdate, k) ∈ tags) : Footprint tags (Client.StatusUpdate k obj) :=
  ⟨fun env s c hc => by
    rw [Client.StatusUpdate_log, List.mem_singleton] at hc
    subst hc
    exact h⟩

theorem footprint_clientDelete (tags : List (Verb × Kind)) (k : Kind) (ns name : String) (orphan : Bool)
    (h : (Verb.delete, k) ∈ tags) : Footprint tags (Client.Delete k ns name orphan) :=
  ⟨fun env s c hc => by
    rw [Client.Delete_log, List.mem_singleton] at hc
    subst hc
    exact h⟩

theorem footprint_getPVC (ns name : String) :
    Footprint [(Verb.get, Kind.pvc)]
      (getPVC ns name) := by
  unfold MigController.getPVC
  repeat (first
    | with_reducible apply footprint_bind
    | intro _
    | dsimp only
    | split
    | exact footprint_pure _ _
    | exact footprint_getEnv _
    | exact footprint_timeNow _
    | exact footprint_timeSleep _ _
    | exact footprint_ctxDoneOrAfter _ _
    | exact footprint_clientGet _ _ _ _ (by decide)
    | exact footprint_clientList _ _ _ _ (by decide)
    | exact footprint_clientCreate _ _ _ (by decide)
    | exact footprint_clientUpdate _ _ _ (by decide)
    | exact footprint_clientStatusUpdate _ _ _ (by decide)
    | exact footprint_clientDelete _ _ _ _ _ (by decide))

theorem footprint_createTempPVC (vr : VolumeResize) (vol : VolumeResizeTarget) (originalPVC : PersistentVolumeClaim) (replica : Int) :
    Footprint [(Verb.get, Kind.pvc), (Verb.create, Kind.pvc)]
      (createTempPVC vr vol originalPVC replica) := by
  unfold MigController.createTempPVC
  repeat (first
    | with_reducible apply footprint_bind
    | intro _
    | dsimp only
    | split
    | exact footprint_pure _ _
    | exact footprint_getEnv _
    | exact footprint_timeNow _
    | exact footprint_timeSleep _ _
    | exact footprint_ctxDoneOrAfter _ _
    | exact footprint_clientGet _ _ _ _ (by decide)
    | exact footprint_clientList _ _ _ _ (by decide)
    | exact footprint_clientCreate _ _ _ (by decide)
    | exact footprint_clientUpdate _ _ _ (by decide)
    | exact footprint_clientStatusUpdate _ _ _ (by decide)
    | exact footprint_clientDelete _ _ _ _ _ (by decide)
    | exact footprint_mono (footprint_getPVC _ _) (by decide))

theorem footprint_setRetainOnPV (pvName : String) :
    Footprint [(Verb.get, Kind.pv), (Verb.update, Kind.pv)]
      (setRetainOnPV pvName) := by
  unfold MigController.setRetainOnPV
  repeat (first
    | with_reducible apply footprint_bind
    | intro _
    | dsimp only
    | split
    | exact footprint_pure _ _
    | exact footprint_getEnv _
    | exact footprint_timeNow _
    | exact footprint_timeSleep _ _
    | exact footprint_ctxDoneOrAfter _ _
    | exact footprint_clientGet _ _ _ _ (by decide)
    | exact footprint_clientList _ _ _ _ (by decide)
    | exact footprint_clientCreate _ _ _ (by decide)
    | exact footprint_clientUpdate _ _ _ (by decide)
    | exact footprint_clientStatusUpdate _ _ _ (by decide)
    | exact footprint_clientDelete _ _ _ _ _ (by decide))

theorem footprint_waitDeleted (ns name pre : String) (n : Nat) :
    Footprint [(Verb.get, Kind.pvc)]
      (replacePVC.waitDeleted ns name pre n) := by
  induction n with
  | zero =>
    unfold replacePVC.waitDeleted
    repeat (first
      | with_reducible apply footprint_bind
      | intro _
      | dsimp only
      | split
      | exact footprint_pure _ _
      | exact footprint_getEnv _
      | exact footprint_timeNow _
      | exact footprint_timeSleep _ _
      | exact footprint_ctxDoneOrAfter _ _
      | exact footprint_clientGet _ _ _ _ (by decide)
      | exact footprint_clientList _ _ _ _ (by decide)
      | exact footprint_clientCreate _ _ _ (by decide)
      | exact footprint_clientUpdate _ _ _ (by decide)
      | exact footprint_clientStatusUpdate _ _ _ (by decide)
      | exact footprint_clientDelete _ _ _ _ _ (by decide)
      | exact footprint_mono (footprint_getPVC _ _) (by decide))
  | succ n ih =>
    unfold replacePVC.waitDeleted
    repeat (first
      | with_reducible apply footprint_bind
      | intro _
      | dsimp only
      | split
      | exact footprint_pure _ _
      | exact footprint_getEnv _
      | exact footprint_timeNow _
      | exact footprint_timeSleep _ _
      | exact footprint_ctxDoneOrAfter _ _
      | exact footprint_clientGet _ _ _ _ (by decide)
      | exact footprint_clientList _ _ _ _ (by decide)
      | exact footprint_clientCreate _ _ _ (by decide)
      | exact footprint_clientUpdate _ _ _ (by decide)
      | exact footprint_clientStatusUpdate _ _ _ (by decide)
      | exact footprint_clientDelete _ _ _ _ _ (by decide)
      | exact ih
      | exact footprint_mono (footprint_getPVC _ _) (by decide))

theorem footprint_replacePVC (vr : VolumeResize) (vol : VolumeResizeTarget) (replica : Int) :
    Footprint [(Verb.get, Kind.pvc), (Verb.get, Kind.pv), (Verb.update, Kind.pv), (Verb.delete, Kind.pvc), (Verb.create, Kind.pvc)]
      (replacePVC vr vol replica) := by
  unfold MigController.replacePVC
  repeat (first
    | with_reducible apply footprint_bind
    | intro _
    | dsimp only
    | split
    | exact footprint_pure _ _
    | exact footprint_getEnv _
    | exact footprint_timeNow _
    | exact footprint_timeSleep _ _
    | exact footprint_ctxDoneOrAfter _ _
    | exact footprint_clientGet _ _ _ _ (by decide)
    | exact footprint_clientList _ _ _ _ (by decide)
    | exact footprint_clientCreate _ _ _ (by decide)
    | exact footprint_clientUpdate _ _ _ (by decide)
    | exact footprint_clientStatusUpdate _ _ _ (by decide)
    | exact footprint_clientDelete _ _ _ _ _ (by decide)
    | exact footprint_mono (footprint_getPVC _ _) (by decide)
    | exact footprint_mono (footprint_waitDeleted _ _ _ _) (by decide))

theorem footprint_deleteSTSOrphan (sts : StatefulSet) :
    Footprint [(Verb.delete, Kind.statefulSet)]
      (deleteSTSOrphan sts) := by
  unfold MigController.deleteSTSOrphan
  repeat (first
    | with_reducible apply footprint_bind
    | intro _
    | dsimp only
    | split
    | exact footprint_pure _ _
    | exact footprint_getEnv _
    | exact footprint_timeNow _
    | exact footprint_timeSleep _ _
    | exact footprint_ctxDoneOrAfter _ _
    | exact footprint_clientGet _ _ _ _ (by decide)
    | exact footprint_clientList _ _ _ _ (by decide)
    | exact footprint_clientCreate _ _ _ (by decide)
    | exact footprint_clientUpdate _ _ _ (by decide)
    | exact footprint_clientStatusUpdate _ _ _ (by decide)
    | exact footprint_clientDelete _ _ _ _ _ (by decide))

theorem footprint_deletePod (ns stsName : String) (replica : Int) :
    Footprint [(Verb.delete, Kind.pod)]
      (deletePod ns stsName replica) := by
  unfold MigController.deletePod
  repeat (first
    | with_reducible apply footprint_bind
    | intro _
    | dsimp only
    | split
    | exact footprint_pure _ _
    | exact footprint_getEnv _
    | exact footprint_timeNow _
    | exact footprint_timeSleep _ _
    | exact footprint_ctxDoneOrAfter _ _
    | exact footprint_clientGet _ _ _ _ (by decide)
    | exact footprint_clientList _ _ _ _ (by decide)
    | exact footprint_clientCreate _ _ _ (by decide)
    | exact footprint_clientUpdate _ _ _ (by decide)
    | exact footprint_clientStatusUpdate _ _ _ (by decide)
    | exact footprint_clientDelete _ _ _ _ _ (by decide))

theorem footprint_waitForPodTermination_loop (ns podName : String) (deadline fuel : Nat) :
    Footprint [(Verb.get, Kind.pod)]
      (waitForPodTermination.loop ns podName deadline fuel) := by
  induction fuel with
  | zero =>
    unfold waitForPodTermination.loop
    repeat (first
      | with_reducible apply footprint_bind
      | intro _
      | dsimp only
      | split
      | exact footprint_pure _ _
      | exact footprint_getEnv _
      | exact footprint_timeNow _
      | exact footprint_timeSleep _ _
      | exact footprint_ctxDoneOrAfter _ _
      | exact footprint_clientGet _ _ _ _ (by decide)
      | exact footprint_clientList _ _ _ _ (by decide)
      | exact footprint_clientCreate _ _ _ (by decide)
      | exact footprint_clientUpdate _ _ _ (by decide)
      | exact footprint_clientStatusUpdate _ _ _ (by decide)
      | exact footprint_clientDelete _ _ _ _ _ (by decide))
  | succ fuel ih =>
    unfold waitForPodTermination.loop
    repeat (first
      | with_reducible apply footprint_bind
      | intro _
      | dsimp only
      | split
      | exact footprint_pure _ _
      | exact footprint_getEnv _
      | exact footprint_timeNow _
      | exact footprint_timeSleep _ _
      | exact footprint_ctxDoneOrAfter _ _
      | exact footprint_clientGet _ _ _ _ (by decide)
      | exact footprint_clientList _ _ _ _ (by decide)
      | exact footprint_clientCreate _ _ _ (by decide)
      | exact footprint_clientUpdate _ _ _ (by decide)
      | exact footprint_clientStatusUpdate _ _ _ (by decide)
      | exact footprint_clientDelete _ _ _ _ _ (by decide)
      | exact ih)

theorem footprint_waitForPodTermination (ns podName : String) (timeout : Nat) :
    Footprint [(Verb.get, Kind.pod)]
      (waitForPodTermination ns podName timeout) := by
  unfold MigController.waitForPodTermination
  repeat (first
    | with_reducible apply footprint_bind
    | intro _
    | dsimp only
    | split
    | exact footprint_pure _ _
    | exact footprint_getEnv _
    | exact footprint_timeNow _
    | exact footprint_timeSleep _ _
    | exact footprint_ctxDoneOrAfter _ _
    | exact footprint_clientGet _ _ _ _ (by decide)
    | exact footprint_clientList _ _ _ _ (by decide)
    | exact footprint_clientCreate _ _ _ (by decide)
    | exact footprint_clientUpdate _ _ _ (by decide)
    | exact footprint_clientStatusUpdate _ _ _ (by decide)
    | exact footprint_clientDelete _ _ _ _ _ (by decide)
    | exact footprint_mono (footprint_waitForPodTermination_loop _ _ _ _) (by decide))

theorem footprint_backupSTSToConfigMap (vr : VolumeResize) (sts : StatefulSet) :
    Footprint [(Verb.get, Kind.configMap), (Verb.create, Kind.configMap)]
      (backupSTSToConfigMap vr sts) := by
  unfold MigController.backupSTSToConfigMap
  repeat (first
    | with_reducible apply footprint_bind
    | intro _
    | dsimp only
    | split
    | exact footprint_pure _ _
    | exact footprint_getEnv _
    | exact footprint_timeNow _
    | exact footprint_timeSleep _ _
    | exact footprint_ctxDoneOrAfter _ _
    | exact footprint_clientGet _ _ _ _ (by decide)
    | exact footprint_clientList _ _ _ _ (by decide)
    | exact footprint_clientCreate _ _ _ (by decide)
    | exact footprint_clientUpdate _ _ _ (by decide)
    | exact footprint_clientStatusUpdate _ _ _ (by decide)
    | exact footprint_clientDelete _ _ _ _ _ (by decide))

theorem footprint_getSTSFromBackupConfigMap (ns vrName : String) :
    Footprint [(Verb.get, Kind.configMap)]
      (getSTSFromBackupConfigMap ns vrName) := by
  unfold MigController.getSTSFromBackupConfigMap
  repeat (first
    | with_reducible apply footprint_bind
    | intro _
    | dsimp only
    | split
    | exact footprint_pure _ _
    | exact footprint_getEnv _
    | exact footprint_timeNow _
    | exact footprint_timeSleep _ _
    | exact footprint_ctxDoneOrAfter _ _
    | exact footprint_clientGet _ _ _ _ (by decide)
    | exact footprint_clientList _ _ _ _ (by decide)
    | exact footprint_clientCreate _ _ _ (by decide)
    | exact footprint_clientUpdate _ _ _ (by decide)
    | exact footprint_clientStatusUpdate _ _ _ (by decide)
    | exact footprint_clientDelete _ _ _ _ _ (by decide))

theorem footprint_recreateSTS (stsSpec : StatefulSet) :
    Footprint [(Verb.create, Kind.statefulSet)]
      (recreateSTS stsSpec) := by
  unfold MigController.recreateSTS
  repeat (first
    | with_reducible apply footprint_bind
    | intro _
    | dsimp only
    | split
    | exact footprint_pure _ _
    | exact footprint_getEnv _
    | exact footprint_timeNow _
    | exact footprint_timeSleep _ _
    | exact footprint_ctxDoneOrAfter _ _
    | exact footprint_clientGet _ _ _ _ (by decide)
    | exact footprint_clientList _ _ _ _ (by decide)
    | exact footprint_clientCreate _ _ _ (by decide)
    | exact footprint_clientUpdate _ _ _ (by decide)
    | exact footprint_clientStatusUpdate _ _ _ (by decide)
    | exact footprint_clientDelete _ _ _ _ _ (by decide))

theorem footprint_createMigratorPod (vr : VolumeResize) (vol : VolumeResizeTarget) (replica : Int) (oldPVCName newPVCName : String) :
    Footprint [(Verb.get, Kind.pod), (Verb.create, Kind.pod)]
      (createMigratorPod vr vol replica oldPVCName newPVCName) := by
  unfold MigController.createMigratorPod
  repeat (first
    | with_reducible apply footprint_bind
    | intro _
    | dsimp only
    | split
    | exact footprint_pure _ _
    | exact footprint_getEnv _
    | exact footprint_timeNow _
    | exact footprint_timeSleep _ _
    | exact footprint_ctxDoneOrAfter _ _
    | exact footprint_clientGet _ _ _ _ (by decide)
    | exact footprint_clientList _ _ _ _ (by decide)
    | exact footprint_clientCreate _ _ _ (by decide)
    | exact footprint_clientUpdate _ _ _ (by decide)
    | exact footprint_clientStatusUpdate _ _ _ (by decide)
    | exact footprint_clientDelete _ _ _ _ _ (by decide))

theorem footprint_waitForMigrationComplete_loop (podName ns : String) (deadline fuel : Nat) :
    Footprint [(Verb.get, Kind.pod)]
      (waitForMigrationComplete.loop podName ns deadline fuel) := by
  induction fuel with
  | zero =>
    unfold waitForMigrationComplete.loop
    repeat (first
      | with_reducible apply footprint_bind
      | intro _
      | dsimp only
      | split
      | exact footprint_pure _ _
      | exact footprint_getEnv _
      | exact footprint_timeNow _
      | exact footprint_timeSleep _ _
      | exact footprint_ctxDoneOrAfter _ _
      | exact footprint_clientGet _ _ _ _ (by decide)
      | exact footprint_clientList _ _ _ _ (by decide)
      | exact footprint_clientCreate _ _ _ (by decide)
      | exact footprint_clientUpdate _ _ _ (by decide)
      | exact footprint_clientStatusUpdate _ _ _ (by decide)
      | exact footprint_clientDelete _ _ _ _ _ (by decide))
  | succ fuel ih =>
    unfold waitForMigrationComplete.loop
    repeat (first
      | with_reducible apply footprint_bind
      | intro _
      | dsimp only
      | split
      | exact footprint_pure _ _
      | exact footprint_getEnv _
      | exact footprint_timeNow _
      | exact footprint_timeSleep _ _
      | exact footprint_ctxDoneOrAfter _ _
      | exact footprint_clientGet _ _ _ _ (by decide)
      | exact footprint_clientList _ _ _ _ (by decide)
      | exact footprint_clientCreate _ _ _ (by decide)
      | exact footprint_clientUpdate _ _ _ (by decide)
      | exact footprint_clientStatusUpdate _ _ _ (by decide)
      | exact footprint_clientDelete _ _ _ _ _ (by decide)
      | exact ih)

theorem footprint_waitForMigrationComplete (podName ns : String) (timeout : Nat) :
    Footprint [(Verb.get, Kind.pod)]
      (waitForMigrationComplete podName ns timeout) := by
  unfold MigController.waitForMigrationComplete
  repeat (first
    | with_reducible apply footprint_bind
    | intro _
    | dsimp only
    | split
    | exact footprint_pure _ _
    | exact footprint_getEnv _
    | exact footprint_timeNow _
    | exact footprint_timeSleep _ _
    | exact footprint_ctxDoneOrAfter _ _
    | exact footprint_clientGet _ _ _ _ (by decide)
    | exact footprint_clientList _ _ _ _ (by decide)
    | exact footprint_clientCreate _ _ _ (by decide)
    | exact footprint_clientUpdate _ _ _ (by decide)
    | exact footprint_clientStatusUpdate _ _ _ (by decide)
    | exact footprint_clientDelete _ _ _ _ _ (by decide)
    | exact footprint_mono (footprint_waitForMigrationComplete_loop _ _ _ _) (by decide))

theorem footprint_cleanupMigratorPod (podName ns : String) :
    Footprint [(Verb.delete, Kind.pod)]
      (cleanupMigratorPod podName ns) := by
  unfold MigController.cleanupMigratorPod
  repeat (first
    | with_reducible apply footprint_bind
    | intro _
    | dsimp only
    | split
    | exact footprint_pure _ _
    | exact footprint_getEnv _
    | exact footprint_timeNow _
    | exact footprint_timeSleep _ _
    | exact footprint_ctxDoneOrAfter _ _
    | exact footprint_clientGet _ _ _ _ (by decide)
    | exact footprint_clientList _ _ _ _ (by decide)
    | exact footprint_clientCreate _ _ _ (by decide)
    | exact footprint_clientUpdate _ _ _ (by decide)
    | exact footprint_clientStatusUpdate _ _ _ (by decide)
    | exact footprint_clientDelete _ _ _ _ _ (by decide))

theorem footprint_validateStatefulSetExists (ns name : String) :
    Footprint [(Verb.get, Kind.statefulSet)]
      (validateStatefulSetExists ns name) := by
  unfold MigController.validateStatefulSetExists
  repeat (first
    | with_reducible apply footprint_bind
    | intro _
    | dsimp only
    | split
    | exact footprint_pure _ _
    | exact footprint_getEnv _
    | exact footprint_timeNow _
    | exact footprint_timeSleep _ _
    | exact footprint_ctxDoneOrAfter _ _
    | exact footprint_clientGet _ _ _ _ (by decide)
    | exact footprint_clientList _ _ _ _ (by decide)
    | exact footprint_clientCreate _ _ _ (by decide)
    | exact footprint_clientUpdate _ _ _ (by decide)
    | exact footprint_clientStatusUpdate _ _ _ (by decide)
    | exact footprint_clientDelete _ _ _ _ _ (by decide))

theorem footprint_validateSizeReduction (ns stsName : String) (vol : VolumeResizeTarget) :
    Footprint [(Verb.get, Kind.pvc)]
      (validateSizeReduction ns stsName vol) := by
  unfold MigController.validateSizeReduction
  repeat (first
    | with_reducible apply footprint_bind
    | intro _
    | dsimp only
    | split
    | exact footprint_pure _ _
    | exact footprint_getEnv _
    | exact footprint_timeNow _
    | exact footprint_timeSleep _ _
    | exact footprint_ctxDoneOrAfter _ _
    | exact footprint_clientGet _ _ _ _ (by decide)
    | exact footprint_clientList _ _ _ _ (by decide)
    | exact footprint_clientCreate _ _ _ (by decide)
    | exact footprint_clientUpdate _ _ _ (by decide)
    | exact footprint_clientStatusUpdate _ _ _ (by decide)
    | exact footprint_clientDelete _ _ _ _ _ (by decide)
    | exact footprint_mono (footprint_getPVC _ _) (by decide))

theorem footprint_validatePDBAllowsDisruption (sts : StatefulSet) :
    Footprint [(Verb.list, Kind.pdb)]
      (validatePDBAllowsDisruption sts) := by
  unfold MigController.validatePDBAllowsDisruption
  repeat (first
    | with_reducible apply footprint_bind
    | intro _
    | dsimp only
    | split
    | exact footprint_pure _ _
    | exact footprint_getEnv _
    | exact footprint_timeNow _
    | exact footprint_timeSleep _ _
    | exact footprint_ctxDoneOrAfter _ _
    | exact footprint_clientGet _ _ _ _ (by decide)
    | exact footprint_clientList _ _ _ _ (by decide)
    | exact footprint_clientCreate _ _ _ (by decide)
    | exact footprint_clientUpdate _ _ _ (by decide)
    | exact footprint_clientStatusUpdate _ _ _ (by decide)
    | exact footprint_clientDelete _ _ _ _ _ (by decide))

theorem footprint_setFailed (vr : VolumeResize) (message : String) :
    Footprint [(Verb.statusUpdate, Kind.volumeResize)]
      (setFailed vr message) := by
  unfold MigController.setFailed
  repeat (first
    | with_reducible apply footprint_bind
    | intro _
    | dsimp only
    | split
    | exact footprint_pure _ _
    | exact footprint_getEnv _
    | exact footprint_timeNow _
    | exact footprint_timeSleep _ _
    | exact footprint_ctxDoneOrAfter _ _
    | exact footprint_clientGet _ _ _ _ (by decide)
    | exact footprint_clientList _ _ _ _ (by decide)
    | exact footprint_clientCreate _ _ _ (by decide)
    | exact footprint_clientUpdate _ _ _ (by decide)
    | exact footprint_clientStatusUpdate _ _ _ (by decide)
    | exact footprint_clientDelete _ _ _ _ _ (by decide))

theorem footprint_handlePending (vr : VolumeResize) :
    Footprint [(Verb.statusUpdate, Kind.volumeResize)]
      (handlePending vr) := by
  unfold MigController.handlePending
  repeat (first
    | with_reducible apply footprint_bind
    | intro _
    | dsimp only
    | split
    | exact footprint_pure _ _
    | exact footprint_getEnv _
    | exact footprint_timeNow _
    | exact footprint_timeSleep _ _
    | exact footprint_ctxDoneOrAfter _ _
    | exact footprint_clientGet _ _ _ _ (by decide)
    | exact footprint_clientList _ _ _ _ (by decide)
    | exact footprint_clientCreate _ _ _ (by decide)
    | exact footprint_clientUpdate _ _ _ (by decide)
    | exact footprint_clientStatusUpdate _ _ _ (by decide)
    | exact footprint_clientDelete _ _ _ _ _ (by decide))

theorem footprint_sizeLoop (ns stsName : String) (volumes : List VolumeResizeTarget) :
    Footprint [(Verb.get, Kind.pvc)]
      (handleValidating.sizeLoop ns stsName volumes) := by
  induction volumes with
  | nil =>
    unfold handleValidating.sizeLoop
    repeat (first
      | with_reducible apply footprint_bind
      | intro _
      | dsimp only
      | split
      | exact footprint_pure _ _
      | exact footprint_getEnv _
      | exact footprint_timeNow _
      | exact footprint_timeSleep _ _
      | exact footprint_ctxDoneOrAfter _ _
      | exact footprint_clientGet _ _ _ _ (by decide)
      | exact footprint_clientList _ _ _ _ (by decide)
      | exact footprint_clientCreate _ _ _ (by decide)
      | exact footprint_clientUpdate _ _ _ (by decide)
      | exact footprint_clientStatusUpdate _ _ _ (by decide)
      | exact footprint_clientDelete _ _ _ _ _ (by decide)
      | exact footprint_mono (footprint_validateSizeReduction _ _ _) (by decide))
  | cons v t ih =>
    unfold handleValidating.sizeLoop
    repeat (first
      | with_reducible apply footprint_bind
      | intro _
      | dsimp only
      | split
      | exact footprint_pure _ _
      | exact footprint_getEnv _
      | exact footprint_timeNow _
      | exact footprint_timeSleep _ _
      | exact footprint_ctxDoneOrAfter _ _
      | exact footprint_clientGet _ _ _ _ (by decide)
      | exact footprint_clientList _ _ _ _ (by decide)
      | exact footprint_clientCreate _ _ _ (by decide)
      | exact footprint_clientUpdate _ _ _ (by decide)
      | exact footprint_clientStatusUpdate _ _ _ (by decide)
      | exact footprint_clientDelete _ _ _ _ _ (by decide)
      | exact ih
      | exact footprint_mono (footprint_validateSizeReduction _ _ _) (by decide))

theorem footprint_handleValidating (vr : VolumeResize) :
    Footprint [(Verb.get, Kind.statefulSet), (Verb.get, Kind.pvc), (Verb.list, Kind.pdb), (Verb.statusUpdate, Kind.volumeResize)]
      (handleValidating vr) := by
  unfold MigController.handleValidating
  repeat (first
    | with_reducible apply footprint_bind
    | intro _
    | dsimp only
    | split
    | exact footprint_pure _ _
    | exact footprint_getEnv _
    | exact footprint_timeNow _
    | exact footprint_timeSleep _ _
    | exact footprint_ctxDoneOrAfter _ _
    | exact footprint_clientGet _ _ _ _ (by decide)
    | exact footprint_clientList _ _ _ _ (by decide)
    | exact footprint_clientCreate _ _ _ (by decide)
    | exact footprint_clientUpdate _ _ _ (by decide)
    | exact footprint_clientStatusUpdate _ _ _ (by decide)
    | exact footprint_clientDelete _ _ _ _ _ (by decide)
    | exact footprint_mono (footprint_validateStatefulSetExists _ _) (by decide)
    | exact footprint_mono (footprint_setFailed _ _) (by decide)
    | exact footprint_mono (footprint_sizeLoop _ _ _) (by decide)
    | exact footprint_mono (footprint_validatePDBAllowsDisruption _) (by decide))

theorem footprint_advance (vr : VolumeResize) (replica : Int) (volName : String) :
    Footprint [(Verb.statusUpdate, Kind.volumeResize)]
      (handleSyncing.advance vr replica volName) := by
  unfold handleSyncing.advance
  repeat (first
    | with_reducible apply footprint_bind
    | intro _
    | dsimp only
    | split
    | exact footprint_pure _ _
    | exact footprint_getEnv _
    | exact footprint_timeNow _
    | exact footprint_timeSleep _ _
    | exact footprint_ctxDoneOrAfter _ _
    | exact footprint_clientGet _ _ _ _ (by decide)
    | exact footprint_clientList _ _ _ _ (by decide)
    | exact footprint_clientCreate _ _ _ (by decide)
    | exact footprint_clientUpdate _ _ _ (by decide)
    | exact footprint_clientStatusUpdate _ _ _ (by decide)
    | exact footprint_clientDelete _ _ _ _ _ (by decide))

theorem footprint_recreate (vr : VolumeResize) (replica : Int) (volName : String) :
    Footprint [(Verb.statusUpdate, Kind.volumeResize), (Verb.get, Kind.configMap), (Verb.create, Kind.statefulSet), (Verb.update, Kind.volumeResize), (Verb.get, Kind.pod)]
      (handleSyncing.recreate vr replica volName) := by
  unfold handleSyncing.recreate
  repeat (first
    | with_reducible apply footprint_bind
    | intro _
    | dsimp only
    | split
    | exact footprint_pure _ _
    | exact footprint_getEnv _
    | exact footprint_timeNow _
    | exact footprint_timeSleep _ _
    | exact footprint_ctxDoneOrAfter _ _
    | exact footprint_clientGet _ _ _ _ (by decide)
    | exact footprint_clientList _ _ _ _ (by decide)
    | exact footprint_clientCreate _ _ _ (by decide)
    | exact footprint_clientUpdate _ _ _ (by decide)
    | exact footprint_clientStatusUpdate _ _ _ (by decide)
    | exact footprint_clientDelete _ _ _ _ _ (by decide)
    | exact footprint_mono (footprint_getSTSFromBackupConfigMap _ _) (by decide)
    | exact footprint_mono (footprint_setFailed _ _) (by decide)
    | exact footprint_mono (footprint_recreateSTS _) (by decide)
    | exact footprint_mono (footprint_advance _ _ _) (by decide))

theorem footprint_migrate (vr : VolumeResize) (vol : VolumeResizeTarget) (replica : Int) (volName originalPVCName tempPVCName : String) :
    Footprint [(Verb.delete, Kind.pod), (Verb.get, Kind.pod), (Verb.create, Kind.pod), (Verb.statusUpdate, Kind.volumeResize), (Verb.get, Kind.pvc), (Verb.get, Kind.pv), (Verb.update, Kind.pv), (Verb.delete, Kind.pvc), (Verb.create, Kind.pvc), (Verb.get, Kind.configMap), (Verb.create, Kind.statefulSet), (Verb.update, Kind.volumeResize)]
      (handleSyncing.migrate vr vol replica volName originalPVCName tempPVCName) := by
  unfold handleSyncing.migrate
  repeat (first
    | with_reducible apply footprint_bind
    | intro _
    | dsimp only
    | split
    | exact footprint_pure _ _
    | exact footprint_getEnv _
    | exact footprint_timeNow _
    | exact footprint_timeSleep _ _
    | exact footprint_ctxDoneOrAfter _ _
    | exact footprint_clientGet _ _ _ _ (by decide)
    | exact footprint_clientList _ _ _ _ (by decide)
    | exact footprint_clientCreate _ _ _ (by decide)
    | exact footprint_clientUpdate _ _ _ (by decide)
    | exact footprint_clientStatusUpdate _ _ _ (by decide)
    | exact footprint_clientDelete _ _ _ _ _ (by decide)
    | exact footprint_mono (footprint_deletePod _ _ _) (by decide)
    | exact footprint_mono (footprint_waitForPodTermination _ _ _) (by decide)
    | exact footprint_mono (footprint_createMigratorPod _ _ _ _ _) (by decide)
    | exact footprint_mono (footprint_setFailed _ _) (by decide)
    | exact footprint_mono (footprint_waitForMigrationComplete _ _ _) (by decide)
    | exact footprint_mono (footprint_cleanupMigratorPod _ _) (by decide)
    | exact footprint_mono (footprint_replacePVC _ _ _) (by decide)
    | exact footprint_mono (footprint_recreate _ _ _) (by decide))

theorem footprint_deleteSTS (vr : VolumeResize) :
    Footprint [(Verb.get, Kind.statefulSet), (Verb.get, Kind.configMap), (Verb.create, Kind.configMap), (Verb.delete, Kind.statefulSet), (Verb.update, Kind.volumeResize), (Verb.statusUpdate, Kind.volumeResize)]
      (handleSyncing.deleteSTS vr) := by
  unfold handleSyncing.deleteSTS
  repeat (first
    | with_reducible apply footprint_bind
    | intro _
    | dsimp only
    | split
    | exact footprint_pure _ _
    | exact footprint_getEnv _
    | exact footprint_timeNow _
    | exact footprint_timeSleep _ _
    | exact footprint_ctxDoneOrAfter _ _
    | exact footprint_clientGet _ _ _ _ (by decide)
    | exact footprint_clientList _ _ _ _ (by decide)
    | exact footprint_clientCreate _ _ _ (by decide)
    | exact footprint_clientUpdate _ _ _ (by decide)
    | exact footprint_clientStatusUpdate _ _ _ (by decide)
    | exact footprint_clientDelete _ _ _ _ _ (by decide)
    | exact footprint_mono (footprint_backupSTSToConfigMap _ _) (by decide)
    | exact footprint_mono (footprint_setFailed _ _) (by decide)
    | exact footprint_mono (footprint_deleteSTSOrphan _) (by decide))

theorem footprint_handleSyncing (vr : VolumeResize) :
    Footprint [(Verb.delete, Kind.pod), (Verb.get, Kind.pod), (Verb.create, Kind.pod), (Verb.statusUpdate, Kind.volumeResize), (Verb.get, Kind.pvc), (Verb.get, Kind.pv), (Verb.update, Kind.pv), (Verb.delete, Kind.pvc), (Verb.create, Kind.pvc), (Verb.get, Kind.configMap), (Verb.create, Kind.statefulSet), (Verb.update, Kind.volumeResize), (Verb.get, Kind.storageClass), (Verb.get, Kind.statefulSet), (Verb.create, Kind.configMap), (Verb.delete, Kind.statefulSet)]
      (handleSyncing vr) := by
  unfold MigController.handleSyncing
  repeat (first
    | with_reducible apply footprint_bind
    | intro _
    | dsimp only
    | split
    | exact footprint_pure _ _
    | exact footprint_getEnv _
    | exact footprint_timeNow _
    | exact footprint_timeSleep _ _
    | exact footprint_ctxDoneOrAfter _ _
    | exact footprint_clientGet _ _ _ _ (by decide)
    | exact footprint_clientList _ _ _ _ (by decide)
    | exact footprint_clientCreate _ _ _ (by decide)
    | exact footprint_clientUpdate _ _ _ (by decide)
    | exact footprint_clientStatusUpdate _ _ _ (by decide)
    | exact footprint_clientDelete _ _ _ _ _ (by decide)
    | exact footprint_mono (footprint_advance _ _ _) (by decide)
    | exact footprint_mono (footprint_getPVC _ _) (by decide)
    | exact footprint_mono (footprint_setFailed _ _) (by decide)
    | exact footprint_mono (footprint_createTempPVC _ _ _ _) (by decide)
    | exact footprint_mono (footprint_setRetainOnPV _) (by decide)
    | exact footprint_mono (footprint_deleteSTS _) (by decide)
    | exact footprint_mono (footprint_migrate _ _ _ _ _ _) (by decide))

theorem footprint_handleReplacing (vr : VolumeResize) :
    Footprint [(Verb.statusUpdate, Kind.volumeResize)]
      (handleReplacing vr) := by
  unfold MigController.handleReplacing
  repeat (first
    | with_reducible apply footprint_bind
    | intro _
    | dsimp only
    | split
    | exact footprint_pure _ _
    | exact footprint_getEnv _
    | exact footprint_timeNow _
    | exact footprint_timeSleep _ _
    | exact footprint_ctxDoneOrAfter _ _
    | exact footprint_clientGet _ _ _ _ (by decide)
    | exact footprint_clientList _ _ _ _ (by decide)
    | exact footprint_clientCreate _ _ _ (by decide)
    | exact footprint_clientUpdate _ _ _ (by decide)
    | exact footprint_clientStatusUpdate _ _ _ (by decide)
    | exact footprint_clientDelete _ _ _ _ _ (by decide))

theorem footprint_deleteAll (k : Kind) (l : List k.T) :
    Footprint [(Verb.delete, k)] (handleDeletion.deleteAll k l) := by
  induction l with
  | nil => unfold handleDeletion.deleteAll; exact footprint_pure _ _
  | cons o rest ih =>
    unfold handleDeletion.deleteAll
    exact footprint_bind (footprint_clientDelete _ _ _ _ _ (by simp)) (fun _ => ih)

theorem footprint_handleDeletion (vr : VolumeResize) :
    Footprint [(Verb.list, Kind.pvc), (Verb.delete, Kind.pvc), (Verb.list, Kind.pod), (Verb.delete, Kind.pod), (Verb.update, Kind.volumeResize)]
      (handleDeletion vr) := by
  unfold MigController.handleDeletion
  repeat (first
    | with_reducible apply footprint_bind
    | intro _
    | dsimp only
    | split
    | exact footprint_pure _ _
    | exact footprint_getEnv _
    | exact footprint_timeNow _
    | exact footprint_timeSleep _ _
    | exact footprint_ctxDoneOrAfter _ _
    | exact footprint_clientGet _ _ _ _ (by decide)
    | exact footprint_clientList _ _ _ _ (by decide)
    | exact footprint_clientCreate _ _ _ (by decide)
    | exact footprint_clientUpdate _ _ _ (by decide)
    | exact footprint_clientStatusUpdate _ _ _ (by decide)
    | exact footprint_clientDelete _ _ _ _ _ (by decide)
    | exact footprint_mono (footprint_deleteAll _ _) (by decide))

theorem footprint_Reconcile (ns name : String) :
    Footprint [(Verb.get, Kind.volumeResize), (Verb.list, Kind.pvc), (Verb.delete, Kind.pvc), (Verb.list, Kind.pod), (Verb.delete, Kind.pod), (Verb.update, Kind.volumeResize), (Verb.get, Kind.pod), (Verb.create, Kind.pod), (Verb.statusUpdate, Kind.volumeResize), (Verb.get, Kind.pvc), (Verb.get, Kind.pv), (Verb.update, Kind.pv), (Verb.create, Kind.pvc), (Verb.get, Kind.configMap), (Verb.create, Kind.statefulSet), (Verb.get, Kind.storageClass), (Verb.get, Kind.statefulSet), (Verb.create, Kind.configMap), (Verb.delete, Kind.statefulSet), (Verb.list, Kind.pdb)]
      (Reconcile ns name) := by
  unfold MigController.Reconcile
  repeat (first
    | with_reducible apply footprint_bind
    | intro _
    | dsimp only
    | split
    | exact footprint_pure _ _
    | exact footprint_getEnv _
    | exact footprint_timeNow _
    | exact footprint_timeSleep _ _
    | exact footprint_ctxDoneOrAfter _ _
    | exact footprint_clientGet _ _ _ _ (by decide)
    | exact footprint_clientList _ _ _ _ (by decide)
    | exact footprint_clientCreate _ _ _ (by decide)
    | exact footprint_clientUpdate _ _ _ (by decide)
    | exact footprint_clientStatusUpdate _ _ _ (by decide)
    | exact footprint_clientDelete _ _ _ _ _ (by decide)
    | exact footprint_mono (footprint_handleDeletion _) (by decide)
    | exact footprint_mono (footprint_handlePending _) (by decide)
    | exact footprint_mono (footprint_handleValidating _) (by decide)
    | exact footprint_mono (footprint_handleSyncing _) (by decide)
    | exact footprint_mono (footprint_handleReplacing _) (by decide))

/-! ### The status write before the recreation of the parent -/

theorem isCreate_of_tag (k : Kind) (op : Op) (h : op.tag ≠ (Verb.create, k)) : Op.isCreate k op = false := by
  cases op <;> simp_all [Op.isCreate, Op.tag]

theorem footprint_beforeRecreate {α : Type} {m : M α} (h : Footprint beforeRecreate m) (env : Env) (s : St) :
    ∀ c ∈ (m env s).log, Op.isCreate Kind.statefulSet c.op = false := by
  intro c hc
  apply isCreate_of_tag
  intro ht
  have := h.run env s c hc
  rw [ht] at this
  revert this
  decide

theorem recreateLast_of_footprint (replica : Int) (volName : String) {m : M Ret}
    (h : Footprint beforeRecreate m) : RecreateLast replica volName m :=
  ⟨fun env s => Or.inl (footprint_beforeRecreate h env s)⟩

theorem recreateLast_bind {α : Type} {replica : Int} {volName : String} {m : M α} {f : α → M Ret}
    (hm : Footprint beforeRecreate m) (hf : ∀ a, RecreateLast replica volName (f a)) :
    RecreateLast replica volName (m >>= f) :=
  ⟨fun env s => by
    rcases (hf (m env s).val).run env (m env s).st with h | ⟨pre, vr0, s0, h1, h2, h3⟩
    · left
      intro c hc
      rw [bind_log, List.mem_append] at hc
      rcases hc with hc | hc
      · exact footprint_beforeRecreate hm env s c hc
      · exact h c hc
    · right
      refine ⟨(m env s).log ++ pre, vr0, s0, ?_, ?_, ?_⟩
      · rw [bind_log, h1, List.append_assoc]
      · rw [bind_val, h2]
      · intro c hc
        rw [List.mem_append] at hc
        rcases hc with hc | hc
        · exact footprint_beforeRecreate hm env s c hc
        · exact h3 c hc⟩

theorem recreateLast_base (vr0 : VolumeResize) (replica : Int) (volName : String) :
    RecreateLast replica volName (handleSyncing.recreate
      (updateVolumeStatus vr0 volName replica VolumeStatusCompleted "PVC replaced") replica volName) :=
  ⟨fun env s => Or.inr ⟨[], vr0, s, rfl, rfl, fun c hc => by simp at hc⟩⟩


theorem recreateLast_migrate (vr : VolumeResize) (vol : VolumeResizeTarget) (replica : Int)
    (volName originalPVCName tempPVCName : String) :
    RecreateLast replica volName
      (handleSyncing.migrate vr vol replica volName originalPVCName tempPVCName) := by
  unfold handleSyncing.migrate
  repeat (first
    | with_reducible apply recreateLast_bind
    | with_reducible apply footprint_bind
    | intro _
    | dsimp only
    | split
    | exact recreateLast_base _ _ _
    | exact recreateLast_of_footprint _ _ (footprint_pure _ _)
    | exact recreateLast_of_footprint _ _ (footprint_mono (footprint_setFailed _ _) (by decide))
    | exact footprint_pure _ _
    | exact footprint_clientGet _ _ _ _ (by decide)
    | exact footprint_mono (footprint_deletePod _ _ _) (by decide)
    | exact footprint_mono (footprint_waitForPodTermination _ _ _) (by decide)
    | exact footprint_mono (footprint_createMigratorPod _ _ _ _ _) (by decide)
    | exact footprint_mono (footprint_waitForMigrationComplete _ _ _) (by decide)
    | exact footprint_mono (footprint_cleanupMigratorPod _ _) (by decide)
    | exact footprint_mono (footprint_replacePVC _ _ _) (by decide)
    | exact footprint_mono (footprint_setFailed _ _) (by decide))


theorem recreateLast_handleSyncing (vr : VolumeResize) (replica : Int)
    (hr : vr.Status.CurrentReplica = some replica) :
    RecreateLast replica vr.Status.CurrentVolume (handleSyncing vr) := by
  unfold MigController.handleSyncing
  rw [hr]
  dsimp only
  repeat (first
    | with_reducible apply recreateLast_bind
    | with_reducible apply footprint_bind
    | intro _
    | dsimp only
    | split
    | exact recreateLast_migrate _ _ _ _ _ _
    | exact recreateLast_of_footprint _ _ (footprint_pure _ _)
    | exact recreateLast_of_footprint _ _ (footprint_mono (footprint_setFailed _ _) (by decide))
    | exact recreateLast_of_footprint _ _ (footprint_mono (footprint_advance _ _ _) (by decide))
    | exact footprint_pure _ _
    | exact footprint_clientGet _ _ _ _ (by decide)
    | exact footprint_mono (footprint_getPVC _ _) (by decide)
    | exact footprint_mono (footprint_createTempPVC _ _ _ _) (by decide)
    | exact footprint_mono (footprint_setRetainOnPV _) (by decide)
    | exact footprint_mono (footprint_deleteSTS _) (by decide))

theorem pairCompleted_loop (volName : String) (replica : Int) (message : String) (l : List VolumeStatus) :
    pairCompleted (updateVolumeStatus.loop volName replica VolumeStatusCompleted message l) volName replica := by
  induction l with
  | nil =>
    intro vs h
    simp [updateVolumeStatus.loop] at h
  | cons x rest ih =>
    intro vs h
    unfold updateVolumeStatus.loop at h
    by_cases hx : x.VolumeName = volName ∧ x.Replica = replica
    · rw [if_pos hx] at h
      have hx2 : decide (x.VolumeName = volName ∧ x.Replica = replica) = true := by simpa using hx
      simp only [List.find?, hx2, Option.some.injEq] at h
      subst h
      rfl
    · rw [if_neg hx] at h
      have hx2 : decide (x.VolumeName = volName ∧ x.Replica = replica) = false := by simpa using hx
      simp only [List.find?, hx2] at h
      exact ih vs h

theorem recreate_head (vr : VolumeResize) (replica : Int) (volName : String) (env : Env) (s : St) :
    ∃ e rest, (handleSyncing.recreate vr replica volName env s).log =
        { op := Op.statusUpdate Kind.volumeResize vr, err := e } :: rest ∧
      ∀ err, e = some err → rest = [] ∧
        (handleSyncing.recreate vr replica volName env s).val = Ret.ret {} (some err) := by
  unfold handleSyncing.recreate
  cases h : (Client.StatusUpdate Kind.volumeResize vr env s).val with
  | error err =>
    refine ⟨some err, [], ?_, ?_⟩
    · simp only [bind_log, Client.StatusUpdate_log, h, pure_log, errOf_error, List.append_nil]
    · intro err2 he
      simp only [Option.some.injEq] at he
      subst he
      simp only [bind_val, h, pure_val, and_self]
  | ok vr2 =>
    rw [bind_log, Client.StatusUpdate_log, h, errOf_ok, List.singleton_append]
    exact ⟨none, _, rfl, fun err he => by simp at he⟩
/-- The order of the status write and the recreation: in a run of `handleSyncing`
on the pair (replica, volume) either no parent workload is created, or the log splits at a status
write of the request, with no create of a parent workload before it, such that
the first entry of the pair in the written `VolumeStatuses`, when there is one,
is Completed, and such that, when this write fails, it is the last request and
the reconciliation returns its error.  So a create of the parent workload
comes only after that write has succeeded. -/
theorem handleSyncing_recreate_after_status_write (vr : VolumeResize) (replica : Int) (env : Env) (s : St)
    (hr : vr.Status.CurrentReplica = some replica) :
    (∀ c ∈ (handleSyncing vr env s).log, Op.isCreate Kind.statefulSet c.op = false) ∨
    ∃ (pre : List Call) (w : VolumeResize) (e : Option Err) (rest : List Call),
      (handleSyncing vr env s).log = pre ++ { op := Op.statusUpdate Kind.volumeResize w, err := e } :: rest ∧
      (∀ c ∈ pre, Op.isCreate Kind.statefulSet c.op = false) ∧
      pairCompleted w.Status.VolumeStatuses vr.Status.CurrentVolume replica ∧
      ∀ err, e = some err →
        rest = [] ∧ (handleSyncing vr env s).val = Ret.ret {} (some err) := by
  rcases (recreateLast_handleSyncing vr replica hr).run env s with h | ⟨pre, vr0, s0, h1, h2, h3⟩
  · exact Or.inl h
  · right
    obtain ⟨e, rest, hl, hfail⟩ := recreate_head
      (updateVolumeStatus vr0 vr.Status.CurrentVolume replica VolumeStatusCompleted "PVC replaced")
      replica vr.Status.CurrentVolume env s0
    refine ⟨pre, updateVolumeStatus vr0 vr.Status.CurrentVolume replica VolumeStatusCompleted "PVC replaced",
      e, rest, ?_, h3, ?_, ?_⟩
    · rw [h1, hl]
    · exact pairCompleted_loop _ _ _ _
    · intro err he
      obtain ⟨hrest, hval⟩ := hfail err he
      exact ⟨hrest, by rw [h2, hval]⟩

theorem handleSyncing_recreate_after_status_write_witness :
    vrSync.Status.CurrentReplica = some 0 ∧
    ((∀ c ∈ (handleSyncing vrSync envQuiet { world := worldCopied }).log,
        Op.isCreate Kind.statefulSet c.op = false) ∨
      ∃ (pre : List Call) (w : VolumeResize) (e : Option Err) (rest : List Call),
        (handleSyncing vrSync envQuiet { world := worldCopied }).log =
          pre ++ { op := Op.statusUpdate Kind.volumeResize w, err := e } :: rest ∧
        (∀ c ∈ pre, Op.isCreate Kind.statefulSet c.op = false) ∧
        pairCompleted w.Status.VolumeStatuses vrSync.Status.CurrentVolume 0 ∧
        ∀ err, e = some err →
          rest = [] ∧ (handleSyncing vrSync envQuiet { world := worldCopied }).val = Ret.ret {} (some err)) :=
  ⟨rfl, handleSyncing_recreate_after_status_write vrSync 0 envQuiet { world := worldCopied } rfl⟩

/-- C11 fails on the code: for a parent scaled to zero replicas validation writes the
cursor (0, data) and no entry in `VolumeStatuses`.  The reconciliation of that
pair swaps the claim and creates the parent workload, and neither of the two
status writes before that create carries an entry for the pair, Completed or
not; the next reconciliation starts on the same pair again. -/
theorem handleSyncing_recreates_after_write_without_entry :
    (Reconcile "default" "resize" envIdle { world := worldIdleValidating }).st.world.volumeResizes.map
        (fun vr => (vr.Status.Phase, vr.Status.CurrentReplica, vr.Status.CurrentVolume)) =
      [("Syncing", some 0, "data")] ∧
    (Reconcile "default" "resize" envIdle { world := worldIdleValidating }).st.world.volumeResizes.map
        (fun vr => vr.Status.VolumeStatuses) = [[]] ∧
    ((Reconcile "default" "resize" envIdle { world := worldIdle }).log.map Call.summary).drop 27 =
      ["create persistentvolumeclaims default/data-web-0: ok",
       "update status volumeresizes.storage.maurice.fr default/resize: ok",
       "get configmaps default/resize-sts-backup: ok",
       "create statefulsets.apps default/web: ok",
       "update volumeresizes.storage.maurice.fr default/resize: ok",
       String.join ["get pods default/web-0: pods ", goQuote serverWide "web-0", " not found"]] ∧
    (Reconcile "default" "resize" envIdle { world := worldIdle }).log.filterMap Call.writtenStatuses =
      [[], []] ∧
    ((Reconcile "default" "resize" envIdle
        (Reconcile "default" "resize" envIdle { world := worldIdle }).st).log.map Call.summary).take 4 =
      ["get volumeresizes.storage.maurice.fr default/resize: ok",
       "get persistentvolumeclaims default/data-web-0: ok",
       String.join ["get persistentvolumeclaims default/data-web-0-new: persistentvolumeclaims ",
         goQuote serverWide "data-web-0-new", " not found"],
       "create persistentvolumeclaims default/data-web-0-new: ok"] := by
  decide

/-! ### The backup, the delete of the parent and the annotation -/

theorem precedes_of_forall_not {P Q : Call → Prop} {l : List Call} (h : ∀ c ∈ l, ¬Q c) :
    Precedes P Q l := by
  intro i c hi hq
  exact absurd hq (h c (List.getElem?_mem hi))

theorem precedes_append {P Q : Call → Prop} {l1 l2 : List Call} (h1 : Precedes P Q l1)
    (h2 : Precedes P Q l2) : Precedes P Q (l1 ++ l2) := by
  intro i c hi hq
  by_cases hlt : i < l1.length
  · rw [List.getElem?_append_left hlt] at hi
    obtain ⟨j, b, hj, hb, hp⟩ := h1 i c hi hq
    exact ⟨j, b, hj, by rw [List.getElem?_append_left (by omega)]; exact hb, hp⟩
  · rw [List.getElem?_append_right (by omega)] at hi
    obtain ⟨j, b, hj, hb, hp⟩ := h2 _ c hi hq
    refine ⟨l1.length + j, b, by omega, ?_, hp⟩
    rw [List.getElem?_append_right (by omega)]
    simpa using hb

theorem precedes_append_of_mem {P Q : Call → Prop} {l1 l2 : List Call} (h1 : Precedes P Q l1)
    (hm : ∃ b ∈ l1, P b) : Precedes P Q (l1 ++ l2) := by
  intro i c hi hq
  by_cases hlt : i < l1.length
  · rw [List.getElem?_append_left hlt] at hi
    obtain ⟨j, b, hj, hb, hp⟩ := h1 i c hi hq
    exact ⟨j, b, hj, by rw [List.getElem?_append_left (by omega)]; exact hb, hp⟩
  · obtain ⟨b, hb, hp⟩ := hm
    obtain ⟨j, hj, hjb⟩ := List.getElem_of_mem hb
    refine ⟨j, b, by omega, ?_, hp⟩
    rw [List.getElem?_append_left hj, List.getElem?_eq_getElem hj, hjb]

theorem guarded_bind {P Q : Call → Prop} {α β : Type} {m : M α} {f : α → M β}
    (hm : Guarded P Q m) (hf : ∀ a, Guarded P Q (f a)) : Guarded P Q (m >>= f) :=
  ⟨fun env s => by
    rw [bind_log]
    exact precedes_append (hm.run env s) ((hf _).run env _)⟩

theorem guarded_of_footprint {P Q : Call → Prop} {α : Type} {m : M α} {tags : List (Verb × Kind)}
    (t : Verb × Kind) (h : Footprint tags m) (hq : ∀ c, Q c → c.op.tag = t) (ht : t ∉ tags) :
    Guarded P Q m :=
  ⟨fun env s => precedes_of_forall_not (fun c hc hqc => ht (hq c hqc ▸ h.run env s c hc))⟩

theorem guarded_bind_some {P Q : Call → Prop} {β : Type} {m : M (Option Err)} {f : Option Err → M β}
    (hm : Guarded P Q m) (hnone : ∀ env s, (m env s).val = none → ∃ b ∈ (m env s).log, P b)
    (hf : ∀ e, Guarded P Q (f (some e))) : Guarded P Q (m >>= f) :=
  ⟨fun env s => by
    rw [bind_log]
    cases hv : (m env s).val with
    | none => exact precedes_append_of_mem (hm.run env s) (hnone env s hv)
    | some e => exact precedes_append (hm.run env s) ((hf e).run env _)⟩

theorem guarded_bind_always {P Q : Call → Prop} {α β : Type} {m : M α} {f : α → M β}
    (hm : Guarded P Q m) (hmem : ∀ env s, ∃ b ∈ (m env s).log, P b) : Guarded P Q (m >>= f) :=
  ⟨fun env s => by
    rw [bind_log]
    exact precedes_append_of_mem (hm.run env s) (hmem env s)⟩

theorem deletesParent_tag (c : Call) (h : DeletesParent c) : c.op.tag = (Verb.delete, Kind.statefulSet) := by
  unfold DeletesParent at h
  cases hc : c.op <;> rw [hc] at h <;> simp_all [Op.isDelete, Op.tag]

theorem stampsDeleted_tag (c : Call) (h : StampsDeleted c) : c.op.tag = (Verb.update, Kind.volumeResize) := by
  obtain ⟨w, hw, _⟩ := h
  rw [hw]
  rfl

theorem backupSTSToConfigMap_shows (vr : VolumeResize) (sts : StatefulSet) (env : Env) (s : St)
    (h : (backupSTSToConfigMap vr sts env s).val = none) :
    ∃ b ∈ (backupSTSToConfigMap vr sts env s).log, BackupOK vr.Meta.Namespace vr.Meta.Name b := by
  rw [backupSTSToConfigMap_def] at h ⊢
  cases hg : (Client.Get Kind.configMap vr.Meta.Namespace (getSTSBackupConfigMapName vr.Meta.Name) env s).val with
  | ok cm =>
    refine ⟨{ op := Op.get Kind.configMap vr.Meta.Namespace (getSTSBackupConfigMapName vr.Meta.Name),
              err := none }, ?_, rfl, Or.inl rfl⟩
    simp only [bind_log, Client.Get_log, hg, errOf_ok, pure_log, List.append_nil, List.mem_singleton]
  | error e =>
    simp only [bind_val, hg] at h
    by_cases hnf : IsNotFound e = true
    · simp only [hnf, Bool.not_true, Bool.false_eq_true, if_false, bind_val, getEnv] at h
      cases hm : env.jsonMarshal sts with
      | error e2 => simp only [hm, pure_val] at h; simp at h
      | ok j =>
        simp only [hm, bind_val] at h
        cases hc : (Client.Create Kind.configMap (backupConfigMap vr j) env
            (Client.Get Kind.configMap vr.Meta.Namespace (getSTSBackupConfigMapName vr.Meta.Name) env s).st).val with
        | error e3 => simp only [hc, pure_val] at h; simp at h
        | ok created =>
          refine ⟨{ op := Op.create Kind.configMap (backupConfigMap vr j), err := none }, ?_, rfl,
            Or.inr ⟨backupConfigMap vr j, rfl, rfl, rfl⟩⟩
          simp only [bind_log, Client.Get_log, hg, hnf, Bool.not_true, Bool.false_eq_true, if_false,
            getEnv, hm, Client.Create_log, hc, errOf_ok, errOf_error, pure_log, List.append_nil,
            List.nil_append, List.mem_append, List.mem_singleton, or_true]
    · simp only [hnf, Bool.not_false, if_true, pure_val] at h
      simp at h

theorem deleteSTSOrphan_deletes (sts : StatefulSet) (env : Env) (s : St) :
    ∃ b ∈ (deleteSTSOrphan sts env s).log, DeletesParent b := by
  unfold deleteSTSOrphan
  rw [bind_log, Client.Delete_log]
  exact ⟨_, List.mem_append_left _ (List.mem_singleton.mpr rfl), rfl⟩

theorem erase_get? (m : StrMap) (k : String) : (m.erase k).get? k = none := by
  unfold StrMap.erase StrMap.get?
  rw [Option.map_eq_none', List.find?_eq_none]
  intro x hx
  have := (List.mem_filter.mp hx).2
  simpa using this

theorem guarded_deleteSTS_backup (vr : VolumeResize) :
    Guarded (BackupOK vr.Meta.Namespace vr.Meta.Name) DeletesParent (handleSyncing.deleteSTS vr) := by
  unfold handleSyncing.deleteSTS
  split
  · apply guarded_bind
    · exact guarded_of_footprint (Verb.delete, Kind.statefulSet)
        (footprint_clientGet [(Verb.get, Kind.statefulSet)] _ _ _ (by decide)) deletesParent_tag (by decide)
    · intro r
      split
      · split <;>
          exact guarded_of_footprint (Verb.delete, Kind.statefulSet) (footprint_pure [] _)
            deletesParent_tag (by decide)
      · apply guarded_bind_some
        · exact guarded_of_footprint (Verb.delete, Kind.statefulSet) (footprint_backupSTSToConfigMap _ _)
            deletesParent_tag (by decide)
        · exact fun env s h => backupSTSToConfigMap_shows _ _ env s h
        · intro e
          exact guarded_of_footprint (Verb.delete, Kind.statefulSet)
            (footprint_bind (footprint_setFailed _ _) (fun _ => footprint_pure _ _))
            deletesParent_tag (by decide)
  · exact guarded_of_footprint (Verb.delete, Kind.statefulSet) (footprint_pure [] _)
      deletesParent_tag (by decide)

theorem guarded_deleteSTS_stamp (vr : VolumeResize) :
    Guarded DeletesParent StampsDeleted (handleSyncing.deleteSTS vr) := by
  unfold handleSyncing.deleteSTS
  split
  · apply guarded_bind
    · exact guarded_of_footprint (Verb.update, Kind.volumeResize)
        (footprint_clientGet [(Verb.get, Kind.statefulSet)] _ _ _ (by decide)) stampsDeleted_tag (by decide)
    · intro r
      split
      · split <;>
          exact guarded_of_footprint (Verb.update, Kind.volumeResize) (footprint_pure [] _)
            stampsDeleted_tag (by decide)
      · apply guarded_bind
        · exact guarded_of_footprint (Verb.update, Kind.volumeResize) (footprint_backupSTSToConfigMap _ _)
            stampsDeleted_tag (by decide)
        · intro r2
          split
          · exact guarded_of_footprint (Verb.update, Kind.volumeResize)
              (footprint_bind (footprint_setFailed _ _) (fun _ => footprint_pure _ _))
              stampsDeleted_tag (by decide)
          · apply guarded_bind_always
            · exact guarded_of_footprint (Verb.update, Kind.volumeResize) (footprint_deleteSTSOrphan _)
                stampsDeleted_tag (by decide)
            · exact fun env s => deleteSTSOrphan_deletes _ env s
  · exact guarded_of_footprint (Verb.update, Kind.volumeResize) (footprint_pure [] _)
      stampsDeleted_tag (by decide)
theorem footprint_get1 (k : Kind) (ns name : String) : Footprint [(Verb.get, k)] (Client.Get k ns name) :=
  footprint_clientGet _ _ _ _ (List.mem_singleton.mpr rfl)

theorem footprint_statusUpdate1 (k : Kind) (obj : k.T) :
    Footprint [(Verb.statusUpdate, k)] (Client.StatusUpdate k obj) :=
  footprint_clientStatusUpdate _ _ _ (List.mem_singleton.mpr rfl)

theorem guarded_update_erased (P : Call → Prop) (vr : VolumeResize) :
    Guarded P StampsDeleted (Client.Update Kind.volumeResize
      { vr with Meta := { vr.Meta with Annotations := vr.Meta.Annotations.erase AnnotationSTSDeleted } }) :=
  ⟨fun env s => precedes_of_forall_not (fun c hc hq => by
    rw [Client.Update_log, List.mem_singleton] at hc
    obtain ⟨w, hw, ha⟩ := hq
    rw [hc] at hw
    simp only [Op.update.injEq, heq_eq_eq, true_and] at hw
    rw [← hw] at ha
    simp only [erase_get?] at ha
    simp at ha)⟩

theorem guarded_deleteSTS_backup_of (vr : VolumeResize) (ns name : String)
    (hns : vr.Meta.Namespace = ns) (hname : vr.Meta.Name = name) :
    Guarded (BackupOK ns name) DeletesParent (handleSyncing.deleteSTS vr) := by
  subst hns hname
  exact guarded_deleteSTS_backup vr


theorem guarded_handleSyncing_backup (vr : VolumeResize) :
    Guarded (BackupOK vr.Meta.Namespace vr.Meta.Name) DeletesParent (handleSyncing vr) := by
  unfold MigController.handleSyncing
  repeat (first
    | with_reducible apply guarded_bind
    | intro _
    | dsimp only
    | split
    | exact guarded_deleteSTS_backup_of _ _ _ rfl rfl
    | exact guarded_of_footprint (Verb.delete, Kind.statefulSet) (footprint_pure [] _) deletesParent_tag (by decide)
    | exact guarded_of_footprint (Verb.delete, Kind.statefulSet) (footprint_get1 _ _ _) deletesParent_tag (by decide)
    | exact guarded_of_footprint (Verb.delete, Kind.statefulSet) (footprint_setFailed _ _) deletesParent_tag (by decide)
    | exact guarded_of_footprint (Verb.delete, Kind.statefulSet) (footprint_advance _ _ _) deletesParent_tag (by decide)
    | exact guarded_of_footprint (Verb.delete, Kind.statefulSet) (footprint_getPVC _ _) deletesParent_tag (by decide)
    | exact guarded_of_footprint (Verb.delete, Kind.statefulSet) (footprint_createTempPVC _ _ _ _) deletesParent_tag (by decide)
    | exact guarded_of_footprint (Verb.delete, Kind.statefulSet) (footprint_setRetainOnPV _) deletesParent_tag (by decide)
    | exact guarded_of_footprint (Verb.delete, Kind.statefulSet) (footprint_migrate _ _ _ _ _ _) deletesParent_tag (by decide))

theorem guarded_recreate_stamp (vr : VolumeResize) (replica : Int) (volName : String) :
    Guarded DeletesParent StampsDeleted (handleSyncing.recreate vr replica volName) := by
  unfold handleSyncing.recreate
  repeat (first
    | with_reducible apply guarded_bind
    | intro _
    | dsimp only
    | split
    | exact guarded_update_erased _ _
    | exact guarded_of_footprint (Verb.update, Kind.volumeResize) (footprint_pure [] _) stampsDeleted_tag (by decide)
    | exact guarded_of_footprint (Verb.update, Kind.volumeResize) (footprint_get1 _ _ _) stampsDeleted_tag (by decide)
    | exact guarded_of_footprint (Verb.update, Kind.volumeResize) (footprint_statusUpdate1 _ _) stampsDeleted_tag (by decide)
    | exact guarded_of_footprint (Verb.update, Kind.volumeResize) (footprint_setFailed _ _) stampsDeleted_tag (by decide)
    | exact guarded_of_footprint (Verb.update, Kind.volumeResize) (footprint_advance _ _ _) stampsDeleted_tag (by decide)
    | exact guarded_of_footprint (Verb.update, Kind.volumeResize) (footprint_getSTSFromBackupConfigMap _ _) stampsDeleted_tag (by decide)
    | exact guarded_of_footprint (Verb.update, Kind.volumeResize) (footprint_recreateSTS _) stampsDeleted_tag (by decide))


theorem guarded_migrate_stamp (vr : VolumeResize) (vol : VolumeResizeTarget) (replica : Int)
    (volName originalPVCName tempPVCName : String) :
    Guarded DeletesParent StampsDeleted
      (handleSyncing.migrate vr vol replica volName originalPVCName tempPVCName) := by
  unfold handleSyncing.migrate
  repeat (first
    | with_reducible apply guarded_bind
    | intro _
    | dsimp only
    | split
    | exact guarded_recreate_stamp _ _ _
    | exact guarded_of_footprint (Verb.update, Kind.volumeResize) (footprint_pure [] _) stampsDeleted_tag (by decide)
    | exact guarded_of_footprint (Verb.update, Kind.volumeResize) (footprint_get1 _ _ _) stampsDeleted_tag (by decide)
    | exact guarded_of_footprint (Verb.update, Kind.volumeResize) (footprint_setFailed _ _) stampsDeleted_tag (by decide)
    | exact guarded_of_footprint (Verb.update, Kind.volumeResize) (footprint_deletePod _ _ _) stampsDeleted_tag (by decide)
    | exact guarded_of_footprint (Verb.update, Kind.volumeResize) (footprint_waitForPodTermination _ _ _) stampsDeleted_tag (by decide)
    | exact guarded_of_footprint (Verb.update, Kind.volumeResize) (footprint_createMigratorPod _ _ _ _ _) stampsDeleted_tag (by decide)
    | exact guarded_of_footprint (Verb.update, Kind.volumeResize) (footprint_waitForMigrationComplete _ _ _) stampsDeleted_tag (by decide)
    | exact guarded_of_footprint (Verb.update, Kind.volumeResize) (footprint_cleanupMigratorPod _ _) stampsDeleted_tag (by decide)
    | exact guarded_of_footprint (Verb.update, Kind.volumeResize) (footprint_replacePVC _ _ _) stampsDeleted_tag (by decide))


theorem guarded_handleSyncing_stamp (vr : VolumeResize) :
    Guarded DeletesParent StampsDeleted (handleSyncing vr) := by
  unfold MigController.handleSyncing
  repeat (first
    | with_reducible apply guarded_bind
    | intro _
    | dsimp only
    | split
    | exact guarded_deleteSTS_stamp _
    | exact guarded_migrate_stamp _ _ _ _ _ _
    | exact guarded_of_footprint (Verb.update, Kind.volumeResize) (footprint_pure [] _) stampsDeleted_tag (by decide)
    | exact guarded_of_footprint (Verb.update, Kind.volumeResize) (footprint_get1 _ _ _) stampsDeleted_tag (by decide)
    | exact guarded_of_footprint (Verb.update, Kind.volumeResize) (footprint_setFailed _ _) stampsDeleted_tag (by decide)
    | exact guarded_of_footprint (Verb.update, Kind.volumeResize) (footprint_advance _ _ _) stampsDeleted_tag (by decide)
    | exact guarded_of_footprint (Verb.update, Kind.volumeResize) (footprint_getPVC _ _) stampsDeleted_tag (by decide)
    | exact guarded_of_footprint (Verb.update, Kind.volumeResize) (footprint_createTempPVC _ _ _ _) stampsDeleted_tag (by decide)
    | exact guarded_of_footprint (Verb.update, Kind.volumeResize) (footprint_setRetainOnPV _) stampsDeleted_tag (by decide))

/-! ### The backup exists while the annotation says the parent is deleted -/

theorem grows_refl (w : World) : Grows w w := fun _ _ h => h

theorem grows_trans {w1 w2 w3 : World} (h1 : Grows w1 w2) (h2 : Grows w2 w3) : Grows w1 w3 :=
  fun ns name h => h2 ns name (h1 ns name h)

theorem quietStep_refl (w : World) : QuietStep w w :=
  ⟨grows_refl w, fun vr h => ⟨vr, h, rfl⟩⟩

theorem quietStep_trans {w1 w2 w3 : World} (h1 : QuietStep w1 w2) (h2 : QuietStep w2 w3) :
    QuietStep w1 w3 :=
  ⟨grows_trans h1.1 h2.1, fun vr3 h3 => by
    obtain ⟨vr2, hm2, e2⟩ := h2.2 vr3 h3
    obtain ⟨vr1, hm1, e1⟩ := h1.2 vr2 hm2
    exact ⟨vr1, hm1, e2.trans e1⟩⟩

theorem metaGood_grows {w w2 : World} {m : ObjectMeta} (hg : Grows w w2) (h : MetaGood w m) :
    MetaGood w2 m := fun hs => hg _ _ (h hs)

theorem backupInv_quietStep {w w2 : World} (hq : QuietStep w w2) (h : BackupInv w) : BackupInv w2 := by
  intro vr2 hm2
  obtain ⟨vr, hm, e⟩ := hq.2 vr2 hm2
  rw [e]
  exact metaGood_grows hq.1 (h vr hm)

theorem quietStep_of_eq {w w2 : World} (hv : w2.volumeResizes = w.volumeResizes)
    (hc : w2.configMaps = w.configMaps) : QuietStep w w2 :=
  ⟨fun ns name h => by unfold backupPresent at *; rw [hc]; exact h,
   fun vr2 h2 => ⟨vr2, by rw [← hv]; exact h2, rfl⟩⟩

theorem setObjs_volumeResizes (w : World) (k : Kind) (hk : k ≠ Kind.volumeResize) (l : List k.T) :
    (w.setObjs k l).volumeResizes = w.volumeResizes := by
  cases k <;> first | rfl | exact absurd rfl hk

theorem setObjs_configMaps (w : World) (k : Kind) (hk : k ≠ Kind.configMap) (l : List k.T) :
    (w.setObjs k l).configMaps = w.configMaps := by
  cases k <;> first | rfl | exact absurd rfl hk

theorem quiet_pure {α : Type} (a : α) : Quiet (pure a : M α) :=
  ⟨fun _ s _ => quietStep_refl s.world⟩

theorem quiet_bind {α β : Type} {m : M α} {f : α → M β} (hm : Quiet m) (hf : ∀ a, Quiet (f a)) :
    Quiet (m >>= f) :=
  ⟨fun env s hd => quietStep_trans (hm.run env s hd) ((hf _).run env _ hd)⟩

theorem quiet_getEnv : Quiet getEnv := ⟨fun _ s _ => quietStep_refl s.world⟩

theorem quiet_timeNow : Quiet timeNow := ⟨fun _ s _ => quietStep_refl s.world⟩

theorem quiet_timeSleep (d : Nat) : Quiet (timeSleep d) := ⟨fun _ s _ => quietStep_refl s.world⟩

theorem quiet_ctxDoneOrAfter (d : Nat) : Quiet (ctxDoneOrAfter d) :=
  ⟨fun env s _ => by
    unfold ctxDoneOrAfter
    split <;> exact quietStep_refl s.world⟩

theorem quiet_call {α : Type} (op : Op) (serve : World → Nat → Except Err α × World)
    (h : ∀ w now, QuietStep w (serve w now).2) : Quiet (call op serve) :=
  ⟨fun env s hd => by
    unfold call
    split
    · show QuietStep s.world (env.drift s.calls s.world)
      rw [hd]
      exact quietStep_refl _
    · show QuietStep s.world (serve (env.drift s.calls s.world) _).2
      rw [hd]
      exact h _ _⟩

theorem quiet_clientGet (k : Kind) (ns name : String) : Quiet (Client.Get k ns name) :=
  quiet_call _ _ (fun w _ => quietStep_refl w)

theorem quiet_clientList (k : Kind) (ns : String) (labels : StrMap) : Quiet (Client.List k ns labels) :=
  quiet_call _ _ (fun w _ => quietStep_refl w)

theorem quiet_clientCreate (k : Kind) (hk : k ≠ Kind.volumeResize) (obj : k.T) :
    Quiet (Client.Create k obj) :=
  quiet_call _ _ (fun w _ => by
    unfold World.serveCreate
    split
    · exact quietStep_refl w
    · refine ⟨?_, fun vr2 h2 => ⟨vr2, by rw [setObjs_volumeResizes w k hk] at h2; exact h2, rfl⟩⟩
      intro ns name hp
      unfold backupPresent at *
      by_cases hc : k = Kind.configMap
      · subst hc
        show (w.configMaps ++ [obj]).any _ = true
        rw [List.any_append, hp, Bool.true_or]
      · rw [setObjs_configMaps w k hc]
        exact hp)

theorem quiet_clientUpdate (k : Kind) (hk : k ≠ Kind.volumeResize) (hc : k ≠ Kind.configMap) (obj : k.T) :
    Quiet (Client.Update k obj) :=
  quiet_call _ _ (fun w _ => by
    unfold World.serveUpdate
    split
    · exact quietStep_refl w
    · dsimp only
      split <;> exact quietStep_of_eq (setObjs_volumeResizes w k hk _) (setObjs_configMaps w k hc _))

theorem quiet_clientDelete (k : Kind) (hk : k ≠ Kind.volumeResize) (hc : k ≠ Kind.configMap)
    (ns name : String) (orphan : Bool) : Quiet (Client.Delete k ns name orphan) :=
  quiet_call _ _ (fun w _ => by
    unfold World.serveDelete
    split
    · exact quietStep_refl w
    · split <;> exact quietStep_of_eq (setObjs_volumeResizes w k hk _) (setObjs_configMaps w k hc _))

theorem mem_replaceFirst {α : Type} (p : α → Bool) (o : α) (l : List α) (x : α)
    (h : x ∈ replaceFirst p o l) : x ∈ l ∨ x = o := by
  induction l with
  | nil => simp [replaceFirst] at h
  | cons y ys ih =>
    unfold replaceFirst at h
    split at h
    · rcases List.mem_cons.mp h with h | h
      · exact Or.inr h
      · exact Or.inl (List.mem_cons_of_mem _ h)
    · rcases List.mem_cons.mp h with h | h
      · exact Or.inl (h ▸ List.mem_cons_self _ _)
      · rcases ih h with h | h
        · exact Or.inl (List.mem_cons_of_mem _ h)
        · exact Or.inr h

theorem quiet_clientStatusUpdate (obj : VolumeResize) :
    Quiet (Client.StatusUpdate Kind.volumeResize obj) :=
  quiet_call _ _ (fun w _ => by
    unfold World.serveStatusUpdate
    split
    · exact quietStep_refl w
    · rename_i stored hf
      refine ⟨fun ns name hp => hp, fun vr2 h2 => ?_⟩
      rcases mem_replaceFirst _ _ _ _ h2 with h | h
      · exact ⟨vr2, h, rfl⟩
      · exact ⟨stored, List.mem_of_find?_eq_some hf, by rw [h]; rfl⟩)

theorem quiet_getPVC (ns name : String) :
    Quiet (getPVC ns name) := by
  unfold MigController.getPVC
  repeat (first
    | with_reducible apply quiet_bind
    | intro _
    | dsimp only
    | split
    | exact quiet_pure _
    | exact quiet_getEnv
    | exact quiet_timeNow
    | exact quiet_timeSleep _
    | exact quiet_ctxDoneOrAfter _
    | exact quiet_clientGet _ _ _
    | exact quiet_clientList _ _ _
    | exact quiet_clientCreate _ (by decide) _
    | exact quiet_clientUpdate _ (by decide) (by decide) _
    | exact quiet_clientStatusUpdate _
    | exact quiet_clientDelete _ (by decide) (by decide) _ _ _)

theorem quiet_createTempPVC (vr : VolumeResize) (vol : VolumeResizeTarget) (originalPVC : PersistentVolumeClaim) (replica : Int) :
    Quiet (createTempPVC vr vol originalPVC replica) := by
  unfold MigController.createTempPVC
  repeat (first
    | with_reducible apply quiet_bind
    | intro _
    | dsimp only
    | split
    | exact quiet_pure _
    | exact quiet_getEnv
    | exact quiet_timeNow
    | exact quiet_timeSleep _
    | exact quiet_ctxDoneOrAfter _
    | exact quiet_clientGet _ _ _
    | exact quiet_clientList _ _ _
    | exact quiet_clientCreate _ (by decide) _
    | exact quiet_clientUpdate _ (by decide) (by decide) _
    | exact quiet_clientStatusUpdate _
    | exact quiet_clientDelete _ (by decide) (by decide) _ _ _
    | exact quiet_getPVC _ _)

theorem quiet_setRetainOnPV (pvName : String) :
    Quiet (setRetainOnPV pvName) := by
  unfold MigController.setRetainOnPV
  repeat (first
    | with_reducible apply quiet_bind
    | intro _
    | dsimp only
    | split
    | exact quiet_pure _
    | exact quiet_getEnv
    | exact quiet_timeNow
    | exact quiet_timeSleep _
    | exact quiet_ctxDoneOrAfter _
    | exact quiet_clientGet _ _ _
    | exact quiet_clientList _ _ _
    | exact quiet_clientCreate _ (by decide) _
    | exact quiet_clientUpdate _ (by decide) (by decide) _
    | exact quiet_clientStatusUpdate _
    | exact quiet_clientDelete _ (by decide) (by decide) _ _ _)

theorem quiet_waitDeleted (ns name pre : String) (n : Nat) :
    Quiet (replacePVC.waitDeleted ns name pre n) := by
  induction n with
  | zero =>
    unfold replacePVC.waitDeleted
    repeat (first
      | with_reducible apply quiet_bind
      | intro _
      | dsimp only
      | split
      | exact quiet_pure _
      | exact quiet_getEnv
      | exact quiet_timeNow
      | exact quiet_timeSleep _
      | exact quiet_ctxDoneOrAfter _
      | exact quiet_clientGet _ _ _
      | exact quiet_clientList _ _ _
      | exact quiet_clientCreate _ (by decide) _
      | exact quiet_clientUpdate _ (by decide) (by decide) _
      | exact quiet_clientStatusUpdate _
      | exact quiet_clientDelete _ (by decide) (by decide) _ _ _
      | exact quiet_getPVC _ _)
  | succ n ih =>
    unfold replacePVC.waitDeleted
    repeat (first
      | with_reducible apply quiet_bind
      | intro _
      | dsimp only
      | split
      | exact quiet_pure _
      | exact quiet_getEnv
      | exact quiet_timeNow
      | exact quiet_timeSleep _
      | exact quiet_ctxDoneOrAfter _
      | exact quiet_clientGet _ _ _
      | exact quiet_clientList _ _ _
      | exact quiet_clientCreate _ (by decide) _
      | exact quiet_clientUpdate _ (by decide) (by decide) _
      | exact quiet_clientStatusUpdate _
      | exact quiet_clientDelete _ (by decide) (by decide) _ _ _
      | exact ih
      | exact quiet_getPVC _ _)

theorem quiet_replacePVC (vr : VolumeResize) (vol : VolumeResizeTarget) (replica : Int) :
    Quiet (replacePVC vr vol replica) := by
  unfold MigController.replacePVC
  repeat (first
    | with_reducible apply quiet_bind
    | intro _
    | dsimp only
    | split
    | exact quiet_pure _
    | exact quiet_getEnv
    | exact quiet_timeNow
    | exact quiet_timeSleep _
    | exact quiet_ctxDoneOrAfter _
    | exact quiet_clientGet _ _ _
    | exact quiet_clientList _ _ _
    | exact quiet_clientCreate _ (by decide) _
    | exact quiet_clientUpdate _ (by decide) (by decide) _
    | exact quiet_clientStatusUpdate _
    | exact quiet_clientDelete _ (by decide) (by decide) _ _ _
    | exact quiet_getPVC _ _
    | exact quiet_waitDeleted _ _ _ _)

theorem quiet_deleteSTSOrphan (sts : StatefulSet) :
    Quiet (deleteSTSOrphan sts) := by
  unfold MigController.deleteSTSOrphan
  repeat (first
    | with_reducible apply quiet_bind
    | intro _
    | dsimp only
    | split
    | exact quiet_pure _
    | exact quiet_getEnv
    | exact quiet_timeNow
    | exact quiet_timeSleep _
    | exact quiet_ctxDoneOrAfter _
    | exact quiet_clientGet _ _ _
    | exact quiet_clientList _ _ _
    | exact quiet_clientCreate _ (by decide) _
    | exact quiet_clientUpdate _ (by decide) (by decide) _
    | exact quiet_clientStatusUpdate _
    | exact quiet_clientDelete _ (by decide) (by decide) _ _ _)

theorem quiet_deletePod (ns stsName : String) (replica : Int) :
    Quiet (deletePod ns stsName replica) := by
  unfold MigController.deletePod
  repeat (first
    | with_reducible apply quiet_bind
    | intro _
    | dsimp only
    | split
    | exact quiet_pure _
    | exact quiet_getEnv
    | exact quiet_timeNow
    | exact quiet_timeSleep _
    | exact quiet_ctxDoneOrAfter _
    | exact quiet_clientGet _ _ _
    | exact quiet_clientList _ _ _
    | exact quiet_clientCreate _ (by decide) _
    | exact quiet_clientUpdate _ (by decide) (by decide) _
    | exact quiet_clientStatusUpdate _
    | exact quiet_clientDelete _ (by decide) (by decide) _ _ _)

theorem quiet_waitForPodTermination_loop (ns podName : String) (deadline fuel : Nat) :
    Quiet (waitForPodTermination.loop ns podName deadline fuel) := by
  induction fuel with
  | zero =>
    unfold waitForPodTermination.loop
    repeat (first
      | with_reducible apply quiet_bind
      | intro _
      | dsimp only
      | split
      | exact quiet_pure _
      | exact quiet_getEnv
      | exact quiet_timeNow
      | exact quiet_timeSleep _
      | exact quiet_ctxDoneOrAfter _
      | exact quiet_clientGet _ _ _
      | exact quiet_clientList _ _ _
      | exact quiet_clientCreate _ (by decide) _
      | exact quiet_clientUpdate _ (by decide) (by decide) _
      | exact quiet_clientStatusUpdate _
      | exact quiet_clientDelete _ (by decide) (by decide) _ _ _)
  | succ fuel ih =>
    unfold waitForPodTermination.loop
    repeat (first
      | with_reducible apply quiet_bind
      | intro _
      | dsimp only
      | split
      | exact quiet_pure _
      | exact quiet_getEnv
      | exact quiet_timeNow
      | exact quiet_timeSleep _
      | exact quiet_ctxDoneOrAfter _
      | exact quiet_clientGet _ _ _
      | exact quiet_clientList _ _ _
      | exact quiet_clientCreate _ (by decide) _
      | exact quiet_clientUpdate _ (by decide) (by decide) _
      | exact quiet_clientStatusUpdate _
      | exact quiet_clientDelete _ (by decide) (by decide) _ _ _
      | exact ih)

theorem quiet_waitForPodTermination (ns podName : String) (timeout : Nat) :
    Quiet (waitForPodTermination ns podName timeout) := by
  unfold MigController.waitForPodTermination
  repeat (first
    | with_reducible apply quiet_bind
    | intro _
    | dsimp only
    | split
    | exact quiet_pure _
    | exact quiet_getEnv
    | exact quiet_timeNow
    | exact quiet_timeSleep _
    | exact quiet_ctxDoneOrAfter _
    | exact quiet_clientGet _ _ _
    | exact quiet_clientList _ _ _
    | exact quiet_clientCreate _ (by decide) _
    | exact quiet_clientUpdate _ (by decide) (by decide) _
    | exact quiet_clientStatusUpdate _
    | exact quiet_clientDelete _ (by decide) (by decide) _ _ _
    | exact quiet_waitForPodTermination_loop _ _ _ _)

theorem quiet_backupSTSToConfigMap (vr : VolumeResize) (sts : StatefulSet) :
    Quiet (backupSTSToConfigMap vr sts) := by
  unfold MigController.backupSTSToConfigMap
  repeat (first
    | with_reducible apply quiet_bind
    | intro _
    | dsimp only
    | split
    | exact quiet_pure _
    | exact quiet_getEnv
    | exact quiet_timeNow
    | exact quiet_timeSleep _
    | exact quiet_ctxDoneOrAfter _
    | exact quiet_clientGet _ _ _
    | exact quiet_clientList _ _ _
    | exact quiet_clientCreate _ (by decide) _
    | exact quiet_clientUpdate _ (by decide) (by decide) _
    | exact quiet_clientStatusUpdate _
    | exact quiet_clientDelete _ (by decide) (by decide) _ _ _)

theorem quiet_getSTSFromBackupConfigMap (ns vrName : String) :
    Quiet (getSTSFromBackupConfigMap ns vrName) := by
  unfold MigController.getSTSFromBackupConfigMap
  repeat (first
    | with_reducible apply quiet_bind
    | intro _
    | dsimp only
    | split
    | exact quiet_pure _
    | exact quiet_getEnv
    | exact quiet_timeNow
    | exact quiet_timeSleep _
    | exact quiet_ctxDoneOrAfter _
    | exact quiet_clientGet _ _ _
    | exact quiet_clientList _ _ _
    | exact quiet_clientCreate _ (by decide) _
    | exact quiet_clientUpdate _ (by decide) (by decide) _
    | exact quiet_clientStatusUpdate _
    | exact quiet_clientDelete _ (by decide) (by decide) _ _ _)

theorem quiet_recreateSTS (stsSpec : StatefulSet) :
    Quiet (recreateSTS stsSpec) := by
  unfold MigController.recreateSTS
  repeat (first
    | with_reducible apply quiet_bind
    | intro _
    | dsimp only
    | split
    | exact quiet_pure _
    | exact quiet_getEnv
    | exact quiet_timeNow
    | exact quiet_timeSleep _
    | exact quiet_ctxDoneOrAfter _
    | exact quiet_clientGet _ _ _
    | exact quiet_clientList _ _ _
    | exact quiet_clientCreate _ (by decide) _
    | exact quiet_clientUpdate _ (by decide) (by decide) _
    | exact quiet_clientStatusUpdate _
    | exact quiet_clientDelete _ (by decide) (by decide) _ _ _)

theorem quiet_createMigratorPod (vr : VolumeResize) (vol : VolumeResizeTarget) (replica : Int) (oldPVCName newPVCName : String) :
    Quiet (createMigratorPod vr vol replica oldPVCName newPVCName) := by
  unfold MigController.createMigratorPod
  repeat (first
    | with_reducible apply quiet_bind
    | intro _
    | dsimp only
    | split
    | exact quiet_pure _
    | exact quiet_getEnv
    | exact quiet_timeNow
    | exact quiet_timeSleep _
    | exact quiet_ctxDoneOrAfter _
    | exact quiet_clientGet _ _ _
    | exact quiet_clientList _ _ _
    | exact quiet_clientCreate _ (by decide) _
    | exact quiet_clientUpdate _ (by decide) (by decide) _
    | exact quiet_clientStatusUpdate _
    | exact quiet_clientDelete _ (by decide) (by decide) _ _ _)

theorem quiet_waitForMigrationComplete_loop (podName ns : String) (deadline fuel : Nat) :
    Quiet (waitForMigrationComplete.loop podName ns deadline fuel) := by
  induction fuel with
  | zero =>
    unfold waitForMigrationComplete.loop
    repeat (first
      | with_reducible apply quiet_bind
      | intro _
      | dsimp only
      | split
      | exact quiet_pure _
      | exact quiet_getEnv
      | exact quiet_timeNow
      | exact quiet_timeSleep _
      | exact quiet_ctxDoneOrAfter _
      | exact quiet_clientGet _ _ _
      | exact quiet_clientList _ _ _
      | exact quiet_clientCreate _ (by decide) _
      | exact quiet_clientUpdate _ (by decide) (by decide) _
      | exact quiet_clientStatusUpdate _
      | exact quiet_clientDelete _ (by decide) (by decide) _ _ _)
  | succ fuel ih =>
    unfold waitForMigrationComplete.loop
    repeat (first
      | with_reducible apply quiet_bind
      | intro _
      | dsimp only
      | split
      | exact quiet_pure _
      | exact quiet_getEnv
      | exact quiet_timeNow
      | exact quiet_timeSleep _
      | exact quiet_ctxDoneOrAfter _
      | exact quiet_clientGet _ _ _
      | exact quiet_clientList _ _ _
      | exact quiet_clientCreate _ (by decide) _
      | exact quiet_clientUpdate _ (by decide) (by decide) _
      | exact quiet_clientStatusUpdate _
      | exact quiet_clientDelete _ (by decide) (by decide) _ _ _
      | exact ih)

theorem quiet_waitForMigrationComplete (podName ns : String) (timeout : Nat) :
    Quiet (waitForMigrationComplete podName ns timeout) := by
  unfold MigController.waitForMigrationComplete
  repeat (first
    | with_reducible apply quiet_bind
    | intro _
    | dsimp only
    | split
    | exact quiet_pure _
    | exact quiet_getEnv
    | exact quiet_timeNow
    | exact quiet_timeSleep _
    | exact quiet_ctxDoneOrAfter _
    | exact quiet_clientGet _ _ _
    | exact quiet_clientList _ _ _
    | exact quiet_clientCreate _ (by decide) _
    | exact quiet_clientUpdate _ (by decide) (by decide) _
    | exact quiet_clientStatusUpdate _
    | exact quiet_clientDelete _ (by decide) (by decide) _ _ _
    | exact quiet_waitForMigrationComplete_loop _ _ _ _)

theorem quiet_cleanupMigratorPod (podName ns : String) :
    Quiet (cleanupMigratorPod podName ns) := by
  unfold MigController.cleanupMigratorPod
  repeat (first
    | with_reducible apply quiet_bind
    | intro _
    | dsimp only
    | split
    | exact quiet_pure _
    | exact quiet_getEnv
    | exact quiet_timeNow
    | exact quiet_timeSleep _
    | exact quiet_ctxDoneOrAfter _
    | exact quiet_clientGet _ _ _
    | exact quiet_clientList _ _ _
    | exact quiet_clientCreate _ (by decide) _
    | exact quiet_clientUpdate _ (by decide) (by decide) _
    | exact quiet_clientStatusUpdate _
    | exact quiet_clientDelete _ (by decide) (by decide) _ _ _)

theorem quiet_validateStatefulSetExists (ns name : String) :
    Quiet (validateStatefulSetExists ns name) := by
  unfold MigController.validateStatefulSetExists
  repeat (first
    | with_reducible apply quiet_bind
    | intro _
    | dsimp only
    | split
    | exact quiet_pure _
    | exact quiet_getEnv
    | exact quiet_timeNow
    | exact quiet_timeSleep _
    | exact quiet_ctxDoneOrAfter _
    | exact quiet_clientGet _ _ _
    | exact quiet_clientList _ _ _
    | exact quiet_clientCreate _ (by decide) _
    | exact quiet_clientUpdate _ (by decide) (by decide) _
    | exact quiet_clientStatusUpdate _
    | exact quiet_clientDelete _ (by decide) (by decide) _ _ _)

theorem quiet_validateSizeReduction (ns stsName : String) (vol : VolumeResizeTarget) :
    Quiet (validateSizeReduction ns stsName vol) := by
  unfold MigController.validateSizeReduction
  repeat (first
    | with_reducible apply quiet_bind
    | intro _
    | dsimp only
    | split
    | exact quiet_pure _
    | exact quiet_getEnv
    | exact quiet_timeNow
    | exact quiet_timeSleep _
    | exact quiet_ctxDoneOrAfter _
    | exact quiet_clientGet _ _ _
    | exact quiet_clientList _ _ _
    | exact quiet_clientCreate _ (by decide) _
    | exact quiet_clientUpdate _ (by decide) (by decide) _
    | exact quiet_clientStatusUpdate _
    | exact quiet_clientDelete _ (by decide) (by decide) _ _ _
    | exact quiet_getPVC _ _)

theorem quiet_validatePDBAllowsDisruption (sts : StatefulSet) :
    Quiet (validatePDBAllowsDisruption sts) := by
  unfold MigController.validatePDBAllowsDisruption
  repeat (first
    | with_reducible apply quiet_bind
    | intro _
    | dsimp only
    | split
    | exact quiet_pure _
    | exact quiet_getEnv
    | exact quiet_timeNow
    | exact quiet_timeSleep _
    | exact quiet_ctxDoneOrAfter _
    | exact quiet_clientGet _ _ _
    | exact quiet_clientList _ _ _
    | exact quiet_clientCreate _ (by decide) _
    | exact quiet_clientUpdate _ (by decide) (by decide) _
    | exact quiet_clientStatusUpdate _
    | exact quiet_clientDelete _ (by decide) (by decide) _ _ _)

theorem quiet_setFailed (vr : VolumeResize) (message : String) :
    Quiet (setFailed vr message) := by
  unfold MigController.setFailed
  repeat (first
    | with_reducible apply quiet_bind
    | intro _
    | dsimp only
    | split
    | exact quiet_pure _
    | exact quiet_getEnv
    | exact quiet_timeNow
    | exact quiet_timeSleep _
    | exact quiet_ctxDoneOrAfter _
    | exact quiet_clientGet _ _ _
    | exact quiet_clientList _ _ _
    | exact quiet_clientCreate _ (by decide) _
    | exact quiet_clientUpdate _ (by decide) (by decide) _
    | exact quiet_clientStatusUpdate _
    | exact quiet_clientDelete _ (by decide) (by decide) _ _ _)

theorem quiet_handlePending (vr : VolumeResize) :
    Quiet (handlePending vr) := by
  unfold MigController.handlePending
  repeat (first
    | with_reducible apply quiet_bind
    | intro _
    | dsimp only
    | split
    | exact quiet_pure _
    | exact quiet_getEnv
    | exact quiet_timeNow
    | exact quiet_timeSleep _
    | exact quiet_ctxDoneOrAfter _
    | exact quiet_clientGet _ _ _
    | exact quiet_clientList _ _ _
    | exact quiet_clientCreate _ (by decide) _
    | exact quiet_clientUpdate _ (by decide) (by decide) _
    | exact quiet_clientStatusUpdate _
    | exact quiet_clientDelete _ (by decide) (by decide) _ _ _)

theorem quiet_sizeLoop (ns stsName : String) (volumes : List VolumeResizeTarget) :
    Quiet (handleValidating.sizeLoop ns stsName volumes) := by
  induction volumes with
  | nil =>
    unfold handleValidating.sizeLoop
    repeat (first
      | with_reducible apply quiet_bind
      | intro _
      | dsimp only
      | split
      | exact quiet_pure _
      | exact quiet_getEnv
      | exact quiet_timeNow
      | exact quiet_timeSleep _
      | exact quiet_ctxDoneOrAfter _
      | exact quiet_clientGet _ _ _
      | exact quiet_clientList _ _ _
      | exact quiet_clientCreate _ (by decide) _
      | exact quiet_clientUpdate _ (by decide) (by decide) _
      | exact quiet_clientStatusUpdate _
      | exact quiet_clientDelete _ (by decide) (by decide) _ _ _
      | exact quiet_validateSizeReduction _ _ _)
  | cons v t ih =>
    unfold handleValidating.sizeLoop
    repeat (first
      | with_reducible apply quiet_bind
      | intro _
      | dsimp only
      | split
      | exact quiet_pure _
      | exact quiet_getEnv
      | exact quiet_timeNow
      | exact quiet_timeSleep _
      | exact quiet_ctxDoneOrAfter _
      | exact quiet_clientGet _ _ _
      | exact quiet_clientList _ _ _
      | exact quiet_clientCreate _ (by decide) _
      | exact quiet_clientUpdate _ (by decide) (by decide) _
      | exact quiet_clientStatusUpdate _
      | exact quiet_clientDelete _ (by decide) (by decide) _ _ _
      | exact ih
      | exact quiet_validateSizeReduction _ _ _)

theorem quiet_handleValidating (vr : VolumeResize) :
    Quiet (handleValidating vr) := by
  unfold MigController.handleValidating
  repeat (first
    | with_reducible apply quiet_bind
    | intro _
    | dsimp only
    | split
    | exact quiet_pure _
    | exact quiet_getEnv
    | exact quiet_timeNow
    | exact quiet_timeSleep _
    | exact quiet_ctxDoneOrAfter _
    | exact quiet_clientGet _ _ _
    | exact quiet_clientList _ _ _
    | exact quiet_clientCreate _ (by decide) _
    | exact quiet_clientUpdate _ (by decide) (by decide) _
    | exact quiet_clientStatusUpdate _
    | exact quiet_clientDelete _ (by decide) (by decide) _ _ _
    | exact quiet_validateStatefulSetExists _ _
    | exact quiet_setFailed _ _
    | exact quiet_sizeLoop _ _ _
    | exact quiet_validatePDBAllowsDisruption _)

theorem quiet_advance (vr : VolumeResize) (replica : Int) (volName : String) :
    Quiet (handleSyncing.advance vr replica volName) := by
  unfold handleSyncing.advance
  repeat (first
    | with_reducible apply quiet_bind
    | intro _
    | dsimp only
    | split
    | exact quiet_pure _
    | exact quiet_getEnv
    | exact quiet_timeNow
    | exact quiet_timeSleep _
    | exact quiet_ctxDoneOrAfter _
    | exact quiet_clientGet _ _ _
    | exact quiet_clientList _ _ _
    | exact quiet_clientCreate _ (by decide) _
    | exact quiet_clientUpdate _ (by decide) (by decide) _
    | exact quiet_clientStatusUpdate _
    | exact quiet_clientDelete _ (by decide) (by decide) _ _ _)

theorem quiet_handleReplacing (vr : VolumeResize) :
    Quiet (handleReplacing vr) := by
  unfold MigController.handleReplacing
  repeat (first
    | with_reducible apply quiet_bind
    | intro _
    | dsimp only
    | split
    | exact quiet_pure _
    | exact quiet_getEnv
    | exact quiet_timeNow
    | exact quiet_timeSleep _
    | exact quiet_ctxDoneOrAfter _
    | exact quiet_clientGet _ _ _
    | exact quiet_clientList _ _ _
    | exact quiet_clientCreate _ (by decide) _
    | exact quiet_clientUpdate _ (by decide) (by decide) _
    | exact quiet_clientStatusUpdate _
    | exact quiet_clientDelete _ (by decide) (by decide) _ _ _)

theorem quiet_deleteAll (k : Kind) (hk : k ≠ Kind.volumeResize) (hc : k ≠ Kind.configMap) (l : List k.T) :
    Quiet (handleDeletion.deleteAll k l) := by
  induction l with
  | nil => unfold handleDeletion.deleteAll; exact quiet_pure _
  | cons o rest ih =>
    unfold handleDeletion.deleteAll
    exact quiet_bind (quiet_clientDelete k hk hc _ _ _) (fun _ => ih)

theorem keepsGiven_of_quiet {α : Type} (x : ObjectMeta) {m : M α} (h : Quiet m) : KeepsGiven x m :=
  ⟨fun env s hd hi _ => ⟨backupInv_quietStep (h.run env s hd) hi, (h.run env s hd).1⟩⟩

theorem keeps_of_quiet {α : Type} {m : M α} (h : Quiet m) : Keeps m :=
  ⟨fun env s hd hi => ⟨backupInv_quietStep (h.run env s hd) hi, (h.run env s hd).1⟩⟩

theorem keepsGiven_bind {α β : Type} {x : ObjectMeta} {m : M α} {f : α → M β} (hm : Quiet m)
    (hf : ∀ a, KeepsGiven x (f a)) : KeepsGiven x (m >>= f) :=
  ⟨fun env s hd hi hx => by
    have q := hm.run env s hd
    have r := (hf (m env s).val).run env (m env s).st hd (backupInv_quietStep q hi)
      (metaGood_grows q.1 hx)
    exact ⟨r.1, grows_trans q.1 r.2⟩⟩

theorem call_val_ok {α : Type} (op : Op) (serve : World → Nat → Except Err α × World) (env : Env)
    (s : St) (a : α) (h : (call op serve env s).val = .ok a) :
    (serve (env.drift s.calls s.world) (s.now + env.latency s.calls)).1 = .ok a := by
  unfold call at h
  split at h
  · simp at h
  · exact h

theorem call_world {α : Type} (op : Op) (serve : World → Nat → Except Err α × World) (env : Env)
    (s : St) :
    (call op serve env s).st.world = env.drift s.calls s.world ∨
    (call op serve env s).st.world =
      (serve (env.drift s.calls s.world) (s.now + env.latency s.calls)).2 := by
  unfold call
  split
  · exact Or.inl rfl
  · exact Or.inr rfl

theorem statusUpdate_ok_meta (obj vr3 : VolumeResize) (env : Env) (s : St) (hd : NoDrift env)
    (h : (Client.StatusUpdate Kind.volumeResize obj env s).val = .ok vr3) :
    ∃ stored ∈ s.world.volumeResizes, vr3.Meta = stored.Meta := by
  have h2 := call_val_ok _ _ env s vr3 h
  rw [hd] at h2
  unfold World.serveStatusUpdate at h2
  split at h2
  · simp at h2
  · rename_i stored hf
    simp only [Except.ok.injEq] at h2
    exact ⟨stored, List.mem_of_find?_eq_some hf, by rw [← h2]; rfl⟩

theorem update_ok_meta (obj vr3 : VolumeResize) (env : Env) (s : St)
    (h : (Client.Update Kind.volumeResize obj env s).val = .ok vr3) :
    vr3.Meta.Annotations = obj.Meta.Annotations ∧ vr3.Meta.Name = obj.Meta.Name ∧
      vr3.Meta.Namespace = obj.Meta.Namespace := by
  have h2 := call_val_ok _ _ env s vr3 h
  unfold World.serveUpdate at h2
  split at h2
  · simp at h2
  · dsimp only at h2
    split at h2 <;>
    · simp only [Except.ok.injEq] at h2
      rw [← h2]
      exact ⟨rfl, rfl, rfl⟩

theorem metaGood_of_same {w : World} {m m2 : ObjectMeta} (ha : m2.Annotations = m.Annotations)
    (hn : m2.Name = m.Name) (hns : m2.Namespace = m.Namespace) (h : MetaGood w m) : MetaGood w m2 := by
  intro hs
  unfold Stamped at hs
  rw [ha] at hs
  rw [hn, hns]
  exact h hs

theorem update_step (obj : VolumeResize) (env : Env) (s : St) (hd : NoDrift env)
    (hi : BackupInv s.world) (hx : MetaGood s.world obj.Meta) :
    BackupInv (Client.Update Kind.volumeResize obj env s).st.world ∧
      Grows s.world (Client.Update Kind.volumeResize obj env s).st.world := by
  rcases call_world (Op.update Kind.volumeResize obj)
    (fun w _ => w.serveUpdate Kind.volumeResize obj) env s with hw | hw
  · have hw2 : (Client.Update Kind.volumeResize obj env s).st.world = s.world := by
      rw [← hd s.calls s.world]; exact hw
    rw [hw2]
    exact ⟨hi, grows_refl _⟩
  · have hw2 : (Client.Update Kind.volumeResize obj env s).st.world =
        (s.world.serveUpdate Kind.volumeResize obj).2 := by
      rw [← hd s.calls s.world]; exact hw
    rw [hw2]
    unfold World.serveUpdate
    split
    · exact ⟨hi, grows_refl _⟩
    · rename_i stored hf
      dsimp only
      split
      · refine ⟨fun vr2 h2 => ?_, fun ns name hp => hp⟩
        exact hi vr2 (List.mem_of_mem_eraseP h2)
      · refine ⟨fun vr2 h2 => ?_, fun ns name hp => hp⟩
        rcases mem_replaceFirst _ _ _ _ h2 with h | h
        · exact hi vr2 h
        · rw [h]
          exact metaGood_of_same rfl rfl rfl hx

theorem keepsGiven_statusUpdate {β : Type} {x : ObjectMeta} (obj : VolumeResize)
    (f : Except Err VolumeResize → M β) (he : ∀ e, KeepsGiven x (f (.error e)))
    (hok : ∀ vr3, KeepsGiven vr3.Meta (f (.ok vr3))) :
    KeepsGiven x (Client.StatusUpdate Kind.volumeResize obj >>= f) :=
  ⟨fun env s hd hi hx => by
    have q := (quiet_clientStatusUpdate obj).run env s hd
    have hi2 := backupInv_quietStep q hi
    rw [bind_st]
    cases hv : (Client.StatusUpdate Kind.volumeResize obj env s).val with
    | error e =>
      have r := (he e).run env _ hd hi2 (metaGood_grows q.1 hx)
      exact ⟨r.1, grows_trans q.1 r.2⟩
    | ok vr3 =>
      obtain ⟨stored, hm, e⟩ := statusUpdate_ok_meta obj vr3 env s hd hv
      have r := (hok vr3).run env _ hd hi2 (by rw [e]; exact metaGood_grows q.1 (hi stored hm))
      exact ⟨r.1, grows_trans q.1 r.2⟩⟩

theorem metaGood_of_hgood {w : World} {x m : ObjectMeta}
    (hgood : ¬Stamped m ∨ (m.Annotations = x.Annotations ∧ m.Name = x.Name ∧ m.Namespace = x.Namespace))
    (hx : MetaGood w x) : MetaGood w m := by
  rcases hgood with h | ⟨ha, hn, hns⟩
  · exact fun hs => absurd hs h
  · exact metaGood_of_same ha hn hns hx

theorem keepsGiven_update {β : Type} {x : ObjectMeta} (obj : VolumeResize)
    (f : Except Err VolumeResize → M β)
    (hgood : ¬Stamped obj.Meta ∨ (obj.Meta.Annotations = x.Annotations ∧ obj.Meta.Name = x.Name ∧
      obj.Meta.Namespace = x.Namespace))
    (he : ∀ e, KeepsGiven x (f (.error e)))
    (hok : ∀ vr3, KeepsGiven vr3.Meta (f (.ok vr3))) :
    KeepsGiven x (Client.Update Kind.volumeResize obj >>= f) :=
  ⟨fun env s hd hi hx => by
    have ho := metaGood_of_hgood hgood hx
    have q := update_step obj env s hd hi ho
    rw [bind_st]
    cases hv : (Client.Update Kind.volumeResize obj env s).val with
    | error e =>
      have r := (he e).run env _ hd q.1 (metaGood_grows q.2 hx)
      exact ⟨r.1, grows_trans q.2 r.2⟩
    | ok vr3 =>
      obtain ⟨ha, hn, hns⟩ := update_ok_meta obj vr3 env s hv
      have r := (hok vr3).run env _ hd q.1 (metaGood_of_same ha hn hns (metaGood_grows q.2 ho))
      exact ⟨r.1, grows_trans q.2 r.2⟩⟩

theorem not_stamped_erase (m : ObjectMeta) :
    ¬Stamped { m with Annotations := m.Annotations.erase AnnotationSTSDeleted } := by
  unfold Stamped
  rw [erase_get?]
  simp

theorem get_ok_mem (k : Kind) (ns name : String) (env : Env) (s : St) (o : k.T) (hd : NoDrift env)
    (h : (Client.Get k ns name env s).val = .ok o) : o ∈ s.world.objs k := by
  have h2 := call_val_ok _ _ env s o h
  rw [hd] at h2
  unfold World.serveGet at h2
  split at h2
  · rename_i o2 hf
    simp only [Except.ok.injEq] at h2
    exact h2 ▸ List.mem_of_find?_eq_some hf
  · simp at h2

theorem keeps_getVR {β : Type} (ns name : String) (f : Except Err VolumeResize → M β)
    (he : ∀ e, Keeps (f (.error e))) (hok : ∀ vr, KeepsGiven vr.Meta (f (.ok vr))) :
    Keeps (Client.Get Kind.volumeResize ns name >>= f) :=
  ⟨fun env s hd hi => by
    have q := (quiet_clientGet Kind.volumeResize ns name).run env s hd
    have hi2 := backupInv_quietStep q hi
    rw [bind_st]
    cases hv : (Client.Get Kind.volumeResize ns name env s).val with
    | error e =>
      have r := (he e).run env _ hd hi2
      exact ⟨r.1, grows_trans q.1 r.2⟩
    | ok vr =>
      have hm : vr ∈ s.world.volumeResizes := get_ok_mem Kind.volumeResize ns name env s vr hd hv
      have r := (hok vr).run env _ hd hi2 (metaGood_grows q.1 (hi vr hm))
      exact ⟨r.1, grows_trans q.1 r.2⟩⟩

theorem keepsPost_pure_ok (x : ObjectMeta) (vr : VolumeResize) (h : vr.Meta = x) :
    KeepsPost x (pure (.ok vr)) :=
  ⟨fun env s _ hi hx => ⟨hi, grows_refl _, fun vr2 hv => by
    simp only [pure_val, Except.ok.injEq] at hv
    subst hv
    rw [h]
    exact hx⟩⟩

theorem keepsPost_pure_error (x : ObjectMeta) (r : Ret) : KeepsPost x (pure (.error r)) :=
  ⟨fun env s _ hi _ => ⟨hi, grows_refl _, fun vr2 hv => by simp at hv⟩⟩

theorem keepsPost_bind {α : Type} {x : ObjectMeta} {m : M α} {f : α → M (Except Ret VolumeResize)}
    (hm : Quiet m) (hf : ∀ a, KeepsPost x (f a)) : KeepsPost x (m >>= f) :=
  ⟨fun env s hd hi hx => by
    have q := hm.run env s hd
    have r := (hf (m env s).val).run env (m env s).st hd (backupInv_quietStep q hi)
      (metaGood_grows q.1 hx)
    exact ⟨r.1, grows_trans q.1 r.2.1, r.2.2⟩⟩

theorem keepsPresent_pure_error (ns name : String) (r : Ret) : KeepsPresent ns name (pure (.error r)) :=
  ⟨fun env s _ hi _ => ⟨hi, grows_refl _, fun vr2 hv => by simp at hv⟩⟩

theorem keepsPresent_bind {α : Type} {ns name : String} {m : M α}
    {f : α → M (Except Ret VolumeResize)}
    (hm : Quiet m) (hf : ∀ a, KeepsPresent ns name (f a)) : KeepsPresent ns name (m >>= f) :=
  ⟨fun env s hd hi hx => by
    have q := hm.run env s hd
    have r := (hf (m env s).val).run env (m env s).st hd (backupInv_quietStep q hi) (q.1 _ _ hx)
    exact ⟨r.1, grows_trans q.1 r.2.1, r.2.2⟩⟩

theorem keepsPost_statusUpdate {x : ObjectMeta} (obj : VolumeResize)
    (f : Except Err VolumeResize → M (Except Ret VolumeResize))
    (he : ∀ e, KeepsPost x (f (.error e)))
    (hok : ∀ vr3, KeepsPost vr3.Meta (f (.ok vr3))) :
    KeepsPost x (Client.StatusUpdate Kind.volumeResize obj >>= f) :=
  ⟨fun env s hd hi hx => by
    have q := (quiet_clientStatusUpdate obj).run env s hd
    have hi2 := backupInv_quietStep q hi
    rw [bind_st, bind_val]
    cases hv : (Client.StatusUpdate Kind.volumeResize obj env s).val with
    | error e =>
      have r := (he e).run env _ hd hi2 (metaGood_grows q.1 hx)
      exact ⟨r.1, grows_trans q.1 r.2.1, r.2.2⟩
    | ok vr3 =>
      obtain ⟨stored, hm, e⟩ := statusUpdate_ok_meta obj vr3 env s hd hv
      have r := (hok vr3).run env _ hd hi2 (by rw [e]; exact metaGood_grows q.1 (hi stored hm))
      exact ⟨r.1, grows_trans q.1 r.2.1, r.2.2⟩⟩

theorem keepsPresent_update {ns name : String} (obj : VolumeResize)
    (f : Except Err VolumeResize → M (Except Ret VolumeResize))
    (hobj : obj.Meta.Namespace = ns ∧ obj.Meta.Name = name)
    (he : ∀ e, KeepsPresent ns name (f (.error e)))
    (hok : ∀ vr3, KeepsPost vr3.Meta (f (.ok vr3))) :
    KeepsPresent ns name (Client.Update Kind.volumeResize obj >>= f) :=
  ⟨fun env s hd hi hx => by
    have ho : MetaGood s.world obj.Meta := fun _ => by rw [hobj.1, hobj.2]; exact hx
    have q := update_step obj env s hd hi ho
    rw [bind_st, bind_val]
    cases hv : (Client.Update Kind.volumeResize obj env s).val with
    | error e =>
      have r := (he e).run env _ hd q.1 (q.2 _ _ hx)
      exact ⟨r.1, grows_trans q.2 r.2.1, r.2.2⟩
    | ok vr3 =>
      obtain ⟨ha, hn, hns⟩ := update_ok_meta obj vr3 env s hv
      have r := (hok vr3).run env _ hd q.1 (metaGood_of_same ha hn hns (metaGood_grows q.2 ho))
      exact ⟨r.1, grows_trans q.2 r.2.1, r.2.2⟩⟩

theorem create_ok_mem (k : Kind) (obj : k.T) (env : Env) (s : St) (c : k.T)
    (h : (Client.Create k obj env s).val = .ok c) :
    obj ∈ (Client.Create k obj env s).st.world.objs k := by
  have h2 := call_val_ok _ _ env s c h
  have hw : (Client.Create k obj env s).st.world =
      ((env.drift s.calls s.world).serveCreate k obj).2 := by
    unfold Client.Create call at h ⊢
    split at h
    · simp at h
    · rename_i hf
      simp only [hf]
  rw [hw]
  unfold World.serveCreate at h2 ⊢
  split at h2
  · simp at h2
  · rename_i hany
    simp only [hany, Bool.false_eq_true, if_false]
    cases k <;> simp [World.objs, World.setObjs]

theorem backupSTSToConfigMap_present (vr : VolumeResize) (sts : StatefulSet) (env : Env) (s : St)
    (hd : NoDrift env) (h : (backupSTSToConfigMap vr sts env s).val = none) :
    backupPresent (backupSTSToConfigMap vr sts env s).st.world vr.Meta.Namespace vr.Meta.Name := by
  rw [backupSTSToConfigMap_def] at h ⊢
  have hgw := Client.Get_world Kind.configMap vr.Meta.Namespace (getSTSBackupConfigMapName vr.Meta.Name) env s
  rw [hd] at hgw
  cases hg : (Client.Get Kind.configMap vr.Meta.Namespace (getSTSBackupConfigMapName vr.Meta.Name) env s).val with
  | ok cm =>
    have hm := get_ok_mem Kind.configMap _ _ env s cm hd hg
    have hk := Client.Get_ok_name Kind.configMap _ _ env s cm hg
    simp only [bind_st, hg, pure_st]
    rw [hgw]
    unfold backupPresent
    rw [List.any_eq_true]
    exact ⟨cm, hm, by simp [Kind.hasKey, hk.1, hk.2]⟩
  | error e =>
    simp only [bind_val, hg] at h
    by_cases hnf : IsNotFound e = true
    · simp only [hnf, Bool.not_true, Bool.false_eq_true, if_false, bind_val, getEnv] at h
      cases hm : env.jsonMarshal sts with
      | error e2 => simp only [hm, pure_val] at h; simp at h
      | ok j =>
        simp only [hm, bind_val] at h
        cases hc : (Client.Create Kind.configMap (backupConfigMap vr j) env
            (Client.Get Kind.configMap vr.Meta.Namespace (getSTSBackupConfigMapName vr.Meta.Name) env s).st).val with
        | error e3 => simp only [hc, pure_val] at h; simp at h
        | ok created =>
          simp only [bind_st, hg, hnf, Bool.not_true, Bool.false_eq_true, if_false, getEnv, hm, hc, pure_st]
          have hcm : backupConfigMap vr j ∈ (Client.Create Kind.configMap (backupConfigMap vr j) env
              (Client.Get Kind.configMap vr.Meta.Namespace
                (getSTSBackupConfigMapName vr.Meta.Name) env s).st).st.world.configMaps :=
            create_ok_mem Kind.configMap _ env _ created hc
          unfold backupPresent
          rw [List.any_eq_true]
          exact ⟨_, hcm, by simp [Kind.hasKey, Kind.meta, backupConfigMap]⟩
    · simp only [hnf, Bool.not_false, if_true, pure_val] at h
      simp at h

theorem keepsPost_backup_then {x : ObjectMeta} (vr : VolumeResize) (sts : StatefulSet)
    (f : Option Err → M (Except Ret VolumeResize))
    (hsome : ∀ e, KeepsPost x (f (some e)))
    (hnone : KeepsPresent vr.Meta.Namespace vr.Meta.Name (f none)) :
    KeepsPost x (backupSTSToConfigMap vr sts >>= f) :=
  ⟨fun env s hd hi hx => by
    have q := (quiet_backupSTSToConfigMap vr sts).run env s hd
    have hi2 := backupInv_quietStep q hi
    rw [bind_st, bind_val]
    cases hv : (backupSTSToConfigMap vr sts env s).val with
    | some e =>
      have r := (hsome e).run env _ hd hi2 (metaGood_grows q.1 hx)
      exact ⟨r.1, grows_trans q.1 r.2.1, r.2.2⟩
    | none =>
      have r := hnone.run env _ hd hi2 (backupSTSToConfigMap_present vr sts env s hd hv)
      exact ⟨r.1, grows_trans q.1 r.2.1, r.2.2⟩⟩

theorem keepsPost_deleteSTS (vr : VolumeResize) :
    KeepsPost vr.Meta (handleSyncing.deleteSTS vr) := by
  unfold handleSyncing.deleteSTS
  split
  · apply keepsPost_bind (quiet_clientGet _ _ _)
    intro r
    split
    · split
      · exact keepsPost_pure_error _ _
      · exact keepsPost_pure_ok _ _ rfl
    · apply keepsPost_backup_then
      · intro e
        exact keepsPost_bind (quiet_setFailed _ _) (fun _ => keepsPost_pure_error _ _)
      · apply keepsPresent_bind (quiet_deleteSTSOrphan _)
        intro r2
        split
        · exact keepsPresent_bind (quiet_setFailed _ _) (fun _ => keepsPresent_pure_error _ _ _)
        · dsimp only
          refine keepsPresent_update _ _ ?_ ?_ ?_
          · exact ⟨rfl, rfl⟩
          · intro e
            exact keepsPresent_pure_error _ _ _
          · intro vr3
            dsimp only
            apply keepsPost_statusUpdate
            · intro e
              exact keepsPost_pure_error _ _
            · intro vr4
              exact keepsPost_pure_ok _ _ rfl
  · exact keepsPost_pure_ok _ _ rfl

theorem keepsGiven_deleteSTS_then {β : Type} (x : ObjectMeta) (vr : VolumeResize)
    (g : Except Ret VolumeResize → M β) (hx : vr.Meta = x)
    (herr : ∀ r, KeepsGiven x (g (.error r)))
    (hok : ∀ vr4, KeepsGiven vr4.Meta (g (.ok vr4))) :
    KeepsGiven x (handleSyncing.deleteSTS vr >>= g) :=
  ⟨fun env s hd hi hgood => by
    subst hx
    have q := (keepsPost_deleteSTS vr).run env s hd hi hgood
    rw [bind_st]
    cases hv : (handleSyncing.deleteSTS vr env s).val with
    | error r =>
      have r2 := (herr r).run env _ hd q.1 (metaGood_grows q.2.1 hgood)
      exact ⟨r2.1, grows_trans q.2.1 r2.2⟩
    | ok vr4 =>
      have r2 := (hok vr4).run env _ hd q.1 (q.2.2 vr4 hv)
      exact ⟨r2.1, grows_trans q.2.1 r2.2⟩⟩

theorem keepsGiven_recreate (x : ObjectMeta) (vr : VolumeResize) (replica : Int) (volName : String) :
    KeepsGiven x (handleSyncing.recreate vr replica volName) := by
  unfold handleSyncing.recreate
  repeat (first
    | with_reducible apply keepsGiven_statusUpdate
    | with_reducible apply keepsGiven_update
    | with_reducible apply keepsGiven_bind
    | intro _
    | dsimp only
    | split
    | exact Or.inl (not_stamped_erase _)
    | exact keepsGiven_of_quiet _ (quiet_pure _)
    | exact keepsGiven_of_quiet _ (quiet_setFailed _ _)
    | exact keepsGiven_of_quiet _ (quiet_advance _ _ _)
    | exact quiet_clientGet _ _ _
    | exact quiet_getSTSFromBackupConfigMap _ _
    | exact quiet_recreateSTS _)

theorem keepsGiven_migrate (x : ObjectMeta) (vr : VolumeResize) (vol : VolumeResizeTarget) (replica : Int)
    (volName originalPVCName tempPVCName : String) :
    KeepsGiven x (handleSyncing.migrate vr vol replica volName originalPVCName tempPVCName) := by
  unfold handleSyncing.migrate
  repeat (first
    | with_reducible apply keepsGiven_bind
    | with_reducible apply quiet_bind
    | intro _
    | dsimp only
    | split
    | exact keepsGiven_recreate _ _ _ _
    | exact keepsGiven_of_quiet _ (quiet_pure _)
    | exact keepsGiven_of_quiet _ (quiet_setFailed _ _)
    | exact quiet_pure _
    | exact quiet_clientGet _ _ _
    | exact quiet_setFailed _ _
    | exact quiet_deletePod _ _ _
    | exact quiet_waitForPodTermination _ _ _
    | exact quiet_createMigratorPod _ _ _ _ _
    | exact quiet_waitForMigrationComplete _ _ _
    | exact quiet_cleanupMigratorPod _ _
    | exact quiet_replacePVC _ _ _)

theorem keepsGiven_handleSyncing (vr : VolumeResize) :
    KeepsGiven vr.Meta (handleSyncing vr) := by
  unfold MigController.handleSyncing
  repeat (first
    | with_reducible apply keepsGiven_deleteSTS_then
    | with_reducible apply keepsGiven_bind
    | with_reducible apply quiet_bind
    | intro _
    | dsimp only
    | split
    | rfl
    | exact keepsGiven_migrate _ _ _ _ _ _ _
    | exact keepsGiven_of_quiet _ (quiet_pure _)
    | exact keepsGiven_of_quiet _ (quiet_setFailed _ _)
    | exact keepsGiven_of_quiet _ (quiet_advance _ _ _)
    | exact quiet_pure _
    | exact quiet_clientGet _ _ _
    | exact quiet_getPVC _ _
    | exact quiet_createTempPVC _ _ _ _
    | exact quiet_setRetainOnPV _)

theorem keepsGiven_handleDeletion (vr : VolumeResize) :
    KeepsGiven vr.Meta (handleDeletion vr) := by
  unfold MigController.handleDeletion
  repeat (first
    | with_reducible apply keepsGiven_update
    | with_reducible apply keepsGiven_bind
    | with_reducible apply quiet_bind
    | intro _
    | dsimp only
    | split
    | exact Or.inr ⟨rfl, rfl, rfl⟩
    | exact keepsGiven_of_quiet _ (quiet_pure _)
    | exact quiet_pure _
    | exact quiet_clientList _ _ _
    | exact quiet_deleteAll _ (by decide) (by decide) _)

theorem keeps_Reconcile (ns name : String) : Keeps (Reconcile ns name) := by
  unfold MigController.Reconcile
  apply keeps_getVR
  · intro e
    dsimp only
    split <;> exact keeps_of_quiet (quiet_pure _)
  · intro vr
    dsimp only
    repeat (first
      | with_reducible apply keepsGiven_update
      | intro _
      | dsimp only
      | split
      | exact Or.inr ⟨rfl, rfl, rfl⟩
      | exact keepsGiven_handleDeletion _
      | exact keepsGiven_handleSyncing _
      | exact keepsGiven_of_quiet _ (quiet_pure _)
      | exact keepsGiven_of_quiet _ (quiet_handlePending _)
      | exact keepsGiven_of_quiet _ (quiet_handleValidating _)
      | exact keepsGiven_of_quiet _ (quiet_handleReplacing _))

theorem precedes_none {P Q : Call → Prop} {l : List Call} (h : Precedes P Q l)
    (hn : ∀ b ∈ l, ¬P b) : ∀ c ∈ l, ¬Q c := by
  intro c hc hq
  obtain ⟨i, hi, hic⟩ := List.getElem_of_mem hc
  obtain ⟨j, b, _, hb, hp⟩ := h i c (by rw [List.getElem?_eq_getElem hi, hic]) hq
  exact hn b (List.getElem?_mem hb) hp

/-- C19: in every run of `handleSyncing`, a delete of the parent workload comes only
after a request that shows the backup object `<request>-sts-backup` in the
cluster (the read that found it, or its create, answered without error), so
there is no such delete when the backup did not succeed; and an update of the
request that carries the annotation `sts-deleted` = "true" comes only after a
delete of the parent was issued.  When `backupSTSToConfigMap` returns no error
and nothing else writes to the cluster, the backup object is in the cluster.
Hence, when nothing else writes to the cluster, a reconciliation keeps the
invariant that every request carrying the annotation "true" has its backup
object in the cluster, and it never deletes a backup object. -/
theorem backup_before_delete_before_stamp :
    (∀ (vr : VolumeResize) (env : Env) (s : St),
      Precedes (BackupOK vr.Meta.Namespace vr.Meta.Name) DeletesParent (handleSyncing vr env s).log ∧
      ((∀ b ∈ (handleSyncing vr env s).log, ¬BackupOK vr.Meta.Namespace vr.Meta.Name b) →
        ∀ c ∈ (handleSyncing vr env s).log, ¬DeletesParent c) ∧
      Precedes DeletesParent StampsDeleted (handleSyncing vr env s).log) ∧
    (∀ (vr : VolumeResize) (sts : StatefulSet) (env : Env) (s : St), NoDrift env →
      (backupSTSToConfigMap vr sts env s).val = none →
      backupPresent (backupSTSToConfigMap vr sts env s).st.world vr.Meta.Namespace vr.Meta.Name) ∧
    (∀ (ns name : String) (env : Env) (s : St), NoDrift env → BackupInv s.world →
      BackupInv (Reconcile ns name env s).st.world) ∧
    (∀ (ns name : String) (env : Env) (s : St), ∀ c ∈ (Reconcile ns name env s).log,
      Op.isDelete Kind.configMap c.op = false) := by
  refine ⟨fun vr env s => ⟨(guarded_handleSyncing_backup vr).run env s,
      precedes_none ((guarded_handleSyncing_backup vr).run env s),
      (guarded_handleSyncing_stamp vr).run env s⟩,
    fun vr sts env s hd h => backupSTSToConfigMap_present vr sts env s hd h,
    fun ns name env s hd hi => ((keeps_Reconcile ns name).run env s hd hi).1, ?_⟩
  intro ns name env s c hc
  have ht := (footprint_Reconcile ns name).run env s c hc
  cases hop : c.op with
  | delete k _ _ _ =>
    rw [hop] at ht
    simp only [Op.isDelete, beq_eq_false_iff_ne, ne_eq]
    intro hk
    subst hk
    revert ht
    simp only [Op.tag]
    decide
  | _ => rfl

theorem backup_before_delete_before_stamp_witness :
    NoDrift envQuiet ∧
    BackupInv (worldCrashed [statusOf 0 VolumeStatusCompleted]) ∧
    BackupInv (Reconcile "default" "resize" envQuiet
      { world := worldCrashed [statusOf 0 VolumeStatusCompleted] }).st.world :=
  ⟨fun _ _ => rfl,
    by unfold BackupInv MetaGood Stamped backupPresent; decide,
    backup_before_delete_before_stamp.2.2.1 "default" "resize" envQuiet
      { world := worldCrashed [statusOf 0 VolumeStatusCompleted] } (fun _ _ => rfl)
      (by unfold BackupInv MetaGood Stamped backupPresent; decide)⟩

/-! ### The copy pod -/

/-- C26: the pod built by `buildMigratorPod` is named
`getMigratorPodName request volume replica`, which is
`<request>-migrator-<replica>-<volume>`, lives in the namespace of the request,
has restart policy Never and runs as user 0; it has exactly one container, which
runs the default migrator image with the environment `SOURCE_PATH=/source`,
`DEST_PATH=/dest` and exactly two mounts; the volume mounted at `/source`
references the claim `old`, the one mounted at `/dest` the claim `new`; and its
labels are migration-name = request name, replica = the replica index in
decimal, volume-name = target name. -/
theorem buildMigratorPod_spec (vr : VolumeResize) (vol : VolumeResizeTarget) (replica : Int)
    (oldPVCName newPVCName : String) :
    (buildMigratorPod vr vol replica oldPVCName newPVCName).Meta.Name
        = getMigratorPodName vr.Meta.Name vol.Name replica ∧
    getMigratorPodName vr.Meta.Name vol.Name replica
        = vr.Meta.Name ++ "-migrator-" ++ toString replica ++ "-" ++ vol.Name ∧
    (buildMigratorPod vr vol replica oldPVCName newPVCName).Meta.Namespace = vr.Meta.Namespace ∧
    (buildMigratorPod vr vol replica oldPVCName newPVCName).Spec.RestartPolicy = "Never" ∧
    (buildMigratorPod vr vol replica oldPVCName newPVCName).Spec.SecurityContext.bind
        (fun sc => sc.RunAsUser) = some 0 ∧
    (∃ c : Container,
      (buildMigratorPod vr vol replica oldPVCName newPVCName).Spec.Containers = [c] ∧
      c.Image = DefaultMigratorImage ∧
      c.Env = [{ Name := "SOURCE_PATH", Value := "/source" }, { Name := "DEST_PATH", Value := "/dest" }] ∧
      c.VolumeMounts.length = 2) ∧
    claimsMountedAt (buildMigratorPod vr vol replica oldPVCName newPVCName) "/source" = [oldPVCName] ∧
    claimsMountedAt (buildMigratorPod vr vol replica oldPVCName newPVCName) "/dest" = [newPVCName] ∧
    (buildMigratorPod vr vol replica oldPVCName newPVCName).Meta.Labels
        = [(LabelMigrationName, vr.Meta.Name), (LabelReplica, toString replica),
           (LabelVolumeName, vol.Name)] := by
  refine ⟨rfl, rfl, rfl, rfl, rfl, ⟨_, rfl, rfl, rfl, rfl⟩, ?_, ?_, rfl⟩
  · simp [claimsMountedAt, buildMigratorPod]
  · simp [claimsMountedAt, buildMigratorPod]

/-! ### Terminal phases -/

theorem Reconcile_def (ns name : String) :
    Reconcile ns name =
      (Client.Get Kind.volumeResize ns name >>= fun r =>
        match r with
        | .error err =>
          if IsNotFound err then pure (Ret.ret {} none)
          else pure (Ret.ret {} (some err))
        | .ok vr =>
          if vr.Meta.DeletionTimestamp.isSome then handleDeletion vr
          else if !(vr.Meta.Finalizers.contains FinalizerName) then
            (Client.Update Kind.volumeResize
              { vr with Meta := { vr.Meta with Finalizers := vr.Meta.Finalizers ++ [FinalizerName] } } >>= fun r =>
              match r with
              | .error err => pure (Ret.ret {} (some err))
              | .ok _ => pure (Ret.ret { Requeue := true } none))
          else if vr.Status.Phase = "" ∨ vr.Status.Phase = PhasePending then handlePending vr
          else if vr.Status.Phase = PhaseValidating then handleValidating vr
          else if vr.Status.Phase = PhaseSyncing then handleSyncing vr
          else if vr.Status.Phase = PhaseReplacing then handleReplacing vr
          else if vr.Status.Phase = PhaseCompleted ∨ vr.Status.Phase = PhaseFailed then pure (Ret.ret {} none)
          else pure (Ret.ret {} none)) := rfl

/-- C22: when the request that `Reconcile` fetches has the finalizer, has no
deletion timestamp and is in phase Completed or Failed, the reconciliation
returns an empty result (no requeue, no delay) and no error, its only request to
the API server is the read of the request, and the cluster it leaves is the one
it read from, in which the request is still the fetched one, status included. -/
theorem Reconcile_terminal_phase_latches (ns name : String) (env : Env) (s : St) (vr : VolumeResize)
    (hget : (Client.Get Kind.volumeResize ns name env s).val = .ok vr)
    (hfin : vr.Meta.Finalizers.contains FinalizerName = true)
    (hdel : vr.Meta.DeletionTimestamp = none)
    (hphase : vr.Status.Phase = PhaseCompleted ∨ vr.Status.Phase = PhaseFailed) :
    (Reconcile ns name env s).val = Ret.ret { Requeue := false, RequeueAfter := 0 } none ∧
    (Reconcile ns name env s).log = [{ op := Op.get Kind.volumeResize ns name, err := none }] ∧
    (Reconcile ns name env s).st.world = env.drift s.calls s.world ∧
    (Reconcile ns name env s).st.world.serveGet Kind.volumeResize ns name = .ok vr := by
  have hw := Client.Get_world Kind.volumeResize ns name env s
  have hserve : (env.drift s.calls s.world).serveGet Kind.volumeResize ns name = .ok vr :=
    call_val_ok _ _ env s vr hget
  have hp : ¬ (vr.Status.Phase = "" ∨ vr.Status.Phase = PhasePending) ∧
      vr.Status.Phase ≠ PhaseValidating ∧ vr.Status.Phase ≠ PhaseSyncing ∧
      vr.Status.Phase ≠ PhaseReplacing := by
    rcases hphase with h | h <;> rw [h] <;> decide
  rw [Reconcile_def]
  simp only [bind_val, bind_st, bind_log, Client.Get_log, hget, hdel, Option.isSome_none,
    Bool.false_eq_true, if_false, hfin, Bool.not_true, hp.1, hp.2.1, hp.2.2.1, hp.2.2.2, hphase,
    if_true, pure_val, pure_st, pure_log, errOf_ok, List.append_nil, hw, hserve, and_self]

theorem Reconcile_terminal_phase_latches_witness :
    (Client.Get Kind.volumeResize "default" "resize" envQuiet
        { world := { worldSync with volumeResizes := [failedRequest vrSync "migration pod failed"] } }).val
      = .ok (failedRequest vrSync "migration pod failed") ∧
    (Reconcile "default" "resize" envQuiet
        { world := { worldSync with volumeResizes := [failedRequest vrSync "migration pod failed"] } }).log
      = [{ op := Op.get Kind.volumeResize "default" "resize", err := none }] :=
  ⟨rfl,
   (Reconcile_terminal_phase_latches "default" "resize" envQuiet
      { world := { worldSync with volumeResizes := [failedRequest vrSync "migration pod failed"] } }
      (failedRequest vrSync "migration pod failed") rfl (by decide) (by decide)
      (Or.inr (by decide))).2.1⟩

/-! ### Deletion of the request -/

theorem deleteAll_ops (k : Kind) (l : List k.T) (env : Env) (s : St) :
    (handleDeletion.deleteAll k l env s).log.map (fun c => c.op) = l.map (deleteOf k) := by
  induction l generalizing s with
  | nil => rfl
  | cons o rest ih =>
    show ((Client.Delete k (k.meta o).Namespace (k.meta o).Name false >>= fun _ =>
      handleDeletion.deleteAll k rest) env s).log.map (fun c => c.op) = _
    simp only [bind_log, Client.Delete_log, List.map_append, List.map_cons, List.map_nil, ih,
      List.singleton_append, deleteOf]

theorem serveDelete_pvc_pods (w : World) (ns name : String) (now : Nat) :
    (w.serveDelete Kind.pvc ns name now).2.pods = w.pods := by
  unfold World.serveDelete
  split
  · rfl
  · split <;> rfl

theorem deleteAll_pvc_pods (l : List PersistentVolumeClaim) (env : Env) (s : St) (hd : NoDrift env) :
    (handleDeletion.deleteAll Kind.pvc l env s).st.world.pods = s.world.pods := by
  induction l generalizing s with
  | nil => rfl
  | cons o rest ih =>
    show ((Client.Delete Kind.pvc (Kind.pvc.meta o).Namespace (Kind.pvc.meta o).Name false >>= fun _ =>
      handleDeletion.deleteAll Kind.pvc rest) env s).st.world.pods = _
    simp only [bind_st]
    rw [ih]
    rcases call_world (Op.delete Kind.pvc (Kind.pvc.meta o).Namespace (Kind.pvc.meta o).Name false)
      (fun w now => w.serveDelete Kind.pvc (Kind.pvc.meta o).Namespace (Kind.pvc.meta o).Name now) env s
      with h | h
    · rw [Client.Delete, h, hd]
    · rw [Client.Delete, h, serveDelete_pvc_pods, hd]

theorem Client.List_world (k : Kind) (ns : String) (labels : StrMap) (env : Env) (s : St) :
    (Client.List k ns labels env s).st.world = env.drift s.calls s.world := by
  unfold Client.List call
  split <;> rfl

theorem Client.List_val (k : Kind) (ns : String) (labels : StrMap) (env : Env) (s : St)
    (hf : env.fault s.calls = none) :
    (Client.List k ns labels env s).val = .ok ((env.drift s.calls s.world).serveList k ns labels) := by
  unfold Client.List call
  simp only [hf]

theorem itemsOf_list_labelled (k : Kind) (ns : String) (labels : StrMap) (env : Env) (s : St) :
    ∀ o ∈ itemsOf (Client.List k ns labels env s).val,
      (k.meta o).Namespace = ns ∧ matchesLabels labels (k.meta o).Labels = true := by
  intro o ho
  unfold Client.List call at ho
  split at ho
  · simp [itemsOf] at ho
  · simp only [itemsOf, World.serveList, List.mem_filter, Bool.and_eq_true, beq_iff_eq] at ho
    exact ho.2

theorem bind_congr_fun {α β : Type} (m : M α) (f g : α → M β) (h : ∀ a, f a = g a) :
    (m >>= f) = (m >>= g) := by
  rw [funext h]

theorem handleDeletion_def (vr : VolumeResize) :
    handleDeletion vr =
      (Client.List Kind.pvc vr.Meta.Namespace [(LabelMigrationName, vr.Meta.Name)] >>= fun r =>
        handleDeletion.deleteAll Kind.pvc (itemsOf r) >>= fun _ =>
        Client.List Kind.pod vr.Meta.Namespace [(LabelMigrationName, vr.Meta.Name)] >>= fun r =>
        handleDeletion.deleteAll Kind.pod (itemsOf r) >>= fun _ =>
        Client.Update Kind.volumeResize (withoutFinalizer vr) >>= fun r =>
        match r with
        | .error err => pure (Ret.ret {} (some err))
        | .ok _ => pure (Ret.ret {} none)) := by
  unfold handleDeletion
  refine bind_congr_fun _ _ _ (fun r => ?_)
  cases r <;>
  · refine bind_congr_fun _ _ _ (fun _ => ?_)
    refine bind_congr_fun _ _ _ (fun r => ?_)
    cases r <;> rfl

theorem serveList_pod_congr (w w2 : World) (ns : String) (labels : StrMap) (h : w.pods = w2.pods) :
    w.serveList Kind.pod ns labels = w2.serveList Kind.pod ns labels := by
  unfold World.serveList World.objs
  simp only [h]

theorem matchesLabels_single (k v : String) (labels : StrMap)
    (h : matchesLabels [(k, v)] labels = true) : labels.get? k = some v := by
  simpa [matchesLabels] using h

/-- The run of `handleDeletion`: the claims and the pods it deletes are the items
of its two list requests, and the error it returns is that of the update. -/
theorem handleDeletion_run (vr : VolumeResize) (env : Env) (s : St) :
    ∃ (pvcList : List PersistentVolumeClaim) (podList : List Pod) (err : Option Err),
      (handleDeletion vr env s).log.map (fun c => c.op) =
        [Op.list Kind.pvc vr.Meta.Namespace [(LabelMigrationName, vr.Meta.Name)]]
        ++ pvcList.map (deleteOf Kind.pvc)
        ++ [Op.list Kind.pod vr.Meta.Namespace [(LabelMigrationName, vr.Meta.Name)]]
        ++ podList.map (deleteOf Kind.pod)
        ++ [Op.update Kind.volumeResize (withoutFinalizer vr)] ∧
      (handleDeletion vr env s).val = Ret.ret {} err ∧
      (handleDeletion vr env s).log.getLast? =
        some { op := Op.update Kind.volumeResize (withoutFinalizer vr), err := err } ∧
      (∀ p ∈ pvcList, p.Meta.Namespace = vr.Meta.Namespace ∧
        p.Meta.Labels.get? LabelMigrationName = some vr.Meta.Name) ∧
      (∀ p ∈ podList, p.Meta.Namespace = vr.Meta.Namespace ∧
        p.Meta.Labels.get? LabelMigrationName = some vr.Meta.Name) ∧
      (Env.Calm env →
        pvcList = s.world.serveList Kind.pvc vr.Meta.Namespace [(LabelMigrationName, vr.Meta.Name)] ∧
        podList = s.world.serveList Kind.pod vr.Meta.Namespace [(LabelMigrationName, vr.Meta.Name)]) := by
  generalize hs1 : (Client.List Kind.pvc vr.Meta.Namespace [(LabelMigrationName, vr.Meta.Name)] env s) = o1
  generalize hs2 : (handleDeletion.deleteAll Kind.pvc (itemsOf o1.val) env o1.st) = o2
  generalize hs3 : (Client.List Kind.pod vr.Meta.Namespace [(LabelMigrationName, vr.Meta.Name)] env o2.st) = o3
  generalize hs4 : (handleDeletion.deleteAll Kind.pod (itemsOf o3.val) env o3.st) = o4
  generalize hs5 : (Client.Update Kind.volumeResize (withoutFinalizer vr) env o4.st) = o5
  have hl1 : o1.log.map (fun c => c.op) =
      [Op.list Kind.pvc vr.Meta.Namespace [(LabelMigrationName, vr.Meta.Name)]] := by
    rw [← hs1, Client.List_log]; rfl
  have hl2 : o2.log.map (fun c => c.op) = (itemsOf o1.val).map (deleteOf Kind.pvc) := by
    rw [← hs2, deleteAll_ops]
  have hl3 : o3.log.map (fun c => c.op) =
      [Op.list Kind.pod vr.Meta.Namespace [(LabelMigrationName, vr.Meta.Name)]] := by
    rw [← hs3, Client.List_log]; rfl
  have hl4 : o4.log.map (fun c => c.op) = (itemsOf o3.val).map (deleteOf Kind.pod) := by
    rw [← hs4, deleteAll_ops]
  have hl5 : o5.log = [{ op := Op.update Kind.volumeResize (withoutFinalizer vr), err := errOf o5.val }] := by
    rw [← hs5, Client.Update_log]
  have hlog : (handleDeletion vr env s).log = o1.log ++ (o2.log ++ (o3.log ++ (o4.log ++ o5.log))) := by
    rw [handleDeletion_def]
    simp only [bind_log, bind_st, bind_val, hs1, hs2, hs3, hs4, hs5]
    cases o5.val <;> simp only [pure_log, List.append_nil]
  have hval : (handleDeletion vr env s).val = Ret.ret {} (errOf o5.val) := by
    rw [handleDeletion_def]
    simp only [bind_st, bind_val, hs1, hs2, hs3, hs4, hs5]
    cases o5.val <;> rfl
  refine ⟨itemsOf o1.val, itemsOf o3.val, errOf o5.val, ?_, hval, ?_, ?_, ?_, ?_⟩
  · rw [hlog]
    simp only [List.map_append, hl1, hl2, hl3, hl4, hl5, List.map_cons, List.map_nil,
      List.append_assoc]
  · rw [hlog, hl5]
    simp only [← List.append_assoc, List.getLast?_append, List.getLast?_singleton]
    rfl
  · intro p hp
    rw [← hs1] at hp
    have h := itemsOf_list_labelled Kind.pvc _ _ env s p hp
    exact ⟨h.1, matchesLabels_single _ _ _ h.2⟩
  · intro p hp
    rw [← hs3] at hp
    have h := itemsOf_list_labelled Kind.pod _ _ env o2.st p hp
    exact ⟨h.1, matchesLabels_single _ _ _ h.2⟩
  · intro hc
    have hw1 : o1.st.world = s.world := by
      rw [← hs1, Client.List_world, hc.2]
    have hw2 : o2.st.world.pods = s.world.pods := by
      rw [← hs2, deleteAll_pvc_pods _ _ _ hc.2, hw1]
    constructor
    · rw [← hs1, Client.List_val _ _ _ _ _ (hc.1 _), hc.2]
      rfl
    · rw [← hs3, Client.List_val _ _ _ _ _ (hc.1 _), hc.2]
      exact serveList_pod_congr _ _ _ _ hw2

/-- C24: when the request that `Reconcile` fetches has a deletion timestamp, then
whatever its phase and whatever requests fail, the requests of the reconciliation
are, in order: the read of the request, the list of the claims of its namespace
labelled migration-name = request name, one delete for each listed claim, the
list of the pods with that label, one delete for each listed pod, and the update
of the request without the finalizer.  No status is written and nothing else is
deleted; a failed list counts as an empty one; the value returned is an empty
result with the error of the final update (none when it succeeds).  When every
request is answered and nothing else writes to the cluster, the claims and pods
deleted are exactly the labelled ones of the cluster. -/
theorem Reconcile_deletion (ns name : String) (env : Env) (s : St) (vr : VolumeResize)
    (hget : (Client.Get Kind.volumeResize ns name env s).val = .ok vr)
    (hdel : vr.Meta.DeletionTimestamp.isSome = true) :
    FinalizerName ∉ (withoutFinalizer vr).Meta.Finalizers ∧
    ∃ (pvcList : List PersistentVolumeClaim) (podList : List Pod) (err : Option Err),
      (Reconcile ns name env s).log.map (fun c => c.op) =
        [Op.get Kind.volumeResize ns name,
         Op.list Kind.pvc vr.Meta.Namespace [(LabelMigrationName, vr.Meta.Name)]]
        ++ pvcList.map (deleteOf Kind.pvc)
        ++ [Op.list Kind.pod vr.Meta.Namespace [(LabelMigrationName, vr.Meta.Name)]]
        ++ podList.map (deleteOf Kind.pod)
        ++ [Op.update Kind.volumeResize (withoutFinalizer vr)] ∧
      (Reconcile ns name env s).val = Ret.ret {} err ∧
      (Reconcile ns name env s).log.getLast? =
        some { op := Op.update Kind.volumeResize (withoutFinalizer vr), err := err } ∧
      (∀ p ∈ pvcList, p.Meta.Namespace = vr.Meta.Namespace ∧
        p.Meta.Labels.get? LabelMigrationName = some vr.Meta.Name) ∧
      (∀ p ∈ podList, p.Meta.Namespace = vr.Meta.Namespace ∧
        p.Meta.Labels.get? LabelMigrationName = some vr.Meta.Name) ∧
      (Env.Calm env →
        pvcList = s.world.serveList Kind.pvc vr.Meta.Namespace [(LabelMigrationName, vr.Meta.Name)] ∧
        podList = s.world.serveList Kind.pod vr.Meta.Namespace [(LabelMigrationName, vr.Meta.Name)]) := by
  constructor
  · simp [withoutFinalizer]
  obtain ⟨pvcList, podList, err, h1, h2, h3, h4, h5, h6⟩ :=
    handleDeletion_run vr env (Client.Get Kind.volumeResize ns name env s).st
  have hrun : Reconcile ns name env s =
      { val := (handleDeletion vr env (Client.Get Kind.volumeResize ns name env s).st).val
        st := (handleDeletion vr env (Client.Get Kind.volumeResize ns name env s).st).st
        log := (Client.Get Kind.volumeResize ns name env s).log ++
          (handleDeletion vr env (Client.Get Kind.volumeResize ns name env s).st).log } := by
    rw [Reconcile_def]
    show Out.mk _ _ _ = _
    simp only [hget, hdel, if_true]
  refine ⟨pvcList, podList, err, ?_, ?_, ?_, h4, h5, ?_⟩
  · rw [hrun]
    simp only [List.map_append, Client.Get_log, h1, List.map_cons, List.map_nil, List.append_assoc,
      List.singleton_append, List.cons_append, List.nil_append]
  · rw [hrun]
    exact h2
  · rw [hrun]
    simp only [List.getLast?_append, h3]
    rfl
  · intro hc
    have hw : (Client.Get Kind.volumeResize ns name env s).st.world = s.world := by
      rw [Client.Get_world, hc.2]
    rw [hw] at h6
    exact h6 hc

theorem Reconcile_deletion_witness :
    ((Client.Get Kind.volumeResize "default" "resize" envQuiet { world := worldDeleting }).val
        = .ok vrDeleting ∧
      vrDeleting.Meta.DeletionTimestamp.isSome = true) ∧
    (FinalizerName ∉ (withoutFinalizer vrDeleting).Meta.Finalizers ∧
    ∃ (pvcList : List PersistentVolumeClaim) (podList : List Pod) (err : Option Err),
      (Reconcile "default" "resize" envQuiet { world := worldDeleting }).log.map (fun c => c.op) =
        [Op.get Kind.volumeResize "default" "resize",
         Op.list Kind.pvc vrDeleting.Meta.Namespace [(LabelMigrationName, vrDeleting.Meta.Name)]]
        ++ pvcList.map (deleteOf Kind.pvc)
        ++ [Op.list Kind.pod vrDeleting.Meta.Namespace [(LabelMigrationName, vrDeleting.Meta.Name)]]
        ++ podList.map (deleteOf Kind.pod)
        ++ [Op.update Kind.volumeResize (withoutFinalizer vrDeleting)] ∧
      (Reconcile "default" "resize" envQuiet { world := worldDeleting }).val = Ret.ret {} err ∧
      (Reconcile "default" "resize" envQuiet { world := worldDeleting }).log.getLast? =
        some { op := Op.update Kind.volumeResize (withoutFinalizer vrDeleting), err := err } ∧
      (∀ p ∈ pvcList, p.Meta.Namespace = vrDeleting.Meta.Namespace ∧
        p.Meta.Labels.get? LabelMigrationName = some vrDeleting.Meta.Name) ∧
      (∀ p ∈ podList, p.Meta.Namespace = vrDeleting.Meta.Namespace ∧
        p.Meta.Labels.get? LabelMigrationName = some vrDeleting.Meta.Name) ∧
      (Env.Calm envQuiet →
        pvcList = World.serveList worldDeleting Kind.pvc vrDeleting.Meta.Namespace
          [(LabelMigrationName, vrDeleting.Meta.Name)] ∧
        podList = World.serveList worldDeleting Kind.pod vrDeleting.Meta.Namespace
          [(LabelMigrationName, vrDeleting.Meta.Name)])) :=
  ⟨⟨rfl, rfl⟩,
   Reconcile_deletion "default" "resize" envQuiet { world := worldDeleting } vrDeleting rfl rfl⟩

/-! ### Decimal formatting and the name templates -/

theorem digitChar_isDigit (d : Nat) (h : d < 10) : (Nat.digitChar d).isDigit = true := by
  interval_cases d <;> rfl

theorem digitChar_toNat (d : Nat) (h : d < 10) : (Nat.digitChar d).toNat - 48 = d := by
  interval_cases d <;> rfl

theorem toDigitsCore_eq (fuel : Nat) : ∀ (n : Nat) (ds : List Char), n < fuel → 0 < n →
    Nat.toDigitsCore 10 fuel n ds = (Nat.digits 10 n).reverse.map Nat.digitChar ++ ds := by
  induction fuel with
  | zero => intro n ds h; omega
  | succ fuel ih =>
    intro n ds hf hn
    rw [Nat.digits_def' (by decide) hn]
    unfold Nat.toDigitsCore
    by_cases h0 : n / 10 = 0
    · simp only [h0, if_true, Nat.digits_zero, List.reverse_cons, List.reverse_nil, List.nil_append,
        List.map_cons, List.map_nil, List.singleton_append]
    · simp only [h0, if_false]
      rw [ih (n / 10) _ (by omega) (by omega)]
      simp only [List.reverse_cons, List.map_append, List.map_cons, List.map_nil, List.append_assoc,
        List.singleton_append]

theorem toDigits_eq (n : Nat) (hn : 0 < n) :
    Nat.toDigits 10 n = (Nat.digits 10 n).reverse.map Nat.digitChar := by
  unfold Nat.toDigits
  rw [toDigitsCore_eq (n + 1) n [] (by omega) hn, List.append_nil]

theorem toDigits_isDigit (n : Nat) : ∀ c ∈ Nat.toDigits 10 n, c.isDigit = true := by
  intro c hc
  rcases Nat.eq_zero_or_pos n with h | h
  · subst h
    have : c = '0' := by simpa [Nat.toDigits, Nat.toDigitsCore] using hc
    subst this
    rfl
  · rw [toDigits_eq n h] at hc
    simp only [List.mem_map, List.mem_reverse] at hc
    obtain ⟨d, hd, rfl⟩ := hc
    exact digitChar_isDigit d (Nat.digits_lt_base (by decide) hd)

theorem toDigits_ne_nil (n : Nat) : Nat.toDigits 10 n ≠ [] := by
  rcases Nat.eq_zero_or_pos n with h | h
  · subst h
    simp [Nat.toDigits, Nat.toDigitsCore]
  · rw [toDigits_eq n h]
    simp only [ne_eq, List.map_eq_nil_iff, List.reverse_eq_nil_iff]
    exact (Nat.digits_ne_nil_iff_ne_zero).2 (by omega)

/-- The number a list of decimal digits stands for. -/
theorem toDigits_value (n : Nat) :
    Nat.ofDigits 10 ((Nat.toDigits 10 n).reverse.map (fun c => c.toNat - 48)) = n := by
  rcases Nat.eq_zero_or_pos n with h | h
  · subst h
    rfl
  · rw [toDigits_eq n h, ← List.map_reverse, List.reverse_reverse, List.map_map]
    have : (Nat.digits 10 n).map ((fun c => c.toNat - 48) ∘ Nat.digitChar) = Nat.digits 10 n := by
      conv_rhs => rw [← List.map_id (Nat.digits 10 n)]
      apply List.map_congr_left
      intro d hd
      exact digitChar_toNat d (Nat.digits_lt_base (by decide) hd)
    rw [this, Nat.ofDigits_digits]

theorem toDigits_injective (n m : Nat) (h : Nat.toDigits 10 n = Nat.toDigits 10 m) : n = m := by
  rw [← toDigits_value n, ← toDigits_value m, h]

theorem fmtInt_data_nonneg (n : Nat) : (fmtInt (n : Int)).data = Nat.toDigits 10 n := rfl

theorem fmtInt_data_neg (n : Nat) : (fmtInt (Int.negSucc n)).data = '-' :: Nat.toDigits 10 (n + 1) := rfl

/-- The decimal text of an integer ends with a digit. -/
theorem fmtInt_getLast (r : Int) :
    ∃ c, (fmtInt r).data.getLast? = some c ∧ c.isDigit = true := by
  have key : ∀ n : Nat, ∀ pre : List Char,
      ∃ c, (pre ++ Nat.toDigits 10 n).getLast? = some c ∧ c.isDigit = true := by
    intro n pre
    have hne := toDigits_ne_nil n
    refine ⟨(Nat.toDigits 10 n).getLast hne, ?_, toDigits_isDigit n _ (List.getLast_mem hne)⟩
    rw [List.getLast?_append_of_ne_nil _ hne, List.getLast?_eq_getLast _ hne]
  cases r with
  | ofNat n => exact key n []
  | negSucc n => exact key (n + 1) ['-']

theorem getOriginalPVCName_getLast (v s : String) (r : Int) :
    ∃ c, (getOriginalPVCName v s r).data.getLast? = some c ∧ c.isDigit = true := by
  obtain ⟨c, hc, hd⟩ := fmtInt_getLast r
  refine ⟨c, ?_, hd⟩
  have hne : (fmtInt r).data ≠ [] := by
    intro h
    rw [h] at hc
    simp at hc
  unfold getOriginalPVCName
  rw [String.data_append, List.getLast?_append_of_ne_nil _ hne, hc]

theorem getTempPVCName_getLast (v s : String) (r : Int) :
    (getTempPVCName v s r).data.getLast? = some 'w' := by
  unfold getTempPVCName
  rw [String.data_append, List.getLast?_append_of_ne_nil _ (by decide)]
  rfl

theorem getOriginalPVCName_ne_getTempPVCName (v v2 s s2 : String) (r r2 : Int) :
    getOriginalPVCName v2 s2 r2 ≠ getTempPVCName v s r := by
  intro h
  obtain ⟨c, hc, hd⟩ := getOriginalPVCName_getLast v2 s2 r2
  rw [h, getTempPVCName_getLast] at hc
  simp only [Option.some.injEq] at hc
  subst hc
  exact absurd hd (by decide)

theorem createTempPVC_returned_name (vr : VolumeResize) (vol : VolumeResizeTarget)
    (originalPVC : PersistentVolumeClaim) (replica : Int) (env : Env) (s : St)
    (c : PersistentVolumeClaim)
    (h : (createTempPVC vr vol originalPVC replica env s).val = .ok c) :
    c.Meta.Name = getTempPVCName vol.Name vr.Spec.StatefulSetName replica := by
  cases hg : (getPVC vr.Meta.Namespace (getTempPVCName vol.Name vr.Spec.StatefulSetName replica) env s).val with
  | ok existing =>
    have hf := createTempPVC_found vr vol originalPVC replica env s existing hg
    rw [hf.1] at h
    simp only [Except.ok.injEq] at h
    subst h
    exact (Client.Get_ok_name Kind.pvc _ _ env s existing hg).1
  | error e =>
    by_cases hnf : IsNotFound e = true
    · have ha := createTempPVC_absent vr vol originalPVC replica env s e hg hnf
      rw [ha.1] at h
      cases hc : (Client.Create Kind.pvc (tempClaim vr vol originalPVC replica) env
          (getPVC vr.Meta.Namespace (getTempPVCName vol.Name vr.Spec.StatefulSetName replica) env s).st).val with
      | error e2 => rw [hc] at h; simp at h
      | ok created =>
        rw [hc] at h
        simp only [Except.ok.injEq] at h
        subst h
        have := Client.Create_ok Kind.pvc _ env _ created hc
        subst this
        rfl
    · rw [createTempPVC_def] at h
      simp only [bind_val, hg, hnf, Bool.not_false, if_true, pure_val] at h
      simp at h

/-- C30: the transient name of a pair is its original name followed by `-new`; no
original name, of whatever volume, workload and replica index, equals a transient
name (an original name ends with a digit, a transient one with `w`); hence the
claim that the read in `createTempPVC` finds, and any claim `createTempPVC`
returns, does not bear the original name of any pair. -/
theorem original_and_transient_names_differ (vr : VolumeResize) (vol : VolumeResizeTarget)
    (originalPVC : PersistentVolumeClaim) (replica : Int) (env : Env) (s : St) :
    (∀ (v w : String) (r : Int), getTempPVCName v w r = getOriginalPVCName v w r ++ "-new") ∧
    (∀ (v v2 w w2 : String) (r r2 : Int), getOriginalPVCName v2 w2 r2 ≠ getTempPVCName v w r) ∧
    (∀ existing : PersistentVolumeClaim,
      (getPVC vr.Meta.Namespace (getTempPVCName vol.Name vr.Spec.StatefulSetName replica) env s).val
          = .ok existing →
      ∀ (v2 w2 : String) (r2 : Int), existing.Meta.Name ≠ getOriginalPVCName v2 w2 r2) ∧
    (∀ c : PersistentVolumeClaim,
      (createTempPVC vr vol originalPVC replica env s).val = .ok c →
      ∀ (v2 w2 : String) (r2 : Int), c.Meta.Name ≠ getOriginalPVCName v2 w2 r2) := by
  refine ⟨fun _ _ _ => rfl, fun v v2 w w2 r r2 => getOriginalPVCName_ne_getTempPVCName v v2 w w2 r r2,
    ?_, ?_⟩
  · intro existing h v2 w2 r2 hn
    have hname := (Client.Get_ok_name Kind.pvc _ _ env s existing h).1
    exact getOriginalPVCName_ne_getTempPVCName _ v2 _ w2 _ r2 (hn.symm.trans hname)
  · intro c h v2 w2 r2 hn
    have hname := createTempPVC_returned_name vr vol originalPVC replica env s c h
    exact getOriginalPVCName_ne_getTempPVCName _ v2 _ w2 _ r2 (hn.symm.trans hname)

theorem original_and_transient_names_differ_witness :
    (createTempPVC vrSync { Name := "data", NewSize := fiveHundredMi } (pvcWeb 0) 0 envQuiet
        { world := worldSync }).val = .ok pvcTemp ∧
    pvcTemp.Meta.Name ≠ getOriginalPVCName "data" "web" 0 :=
  ⟨rfl,
   (original_and_transient_names_differ vrSync { Name := "data", NewSize := fiveHundredMi } (pvcWeb 0) 0
      envQuiet { world := worldSync }).2.2.2 pvcTemp rfl "data" "web" 0⟩

theorem split_at_first {α : Type} (x : α) : ∀ (d e a b : List α),
    (∀ c ∈ d, c ≠ x) → (∀ c ∈ e, c ≠ x) → d ++ x :: a = e ++ x :: b → d = e ∧ a = b := by
  intro d
  induction d with
  | nil =>
    intro e a b _ he h
    cases e with
    | nil => simpa using h
    | cons y e =>
      simp only [List.nil_append, List.cons_append, List.cons.injEq] at h
      exact absurd h.1.symm (he y (List.mem_cons_self y e))
  | cons y d ih =>
    intro e a b hd he h
    cases e with
    | nil =>
      simp only [List.nil_append, List.cons_append, List.cons.injEq] at h
      exact absurd h.1 (hd y (List.mem_cons_self y d))
    | cons z e =>
      simp only [List.cons_append, List.cons.injEq] at h
      obtain ⟨h1, h2⟩ := ih e a b (fun c hc => hd c (List.mem_cons_of_mem y hc))
        (fun c hc => he c (List.mem_cons_of_mem z hc)) h.2
      exact ⟨by rw [h.1, h1], h2⟩

theorem split_at_last {α : Type} (x : α) (a b d e : List α)
    (hd : ∀ c ∈ d, c ≠ x) (he : ∀ c ∈ e, c ≠ x) (h : a ++ x :: d = b ++ x :: e) : a = b ∧ d = e := by
  have h2 : d.reverse ++ x :: a.reverse = e.reverse ++ x :: b.reverse := by
    have := congrArg List.reverse h
    simpa using this
  obtain ⟨h3, h4⟩ := split_at_first x d.reverse e.reverse a.reverse b.reverse
    (fun c hc => hd c (List.mem_reverse.1 hc)) (fun c hc => he c (List.mem_reverse.1 hc)) h2
  exact ⟨List.reverse_injective h4, List.reverse_injective h3⟩

theorem fmtInt_nonneg_no_dash (r : Int) (hr : 0 ≤ r) : ∀ c ∈ (fmtInt r).data, c ≠ '-' := by
  intro c hc
  obtain ⟨n, rfl⟩ := Int.eq_ofNat_of_zero_le hr
  have hd := toDigits_isDigit n c hc
  intro h
  subst h
  exact absurd hd (by decide)

theorem fmtInt_nonneg_injective (r r2 : Int) (hr : 0 ≤ r) (hr2 : 0 ≤ r2)
    (h : (fmtInt r).data = (fmtInt r2).data) : r = r2 := by
  obtain ⟨n, rfl⟩ := Int.eq_ofNat_of_zero_le hr
  obtain ⟨m, rfl⟩ := Int.eq_ofNat_of_zero_le hr2
  have := toDigits_injective n m h
  rw [this]

theorem getOriginalPVCName_data (v w : String) (r : Int) :
    (getOriginalPVCName v w r).data = (v.data ++ '-' :: w.data) ++ '-' :: (fmtInt r).data := by
  unfold getOriginalPVCName
  simp only [String.data_append, List.append_assoc]
  rfl

theorem getMigratorPodName_data (q v : String) (r : Int) :
    (getMigratorPodName q v r).data =
      (q.data ++ "-migrator-".data) ++ ((fmtInt r).data ++ '-' :: v.data) := by
  unfold getMigratorPodName
  simp only [String.data_append, List.append_assoc]
  rfl

theorem getOriginalPVCName_injective (w v v2 : String) (r r2 : Int) (hr : 0 ≤ r) (hr2 : 0 ≤ r2)
    (h : getOriginalPVCName v w r = getOriginalPVCName v2 w r2) : v = v2 ∧ r = r2 := by
  have hd := congrArg String.data h
  rw [getOriginalPVCName_data, getOriginalPVCName_data] at hd
  obtain ⟨h1, h2⟩ := split_at_last '-' _ _ _ _ (fmtInt_nonneg_no_dash r hr)
    (fmtInt_nonneg_no_dash r2 hr2) hd
  exact ⟨String.ext (List.append_cancel_right h1), fmtInt_nonneg_injective r r2 hr hr2 h2⟩

/-- C25, as the code has it: within one workload the claim names tell the pairs
apart, and within one request the pod names do: for a fixed workload name and
replica indices that are not negative, `getOriginalPVCName` and `getTempPVCName`
map distinct pairs (volume, replica) to distinct names, and for a fixed request
name `getMigratorPodName` maps distinct pairs (replica, volume) to distinct
names. -/
theorem naming_templates_injective_within_request (w q v v2 : String) (r r2 : Int)
    (hr : 0 ≤ r) (hr2 : 0 ≤ r2) :
    (getOriginalPVCName v w r = getOriginalPVCName v2 w r2 → v = v2 ∧ r = r2) ∧
    (getTempPVCName v w r = getTempPVCName v2 w r2 → v = v2 ∧ r = r2) ∧
    (getMigratorPodName q v r = getMigratorPodName q v2 r2 → r = r2 ∧ v = v2) := by
  refine ⟨getOriginalPVCName_injective w v v2 r r2 hr hr2, ?_, ?_⟩
  · intro h
    have h2 : getOriginalPVCName v w r ++ "-new" = getOriginalPVCName v2 w r2 ++ "-new" := h
    have h3 := congrArg String.data h2
    simp only [String.data_append] at h3
    exact getOriginalPVCName_injective w v v2 r r2 hr hr2 (String.ext (List.append_cancel_right h3))
  · intro h
    have hd := congrArg String.data h
    rw [getMigratorPodName_data, getMigratorPodName_data] at hd
    have hd2 := List.append_cancel_left hd
    obtain ⟨h1, h2⟩ := split_at_first '-' _ _ _ _ (fmtInt_nonneg_no_dash r hr)
      (fmtInt_nonneg_no_dash r2 hr2) hd2
    exact ⟨fmtInt_nonneg_injective r r2 hr hr2 h1, String.ext h2⟩

theorem naming_templates_injective_within_request_witness :
    ((0 : Int) ≤ 0 ∧ (0 : Int) ≤ 1) ∧
    (getOriginalPVCName "data" "web" 0 = getOriginalPVCName "logs" "web" 1 →
      "data" = "logs" ∧ (0 : Int) = 1) :=
  ⟨⟨by decide, by decide⟩,
   (naming_templates_injective_within_request "web" "resize" "data" "logs" 0 1 (by decide)
      (by decide)).1⟩

/-- C25, counterexample: names with dashes make the templates collide.  The
triples (`a-b`, `c`, 0) and (`a`, `b-c`, 0) get the same original and the same
transient claim name, and the triples (`a`, 0, `b-migrator-1-c`) and
(`a-migrator-0-b`, 1, `c`) get the same pod name. -/
theorem naming_templates_collide :
    getOriginalPVCName "a-b" "c" 0 = getOriginalPVCName "a" "b-c" 0 ∧
    getTempPVCName "a-b" "c" 0 = getTempPVCName "a" "b-c" 0 ∧
    (("a-b", "c", (0 : Int)) : String × String × Int) ≠ ("a", "b-c", 0) ∧
    getMigratorPodName "a" "b-migrator-1-c" 0 = getMigratorPodName "a-migrator-0-b" "c" 1 ∧
    (("a", (0 : Int), "b-migrator-1-c") : String × Int × String) ≠ ("a-migrator-0-b", 1, "c") := by
  decide

/-! ### The cursor on a target list with a repeated name -/

theorem getNextVolumeReplica_twice (statuses : List VolumeStatus) (replica : Int) :
    getNextVolumeReplica (vrTwice statuses) replica "data" = some (replica, "data", false) := rfl

theorem cursorWalk_twice (statuses : List VolumeStatus) (fuel : Nat) :
    cursorWalk (vrTwice statuses) fuel 0 "data" = List.replicate fuel (0, "data") := by
  induction fuel with
  | zero => rfl
  | succ fuel ih =>
    unfold cursorWalk
    rw [getNextVolumeReplica_twice]
    simp only [ih, List.replicate_succ]

/-- C28, the code at a target list that names `data` twice: validation accepts the
list; from the pair (replica, data) `getNextVolumeReplica` returns the same pair
and not done, whatever `VolumeStatuses` holds, so the iteration from (0, data)
visits (0, data) at every step and never reports done; and a reconciliation of
the Syncing request whose pairs are all Completed asks for a requeue and leaves
the cluster as it was, phase Syncing and cursor (0, data) included. -/
theorem cursor_never_done_on_repeated_name :
    (∀ wide, validateVolumeTargets wide stsWeb targetsTwice = { Valid := true }) ∧
    (∀ (statuses : List VolumeStatus) (replica : Int),
      getNextVolumeReplica (vrTwice statuses) replica "data" = some (replica, "data", false)) ∧
    (∀ (statuses : List VolumeStatus) (fuel : Nat),
      cursorWalk (vrTwice statuses) fuel 0 "data" = List.replicate fuel (0, "data")) ∧
    (∀ vs ∈ statusesTwiceCompleted, vs.Phase = VolumeStatusCompleted) ∧
    (Reconcile "default" "resize" envQuiet { world := worldTwice }).val
      = Ret.ret { Requeue := true } none ∧
    (Reconcile "default" "resize" envQuiet { world := worldTwice }).st.world = worldTwice ∧
    worldTwice.volumeResizes.map (fun vr => (vr.Status.Phase, vr.Status.CurrentReplica, vr.Status.CurrentVolume))
      = [(PhaseSyncing, some 0, "data")] := by
  refine ⟨fun _ => rfl, getNextVolumeReplica_twice, cursorWalk_twice, by decide, by decide, by decide,
    by decide⟩

/-! ### The cursor of a parent without replicas -/

/-- C29, the code at a parent scaled to zero replicas: validation accepts the
request and writes phase Syncing with the cursor (0, data) while `VolumeStatuses`
has no entry, so the cursor is the key of no entry; the next reconciliation
works on replica 0 all the same, although 0 is not below the replica count 0:
it reads the claim `data-web-0` and creates the transient claim
`data-web-0-new`. -/
theorem cursor_on_untracked_pair_of_idle_parent :
    stsIdle.Spec.Replicas = some 0 ∧
    (Reconcile "default" "resize" envIdle { world := worldIdleValidating }).val
      = Ret.ret { Requeue := true } none ∧
    (Reconcile "default" "resize" envIdle { world := worldIdleValidating }).st.world.volumeResizes.map
        (fun vr => (vr.Status.Phase, vr.Status.CurrentReplica, vr.Status.CurrentVolume))
      = [(PhaseSyncing, some 0, "data")] ∧
    (Reconcile "default" "resize" envIdle { world := worldIdleValidating }).st.world.volumeResizes.map
        (fun vr => vr.Status.VolumeStatuses.map VolumeStatus.key)
      = [[]] ∧
    (∀ vr ∈ (Reconcile "default" "resize" envIdle { world := worldIdleValidating }).st.world.volumeResizes,
      ∀ replica, vr.Status.CurrentReplica = some replica →
        (replica, vr.Status.CurrentVolume) ∉ vr.Status.VolumeStatuses.map VolumeStatus.key) ∧
    (Reconcile "default" "resize" envIdle
        (Reconcile "default" "resize" envIdle { world := worldIdleValidating }).st).log.map Call.summary =
      ["get volumeresizes.storage.maurice.fr default/resize: ok",
       "get persistentvolumeclaims default/data-web-0: ok",
       String.join ["get persistentvolumeclaims default/data-web-0-new: persistentvolumeclaims ",
         goQuote serverWide "data-web-0-new", " not found"],
       "create persistentvolumeclaims default/data-web-0-new: ok",
       "get storageclasses.storage.k8s.io /standard: ok"] := by
  refine ⟨by decide, by decide, by decide, by decide, ?_, by decide⟩
  have h : (Reconcile "default" "resize" envIdle { world := worldIdleValidating }).st.world.volumeResizes.map
      (fun vr => vr.Status.VolumeStatuses) = [[]] := by decide
  intro vr hvr replica _
  have h2 : vr.Status.VolumeStatuses ∈
      (Reconcile "default" "resize" envIdle { world := worldIdleValidating }).st.world.volumeResizes.map
        (fun vr => vr.Status.VolumeStatuses) := List.mem_map_of_mem _ hvr
  rw [h] at h2
  simp only [List.mem_singleton] at h2
  simp [h2]

/-! ### Errors of the first steps of a pair -/

theorem handleSyncing_def (vr : VolumeResize) :
    handleSyncing vr =
      (match vr.Status.CurrentReplica with
        | none => pure (Ret.panic "nil pointer dereference")
        | some replica =>
          if vr.Status.VolumeStatuses.any (fun vs =>
              vs.VolumeName == vr.Status.CurrentVolume && vs.Replica == replica &&
                vs.Phase == VolumeStatusCompleted) then
            handleSyncing.advance vr replica vr.Status.CurrentVolume
          else
            getPVC vr.Meta.Namespace
                (getOriginalPVCName vr.Status.CurrentVolume vr.Spec.StatefulSetName replica) >>= fun r =>
              match r with
              | .error err => setFailed vr ("failed to get original PVC: " ++ err.msg)
              | .ok originalPVC =>
                createTempPVC vr ((vr.Spec.Volumes.find? (fun v => v.Name == vr.Status.CurrentVolume)).getD {})
                    originalPVC replica >>= fun r =>
                  match r with
                  | .error err => setFailed vr ("failed to create temp PVC: " ++ err.msg)
                  | .ok tempPVC =>
                    handleSyncing.waitForBinding tempPVC >>= fun waitForBinding =>
                      if waitForBinding ∧ tempPVC.Status.Phase ≠ ClaimBound then
                        pure (Ret.ret { RequeueAfter := 5000 } none)
                      else
                        setRetainOnPV originalPVC.Spec.VolumeName >>= fun r =>
                          match r with
                          | some err => setFailed vr ("failed to set retain on PV: " ++ err.msg)
                          | none =>
                            handleSyncing.deleteSTS
                                (handleSyncing.prepared vr vr.Status.CurrentVolume replica
                                  (getOriginalPVCName vr.Status.CurrentVolume vr.Spec.StatefulSetName replica)
                                  (getTempPVCName vr.Status.CurrentVolume vr.Spec.StatefulSetName replica)
                                  originalPVC.Spec.VolumeName) >>= fun r =>
                              match r with
                              | .error r => pure r
                              | .ok vr2 =>
                                handleSyncing.migrate vr2
                                  ((vr.Spec.Volumes.find? (fun v => v.Name == vr.Status.CurrentVolume)).getD {})
                                  replica vr.Status.CurrentVolume
                                  (getOriginalPVCName vr.Status.CurrentVolume vr.Spec.StatefulSetName replica)
                                  (getTempPVCName vr.Status.CurrentVolume vr.Spec.StatefulSetName replica)) := rfl

theorem setFailed_last (vr : VolumeResize) (message : String) (env : Env) (s : St) (pre : List Call) :
    ∃ e, (setFailed vr message env s).val = Ret.ret {} e ∧
      (pre ++ (setFailed vr message env s).log).getLast? =
        some { op := Op.statusUpdate Kind.volumeResize (failedRequest vr message), err := e } := by
  obtain ⟨e, hv, hl⟩ := setFailed_run vr message env s
  refine ⟨e, hv, ?_⟩
  rw [hl, List.getLast?_append]
  rfl

/-- The three early error branches of `handleSyncing` (lines 223-226, 230-233
and 254-256): in a reconciliation of a pair that is not yet Completed, an error
of whatever kind (a server timeout as much as not-found) of the read of the
original claim, of `createTempPVC` (its read of the transient claim or its
create), or of `setRetainOnPV` (its read or its update of the original backing
volume) is not returned: the last request of `handleSyncing` is then the status
write of the request with phase Failed and the message
`failed to get original PVC: ...`, `failed to create temp PVC: ...` or
`failed to set retain on PV: ...`, and the error `handleSyncing` returns is
that of this status write, none when the write succeeds. -/
theorem handleSyncing_fails_on_claim_errors (vr : VolumeResize) (replica : Int) (env : Env) (s : St)
    (hcur : vr.Status.CurrentReplica = some replica)
    (hnot : vr.Status.VolumeStatuses.any (fun vs =>
        vs.VolumeName == vr.Status.CurrentVolume && vs.Replica == replica &&
          vs.Phase == VolumeStatusCompleted) = false)
    (o1 : Out (Except Err PersistentVolumeClaim))
    (h1 : getPVC vr.Meta.Namespace
        (getOriginalPVCName vr.Status.CurrentVolume vr.Spec.StatefulSetName replica) env s = o1) :
    (failedRequest vr "").Status.Phase = PhaseFailed ∧
    (∀ err, o1.val = .error err →
      ∃ e, (handleSyncing vr env s).val = Ret.ret {} e ∧
        (handleSyncing vr env s).log.getLast? =
          some { op := Op.statusUpdate Kind.volumeResize
                   (failedRequest vr ("failed to get original PVC: " ++ err.msg)), err := e }) ∧
    (∀ originalPVC o2, o1.val = .ok originalPVC →
      createTempPVC vr ((vr.Spec.Volumes.find? (fun v => v.Name == vr.Status.CurrentVolume)).getD {})
        originalPVC replica env o1.st = o2 →
      (∀ err, o2.val = .error err →
        ∃ e, (handleSyncing vr env s).val = Ret.ret {} e ∧
          (handleSyncing vr env s).log.getLast? =
            some { op := Op.statusUpdate Kind.volumeResize
                     (failedRequest vr ("failed to create temp PVC: " ++ err.msg)), err := e }) ∧
      (∀ tempPVC o3 err, o2.val = .ok tempPVC →
        handleSyncing.waitForBinding tempPVC env o2.st = o3 →
        ¬ (o3.val = true ∧ tempPVC.Status.Phase ≠ ClaimBound) →
        (setRetainOnPV originalPVC.Spec.VolumeName env o3.st).val = some err →
        ∃ e, (handleSyncing vr env s).val = Ret.ret {} e ∧
          (handleSyncing vr env s).log.getLast? =
            some { op := Op.statusUpdate Kind.volumeResize
                     (failedRequest vr ("failed to set retain on PV: " ++ err.msg)), err := e })) := by
  refine ⟨rfl, ?_, ?_⟩
  · intro err he
    obtain ⟨e, hv, hl⟩ := setFailed_last vr ("failed to get original PVC: " ++ err.msg) env o1.st o1.log
    refine ⟨e, ?_, ?_⟩
    · rw [handleSyncing_def]
      simp only [hcur, hnot, Bool.false_eq_true, if_false, bind_val, bind_st, h1, he]
      exact hv
    · rw [handleSyncing_def]
      simp only [hcur, hnot, Bool.false_eq_true, if_false, bind_log, bind_st, h1, he]
      exact hl
  · intro originalPVC o2 hok h2
    constructor
    · intro err he
      obtain ⟨e, hv, hl⟩ := setFailed_last vr ("failed to create temp PVC: " ++ err.msg) env o2.st
        (o1.log ++ o2.log)
      refine ⟨e, ?_, ?_⟩
      · rw [handleSyncing_def]
        simp only [hcur, hnot, Bool.false_eq_true, if_false, bind_val, bind_st, h1, hok, h2, he]
        exact hv
      · rw [handleSyncing_def]
        simp only [hcur, hnot, Bool.false_eq_true, if_false, bind_log, bind_st, bind_val, h1, hok, h2, he,
          ← List.append_assoc]
        exact hl
    · intro tempPVC o3 err hok2 h3 hgo hret
      obtain ⟨e, hv, hl⟩ := setFailed_last vr ("failed to set retain on PV: " ++ err.msg) env
        (setRetainOnPV originalPVC.Spec.VolumeName env o3.st).st
        (o1.log ++ o2.log ++ o3.log ++ (setRetainOnPV originalPVC.Spec.VolumeName env o3.st).log)
      refine ⟨e, ?_, ?_⟩
      · rw [handleSyncing_def]
        simp only [hcur, hnot, Bool.false_eq_true, if_false, bind_val, bind_st, h1, hok, h2, hok2, h3, hgo,
          hret]
        exact hv
      · rw [handleSyncing_def]
        simp only [hcur, hnot, Bool.false_eq_true, if_false, bind_log, bind_st, bind_val, h1, hok, h2, hok2,
          h3, hgo, hret, ← List.append_assoc]
        exact hl

theorem handleSyncing_fails_on_claim_errors_witness :
    (vrSync.Status.CurrentReplica = some 0 ∧
      vrSync.Status.VolumeStatuses.any (fun vs =>
        vs.VolumeName == vrSync.Status.CurrentVolume && vs.Replica == 0 &&
          vs.Phase == VolumeStatusCompleted) = false ∧
      (getPVC "default" "data-web-0" envClaimUnreadable { world := worldSync, calls := 1 }).val =
        .error { reason := Reason.other, msg := "etcdserver: request timed out" }) ∧
    ∃ e, (handleSyncing vrSync envClaimUnreadable { world := worldSync, calls := 1 }).val = Ret.ret {} e ∧
      (handleSyncing vrSync envClaimUnreadable { world := worldSync, calls := 1 }).log.getLast? =
        some { op := Op.statusUpdate Kind.volumeResize
                 (failedRequest vrSync
                   ("failed to get original PVC: " ++
                     Err.msg { reason := Reason.other, msg := "etcdserver: request timed out" })),
               err := e } :=
  ⟨⟨rfl, by decide, rfl⟩,
   (handleSyncing_fails_on_claim_errors vrSync 0 envClaimUnreadable { world := worldSync, calls := 1 }
      rfl (by decide) _ rfl).2.1 { reason := Reason.other, msg := "etcdserver: request timed out" } rfl⟩

/-- C23 fails on the code: the read of the original claim `data-web-0` fails with
a server timeout, which is not a not-found error; the reconciliation does not
return it but writes the status of the request, returns no error and no
requeue, and leaves the request, Syncing before, in phase Failed with the
message of the timeout.  Failed is terminal, so no later reconciliation takes
the migration up again. -/
theorem handleSyncing_writes_failed_on_timeout :
    (Reconcile "default" "resize" envClaimUnreadable { world := worldSync }).log.map Call.summary =
      ["get volumeresizes.storage.maurice.fr default/resize: ok",
       "get persistentvolumeclaims default/data-web-0: etcdserver: request timed out",
       "update status volumeresizes.storage.maurice.fr default/resize: ok"] ∧
    IsNotFound { reason := Reason.other, msg := "etcdserver: request timed out" } = false ∧
    (Reconcile "default" "resize" envClaimUnreadable { world := worldSync }).val = Ret.ret {} none ∧
    worldSync.volumeResizes.map (fun vr => vr.Status.Phase) = [PhaseSyncing] ∧
    (Reconcile "default" "resize" envClaimUnreadable { world := worldSync }).st.world.volumeResizes.map
        (fun vr => (vr.Status.Phase, vr.Status.Message)) =
      [(PhaseFailed, "failed to get original PVC: etcdserver: request timed out")] := by
  decide

/-! ### The claim templates of the recreated parent -/

theorem updateTemplates_def (stsSpec : StatefulSet) (volumes : List VolumeResizeTarget) :
    handleSyncing.updateTemplates stsSpec volumes =
      { stsSpec with Spec := { stsSpec.Spec with
          VolumeClaimTemplates := stsSpec.Spec.VolumeClaimTemplates.map (fun vct =>
            volumes.foldl handleSyncing.applyTarget vct) } } := rfl

theorem find?_map_set_self (k : String) (q : Quantity) (rl : List (String × Quantity))
    (h : rl.any (fun kv => kv.1 == k) = true) :
    ((rl.map (fun kv => if kv.1 == k then (k, q) else kv)).find? (fun kv => kv.1 == k)).map (fun kv => kv.2)
      = some q := by
  induction rl with
  | nil => simp at h
  | cons kv rest ih =>
    rw [List.map_cons]
    cases hk : (kv.1 == k) with
    | true =>
      simp only [if_true, List.find?_cons, beq_self_eq_true, Option.map_some']
    | false =>
      simp only [Bool.false_eq_true, if_false, List.find?_cons, hk]
      apply ih
      rw [List.any_cons, hk] at h
      simpa using h

theorem find?_map_set_other (k k2 : String) (q : Quantity) (hne : k2 ≠ k) (rl : List (String × Quantity)) :
    ((rl.map (fun kv => if kv.1 == k then (k, q) else kv)).find? (fun kv => kv.1 == k2)).map (fun kv => kv.2)
      = (rl.find? (fun kv => kv.1 == k2)).map (fun kv => kv.2) := by
  induction rl with
  | nil => rfl
  | cons kv rest ih =>
    rw [List.map_cons]
    have hkk : (k == k2) = false := by
      rw [beq_eq_false_iff_ne]
      exact fun e => hne e.symm
    cases hk : (kv.1 == k) with
    | true =>
      have hk2 : (kv.1 == k2) = false := by
        rw [beq_eq_false_iff_ne]
        intro e
        exact hne (e.symm.trans (beq_iff_eq.1 hk))
      simp only [if_true, List.find?_cons, hkk, hk2]
      exact ih
    | false =>
      simp only [Bool.false_eq_true, if_false, List.find?_cons]
      cases hk2 : (kv.1 == k2) with
      | true => rfl
      | false => exact ih

theorem ResourceList.get?_set_self (rl : ResourceList) (k : String) (q : Quantity) :
    (rl.set k q).get? k = some q := by
  unfold ResourceList.set ResourceList.get?
  split
  · rename_i h
    exact find?_map_set_self k q rl h
  · rename_i h
    have hn : rl.find? (fun kv => kv.1 == k) = none := by
      rw [List.find?_eq_none]
      intro x hx hxk
      exact h (List.any_eq_true.2 ⟨x, hx, hxk⟩)
    simp [List.find?_append, hn]

theorem ResourceList.get?_set_other (rl : ResourceList) (k k2 : String) (q : Quantity) (h : k2 ≠ k) :
    (rl.set k q).get? k2 = rl.get? k2 := by
  unfold ResourceList.set ResourceList.get?
  split
  · exact find?_map_set_other k k2 q h rl
  · rw [List.find?_append]
    cases hf : rl.find? (fun kv => kv.1 == k2) with
    | some x => rfl
    | none => simp [h.symm]

theorem applyTarget_meta (vct : PersistentVolumeClaim) (v : VolumeResizeTarget) :
    (handleSyncing.applyTarget vct v).Meta = vct.Meta ∧
    (handleSyncing.applyTarget vct v).Status = vct.Status ∧
    (handleSyncing.applyTarget vct v).Spec.AccessModes = vct.Spec.AccessModes ∧
    (handleSyncing.applyTarget vct v).Spec.VolumeName = vct.Spec.VolumeName := by
  unfold handleSyncing.applyTarget
  split
  · split <;> exact ⟨rfl, rfl, rfl, rfl⟩
  · exact ⟨rfl, rfl, rfl, rfl⟩

theorem applyTarget_other (vct : PersistentVolumeClaim) (v : VolumeResizeTarget)
    (h : vct.Meta.Name ≠ v.Name) : handleSyncing.applyTarget vct v = vct := by
  unfold handleSyncing.applyTarget
  rw [if_neg h]

theorem applyTarget_named (vct : PersistentVolumeClaim) (v : VolumeResizeTarget)
    (h : vct.Meta.Name = v.Name) :
    (handleSyncing.applyTarget vct v).Spec.Requests = vct.Spec.Requests.set ResourceStorage v.NewSize ∧
    (handleSyncing.applyTarget vct v).Spec.StorageClassName =
      (match v.StorageClass with
        | some sc => some sc
        | none => vct.Spec.StorageClassName) := by
  unfold handleSyncing.applyTarget
  rw [if_pos h]
  cases v.StorageClass <;> exact ⟨rfl, rfl⟩

theorem lastNamed_append_other (vs : List VolumeResizeTarget) (v : VolumeResizeTarget) (name : String)
    (h : name ≠ v.Name) :
    lastNamed (vs ++ [v]) name = lastNamed vs name ∧
    lastOverride (vs ++ [v]) name = lastOverride vs name := by
  have hb : (v.Name == name) = false := by
    rw [beq_eq_false_iff_ne]
    exact fun e => h e.symm
  unfold lastNamed lastOverride
  simp only [List.filter_append, List.filter_cons, List.filter_nil, hb, Bool.false_and,
    Bool.false_eq_true, if_false, List.append_nil, and_self]

theorem lastNamed_append_named (vs : List VolumeResizeTarget) (v : VolumeResizeTarget) :
    lastNamed (vs ++ [v]) v.Name = some v ∧
    lastOverride (vs ++ [v]) v.Name =
      (match v.StorageClass with
        | some sc => some sc
        | none => lastOverride vs v.Name) := by
  unfold lastNamed lastOverride
  constructor
  · simp only [List.filter_append, List.filter_cons, List.filter_nil, beq_self_eq_true, if_true,
      List.getLast?_append, List.getLast?_singleton]
    rfl
  · cases hsc : v.StorageClass with
    | none =>
      simp only [List.filter_append, List.filter_cons, List.filter_nil, hsc, Option.isSome_none,
        Bool.and_false, Bool.false_eq_true, if_false, List.append_nil]
    | some sc =>
      simp only [List.filter_append, List.filter_cons, List.filter_nil, hsc, Option.isSome_some,
        Bool.and_true, beq_self_eq_true, if_true, List.getLast?_append, List.getLast?_singleton]
      simp only [Option.or, Option.bind, hsc]

/-- What the targets make of one claim template. -/
theorem applyTargets_spec (t : PersistentVolumeClaim) (volumes : List VolumeResizeTarget) :
    (volumes.foldl handleSyncing.applyTarget t).Meta = t.Meta ∧
    (volumes.foldl handleSyncing.applyTarget t).Status = t.Status ∧
    (volumes.foldl handleSyncing.applyTarget t).Spec.AccessModes = t.Spec.AccessModes ∧
    (volumes.foldl handleSyncing.applyTarget t).Spec.VolumeName = t.Spec.VolumeName ∧
    (∀ k, k ≠ ResourceStorage →
      (volumes.foldl handleSyncing.applyTarget t).Spec.Requests.get? k = t.Spec.Requests.get? k) ∧
    ((∀ v ∈ volumes, v.Name ≠ t.Meta.Name) → volumes.foldl handleSyncing.applyTarget t = t) ∧
    (∀ v, lastNamed volumes t.Meta.Name = some v →
      (volumes.foldl handleSyncing.applyTarget t).Spec.Requests.get? ResourceStorage = some v.NewSize) ∧
    (volumes.foldl handleSyncing.applyTarget t).Spec.StorageClassName =
      (match lastOverride volumes t.Meta.Name with
        | some sc => some sc
        | none => t.Spec.StorageClassName) := by
  induction volumes using List.reverseRecOn with
  | nil =>
    refine ⟨rfl, rfl, rfl, rfl, fun _ _ => rfl, fun _ => rfl, ?_, rfl⟩
    intro v hv
    simp [lastNamed] at hv
  | append_singleton vs v ih =>
    obtain ⟨i1, i2, i3, i4, i5, i6, i7, i8⟩ := ih
    rw [List.foldl_append, List.foldl_cons, List.foldl_nil]
    obtain ⟨m1, m2, m3, m4⟩ := applyTarget_meta (vs.foldl handleSyncing.applyTarget t) v
    by_cases hn : t.Meta.Name = v.Name
    · have hn2 : (vs.foldl handleSyncing.applyTarget t).Meta.Name = v.Name := by rw [i1, hn]
      obtain ⟨r1, r2⟩ := applyTarget_named _ v hn2
      obtain ⟨l1, l2⟩ := lastNamed_append_named vs v
      refine ⟨m1.trans i1, m2.trans i2, m3.trans i3, m4.trans i4, ?_, ?_, ?_, ?_⟩
      · intro k hk
        rw [r1, ResourceList.get?_set_other _ _ _ _ hk]
        exact i5 k hk
      · intro hall
        exact absurd hn.symm (hall v (List.mem_append_right _ (List.mem_singleton_self v)))
      · intro w hw
        rw [hn, l1] at hw
        simp only [Option.some.injEq] at hw
        subst hw
        rw [r1, ResourceList.get?_set_self]
      · rw [r2, hn, l2]
        cases hsc : v.StorageClass with
        | some sc => rfl
        | none =>
          simp only
          rw [i8, hn]
    · have hn2 : (vs.foldl handleSyncing.applyTarget t).Meta.Name ≠ v.Name := by rw [i1]; exact hn
      rw [applyTarget_other _ v hn2]
      obtain ⟨l1, l2⟩ := lastNamed_append_other vs v t.Meta.Name hn
      refine ⟨i1, i2, i3, i4, i5, ?_, ?_, ?_⟩
      · intro hall
        exact i6 (fun w hw => hall w (List.mem_append_left _ hw))
      · intro w hw
        rw [l1] at hw
        exact i7 w hw
      · rw [l2]
        exact i8

theorem lastNamed_of_nodup (volumes : List VolumeResizeTarget)
    (hnd : (volumes.map (fun v => v.Name)).Nodup) (v : VolumeResizeTarget) (hv : v ∈ volumes) :
    lastNamed volumes v.Name = some v ∧ lastOverride volumes v.Name = v.StorageClass := by
  induction volumes with
  | nil => simp at hv
  | cons w rest ih =>
    rw [List.map_cons, List.nodup_cons] at hnd
    have hw : ∀ x ∈ rest, (x.Name == w.Name) = false := by
      intro x hx
      rw [beq_eq_false_iff_ne]
      intro e
      exact hnd.1 (e ▸ List.mem_map_of_mem (fun v => v.Name) hx)
    rcases List.mem_cons.1 hv with rfl | hin
    · have h1 : rest.filter (fun x => x.Name == v.Name) = [] :=
        List.filter_eq_nil_iff.2 (fun x hx => by rw [hw x hx]; simp)
      have h2 : rest.filter (fun x => x.Name == v.Name && x.StorageClass.isSome) = [] :=
        List.filter_eq_nil_iff.2 (fun x hx => by rw [hw x hx]; simp)
      unfold lastNamed lastOverride
      constructor
      · simp only [List.filter_cons, beq_self_eq_true, if_true, h1]
        rfl
      · simp only [List.filter_cons, beq_self_eq_true, Bool.true_and, h2]
        cases hsc : v.StorageClass with
        | none => rfl
        | some sc =>
          simp only [Option.isSome_some, if_true, List.getLast?_singleton, Option.bind, hsc]
    · have hne : (w.Name == v.Name) = false := by
        rw [beq_eq_false_iff_ne]
        intro e
        exact hnd.1 (e ▸ List.mem_map_of_mem (fun v => v.Name) hin)
      obtain ⟨i1, i2⟩ := ih hnd.2 hin
      unfold lastNamed lastOverride at *
      simp only [List.filter_cons, hne, Bool.false_and, Bool.false_eq_true, if_false]
      exact ⟨i1, i2⟩

/-- The create of the parent in the last part of `handleSyncing`: the workload sent
is the backup with the targets of the request applied to its claim templates. -/
theorem recreate_sends_updated_backup (vr : VolumeResize) (replica : Int) (volName : String)
    (env : Env) (s : St) (vr2 : VolumeResize) (backup : StatefulSet)
    (h1 : (Client.StatusUpdate Kind.volumeResize vr env s).val = .ok vr2)
    (h2 : (getSTSFromBackupConfigMap vr2.Meta.Namespace vr2.Meta.Name env
        (Client.StatusUpdate Kind.volumeResize vr env s).st).val = .ok backup) :
    ∃ e rest, (handleSyncing.recreate vr replica volName env s).log =
      { op := Op.statusUpdate Kind.volumeResize vr, err := none } ::
        ((getSTSFromBackupConfigMap vr2.Meta.Namespace vr2.Meta.Name env
            (Client.StatusUpdate Kind.volumeResize vr env s).st).log ++
          { op := Op.create Kind.statefulSet
              (recreatedSTS (handleSyncing.updateTemplates backup vr2.Spec.Volumes)), err := e } :: rest) := by
  unfold handleSyncing.recreate
  simp only [bind_log, bind_st, bind_val, Client.StatusUpdate_log, h1, h2, errOf_ok, recreateSTS_log,
    List.singleton_append, List.cons_append, List.nil_append]
  exact ⟨_, _, rfl⟩

/-- C21, as the code has it: the workload `handleSyncing` passes to `recreateSTS`
is the backup with `updateTemplates` applied for the targets of the request.
It has the metadata, replicas, selector, service name and pod template of the
backup and as many claim templates, in the same order.  Each template keeps its
metadata, status, access modes, volume name and every request other than
storage; a template whose name no target bears is unchanged; a template whose
name some target bears requests the `newSize` of the last target of that name,
and has the storage class of the last target of that name that sets one, its own
class when none does.  When the target names are pairwise distinct this is the
`newSize` and the override of the one target of that name.  (A template without
a request map makes line 369 panic; the request lists here are maps that
exist.) -/
theorem updateTemplates_spec (backup : StatefulSet) (volumes : List VolumeResizeTarget) :
    (handleSyncing.updateTemplates backup volumes).Meta = backup.Meta ∧
    (handleSyncing.updateTemplates backup volumes).Spec.Replicas = backup.Spec.Replicas ∧
    (handleSyncing.updateTemplates backup volumes).Spec.Selector = backup.Spec.Selector ∧
    (handleSyncing.updateTemplates backup volumes).Spec.ServiceName = backup.Spec.ServiceName ∧
    (handleSyncing.updateTemplates backup volumes).Spec.Template = backup.Spec.Template ∧
    (handleSyncing.updateTemplates backup volumes).Spec.VolumeClaimTemplates.length
      = backup.Spec.VolumeClaimTemplates.length ∧
    (∀ (i : Nat) (t : PersistentVolumeClaim), backup.Spec.VolumeClaimTemplates[i]? = some t →
      ∃ t2, (handleSyncing.updateTemplates backup volumes).Spec.VolumeClaimTemplates[i]? = some t2 ∧
        t2.Meta = t.Meta ∧ t2.Status = t.Status ∧
        t2.Spec.AccessModes = t.Spec.AccessModes ∧ t2.Spec.VolumeName = t.Spec.VolumeName ∧
        (∀ k, k ≠ ResourceStorage → t2.Spec.Requests.get? k = t.Spec.Requests.get? k) ∧
        ((∀ v ∈ volumes, v.Name ≠ t.Meta.Name) → t2 = t) ∧
        (∀ v, lastNamed volumes t.Meta.Name = some v →
          t2.Spec.Requests.get? ResourceStorage = some v.NewSize) ∧
        t2.Spec.StorageClassName =
          (match lastOverride volumes t.Meta.Name with
            | some sc => some sc
            | none => t.Spec.StorageClassName) ∧
        ((volumes.map (fun v => v.Name)).Nodup → ∀ v ∈ volumes, v.Name = t.Meta.Name →
          t2.Spec.Requests.get? ResourceStorage = some v.NewSize ∧
          t2.Spec.StorageClassName =
            (match v.StorageClass with
              | some sc => some sc
              | none => t.Spec.StorageClassName))) ∧
    (∀ (vr : VolumeResize) (replica : Int) (volName : String) (env : Env) (s : St) (vr2 : VolumeResize),
      (Client.StatusUpdate Kind.volumeResize vr env s).val = .ok vr2 →
      (getSTSFromBackupConfigMap vr2.Meta.Namespace vr2.Meta.Name env
        (Client.StatusUpdate Kind.volumeResize vr env s).st).val = .ok backup →
      ∃ e rest, (handleSyncing.recreate vr replica volName env s).log =
        { op := Op.statusUpdate Kind.volumeResize vr, err := none } ::
          ((getSTSFromBackupConfigMap vr2.Meta.Namespace vr2.Meta.Name env
              (Client.StatusUpdate Kind.volumeResize vr env s).st).log ++
            { op := Op.create Kind.statefulSet
                (recreatedSTS (handleSyncing.updateTemplates backup vr2.Spec.Volumes)), err := e } ::
              rest)) := by
  refine ⟨rfl, rfl, rfl, rfl, rfl, ?_, ?_, ?_⟩
  · rw [updateTemplates_def]
    simp only [List.length_map]
  · intro i t ht
    obtain ⟨a1, a2, a3, a4, a5, a6, a7, a8⟩ := applyTargets_spec t volumes
    refine ⟨volumes.foldl handleSyncing.applyTarget t, ?_, a1, a2, a3, a4, a5, a6, a7, a8, ?_⟩
    · rw [updateTemplates_def]
      simp only [List.getElem?_map, ht, Option.map_some']
    · intro hnd v hv hname
      obtain ⟨l1, l2⟩ := lastNamed_of_nodup volumes hnd v hv
      rw [hname] at l1 l2
      refine ⟨a7 v l1, ?_⟩
      rw [a8, l2]
  · intro vr replica volName env s vr2 h1 h2
    exact recreate_sends_updated_backup vr replica volName env s vr2 backup h1 h2

theorem updateTemplates_spec_witness :
    (stsWeb.Spec.VolumeClaimTemplates[0]? = some templateData ∧
      (vrSync.Spec.Volumes.map (fun v => v.Name)).Nodup) ∧
    ∃ t2, (handleSyncing.updateTemplates stsWeb vrSync.Spec.Volumes).Spec.VolumeClaimTemplates[0]? = some t2 ∧
      t2.Spec.Requests.get? ResourceStorage = some fiveHundredMi ∧
      t2.Spec.StorageClassName = some "standard" :=
  ⟨⟨by decide, by decide⟩,
   match (updateTemplates_spec stsWeb vrSync.Spec.Volumes).2.2.2.2.2.2.1 0 templateData (by decide) with
   | ⟨t2, h1, _, _, _, _, _, _, _, _, h10⟩ =>
     ⟨t2, h1, h10 (by decide) { Name := "data", NewSize := fiveHundredMi } (by decide) rfl⟩⟩

/-- C21, counterexample: two targets name the template `data`, the first with
`newSize` 500Mi and the class `fast`, the second with `newSize` 256Mi and no
class.  The template of the workload passed to `recreateSTS` requests 256Mi, not
the 500Mi of the first target, and has the class `fast`, not the class
`standard` of the backup that the second target leaves unchanged. -/
theorem updateTemplates_last_target_wins :
    targetsClash.map (fun v => (v.Name, v.NewSize.text, v.StorageClass)) =
      [("data", "500Mi", some "fast"), ("data", "256Mi", none)] ∧
    stsWeb.Spec.VolumeClaimTemplates.map (fun t => (t.Meta.Name, t.Spec.StorageClassName)) =
      [("data", some "standard")] ∧
    (handleSyncing.updateTemplates stsWeb targetsClash).Spec.VolumeClaimTemplates.map
        (fun t => (t.Meta.Name, (t.Spec.Requests.get? ResourceStorage).map (fun q => q.text),
          t.Spec.StorageClassName)) =
      [("data", some "256Mi", some "fast")] := by
  decide

/-! ### The progress invariant of Syncing -/

theorem not_mem_take_of_nodup {α : Type} (l : List α) (hnd : l.Nodup) (i : Nat) (k : α)
    (hi : l[i]? = some k) : k ∉ l.take i := by
  intro hm
  have hlt : i < l.length := (List.getElem?_eq_some_iff.mp hi).1
  have hd : l.drop i = k :: l.drop (i + 1) := by
    rw [List.drop_eq_getElem_cons hlt]
    congr 1
    exact (List.getElem?_eq_some_iff.mp hi).2
  have hsplit : l = l.take i ++ k :: l.drop (i + 1) := by
    rw [← hd, List.take_append_drop]
  rw [hsplit] at hnd
  have := (List.nodup_append.mp hnd).2.2
  exact this hm (List.mem_cons_self _ _)

theorem getElem?_of_nodup_map {α β : Type} (f : α → β) (l : List α) (hnd : (l.map f).Nodup)
    (i : Nat) (x : α) (hx : x ∈ l) (hi : (l.map f)[i]? = some (f x)) : l[i]? = some x := by
  obtain ⟨n, hn⟩ := List.mem_iff_getElem?.mp hx
  have hn2 : (l.map f)[n]? = some (f x) := by
    rw [List.getElem?_map, hn]
    rfl
  have hlt : n < (l.map f).length := (List.getElem?_eq_some_iff.mp hn2).1
  have hlt2 : i < (l.map f).length := (List.getElem?_eq_some_iff.mp hi).1
  have e : (l.map f)[n] = (l.map f)[i] := by
    rw [(List.getElem?_eq_some_iff.mp hn2).2, (List.getElem?_eq_some_iff.mp hi).2]
  have := (List.Nodup.getElem_inj_iff hnd).mp e
  rw [← this]
  exact hn

theorem replicaMajor_getElem? (R : Nat) (vols : List VolumeResizeTarget) (r j : Nat)
    (v : VolumeResizeTarget) (hr : r < R) (hj : vols[j]? = some v) :
    (replicaMajor R vols)[r * vols.length + j]? = some ((r : Int), v.Name) := by
  unfold replicaMajor
  have hjlt : j < vols.length := (List.getElem?_eq_some_iff.mp hj).1
  rw [flatMap_range_getElem? _ vols.length (fun i => by simp) _ r j hr hjlt]
  simp [List.getElem?_map, hj]

theorem loop_map_key (volName : String) (replica : Int) (phase message : String)
    (l : List VolumeStatus) :
    (updateVolumeStatus.loop volName replica phase message l).map VolumeStatus.key
      = l.map VolumeStatus.key := by
  induction l with
  | nil => rfl
  | cons vs rest ih =>
    unfold updateVolumeStatus.loop
    split
    · rfl
    · rw [List.map_cons, List.map_cons, ih]

theorem loop_map_phase_take (volName : String) (replica : Int) (phase message : String)
    (l : List VolumeStatus) : ∀ (n : Nat),
    (∀ vs ∈ l.take n, vs.key ≠ (replica, volName)) →
    ((updateVolumeStatus.loop volName replica phase message l).map (fun vs => vs.Phase)).take n
      = (l.map (fun vs => vs.Phase)).take n := by
  induction l with
  | nil => intro n _; rfl
  | cons vs rest ih =>
    intro n h
    cases n with
    | zero => simp
    | succ n =>
      have hvs : ¬ (vs.VolumeName = volName ∧ vs.Replica = replica) := by
        intro e
        apply h vs (by simp)
        unfold VolumeStatus.key
        rw [e.1, e.2]
      unfold updateVolumeStatus.loop
      rw [if_neg hvs, List.map_cons, List.map_cons, List.take_succ_cons, List.take_succ_cons,
        ih n (fun x hx => h x (by rw [List.take_succ_cons]; exact List.mem_cons_of_mem _ hx))]

theorem loop_done (volName : String) (replica : Int) (message : String) (l : List VolumeStatus)
    (h : (replica, volName) ∈ l.map VolumeStatus.key) :
    ∃ vs ∈ updateVolumeStatus.loop volName replica VolumeStatusCompleted message l,
      vs.VolumeName = volName ∧ vs.Replica = replica ∧ vs.Phase = VolumeStatusCompleted := by
  induction l with
  | nil => simp at h
  | cons vs rest ih =>
    unfold updateVolumeStatus.loop
    split
    · rename_i e
      exact ⟨_, List.mem_cons_self _ _, e.1, e.2, rfl⟩
    · rename_i e
      rw [List.map_cons, List.mem_cons] at h
      rcases h with h | h
      · exfalso
        apply e
        unfold VolumeStatus.key at h
        have h1 := congrArg Prod.fst h
        have h2 := congrArg Prod.snd h
        exact ⟨h2.symm, h1.symm⟩
      · obtain ⟨x, hx, hp⟩ := ih h
        exact ⟨x, List.mem_cons_of_mem _ hx, hp⟩

theorem progress_congr (vols : List VolumeResizeTarget) (st st2 : VolumeResizeStatus)
    (h1 : st2.Phase = st.Phase) (h2 : st2.CurrentReplica = st.CurrentReplica)
    (h3 : st2.CurrentVolume = st.CurrentVolume)
    (h4 : st2.VolumeStatuses.map VolumeStatus.key = st.VolumeStatuses.map VolumeStatus.key)
    (h5 : st2.VolumeStatuses.map (fun vs => vs.Phase) = st.VolumeStatuses.map (fun vs => vs.Phase))
    (h : Progress vols st) : Progress vols st2 := by
  unfold Progress at *
  rw [h1, h2, h3, h4, h5]
  exact h

theorem progress_cursor (vols : List VolumeResizeTarget) (st : VolumeResizeStatus) (replica : Int)
    (h : Progress vols st) (hc : st.CurrentReplica = some replica) :
    ∃ R : Nat, 1 ≤ R ∧ st.VolumeStatuses.map VolumeStatus.key = replicaMajor R vols ∧
      (st.Phase = PhaseSyncing ∨ st.Phase = PhaseFailed) ∧
      ∃ (r j : Nat) (v : VolumeResizeTarget), r < R ∧ vols[j]? = some v ∧
        replica = (r : Int) ∧ st.CurrentVolume = v.Name ∧
        ∀ p ∈ (st.VolumeStatuses.map (fun vs => vs.Phase)).take (r * vols.length + j),
          p = VolumeStatusCompleted := by
  obtain ⟨R, hR, hk, h | ⟨hp, r, j, v, hr, hj, hcr, hcv, hall⟩⟩ := h
  · rw [h.2.1] at hc
    simp at hc
  · rw [hcr] at hc
    simp only [Option.some.injEq] at hc
    exact ⟨R, hR, hk, hp, r, j, v, hr, hj, hc.symm, hcv, hall⟩

theorem validated_failed (vr : VolumeResize) (message : String) (replica : Int)
    (hc : vr.Status.CurrentReplica = some replica) (h : Validated vr) :
    Validated (failedRequest vr message) := by
  obtain ⟨R, hR, hk, _, r, j, v, hr, hj, hcr, hcv, hall⟩ := progress_cursor _ _ replica h.2 hc
  refine ⟨h.1, R, hR, hk, Or.inr ⟨Or.inr rfl, r, j, v, hr, hj, ?_, hcv, hall⟩⟩
  show vr.Status.CurrentReplica = _
  rw [hc, hcr]

theorem validated_updateVolumeStatus (vr : VolumeResize) (volName : String) (replica : Int)
    (phase message : String) (hc : vr.Status.CurrentReplica = some replica)
    (hv : vr.Status.CurrentVolume = volName) (h : Validated vr) :
    Validated (updateVolumeStatus vr volName replica phase message) := by
  obtain ⟨R, hR, hk, hp, r, j, v, hr, hj, hcr, hcv, hall⟩ := progress_cursor _ _ replica h.2 hc
  have hkey : (vr.Status.VolumeStatuses.map VolumeStatus.key)[r * vr.Spec.Volumes.length + j]? =
      some (replica, volName) := by
    rw [hk, replicaMajor_getElem? R _ r j v hr hj, hcr, ← hv, hcv]
  have hnd : (vr.Status.VolumeStatuses.map VolumeStatus.key).Nodup := by
    rw [hk]
    exact replicaMajor_nodup R _ h.1
  have hne : ∀ vs ∈ vr.Status.VolumeStatuses.take (r * vr.Spec.Volumes.length + j),
      vs.key ≠ (replica, volName) := by
    intro vs hvs e
    apply not_mem_take_of_nodup _ hnd _ _ hkey
    rw [← List.map_take, ← e]
    exact List.mem_map_of_mem _ hvs
  refine ⟨h.1, R, hR, ?_, Or.inr ⟨hp, r, j, v, hr, hj, ?_, hcv, ?_⟩⟩
  · show (updateVolumeStatus.loop volName replica phase message vr.Status.VolumeStatuses).map
      VolumeStatus.key = _
    rw [loop_map_key]
    exact hk
  · show vr.Status.CurrentReplica = _
    rw [hc, hcr]
  · show ∀ p ∈ ((updateVolumeStatus.loop volName replica phase message
      vr.Status.VolumeStatuses).map (fun vs => vs.Phase)).take (r * vr.Spec.Volumes.length + j), _
    rw [loop_map_phase_take volName replica phase message _ _ hne]
    exact hall

theorem updateVolumeStatus_cursor (vr : VolumeResize) (volName : String) (replica : Int)
    (phase message : String) :
    (updateVolumeStatus vr volName replica phase message).Status.CurrentReplica
      = vr.Status.CurrentReplica ∧
    (updateVolumeStatus vr volName replica phase message).Status.CurrentVolume
      = vr.Status.CurrentVolume ∧
    (updateVolumeStatus vr volName replica phase message).Spec = vr.Spec ∧
    (updateVolumeStatus vr volName replica phase message).Meta = vr.Meta :=
  ⟨rfl, rfl, rfl, rfl⟩

theorem validated_done (vr : VolumeResize) (volName : String) (replica : Int) (message : String)
    (hc : vr.Status.CurrentReplica = some replica) (hv : vr.Status.CurrentVolume = volName)
    (h : Validated vr) :
    DonePair replica volName
      (updateVolumeStatus vr volName replica VolumeStatusCompleted message).Status := by
  obtain ⟨R, hR, hk, hp, r, j, v, hr, hj, hcr, hcv, hall⟩ := progress_cursor _ _ replica h.2 hc
  have hkey : (vr.Status.VolumeStatuses.map VolumeStatus.key)[r * vr.Spec.Volumes.length + j]? =
      some (replica, volName) := by
    rw [hk, replicaMajor_getElem? R _ r j v hr hj, hcr, ← hv, hcv]
  exact loop_done volName replica message _ (List.getElem?_mem hkey)

theorem inList_map_key (l : List VolumeStatus) (volName : String) (replica : Int)
    (a b c : String) :
    (updateVolumeStatusInList l volName replica (fun vs =>
        { vs with OldPVCName := a, NewPVCName := b, OldPVName := c })).map VolumeStatus.key
      = l.map VolumeStatus.key ∧
    (updateVolumeStatusInList l volName replica (fun vs =>
        { vs with OldPVCName := a, NewPVCName := b, OldPVName := c })).map (fun vs => vs.Phase)
      = l.map (fun vs => vs.Phase) := by
  unfold updateVolumeStatusInList
  constructor
  · rw [List.map_map]
    apply List.map_congr_left
    intro vs _
    simp only [Function.comp_apply]
    split <;> rfl
  · rw [List.map_map]
    apply List.map_congr_left
    intro vs _
    simp only [Function.comp_apply]
    split <;> rfl

theorem validated_prepared (vr : VolumeResize) (volName : String) (replica : Int) (a b c : String)
    (hc : vr.Status.CurrentReplica = some replica) (hv : vr.Status.CurrentVolume = volName)
    (h : Validated vr) : Validated (handleSyncing.prepared vr volName replica a b c) := by
  have h2 := validated_updateVolumeStatus vr volName replica VolumeStatusSyncing "Preparing migration"
    hc hv h
  obtain ⟨k1, k2⟩ := inList_map_key
    (updateVolumeStatus vr volName replica VolumeStatusSyncing "Preparing migration").Status.VolumeStatuses
    volName replica a b c
  exact ⟨h2.1, progress_congr _
    (updateVolumeStatus vr volName replica VolumeStatusSyncing "Preparing migration").Status _
    rfl rfl rfl k1 k2 h2.2⟩

theorem phases_take_succ (vr : VolumeResize) (replica : Int) (volName : String) (R r j : Nat)
    (v : VolumeResizeTarget) (hnd : (vr.Spec.Volumes.map (fun v => v.Name)).Nodup)
    (hk : vr.Status.VolumeStatuses.map VolumeStatus.key = replicaMajor R vr.Spec.Volumes)
    (hr : r < R) (hj : vr.Spec.Volumes[j]? = some v) (hcr : replica = (r : Int))
    (hcv : volName = v.Name)
    (hall : ∀ p ∈ (vr.Status.VolumeStatuses.map (fun vs => vs.Phase)).take
      (r * vr.Spec.Volumes.length + j), p = VolumeStatusCompleted)
    (hd : DonePair replica volName vr.Status) :
    ∀ p ∈ (vr.Status.VolumeStatuses.map (fun vs => vs.Phase)).take
      (r * vr.Spec.Volumes.length + j + 1), p = VolumeStatusCompleted := by
  obtain ⟨vs, hvs, h1, h2, h3⟩ := hd
  have hkey : (vr.Status.VolumeStatuses.map VolumeStatus.key)[r * vr.Spec.Volumes.length + j]? =
      some vs.key := by
    rw [hk, replicaMajor_getElem? R _ r j v hr hj]
    unfold VolumeStatus.key
    rw [h1, h2, hcr, hcv]
  have hnd2 : (vr.Status.VolumeStatuses.map VolumeStatus.key).Nodup := by
    rw [hk]
    exact replicaMajor_nodup R _ hnd
  have hat := getElem?_of_nodup_map VolumeStatus.key _ hnd2 _ vs hvs hkey
  intro p hp
  rw [List.take_succ, List.mem_append] at hp
  rcases hp with hp | hp
  · exact hall p hp
  · rw [List.getElem?_map, hat] at hp
    simp only [Option.map_some', Option.toList_some, List.mem_singleton] at hp
    rw [hp, h3]

theorem validated_advance (vr : VolumeResize) (replica : Int) (volName : String) (now : Nat)
    (nr : Int) (nv : String) (done : Bool)
    (hc : vr.Status.CurrentReplica = some replica) (hv : vr.Status.CurrentVolume = volName)
    (hd : DonePair replica volName vr.Status) (h : Validated vr)
    (hn : getNextVolumeReplica vr replica volName = some (nr, nv, done)) :
    Validated
      (if done then
        { vr with Status := { vr.Status with
            Phase := PhaseCompleted, CompletionTime := some now, Message := MessageMigrationCompleted,
            CurrentReplica := none, CurrentVolume := "" } }
      else
        { vr with Status := { vr.Status with
            CurrentReplica := some nr, CurrentVolume := nv,
            Message := "Migrating replica " ++ fmtInt nr ++ " volume " ++ nv } }) := by
  obtain ⟨R, hR, hk, hp, r, j, v, hr, hj, hcr, hcv, hall⟩ := progress_cursor _ _ replica h.2 hc
  have hvn : volName = v.Name := hv.symm.trans hcv
  have hsucc := phases_take_succ vr replica volName R r j v h.1 hk hr hj hcr hvn hall hd
  have hjlt : j < vr.Spec.Volumes.length := (List.getElem?_eq_some_iff.mp hj).1
  rw [hcr, hvn, getNextVolumeReplica_step vr R hR h.1 hk r j v hj] at hn
  cases hnext : vr.Spec.Volumes[j + 1]? with
  | some next =>
    rw [hnext] at hn
    simp only [Option.some.injEq, Prod.mk.injEq] at hn
    obtain ⟨e1, e2, e3⟩ := hn
    subst e1 e2 e3
    simp only [Bool.false_eq_true, if_false]
    exact ⟨h.1, R, hR, hk, Or.inr ⟨hp, r, j + 1, next, hr, hnext, rfl, rfl, by
      rw [← Nat.add_assoc]; exact hsucc⟩⟩
  | none =>
    rw [hnext] at hn
    have hlen : vr.Spec.Volumes.length = j + 1 := by
      have := List.getElem?_eq_none_iff.mp hnext
      omega
    by_cases hlt : r + 1 < R
    · simp only [hlt, if_true] at hn
      cases hh : vr.Spec.Volumes.head? with
      | none => rw [hh] at hn; simp at hn
      | some first =>
        rw [hh] at hn
        simp only [Option.some.injEq, Prod.mk.injEq] at hn
        obtain ⟨e1, e2, e3⟩ := hn
        subst e1 e2 e3
        simp only [Bool.false_eq_true, if_false]
        have h0 : vr.Spec.Volumes[0]? = some first := by
          rw [← List.head?_eq_getElem?]
          exact hh
        refine ⟨h.1, R, hR, hk, Or.inr ⟨hp, r + 1, 0, first, hlt, h0, rfl, rfl, ?_⟩⟩
        have e : (r + 1) * vr.Spec.Volumes.length + 0 = r * vr.Spec.Volumes.length + j + 1 := by
          rw [Nat.succ_mul, hlen]
          omega
        show ∀ p ∈ (vr.Status.VolumeStatuses.map (fun vs => vs.Phase)).take
          ((r + 1) * vr.Spec.Volumes.length + 0), _
        rw [e]
        exact hsucc
    · simp only [hlt, if_false, Option.some.injEq, Prod.mk.injEq] at hn
      obtain ⟨e1, e2, e3⟩ := hn
      subst e1 e2 e3
      simp only [if_true]
      refine ⟨h.1, R, hR, hk, Or.inl ⟨rfl, rfl, rfl, ?_⟩⟩
      have hl : (vr.Status.VolumeStatuses.map (fun vs => vs.Phase)).length =
          r * vr.Spec.Volumes.length + j + 1 := by
        have h1 : (vr.Status.VolumeStatuses.map VolumeStatus.key).length = R * vr.Spec.Volumes.length := by
          rw [hk, replicaMajor_length]
        rw [List.length_map] at h1 ⊢
        rw [h1, hlen]
        have : R = r + 1 := by omega
        rw [this, Nat.succ_mul]
        omega
      show ∀ p ∈ vr.Status.VolumeStatuses.map (fun vs => vs.Phase), _
      intro p hp2
      apply hsucc
      rw [List.take_of_length_le (by rw [hl])]
      exact hp2

theorem frames_pure {α : Type} (a : α) : Frames (pure a : M α) := ⟨fun _ _ _ => rfl⟩

theorem frames_bind {α β : Type} {m : M α} {f : α → M β} (hm : Frames m) (hf : ∀ a, Frames (f a)) :
    Frames (m >>= f) :=
  ⟨fun env s hd => ((hf _).run env _ hd).trans (hm.run env s hd)⟩

theorem frames_getEnv : Frames getEnv := ⟨fun _ _ _ => rfl⟩

theorem frames_timeNow : Frames timeNow := ⟨fun _ _ _ => rfl⟩

theorem frames_timeSleep (d : Nat) : Frames (timeSleep d) := ⟨fun _ _ _ => rfl⟩

theorem frames_ctxDoneOrAfter (d : Nat) : Frames (ctxDoneOrAfter d) :=
  ⟨fun env s _ => by
    unfold ctxDoneOrAfter
    split <;> rfl⟩

theorem frames_call {α : Type} (op : Op) (serve : World → Nat → Except Err α × World)
    (h : ∀ w now, (serve w now).2.volumeResizes = w.volumeResizes) : Frames (call op serve) :=
  ⟨fun env s hd => by
    unfold call
    split
    · show (env.drift s.calls s.world).volumeResizes = _
      rw [hd]
    · show (serve (env.drift s.calls s.world) _).2.volumeResizes = _
      rw [hd]
      exact h _ _⟩

theorem frames_clientGet (k : Kind) (ns name : String) : Frames (Client.Get k ns name) :=
  frames_call _ _ (fun _ _ => rfl)

theorem frames_clientList (k : Kind) (ns : String) (labels : StrMap) : Frames (Client.List k ns labels) :=
  frames_call _ _ (fun _ _ => rfl)

theorem frames_clientCreate (k : Kind) (hk : k ≠ Kind.volumeResize) (obj : k.T) :
    Frames (Client.Create k obj) :=
  frames_call _ _ (fun w _ => by
    unfold World.serveCreate
    split
    · rfl
    · exact setObjs_volumeResizes w k hk _)

theorem frames_clientUpdate (k : Kind) (hk : k ≠ Kind.volumeResize) (obj : k.T) :
    Frames (Client.Update k obj) :=
  frames_call _ _ (fun w _ => by
    unfold World.serveUpdate
    split
    · rfl
    · dsimp only
      split <;> exact setObjs_volumeResizes w k hk _)

theorem frames_clientDelete (k : Kind) (hk : k ≠ Kind.volumeResize) (ns name : String) (orphan : Bool) :
    Frames (Client.Delete k ns name orphan) :=
  frames_call _ _ (fun w _ => by
    unfold World.serveDelete
    split
    · rfl
    · split <;> exact setObjs_volumeResizes w k hk _)

theorem frames_getPVC (ns name : String) :
    Frames (getPVC ns name) := by
  unfold MigController.getPVC
  repeat (first
    | with_reducible apply frames_bind
    | intro _
    | dsimp only
    | split
    | exact frames_pure _
    | exact frames_getEnv
    | exact frames_timeNow
    | exact frames_timeSleep _
    | exact frames_ctxDoneOrAfter _
    | exact frames_clientGet _ _ _
    | exact frames_clientList _ _ _
    | exact frames_clientCreate _ (by decide) _
    | exact frames_clientUpdate _ (by decide) _
    | exact frames_clientDelete _ (by decide) _ _ _)

theorem frames_createTempPVC (vr : VolumeResize) (vol : VolumeResizeTarget) (originalPVC : PersistentVolumeClaim) (replica : Int) :
    Frames (createTempPVC vr vol originalPVC replica) := by
  unfold MigController.createTempPVC
  repeat (first
    | with_reducible apply frames_bind
    | intro _
    | dsimp only
    | split
    | exact frames_pure _
    | exact frames_getEnv
    | exact frames_timeNow
    | exact frames_timeSleep _
    | exact frames_ctxDoneOrAfter _
    | exact frames_clientGet _ _ _
    | exact frames_clientList _ _ _
    | exact frames_clientCreate _ (by decide) _
    | exact frames_clientUpdate _ (by decide) _
    | exact frames_clientDelete _ (by decide) _ _ _
    | exact frames_getPVC _ _)

theorem frames_setRetainOnPV (pvName : String) :
    Frames (setRetainOnPV pvName) := by
  unfold MigController.setRetainOnPV
  repeat (first
    | with_reducible apply frames_bind
    | intro _
    | dsimp only
    | split
    | exact frames_pure _
    | exact frames_getEnv
    | exact frames_timeNow
    | exact frames_timeSleep _
    | exact frames_ctxDoneOrAfter _
    | exact frames_clientGet _ _ _
    | exact frames_clientList _ _ _
    | exact frames_clientCreate _ (by decide) _
    | exact frames_clientUpdate _ (by decide) _
    | exact frames_clientDelete _ (by decide) _ _ _)

theorem frames_waitDeleted (ns name pre : String) (n : Nat) :
    Frames (replacePVC.waitDeleted ns name pre n) := by
  induction n with
  | zero =>
    unfold replacePVC.waitDeleted
    repeat (first
      | with_reducible apply frames_bind
      | intro _
      | dsimp only
      | split
      | exact frames_pure _
      | exact frames_getEnv
      | exact frames_timeNow
      | exact frames_timeSleep _
      | exact frames_ctxDoneOrAfter _
      | exact frames_clientGet _ _ _
      | exact frames_clientList _ _ _
      | exact frames_clientCreate _ (by decide) _
      | exact frames_clientUpdate _ (by decide) _
      | exact frames_clientDelete _ (by decide) _ _ _
      | exact frames_getPVC _ _)
  | succ n ih =>
    unfold replacePVC.waitDeleted
    repeat (first
      | with_reducible apply frames_bind
      | intro _
      | dsimp only
      | split
      | exact frames_pure _
      | exact frames_getEnv
      | exact frames_timeNow
      | exact frames_timeSleep _
      | exact frames_ctxDoneOrAfter _
      | exact frames_clientGet _ _ _
      | exact frames_clientList _ _ _
      | exact frames_clientCreate _ (by decide) _
      | exact frames_clientUpdate _ (by decide) _
      | exact frames_clientDelete _ (by decide) _ _ _
      | exact ih
      | exact frames_getPVC _ _)

theorem frames_replacePVC (vr : VolumeResize) (vol : VolumeResizeTarget) (replica : Int) :
    Frames (replacePVC vr vol replica) := by
  unfold MigController.replacePVC
  repeat (first
    | with_reducible apply frames_bind
    | intro _
    | dsimp only
    | split
    | exact frames_pure _
    | exact frames_getEnv
    | exact frames_timeNow
    | exact frames_timeSleep _
    | exact frames_ctxDoneOrAfter _
    | exact frames_clientGet _ _ _
    | exact frames_clientList _ _ _
    | exact frames_clientCreate _ (by decide) _
    | exact frames_clientUpdate _ (by decide) _
    | exact frames_clientDelete _ (by decide) _ _ _
    | exact frames_getPVC _ _
    | exact frames_waitDeleted _ _ _ _)

theorem frames_deleteSTSOrphan (sts : StatefulSet) :
    Frames (deleteSTSOrphan sts) := by
  unfold MigController.deleteSTSOrphan
  repeat (first
    | with_reducible apply frames_bind
    | intro _
    | dsimp only
    | split
    | exact frames_pure _
    | exact frames_getEnv
    | exact frames_timeNow
    | exact frames_timeSleep _
    | exact frames_ctxDoneOrAfter _
    | exact frames_clientGet _ _ _
    | exact frames_clientList _ _ _
    | exact frames_clientCreate _ (by decide) _
    | exact frames_clientUpdate _ (by decide) _
    | exact frames_clientDelete _ (by decide) _ _ _)

theorem frames_deletePod (ns stsName : String) (replica : Int) :
    Frames (deletePod ns stsName replica) := by
  unfold MigController.deletePod
  repeat (first
    | with_reducible apply frames_bind
    | intro _
    | dsimp only
    | split
    | exact frames_pure _
    | exact frames_getEnv
    | exact frames_timeNow
    | exact frames_timeSleep _
    | exact frames_ctxDoneOrAfter _
    | exact frames_clientGet _ _ _
    | exact frames_clientList _ _ _
    | exact frames_clientCreate _ (by decide) _
    | exact frames_clientUpdate _ (by decide) _
    | exact frames_clientDelete _ (by decide) _ _ _)

theorem frames_waitForPodTermination_loop (ns podName : String) (deadline fuel : Nat) :
    Frames (waitForPodTermination.loop ns podName deadline fuel) := by
  induction fuel with
  | zero =>
    unfold waitForPodTermination.loop
    repeat (first
      | with_reducible apply frames_bind
      | intro _
      | dsimp only
      | split
      | exact frames_pure _
      | exact frames_getEnv
      | exact frames_timeNow
      | exact frames_timeSleep _
      | exact frames_ctxDoneOrAfter _
      | exact frames_clientGet _ _ _
      | exact frames_clientList _ _ _
      | exact frames_clientCreate _ (by decide) _
      | exact frames_clientUpdate _ (by decide) _
      | exact frames_clientDelete _ (by decide) _ _ _)
  | succ fuel ih =>
    unfold waitForPodTermination.loop
    repeat (first
      | with_reducible apply frames_bind
      | intro _
      | dsimp only
      | split
      | exact frames_pure _
      | exact frames_getEnv
      | exact frames_timeNow
      | exact frames_timeSleep _
      | exact frames_ctxDoneOrAfter _
      | exact frames_clientGet _ _ _
      | exact frames_clientList _ _ _
      | exact frames_clientCreate _ (by decide) _
      | exact frames_clientUpdate _ (by decide) _
      | exact frames_clientDelete _ (by decide) _ _ _
      | exact ih)

theorem frames_waitForPodTermination (ns podName : String) (timeout : Nat) :
    Frames (waitForPodTermination ns podName timeout) := by
  unfold MigController.waitForPodTermination
  repeat (first
    | with_reducible apply frames_bind
    | intro _
    | dsimp only
    | split
    | exact frames_pure _
    | exact frames_getEnv
    | exact frames_timeNow
    | exact frames_timeSleep _
    | exact frames_ctxDoneOrAfter _
    | exact frames_clientGet _ _ _
    | exact frames_clientList _ _ _
    | exact frames_clientCreate _ (by decide) _
    | exact frames_clientUpdate _ (by decide) _
    | exact frames_clientDelete _ (by decide) _ _ _
    | exact frames_waitForPodTermination_loop _ _ _ _)

theorem frames_backupSTSToConfigMap (vr : VolumeResize) (sts : StatefulSet) :
    Frames (backupSTSToConfigMap vr sts) := by
  unfold MigController.backupSTSToConfigMap
  repeat (first
    | with_reducible apply frames_bind
    | intro _
    | dsimp only
    | split
    | exact frames_pure _
    | exact frames_getEnv
    | exact frames_timeNow
    | exact frames_timeSleep _
    | exact frames_ctxDoneOrAfter _
    | exact frames_clientGet _ _ _
    | exact frames_clientList _ _ _
    | exact frames_clientCreate _ (by decide) _
    | exact frames_clientUpdate _ (by decide) _
    | exact frames_clientDelete _ (by decide) _ _ _)

theorem frames_getSTSFromBackupConfigMap (ns vrName : String) :
    Frames (getSTSFromBackupConfigMap ns vrName) := by
  unfold MigController.getSTSFromBackupConfigMap
  repeat (first
    | with_reducible apply frames_bind
    | intro _
    | dsimp only
    | split
    | exact frames_pure _
    | exact frames_getEnv
    | exact frames_timeNow
    | exact frames_timeSleep _
    | exact frames_ctxDoneOrAfter _
    | exact frames_clientGet _ _ _
    | exact frames_clientList _ _ _
    | exact frames_clientCreate _ (by decide) _
    | exact frames_clientUpdate _ (by decide) _
    | exact frames_clientDelete _ (by decide) _ _ _)

theorem frames_recreateSTS (stsSpec : StatefulSet) :
    Frames (recreateSTS stsSpec) := by
  unfold MigController.recreateSTS
  repeat (first
    | with_reducible apply frames_bind
    | intro _
    | dsimp only
    | split
    | exact frames_pure _
    | exact frames_getEnv
    | exact frames_timeNow
    | exact frames_timeSleep _
    | exact frames_ctxDoneOrAfter _
    | exact frames_clientGet _ _ _
    | exact frames_clientList _ _ _
    | exact frames_clientCreate _ (by decide) _
    | exact frames_clientUpdate _ (by decide) _
    | exact frames_clientDelete _ (by decide) _ _ _)

theorem frames_createMigratorPod (vr : VolumeResize) (vol : VolumeResizeTarget) (replica : Int) (oldPVCName newPVCName : String) :
    Frames (createMigratorPod vr vol replica oldPVCName newPVCName) := by
  unfold MigController.createMigratorPod
  repeat (first
    | with_reducible apply frames_bind
    | intro _
    | dsimp only
    | split
    | exact frames_pure _
    | exact frames_getEnv
    | exact frames_timeNow
    | exact frames_timeSleep _
    | exact frames_ctxDoneOrAfter _
    | exact frames_clientGet _ _ _
    | exact frames_clientList _ _ _
    | exact frames_clientCreate _ (by decide) _
    | exact frames_clientUpdate _ (by decide) _
    | exact frames_clientDelete _ (by decide) _ _ _)

theorem frames_waitForMigrationComplete_loop (podName ns : String) (deadline fuel : Nat) :
    Frames (waitForMigrationComplete.loop podName ns deadline fuel) := by
  induction fuel with
  | zero =>
    unfold waitForMigrationComplete.loop
    repeat (first
      | with_reducible apply frames_bind
      | intro _
      | dsimp only
      | split
      | exact frames_pure _
      | exact frames_getEnv
      | exact frames_timeNow
      | exact frames_timeSleep _
      | exact frames_ctxDoneOrAfter _
      | exact frames_clientGet _ _ _
      | exact frames_clientList _ _ _
      | exact frames_clientCreate _ (by decide) _
      | exact frames_clientUpdate _ (by decide) _
      | exact frames_clientDelete _ (by decide) _ _ _)
  | succ fuel ih =>
    unfold waitForMigrationComplete.loop
    repeat (first
      | with_reducible apply frames_bind
      | intro _
      | dsimp only
      | split
      | exact frames_pure _
      | exact frames_getEnv
      | exact frames_timeNow
      | exact frames_timeSleep _
      | exact frames_ctxDoneOrAfter _
      | exact frames_clientGet _ _ _
      | exact frames_clientList _ _ _
      | exact frames_clientCreate _ (by decide) _
      | exact frames_clientUpdate _ (by decide) _
      | exact frames_clientDelete _ (by decide) _ _ _
      | exact ih)

theorem frames_waitForMigrationComplete (podName ns : String) (timeout : Nat) :
    Frames (waitForMigrationComplete podName ns timeout) := by
  unfold MigController.waitForMigrationComplete
  repeat (first
    | with_reducible apply frames_bind
    | intro _
    | dsimp only
    | split
    | exact frames_pure _
    | exact frames_getEnv
    | exact frames_timeNow
    | exact frames_timeSleep _
    | exact frames_ctxDoneOrAfter _
    | exact frames_clientGet _ _ _
    | exact frames_clientList _ _ _
    | exact frames_clientCreate _ (by decide) _
    | exact frames_clientUpdate _ (by decide) _
    | exact frames_clientDelete _ (by decide) _ _ _
    | exact frames_waitForMigrationComplete_loop _ _ _ _)

theorem frames_cleanupMigratorPod (podName ns : String) :
    Frames (cleanupMigratorPod podName ns) := by
  unfold MigController.cleanupMigratorPod
  repeat (first
    | with_reducible apply frames_bind
    | intro _
    | dsimp only
    | split
    | exact frames_pure _
    | exact frames_getEnv
    | exact frames_timeNow
    | exact frames_timeSleep _
    | exact frames_ctxDoneOrAfter _
    | exact frames_clientGet _ _ _
    | exact frames_clientList _ _ _
    | exact frames_clientCreate _ (by decide) _
    | exact frames_clientUpdate _ (by decide) _
    | exact frames_clientDelete _ (by decide) _ _ _)

theorem frames_validateStatefulSetExists (ns name : String) :
    Frames (validateStatefulSetExists ns name) := by
  unfold MigController.validateStatefulSetExists
  repeat (first
    | with_reducible apply frames_bind
    | intro _
    | dsimp only
    | split
    | exact frames_pure _
    | exact frames_getEnv
    | exact frames_timeNow
    | exact frames_timeSleep _
    | exact frames_ctxDoneOrAfter _
    | exact frames_clientGet _ _ _
    | exact frames_clientList _ _ _
    | exact frames_clientCreate _ (by decide) _
    | exact frames_clientUpdate _ (by decide) _
    | exact frames_clientDelete _ (by decide) _ _ _)

theorem frames_validateSizeReduction (ns stsName : String) (vol : VolumeResizeTarget) :
    Frames (validateSizeReduction ns stsName vol) := by
  unfold MigController.validateSizeReduction
  repeat (first
    | with_reducible apply frames_bind
    | intro _
    | dsimp only
    | split
    | exact frames_pure _
    | exact frames_getEnv
    | exact frames_timeNow
    | exact frames_timeSleep _
    | exact frames_ctxDoneOrAfter _
    | exact frames_clientGet _ _ _
    | exact frames_clientList _ _ _
    | exact frames_clientCreate _ (by decide) _
    | exact frames_clientUpdate _ (by decide) _
    | exact frames_clientDelete _ (by decide) _ _ _
    | exact frames_getPVC _ _)

theorem frames_validatePDBAllowsDisruption (sts : StatefulSet) :
    Frames (validatePDBAllowsDisruption sts) := by
  unfold MigController.validatePDBAllowsDisruption
  repeat (first
    | with_reducible apply frames_bind
    | intro _
    | dsimp only
    | split
    | exact frames_pure _
    | exact frames_getEnv
    | exact frames_timeNow
    | exact frames_timeSleep _
    | exact frames_ctxDoneOrAfter _
    | exact frames_clientGet _ _ _
    | exact frames_clientList _ _ _
    | exact frames_clientCreate _ (by decide) _
    | exact frames_clientUpdate _ (by decide) _
    | exact frames_clientDelete _ (by decide) _ _ _)

theorem frames_sizeLoop (ns stsName : String) (volumes : List VolumeResizeTarget) :
    Frames (handleValidating.sizeLoop ns stsName volumes) := by
  induction volumes with
  | nil =>
    unfold handleValidating.sizeLoop
    repeat (first
      | with_reducible apply frames_bind
      | intro _
      | dsimp only
      | split
      | exact frames_pure _
      | exact frames_getEnv
      | exact frames_timeNow
      | exact frames_timeSleep _
      | exact frames_ctxDoneOrAfter _
      | exact frames_clientGet _ _ _
      | exact frames_clientList _ _ _
      | exact frames_clientCreate _ (by decide) _
      | exact frames_clientUpdate _ (by decide) _
      | exact frames_clientDelete _ (by decide) _ _ _
      | exact frames_validateSizeReduction _ _ _)
  | cons v t ih =>
    unfold handleValidating.sizeLoop
    repeat (first
      | with_reducible apply frames_bind
      | intro _
      | dsimp only
      | split
      | exact frames_pure _
      | exact frames_getEnv
      | exact frames_timeNow
      | exact frames_timeSleep _
      | exact frames_ctxDoneOrAfter _
      | exact frames_clientGet _ _ _
      | exact frames_clientList _ _ _
      | exact frames_clientCreate _ (by decide) _
      | exact frames_clientUpdate _ (by decide) _
      | exact frames_clientDelete _ (by decide) _ _ _
      | exact ih
      | exact frames_validateSizeReduction _ _ _)

theorem frames_deleteAll (k : Kind) (hk : k ≠ Kind.volumeResize) (l : List k.T) :
    Frames (handleDeletion.deleteAll k l) := by
  induction l with
  | nil => unfold handleDeletion.deleteAll; exact frames_pure _
  | cons o rest ih =>
    unfold handleDeletion.deleteAll
    exact frames_bind (frames_clientDelete k hk _ _ _) (fun _ => ih)

theorem frames_waitForBinding (tempPVC : PersistentVolumeClaim) :
    Frames (handleSyncing.waitForBinding tempPVC) := by
  unfold handleSyncing.waitForBinding
  repeat (first
    | with_reducible apply frames_bind
    | intro _
    | dsimp only
    | split
    | exact frames_pure _
    | exact frames_getEnv
    | exact frames_timeNow
    | exact frames_timeSleep _
    | exact frames_ctxDoneOrAfter _
    | exact frames_clientGet _ _ _
    | exact frames_clientList _ _ _
    | exact frames_clientCreate _ (by decide) _
    | exact frames_clientUpdate _ (by decide) _
    | exact frames_clientDelete _ (by decide) _ _ _)

theorem hasKey_volumeResize (ns name : String) (o : VolumeResize) :
    Kind.hasKey Kind.volumeResize ns name o = true ↔ o.key = (ns, name) := by
  unfold Kind.hasKey VolumeResize.key
  simp only [Bool.and_eq_true, beq_iff_eq, Prod.mk.injEq]
  rfl

theorem unique_eq (l : List VolumeResize) (hu : UniqueRequests l) (x y : VolumeResize)
    (hx : x ∈ l) (hy : y ∈ l) (h : x.key = y.key) : x = y :=
  List.inj_on_of_nodup_map hu hx hy h

theorem validated_of_eq (vr vr2 : VolumeResize) (h1 : vr2.Spec.Volumes = vr.Spec.Volumes)
    (h2 : vr2.Status = vr.Status) (h : Validated vr) : Validated vr2 := by
  unfold Validated at *
  rw [h1, h2]
  exact h

theorem mem_replaceFirst_unique (p : VolumeResize → Bool) (o stored : VolumeResize) :
    ∀ (l : List VolumeResize), UniqueRequests l → l.find? p = some stored →
    ∀ x ∈ replaceFirst p o l, x = o ∨ (x ∈ l ∧ x.key ≠ stored.key) := by
  intro l
  induction l with
  | nil => intro _ h; simp at h
  | cons y ys ih =>
    intro hu hf x hx
    unfold UniqueRequests at hu
    rw [List.map_cons, List.nodup_cons] at hu
    unfold replaceFirst at hx
    cases hp : p y with
    | true =>
      rw [List.find?_cons, hp] at hf
      simp only [Option.some.injEq] at hf
      subst hf
      rw [hp] at hx
      simp only [if_true, List.mem_cons] at hx
      rcases hx with hx | hx
      · exact Or.inl hx
      · refine Or.inr ⟨List.mem_cons_of_mem _ hx, fun e => hu.1 ?_⟩
        rw [← e]
        exact List.mem_map_of_mem _ hx
    | false =>
      rw [List.find?_cons, hp] at hf
      rw [hp] at hx
      simp only [Bool.false_eq_true, if_false, List.mem_cons] at hx
      have hs : stored ∈ ys := List.mem_of_find?_eq_some hf
      rcases hx with hx | hx
      · subst hx
        refine Or.inr ⟨List.mem_cons_self _ _, fun e => hu.1 ?_⟩
        rw [e]
        exact List.mem_map_of_mem _ hs
      · rcases ih hu.2 hf x hx with h | ⟨h1, h2⟩
        · exact Or.inl h
        · exact Or.inr ⟨List.mem_cons_of_mem _ h1, h2⟩

theorem mem_eraseP_unique (p : VolumeResize → Bool) (stored : VolumeResize) :
    ∀ (l : List VolumeResize), UniqueRequests l → l.find? p = some stored →
    ∀ x ∈ l.eraseP p, x ∈ l ∧ x.key ≠ stored.key := by
  intro l
  induction l with
  | nil => intro _ h; simp at h
  | cons y ys ih =>
    intro hu hf x hx
    unfold UniqueRequests at hu
    rw [List.map_cons, List.nodup_cons] at hu
    cases hp : p y with
    | true =>
      rw [List.find?_cons, hp] at hf
      simp only [Option.some.injEq] at hf
      subst hf
      rw [List.eraseP_cons_of_pos hp] at hx
      refine ⟨List.mem_cons_of_mem _ hx, fun e => hu.1 ?_⟩
      rw [← e]
      exact List.mem_map_of_mem _ hx
    | false =>
      rw [List.find?_cons, hp] at hf
      rw [List.eraseP_cons_of_neg (by simp [hp]), List.mem_cons] at hx
      have hs : stored ∈ ys := List.mem_of_find?_eq_some hf
      rcases hx with hx | hx
      · subst hx
        refine ⟨List.mem_cons_self _ _, fun e => hu.1 ?_⟩
        rw [e]
        exact List.mem_map_of_mem _ hs
      · obtain ⟨h1, h2⟩ := ih hu.2 hf x hx
        exact ⟨List.mem_cons_of_mem _ h1, h2⟩

theorem replaceFirst_map_key (p : VolumeResize → Bool) (o : VolumeResize) :
    ∀ (l : List VolumeResize), (∀ x ∈ l, p x = true → x.key = o.key) →
    (replaceFirst p o l).map VolumeResize.key = l.map VolumeResize.key := by
  intro l
  induction l with
  | nil => intro _; rfl
  | cons y ys ih =>
    intro h
    unfold replaceFirst
    cases hp : p y with
    | true =>
      simp only [if_true, List.map_cons]
      rw [h y (List.mem_cons_self _ _) hp]
    | false =>
      simp only [Bool.false_eq_true, if_false, List.map_cons]
      rw [ih (fun x hx => h x (List.mem_cons_of_mem _ hx))]

/-- The cluster after the stored request of the key of `o` is replaced by `o`. -/
theorem inv_replaceFirst (key : String × String) (w : World) (ns name : String)
    (o stored : VolumeResize) (hi : ProgressInvAt key w)
    (hf : w.volumeResizes.find? (Kind.hasKey Kind.volumeResize ns name) = some stored)
    (hk : o.key = (ns, name)) (hv : o.key = key → Validated o) :
    ProgressInvAt key
      (w.setObjs Kind.volumeResize
        (replaceFirst (Kind.hasKey Kind.volumeResize ns name) o w.volumeResizes)) ∧
    Stored key o (replaceFirst (Kind.hasKey Kind.volumeResize ns name) o w.volumeResizes) := by
  have hsk : stored.key = (ns, name) := (hasKey_volumeResize ns name stored).1 (List.find?_some hf)
  refine ⟨⟨?_, ?_⟩, fun hok => ⟨hv hok, ?_⟩⟩
  · show UniqueRequests (replaceFirst _ o w.volumeResizes)
    unfold UniqueRequests
    rw [replaceFirst_map_key _ o _ (fun x _ hx => by
      rw [(hasKey_volumeResize ns name x).1 hx, hk])]
    exact hi.1
  · intro vr hvr hkey
    rcases mem_replaceFirst_unique _ o stored _ hi.1 hf vr hvr with h | ⟨h1, _⟩
    · rw [h] at hkey ⊢
      exact hv hkey
    · exact hi.2 vr h1 hkey
  · intro x hx hxk
    rcases mem_replaceFirst_unique _ o stored _ hi.1 hf x hx with h | ⟨_, h2⟩
    · rw [h]
      exact ⟨rfl, rfl⟩
    · exact absurd (hxk.trans (hok.symm.trans (hk.trans hsk.symm))) h2

/-- The cluster after the stored request of a key is removed. -/
theorem inv_eraseP (key : String × String) (w : World) (ns name : String)
    (o stored : VolumeResize) (hi : ProgressInvAt key w)
    (hf : w.volumeResizes.find? (Kind.hasKey Kind.volumeResize ns name) = some stored)
    (hk : o.key = (ns, name)) (hv : o.key = key → Validated o) :
    ProgressInvAt key
      (w.setObjs Kind.volumeResize
        (w.volumeResizes.eraseP (Kind.hasKey Kind.volumeResize ns name))) ∧
    Stored key o (w.volumeResizes.eraseP (Kind.hasKey Kind.volumeResize ns name)) := by
  have hsk : stored.key = (ns, name) := (hasKey_volumeResize ns name stored).1 (List.find?_some hf)
  refine ⟨⟨?_, ?_⟩, fun hok => ⟨hv hok, ?_⟩⟩
  · show UniqueRequests (w.volumeResizes.eraseP _)
    exact List.Nodup.sublist (List.Sublist.map _ (List.eraseP_sublist _)) hi.1
  · intro vr hvr hkey
    exact hi.2 vr (List.mem_of_mem_eraseP hvr) hkey
  · intro x hx hxk
    obtain ⟨_, h2⟩ := mem_eraseP_unique _ stored _ hi.1 hf x hx
    exact absurd (hxk.trans (hok.symm.trans (hk.trans hsk.symm))) h2

theorem statusUpdate_keeps (key : String × String) (obj : VolumeResize) (env : Env) (s : St)
    (hd : NoDrift env) (hi : ProgressInvAt key s.world)
    (hm : obj.key = key → Validated obj ∧ ∀ stored ∈ s.world.volumeResizes, stored.key = key →
      stored.Spec.Volumes = obj.Spec.Volumes) :
    ProgressInvAt key (Client.StatusUpdate Kind.volumeResize obj env s).st.world ∧
    (∀ e, (Client.StatusUpdate Kind.volumeResize obj env s).val = .error e →
      (Client.StatusUpdate Kind.volumeResize obj env s).st.world.volumeResizes
        = s.world.volumeResizes) ∧
    (∀ a, (Client.StatusUpdate Kind.volumeResize obj env s).val = .ok a →
      a.key = obj.key ∧ a.Status = obj.Status ∧
      Stored key a (Client.StatusUpdate Kind.volumeResize obj env s).st.world.volumeResizes) := by
  unfold Client.StatusUpdate call
  split
  · refine ⟨?_, fun _ _ => ?_, fun a h => by simp at h⟩
    · show ProgressInvAt key (env.drift s.calls s.world)
      rw [hd]
      exact hi
    · show (env.drift s.calls s.world).volumeResizes = _
      rw [hd]
  · dsimp only
    rw [hd]
    unfold World.serveStatusUpdate
    split
    · exact ⟨hi, fun _ _ => rfl, fun a h => by simp at h⟩
    · rename_i stored hf
      have hf2 : s.world.volumeResizes.find?
          (Kind.hasKey Kind.volumeResize obj.Meta.Namespace obj.Meta.Name) = some stored := hf
      have hsm : stored ∈ s.world.volumeResizes := List.mem_of_find?_eq_some hf2
      have hsk : stored.key = obj.key :=
        (hasKey_volumeResize _ _ stored).1 (List.find?_some hf2)
      have hval : ({ stored with Status := obj.Status } : VolumeResize).key = key →
          Validated { stored with Status := obj.Status } := by
        intro hk
        have hok : obj.key = key := hsk.symm.trans hk
        obtain ⟨h1, h2⟩ := hm hok
        exact validated_of_eq obj _ (h2 stored hsm hk) rfl h1
      obtain ⟨h1, h2⟩ := inv_replaceFirst key s.world obj.Meta.Namespace obj.Meta.Name
        { stored with Status := obj.Status } stored hi hf2 hsk hval
      refine ⟨h1, fun e h => by simp at h, fun a h => ?_⟩
      simp only [Except.ok.injEq] at h
      subst h
      exact ⟨hsk, rfl, h2⟩

theorem update_keeps (key : String × String) (obj : VolumeResize) (env : Env) (s : St)
    (hd : NoDrift env) (hi : ProgressInvAt key s.world)
    (hl : obj.key = key → ∀ stored ∈ s.world.volumeResizes, stored.key = key →
      stored.Spec.Volumes = obj.Spec.Volumes) :
    ProgressInvAt key (Client.Update Kind.volumeResize obj env s).st.world ∧
    (∀ e, (Client.Update Kind.volumeResize obj env s).val = .error e →
      (Client.Update Kind.volumeResize obj env s).st.world.volumeResizes
        = s.world.volumeResizes) ∧
    (∀ a, (Client.Update Kind.volumeResize obj env s).val = .ok a →
      a.key = obj.key ∧ a.Spec.Volumes = obj.Spec.Volumes ∧
      (∃ stored ∈ s.world.volumeResizes, stored.key = obj.key ∧ a.Status = stored.Status) ∧
      Stored key a (Client.Update Kind.volumeResize obj env s).st.world.volumeResizes) := by
  unfold Client.Update call
  split
  · refine ⟨?_, fun _ _ => ?_, fun a h => by simp at h⟩
    · show ProgressInvAt key (env.drift s.calls s.world)
      rw [hd]
      exact hi
    · show (env.drift s.calls s.world).volumeResizes = _
      rw [hd]
  · dsimp only
    rw [hd]
    unfold World.serveUpdate
    split
    · exact ⟨hi, fun _ _ => rfl, fun a h => by simp at h⟩
    · rename_i stored hf
      have hf2 : s.world.volumeResizes.find?
          (Kind.hasKey Kind.volumeResize obj.Meta.Namespace obj.Meta.Name) = some stored := hf
      have hsm : stored ∈ s.world.volumeResizes := List.mem_of_find?_eq_some hf2
      have hsk : stored.key = obj.key :=
        (hasKey_volumeResize _ _ stored).1 (List.find?_some hf2)
      have hval : ({ obj with
            Status := stored.Status
            Meta := { obj.Meta with DeletionTimestamp := stored.Meta.DeletionTimestamp } } :
              VolumeResize).key = key →
          Validated { obj with
            Status := stored.Status
            Meta := { obj.Meta with DeletionTimestamp := stored.Meta.DeletionTimestamp } } := by
        intro hk
        have hk2 : stored.key = key := hsk.trans hk
        exact validated_of_eq stored _ (hl hk stored hsm hk2).symm rfl (hi.2 stored hsm hk2)
      dsimp only
      split
      · obtain ⟨h1, h2⟩ := inv_eraseP key s.world obj.Meta.Namespace obj.Meta.Name
          { obj with
            Status := stored.Status
            Meta := { obj.Meta with DeletionTimestamp := stored.Meta.DeletionTimestamp } }
          stored hi hf2 rfl hval
        refine ⟨h1, fun e h => by simp at h, fun a h => ?_⟩
        simp only [Except.ok.injEq] at h
        subst h
        exact ⟨rfl, rfl, ⟨stored, hsm, hsk, rfl⟩, h2⟩
      · obtain ⟨h1, h2⟩ := inv_replaceFirst key s.world obj.Meta.Namespace obj.Meta.Name
          { obj with
            Status := stored.Status
            Meta := { obj.Meta with DeletionTimestamp := stored.Meta.DeletionTimestamp } }
          stored hi hf2 rfl hval
        refine ⟨h1, fun e h => by simp at h, fun a h => ?_⟩
        simp only [Except.ok.injEq] at h
        subst h
        exact ⟨rfl, rfl, ⟨stored, hsm, hsk, rfl⟩, h2⟩

theorem inv_of_eq (key : String × String) (w w2 : World)
    (h : w2.volumeResizes = w.volumeResizes) (hi : ProgressInvAt key w) : ProgressInvAt key w2 := by
  unfold ProgressInvAt at *
  rw [h]
  exact hi

theorem mem_of_stored (key : String × String) (a : VolumeResize) (l : List VolumeResize)
    (h : Stored key a l) : Mem key a l := by
  intro hk
  obtain ⟨h1, h2⟩ := h hk
  refine ⟨h1, fun stored hs hsk => ?_⟩
  obtain ⟨e1, e2⟩ := h2 stored hs hsk
  rw [e2]
  exact ⟨e1, rfl, rfl⟩

theorem keepsProgress_pure (key : String × String) (P : List VolumeResize → Prop) {α : Type} (a : α) :
    KeepsProgress key P (pure a : M α) :=
  ⟨fun _ _ _ hi _ => hi⟩

theorem keepsProgress_bind {key : String × String} {P : List VolumeResize → Prop} {α β : Type}
    {m : M α} {f : α → M β} (hm : Frames m) (hf : ∀ a, KeepsProgress key P (f a)) :
    KeepsProgress key P (m >>= f) :=
  ⟨fun env s hd hi hp => by
    have e := hm.run env s hd
    exact (hf (m env s).val).run env (m env s).st hd (inv_of_eq key _ _ e hi) (by rw [e]; exact hp)⟩

theorem keepsProgress_weaken {key : String × String} {P Q : List VolumeResize → Prop} {α : Type}
    {m : M α} (h : ∀ l, P l → Q l) (hm : KeepsProgress key Q m) : KeepsProgress key P m :=
  ⟨fun env s hd hi hp => hm.run env s hd hi (h _ hp)⟩

theorem keepsProgress_assume {key : String × String} {P : List VolumeResize → Prop} {α : Type}
    {m : M α} (C : Prop) (hC : ∀ l, P l → C) (hm : C → KeepsProgress key P m) :
    KeepsProgress key P m :=
  ⟨fun env s hd hi hp => (hm (hC _ hp)).run env s hd hi hp⟩

theorem keepsProgress_of_frames {key : String × String} {P : List VolumeResize → Prop} {α : Type}
    {m : M α} (hm : Frames m) : KeepsProgress key P m :=
  ⟨fun env s hd hi _ => inv_of_eq key _ _ (hm.run env s hd) hi⟩

theorem keepsProgress_statusUpdate {key : String × String} {P : List VolumeResize → Prop} {β : Type}
    (obj : VolumeResize) (f : Except Err VolumeResize → M β)
    (hP : ∀ l, P l → obj.key = key → Validated obj ∧ ∀ stored ∈ l, stored.key = key →
      stored.Spec.Volumes = obj.Spec.Volumes)
    (he : ∀ e, KeepsProgress key P (f (.error e)))
    (hok : ∀ a, a.key = obj.key → a.Status = obj.Status →
      KeepsProgress key (Stored key a) (f (.ok a))) :
    KeepsProgress key P (Client.StatusUpdate Kind.volumeResize obj >>= f) :=
  ⟨fun env s hd hi hp => by
    obtain ⟨h1, h2, h3⟩ := statusUpdate_keeps key obj env s hd hi (hP _ hp)
    rw [bind_st]
    cases hv : (Client.StatusUpdate Kind.volumeResize obj env s).val with
    | error e =>
      exact (he e).run env _ hd h1 (by rw [h2 e hv]; exact hp)
    | ok a =>
      obtain ⟨k1, k2, k3⟩ := h3 a hv
      exact (hok a k1 k2).run env _ hd h1 k3⟩

theorem keepsProgress_update {key : String × String} {P : List VolumeResize → Prop} {β : Type}
    (obj : VolumeResize) (f : Except Err VolumeResize → M β) (S : VolumeResizeStatus → Prop)
    (hP : ∀ l, P l → obj.key = key → ∀ stored ∈ l, stored.key = key →
      stored.Spec.Volumes = obj.Spec.Volumes ∧ S stored.Status)
    (he : ∀ e, KeepsProgress key P (f (.error e)))
    (hok : ∀ a, a.key = obj.key → a.Spec.Volumes = obj.Spec.Volumes → (a.key = key → S a.Status) →
      KeepsProgress key (Stored key a) (f (.ok a))) :
    KeepsProgress key P (Client.Update Kind.volumeResize obj >>= f) :=
  ⟨fun env s hd hi hp => by
    obtain ⟨h1, h2, h3⟩ := update_keeps key obj env s hd hi
      (fun hk stored hs hsk => (hP _ hp hk stored hs hsk).1)
    rw [bind_st]
    cases hv : (Client.Update Kind.volumeResize obj env s).val with
    | error e =>
      exact (he e).run env _ hd h1 (by rw [h2 e hv]; exact hp)
    | ok a =>
      obtain ⟨k1, k2, ⟨stored, hs, hsk, hst⟩, k4⟩ := h3 a hv
      refine (hok a k1 k2 (fun hk => ?_)).run env _ hd h1 k4
      rw [hst]
      exact (hP _ hp (k1.symm.trans hk) stored hs (hsk.trans (k1.symm.trans hk))).2⟩

theorem keepsProgress_get {key : String × String} {P : List VolumeResize → Prop} {β : Type}
    (ns name : String) (f : Except Err VolumeResize → M β)
    (he : ∀ e, KeepsProgress key P (f (.error e)))
    (hok : ∀ a, KeepsProgress key (Stored key a) (f (.ok a))) :
    KeepsProgress key P (Client.Get Kind.volumeResize ns name >>= f) :=
  ⟨fun env s hd hi hp => by
    have e := (frames_clientGet Kind.volumeResize ns name).run env s hd
    have hi2 := inv_of_eq key _ _ e hi
    rw [bind_st]
    cases hv : (Client.Get Kind.volumeResize ns name env s).val with
    | error err =>
      exact (he err).run env _ hd hi2 (by rw [e]; exact hp)
    | ok a =>
      have hm : a ∈ s.world.volumeResizes := get_ok_mem Kind.volumeResize ns name env s a hd hv
      refine (hok a).run env _ hd hi2 (fun hk => ⟨hi.2 a hm hk, fun stored hs hsk => ?_⟩)
      rw [e] at hs
      have := unique_eq _ hi.1 stored a hs hm (hsk.trans hk.symm)
      rw [this]
      exact ⟨rfl, rfl⟩⟩

theorem keeps_setFailed (key : String × String) (vr : VolumeResize) (message : String)
    (hc : vr.key = key → ∃ replica, vr.Status.CurrentReplica = some replica) :
    KeepsProgress key (Mem key vr) (setFailed vr message) := by
  rw [setFailed_def]
  refine keepsProgress_statusUpdate _ _ ?_ (fun e => keepsProgress_pure _ _ _)
    (fun a _ _ => keepsProgress_pure _ _ _)
  intro l hm hk
  obtain ⟨replica, hr⟩ := hc hk
  obtain ⟨h1, h2⟩ := hm hk
  exact ⟨validated_failed vr message replica hr h1, fun stored hs hsk => (h2 stored hs hsk).1⟩

theorem keeps_advance (key : String × String) (vr : VolumeResize) (replica : Int) (volName : String)
    (hat : vr.key = key →
      vr.Status.CurrentReplica = some replica ∧ vr.Status.CurrentVolume = volName)
    (hdone : vr.key = key → DonePair replica volName vr.Status) :
    KeepsProgress key (Mem key vr) (handleSyncing.advance vr replica volName) := by
  unfold handleSyncing.advance
  split
  · exact keepsProgress_pure _ _ _
  · rename_i nr nv done hn
    refine keepsProgress_bind frames_timeNow (fun now => ?_)
    refine keepsProgress_statusUpdate _ _ ?_ (fun e => keepsProgress_pure _ _ _)
      (fun a _ _ => keepsProgress_pure _ _ _)
    intro l hm hk
    have hk2 : vr.key = key := by
      cases done <;> exact hk
    obtain ⟨h1, h2⟩ := hm hk2
    refine ⟨validated_advance vr replica volName now nr nv done (hat hk2).1 (hat hk2).2 (hdone hk2)
      h1 hn, ?_⟩
    intro stored hs hsk
    cases done <;> exact (h2 stored hs hsk).1

theorem keeps_handlePending (key : String × String) (vr : VolumeResize) (hk : vr.key ≠ key)
    (P : List VolumeResize → Prop) : KeepsProgress key P (handlePending vr) := by
  unfold handlePending
  refine keepsProgress_bind frames_timeNow (fun now => ?_)
  exact keepsProgress_statusUpdate _ _ (fun l _ h => absurd h hk) (fun e => keepsProgress_pure _ _ _)
    (fun a _ _ => keepsProgress_pure _ _ _)

theorem keeps_handleReplacing (key : String × String) (vr : VolumeResize) (hk : vr.key ≠ key)
    (P : List VolumeResize → Prop) : KeepsProgress key P (handleReplacing vr) := by
  unfold handleReplacing
  refine keepsProgress_bind frames_timeNow (fun now => ?_)
  exact keepsProgress_statusUpdate _ _ (fun l _ h => absurd h hk) (fun e => keepsProgress_pure _ _ _)
    (fun a _ _ => keepsProgress_pure _ _ _)

theorem keeps_setFailed_other (key : String × String) (vr : VolumeResize) (message : String)
    (hk : vr.key ≠ key) (P : List VolumeResize → Prop) :
    KeepsProgress key P (setFailed vr message) := by
  rw [setFailed_def]
  exact keepsProgress_statusUpdate _ _ (fun l _ h => absurd h hk) (fun e => keepsProgress_pure _ _ _)
    (fun a _ _ => keepsProgress_pure _ _ _)

theorem keeps_handleValidating (key : String × String) (vr : VolumeResize) (hk : vr.key ≠ key)
    (P : List VolumeResize → Prop) : KeepsProgress key P (handleValidating vr) := by
  unfold handleValidating
  repeat (first
    | with_reducible apply keepsProgress_statusUpdate
    | with_reducible apply keepsProgress_bind
    | exact fun l _ h => absurd h hk
    | intro _
    | dsimp only
    | split
    | exact keepsProgress_pure _ _ _
    | exact frames_validateStatefulSetExists _ _
    | exact frames_sizeLoop _ _ _
    | exact frames_validatePDBAllowsDisruption _
    | exact frames_getEnv
    | exact keeps_setFailed_other _ _ _ hk _)

theorem keeps_handleDeletion (key : String × String) (vr : VolumeResize) :
    KeepsProgress key (Mem key vr) (handleDeletion vr) := by
  rw [handleDeletion_def]
  refine keepsProgress_bind (frames_clientList _ _ _) (fun r => ?_)
  refine keepsProgress_bind (frames_deleteAll _ (by decide) _) (fun _ => ?_)
  refine keepsProgress_bind (frames_clientList _ _ _) (fun r => ?_)
  refine keepsProgress_bind (frames_deleteAll _ (by decide) _) (fun _ => ?_)
  refine keepsProgress_update _ _ (fun _ => True) ?_ (fun e => keepsProgress_pure _ _ _)
    (fun a _ _ _ => keepsProgress_pure _ _ _)
  intro l hm hk stored hs hsk
  exact ⟨((hm hk).2 stored hs hsk).1, trivial⟩

theorem carries_pure {key : String × String} {P : List VolumeResize → Prop} {α : Type}
    {Q : α → List VolumeResize → Prop} (a : α) (h : ∀ l, P l → Q a l) :
    Carries key P Q (pure a : M α) :=
  ⟨fun _ _ _ hi hp => ⟨hi, h _ hp⟩⟩

theorem carries_bind {key : String × String} {P : List VolumeResize → Prop} {α β : Type}
    {Q : β → List VolumeResize → Prop} {m : M α} {f : α → M β} (hm : Frames m)
    (hf : ∀ a, Carries key P Q (f a)) : Carries key P Q (m >>= f) :=
  ⟨fun env s hd hi hp => by
    have e := hm.run env s hd
    exact (hf (m env s).val).run env (m env s).st hd (inv_of_eq key _ _ e hi) (by rw [e]; exact hp)⟩

theorem carries_weaken {key : String × String} {P P2 : List VolumeResize → Prop} {α : Type}
    {Q : α → List VolumeResize → Prop} {m : M α} (h : ∀ l, P l → P2 l) (hm : Carries key P2 Q m) :
    Carries key P Q m :=
  ⟨fun env s hd hi hp => hm.run env s hd hi (h _ hp)⟩

theorem carries_keeps_pure {key : String × String} {P : List VolumeResize → Prop} {α β : Type}
    {Q : β → List VolumeResize → Prop} {m : M α} (g : α → β) (hm : KeepsProgress key P m)
    (hQ : ∀ a l, Q (g a) l) : Carries key P Q (m >>= fun a => pure (g a)) :=
  ⟨fun env s hd hi hp => ⟨hm.run env s hd hi hp, hQ _ _⟩⟩

theorem carries_statusUpdate {key : String × String} {P : List VolumeResize → Prop} {β : Type}
    {Q : β → List VolumeResize → Prop}
    (obj : VolumeResize) (f : Except Err VolumeResize → M β)
    (hP : ∀ l, P l → obj.key = key → Validated obj ∧ ∀ stored ∈ l, stored.key = key →
      stored.Spec.Volumes = obj.Spec.Volumes)
    (he : ∀ e, Carries key P Q (f (.error e)))
    (hok : ∀ a, a.key = obj.key → a.Status = obj.Status →
      Carries key (Stored key a) Q (f (.ok a))) :
    Carries key P Q (Client.StatusUpdate Kind.volumeResize obj >>= f) :=
  ⟨fun env s hd hi hp => by
    obtain ⟨h1, h2, h3⟩ := statusUpdate_keeps key obj env s hd hi (hP _ hp)
    rw [bind_st, bind_val]
    cases hv : (Client.StatusUpdate Kind.volumeResize obj env s).val with
    | error e =>
      exact (he e).run env _ hd h1 (by rw [h2 e hv]; exact hp)
    | ok a =>
      obtain ⟨k1, k2, k3⟩ := h3 a hv
      exact (hok a k1 k2).run env _ hd h1 k3⟩

theorem carries_update {key : String × String} {P : List VolumeResize → Prop} {β : Type}
    {Q : β → List VolumeResize → Prop}
    (obj : VolumeResize) (f : Except Err VolumeResize → M β) (S : VolumeResizeStatus → Prop)
    (hP : ∀ l, P l → obj.key = key → ∀ stored ∈ l, stored.key = key →
      stored.Spec.Volumes = obj.Spec.Volumes ∧ S stored.Status)
    (he : ∀ e, Carries key P Q (f (.error e)))
    (hok : ∀ a, a.key = obj.key → a.Spec.Volumes = obj.Spec.Volumes → (a.key = key → S a.Status) →
      Carries key (Stored key a) Q (f (.ok a))) :
    Carries key P Q (Client.Update Kind.volumeResize obj >>= f) :=
  ⟨fun env s hd hi hp => by
    obtain ⟨h1, h2, h3⟩ := update_keeps key obj env s hd hi
      (fun hk stored hs hsk => (hP _ hp hk stored hs hsk).1)
    rw [bind_st, bind_val]
    cases hv : (Client.Update Kind.volumeResize obj env s).val with
    | error e =>
      exact (he e).run env _ hd h1 (by rw [h2 e hv]; exact hp)
    | ok a =>
      obtain ⟨k1, k2, ⟨stored, hs, hsk, hst⟩, k4⟩ := h3 a hv
      refine (hok a k1 k2 (fun hk => ?_)).run env _ hd h1 k4
      rw [hst]
      exact (hP _ hp (k1.symm.trans hk) stored hs (hsk.trans (k1.symm.trans hk))).2⟩

theorem keepsProgress_carries {key : String × String} {P : List VolumeResize → Prop} {α β : Type}
    {Q : α → List VolumeResize → Prop} {m : M α} {f : α → M β} (hm : Carries key P Q m)
    (hf : ∀ a, KeepsProgress key (Q a) (f a)) : KeepsProgress key P (m >>= f) :=
  ⟨fun env s hd hi hp => by
    obtain ⟨h1, h2⟩ := hm.run env s hd hi hp
    exact (hf _).run env _ hd h1 h2⟩

theorem validated_backupName (vr : VolumeResize) (n : String) (h : Validated vr) :
    Validated { vr with Status := { vr.Status with BackupConfigMapName := n } } :=
  ⟨h.1, progress_congr _ vr.Status _ rfl rfl rfl rfl rfl h.2⟩

theorem validated_meta (vr : VolumeResize) (m : ObjectMeta) (h : Validated vr) :
    Validated { vr with Meta := m } := h

theorem validated_phase (vr : VolumeResize) (h : Validated vr) :
    vr.Status.Phase = PhaseCompleted ∨ vr.Status.Phase = PhaseSyncing ∨
      vr.Status.Phase = PhaseFailed := by
  obtain ⟨R, _, _, h | h⟩ := h.2
  · exact Or.inl h.1
  · exact Or.inr h.1

theorem keeps_recreate (key : String × String) (vr : VolumeResize) (replica : Int) (volName : String)
    (hat : vr.key = key →
      vr.Status.CurrentReplica = some replica ∧ vr.Status.CurrentVolume = volName)
    (hdone : vr.key = key → DonePair replica volName vr.Status) :
    KeepsProgress key (Mem key vr) (handleSyncing.recreate vr replica volName) := by
  unfold handleSyncing.recreate
  refine keepsProgress_statusUpdate vr _
    (fun l hm hk => ⟨(hm hk).1, fun st hs hsk => ((hm hk).2 st hs hsk).1⟩)
    (fun e => keepsProgress_pure _ _ _) (fun a hak has => ?_)
  dsimp only
  have hka : a.key = key → vr.key = key := fun hk => hak.symm.trans hk
  have hata : a.key = key →
      a.Status.CurrentReplica = some replica ∧ a.Status.CurrentVolume = volName := fun hk => by
    rw [has]
    exact hat (hka hk)
  have hfail : ∀ msg, KeepsProgress key (Stored key a) (setFailed a msg) := fun msg =>
    keepsProgress_weaken (mem_of_stored key a)
      (keeps_setFailed key a msg (fun hk => ⟨replica, (hata hk).1⟩))
  refine keepsProgress_bind (frames_getSTSFromBackupConfigMap _ _) (fun r => ?_)
  split
  · exact hfail _
  · refine keepsProgress_bind (frames_recreateSTS _) (fun r2 => ?_)
    split
    · exact hfail _
    · refine keepsProgress_update _ _ (fun st => st = a.Status) ?_
        (fun e => keepsProgress_pure _ _ _) (fun a3 hk3 _ hst3 => ?_)
      · intro l hs hk stored hm hsk
        exact (hs hk).2 stored hm hsk
      · dsimp only
        have hk3a : a3.key = key → a.key = key := fun hk => hk3.symm.trans hk
        refine keepsProgress_weaken (mem_of_stored key a3) ?_
        refine keepsProgress_bind (frames_clientGet _ _ _) (fun r3 => ?_)
        split
        · split <;> exact keepsProgress_pure _ _ _
        · split
          · exact keepsProgress_pure _ _ _
          · exact keeps_advance key a3 replica volName
              (fun hk => by rw [hst3 hk]; exact hata (hk3a hk))
              (fun hk => by rw [hst3 hk, has]; exact hdone (hka (hk3a hk)))

theorem carries_deleteSTS (key : String × String) (vr : VolumeResize) (replica : Int)
    (volName : String)
    (hat : vr.key = key →
      vr.Status.CurrentReplica = some replica ∧ vr.Status.CurrentVolume = volName) :
    Carries key (Mem key vr)
      (fun res l => ∀ vr2, res = Except.ok vr2 → Mem key vr2 l ∧
        (vr2.key = key →
          vr2.Status.CurrentReplica = some replica ∧ vr2.Status.CurrentVolume = volName))
      (handleSyncing.deleteSTS vr) := by
  have hfail : ∀ msg, KeepsProgress key (Mem key vr) (setFailed vr msg) := fun msg =>
    keeps_setFailed key vr msg (fun hk => ⟨replica, (hat hk).1⟩)
  have hself : ∀ l, Mem key vr l → ∀ vr2, (Except.ok vr : Except Ret VolumeResize) = Except.ok vr2 →
      Mem key vr2 l ∧ (vr2.key = key →
        vr2.Status.CurrentReplica = some replica ∧ vr2.Status.CurrentVolume = volName) := by
    intro l hm vr2 e
    simp only [Except.ok.injEq] at e
    subst e
    exact ⟨hm, hat⟩
  have herr : ∀ (P : List VolumeResize → Prop) (r : Ret),
      Carries key P
        (fun res l => ∀ vr2, res = Except.ok vr2 → Mem key vr2 l ∧
          (vr2.key = key →
            vr2.Status.CurrentReplica = some replica ∧ vr2.Status.CurrentVolume = volName))
        (pure (Except.error r : Except Ret VolumeResize)) :=
    fun P r => carries_pure _ (fun l _ vr2 e => by simp at e)
  unfold handleSyncing.deleteSTS
  split
  · refine carries_bind (frames_clientGet _ _ _) (fun r => ?_)
    split
    · split
      · exact herr _ _
      · exact carries_pure _ hself
    · refine carries_bind (frames_backupSTSToConfigMap _ _) (fun r2 => ?_)
      split
      · exact carries_keeps_pure _ (hfail _) (fun a l vr2 e => by simp at e)
      · refine carries_bind (frames_deleteSTSOrphan _) (fun r3 => ?_)
        split
        · exact carries_keeps_pure _ (hfail _) (fun a l vr2 e => by simp at e)
        · refine carries_update _ _
            (fun st => st.CurrentReplica = some replica ∧ st.CurrentVolume = volName) ?_
            (fun e => herr _ _) (fun a hka _ hsa => ?_)
          · intro l hm hk stored hs hsk
            obtain ⟨e1, e2, e3⟩ := (hm hk).2 stored hs hsk
            exact ⟨e1, e2.trans (hat hk).1, e3.trans (hat hk).2⟩
          · dsimp only
            refine carries_statusUpdate _ _ ?_ (fun e => herr _ _) (fun a2 hka2 hsa2 => ?_)
            · intro l hs hk
              obtain ⟨h1, h2⟩ := hs hk
              exact ⟨validated_backupName a _ h1, fun stored hm hsk => (h2 stored hm hsk).1⟩
            · dsimp only
              refine carries_pure _ (fun l hs vr2 e => ?_)
              simp only [Except.ok.injEq] at e
              subst e
              refine ⟨mem_of_stored key _ l hs, fun hk => ?_⟩
              rw [hsa2]
              exact hsa (hka2.symm.trans hk)
  · exact carries_pure _ hself

theorem keepsProgress_carriesQ {key : String × String} {P : List VolumeResize → Prop} {α β : Type}
    (Q : α → List VolumeResize → Prop) {m : M α} {f : α → M β} (hm : Carries key P Q m)
    (hf : ∀ a, KeepsProgress key (Q a) (f a)) : KeepsProgress key P (m >>= f) :=
  keepsProgress_carries hm hf

theorem mem_updateVolumeStatus (key : String × String) (vr : VolumeResize) (volName : String)
    (replica : Int) (phase message : String)
    (hat : vr.key = key →
      vr.Status.CurrentReplica = some replica ∧ vr.Status.CurrentVolume = volName)
    (l : List VolumeResize) (hm : Mem key vr l) :
    Mem key (updateVolumeStatus vr volName replica phase message) l := by
  intro hk
  obtain ⟨h1, h2⟩ := hm hk
  exact ⟨validated_updateVolumeStatus vr volName replica phase message (hat hk).1 (hat hk).2 h1, h2⟩

theorem mem_prepared (key : String × String) (vr : VolumeResize) (volName : String)
    (replica : Int) (a b c : String)
    (hat : vr.key = key →
      vr.Status.CurrentReplica = some replica ∧ vr.Status.CurrentVolume = volName)
    (l : List VolumeResize) (hm : Mem key vr l) :
    Mem key (handleSyncing.prepared vr volName replica a b c) l := by
  intro hk
  obtain ⟨h1, h2⟩ := hm hk
  exact ⟨validated_prepared vr volName replica a b c (hat hk).1 (hat hk).2 h1, h2⟩

theorem keeps_migrate (key : String × String) (vr : VolumeResize) (vol : VolumeResizeTarget)
    (replica : Int) (volName originalPVCName tempPVCName : String)
    (hat : vr.key = key →
      vr.Status.CurrentReplica = some replica ∧ vr.Status.CurrentVolume = volName) :
    KeepsProgress key (Mem key vr)
      (handleSyncing.migrate vr vol replica volName originalPVCName tempPVCName) := by
  have hfail : ∀ msg, KeepsProgress key (Mem key vr) (setFailed vr msg) := fun msg =>
    keeps_setFailed key vr msg (fun hk => ⟨replica, (hat hk).1⟩)
  refine keepsProgress_assume (vr.key = key → Validated vr) (fun l hm hk => (hm hk).1) (fun hval => ?_)
  unfold handleSyncing.migrate
  refine keepsProgress_bind (frames_deletePod _ _ _) (fun _ => ?_)
  refine keepsProgress_bind (frames_waitForPodTermination _ _ _) (fun r => ?_)
  split
  · exact keepsProgress_pure _ _ _
  · refine keepsProgress_bind (frames_createMigratorPod _ _ _ _ _) (fun r2 => ?_)
    split
    · exact hfail _
    · refine keepsProgress_carriesQ (fun (stop : Option Ret) l => stop = none → Mem key vr l) ?_
        (fun stop => ?_)
      · refine carries_bind (frames_waitForMigrationComplete _ _ _) (fun r3 => ?_)
        split
        · exact carries_pure _ (fun l hm _ => hm)
        · refine carries_bind (frames_clientGet _ _ _) (fun r4 => ?_)
          split
          · exact carries_pure _ (fun l hm _ => hm)
          · split
            · exact carries_pure _ (fun l _ e => by simp at e)
            · split
              · exact carries_keeps_pure _ (hfail _) (fun a l e => by simp at e)
              · exact carries_pure _ (fun l hm _ => hm)
      · split
        · exact keepsProgress_pure _ _ _
        · refine keepsProgress_weaken (fun l h => h rfl) ?_
          refine keepsProgress_bind (frames_cleanupMigratorPod _ _) (fun _ => ?_)
          refine keepsProgress_bind (frames_replacePVC _ _ _) (fun r5 => ?_)
          split
          · refine keepsProgress_weaken
              (mem_updateVolumeStatus key vr volName replica VolumeStatusSynced "Migration complete" hat)
              (keeps_setFailed key _ _ (fun hk => ⟨replica, (hat hk).1⟩))
          · refine keepsProgress_weaken (fun l hm =>
              mem_updateVolumeStatus key
                (updateVolumeStatus vr volName replica VolumeStatusSynced "Migration complete")
                volName replica VolumeStatusCompleted "PVC replaced" hat l
                (mem_updateVolumeStatus key vr volName replica VolumeStatusSynced "Migration complete"
                  hat l hm))
              (keeps_recreate key
                (updateVolumeStatus
                  (updateVolumeStatus vr volName replica VolumeStatusSynced "Migration complete")
                  volName replica VolumeStatusCompleted "PVC replaced")
                replica volName hat (fun hk => ?_))
            exact validated_done
              (updateVolumeStatus vr volName replica VolumeStatusSynced "Migration complete")
              volName replica "PVC replaced" (hat hk).1 (hat hk).2
              (validated_updateVolumeStatus vr volName replica VolumeStatusSynced "Migration complete"
                (hat hk).1 (hat hk).2 (hval hk))

theorem donePair_of_any (vr : VolumeResize) (replica : Int) (volName : String)
    (h : vr.Status.VolumeStatuses.any (fun vs =>
      vs.VolumeName == volName && vs.Replica == replica && vs.Phase == VolumeStatusCompleted) = true) :
    DonePair replica volName vr.Status := by
  obtain ⟨vs, hvs, hp⟩ := List.any_eq_true.1 h
  simp only [Bool.and_eq_true, beq_iff_eq] at hp
  exact ⟨vs, hvs, hp.1.1, hp.1.2, hp.2⟩

theorem keeps_handleSyncing (key : String × String) (vr : VolumeResize) :
    KeepsProgress key (Mem key vr) (handleSyncing vr) := by
  rw [handleSyncing_def]
  split
  · exact keepsProgress_pure _ _ _
  · rename_i replica hc
    have hat : vr.key = key →
        vr.Status.CurrentReplica = some replica ∧ vr.Status.CurrentVolume = vr.Status.CurrentVolume :=
      fun _ => ⟨hc, rfl⟩
    have hfail : ∀ msg, KeepsProgress key (Mem key vr) (setFailed vr msg) := fun msg =>
      keeps_setFailed key vr msg (fun hk => ⟨replica, hc⟩)
    split
    · rename_i hany
      exact keeps_advance key vr replica _ hat (fun _ => donePair_of_any vr replica _ hany)
    · refine keepsProgress_bind (frames_getPVC _ _) (fun r => ?_)
      split
      · exact hfail _
      · refine keepsProgress_bind (frames_createTempPVC _ _ _ _) (fun r2 => ?_)
        split
        · exact hfail _
        · refine keepsProgress_bind (frames_waitForBinding _) (fun r3 => ?_)
          split
          · exact keepsProgress_pure _ _ _
          · refine keepsProgress_bind (frames_setRetainOnPV _) (fun r4 => ?_)
            split
            · exact hfail _
            · refine keepsProgress_carries
                (carries_weaken ?_ (carries_deleteSTS key _ replica vr.Status.CurrentVolume ?_))
                (fun res => ?_)
              · exact fun l hm => mem_prepared key vr _ replica _ _ _ hat l hm
              · exact hat
              split
              · exact keepsProgress_pure _ _ _
              · rename_i vr2
                refine keepsProgress_assume _ (fun l h => (h vr2 rfl).2) (fun hat2 => ?_)
                exact keepsProgress_weaken (fun l h => (h vr2 rfl).1)
                  (keeps_migrate key vr2 _ replica _ _ _ hat2)

theorem keepsProgress_Reconcile (key : String × String) (ns name : String) :
    KeepsProgress key (fun _ => True) (Reconcile ns name) := by
  rw [Reconcile_def]
  refine keepsProgress_get ns name _ (fun e => ?_) (fun a => ?_)
  · dsimp only
    split <;> exact keepsProgress_pure _ _ _
  · dsimp only
    refine keepsProgress_weaken (mem_of_stored key a) ?_
    refine keepsProgress_assume (a.key = key → Validated a) (fun l hm hk => (hm hk).1) (fun hval => ?_)
    have hother : ∀ p : String, a.Status.Phase = p → p ≠ PhaseCompleted → p ≠ PhaseSyncing →
        p ≠ PhaseFailed → a.key ≠ key := by
      intro p hp h1 h2 h3 hk
      rcases validated_phase a (hval hk) with h | h | h
      · exact h1 (hp.symm.trans h)
      · exact h2 (hp.symm.trans h)
      · exact h3 (hp.symm.trans h)
    split
    · exact keeps_handleDeletion key a
    · split
      · refine keepsProgress_update _ _ (fun _ => True) ?_ (fun e => keepsProgress_pure _ _ _)
          (fun a2 _ _ _ => keepsProgress_pure _ _ _)
        intro l hm hk stored hs hsk
        exact ⟨((hm hk).2 stored hs hsk).1, trivial⟩
      · split
        · rename_i hph
          refine keeps_handlePending key a ?_ _
          rcases hph with h | h
          · exact hother _ h (by decide) (by decide) (by decide)
          · exact hother _ h (by decide) (by decide) (by decide)
        · split
          · rename_i hph
            exact keeps_handleValidating key a (hother _ hph (by decide) (by decide) (by decide)) _
          · split
            · exact keeps_handleSyncing key a
            · split
              · rename_i hph
                exact keeps_handleReplacing key a (hother _ hph (by decide) (by decide) (by decide)) _
              · split <;> exact keepsProgress_pure _ _ _

theorem validated_fresh (vr : VolumeResize) (R : Nat) (first : VolumeResizeTarget)
    (rest : List VolumeResizeTarget) (hvols : vr.Spec.Volumes = first :: rest)
    (hnd : (vr.Spec.Volumes.map (fun v => v.Name)).Nodup) (hR : 1 ≤ R)
    (hp : vr.Status.Phase = PhaseSyncing) (hc : vr.Status.CurrentReplica = some 0)
    (hv : vr.Status.CurrentVolume = first.Name)
    (hs : vr.Status.VolumeStatuses = handleValidating.initStatuses (R : Int) vr.Spec.Volumes) :
    Validated vr := by
  refine ⟨hnd, R, hR, ?_, Or.inr ⟨Or.inl hp, 0, 0, first, by omega, ?_, hc, hv, ?_⟩⟩
  · rw [hs, initStatuses_keys]
  · rw [hvols]
    simp
  · intro p hp2
    simp at hp2

theorem validated_spec (vr : VolumeResize) (h : Validated vr) :
    (∃ R : Nat, 1 ≤ R ∧
      vr.Status.VolumeStatuses.map VolumeStatus.key = replicaMajor R vr.Spec.Volumes ∧
      ∀ replica, vr.Status.CurrentReplica = some replica →
        ∃ (r j : Nat) (v : VolumeResizeTarget), r < R ∧ vr.Spec.Volumes[j]? = some v ∧
          replica = (r : Int) ∧ vr.Status.CurrentVolume = v.Name ∧
          ∀ vs ∈ vr.Status.VolumeStatuses.take (r * vr.Spec.Volumes.length + j),
            vs.Phase = VolumeStatusCompleted) ∧
    (vr.Status.Phase = PhaseCompleted →
      (∀ vs ∈ vr.Status.VolumeStatuses, vs.Phase = VolumeStatusCompleted) ∧
      vr.Status.CurrentReplica = none ∧ vr.Status.CurrentVolume = "") := by
  obtain ⟨R, hR, hk, hcase⟩ := h.2
  constructor
  · refine ⟨R, hR, hk, fun replica hc => ?_⟩
    obtain ⟨R2, _, hk2, _, r, j, v, hr, hj, hcr, hcv, hall⟩ := progress_cursor _ _ replica h.2 hc
    have hRR : R2 = R := by
      have h1 := congrArg List.length (hk.symm.trans hk2)
      rw [replicaMajor_length, replicaMajor_length] at h1
      have hpos : 0 < vr.Spec.Volumes.length := by
        have := (List.getElem?_eq_some_iff.mp hj).1
        omega
      exact (Nat.eq_of_mul_eq_mul_right hpos h1).symm
    refine ⟨r, j, v, hRR ▸ hr, hj, hcr, hcv, fun vs hvs => ?_⟩
    apply hall
    rw [← List.map_take]
    exact List.mem_map_of_mem _ hvs
  · intro hp
    rcases hcase with h1 | h1
    · exact ⟨fun vs hvs => h1.2.2.2 _ (List.mem_map_of_mem _ hvs), h1.2.1, h1.2.2.1⟩
    · rcases h1.1 with e | e
      · rw [hp] at e
        exact absurd e (by decide)
      · rw [hp] at e
        exact absurd e (by decide)

/-- C27: the progress invariant of Syncing.  A request is past validation
(`Validated`) when its target names are pairwise distinct, the keys
(replica, volume) of its `VolumeStatuses` are, in order, those written at
validation for some replica count `R >= 1`, and either its phase is Completed
with every entry Completed and the cursor cleared, or its phase is Syncing or
Failed, its cursor is on a pair (r, target number j) with `r < R`, and the
`r * n + j` entries of the pairs that precede the cursor are Completed.
The request that validation leaves (phase Syncing, cursor (0, volumes[0]), the
entries of `initStatuses`) is past validation.  In a cluster whose requests have
distinct keys and whose request of the key watched is past validation, every
reconciliation, of whatever request and whatever requests of it fail, leaves
such a cluster again, as long as nothing else writes to the cluster.  So in
every stored state reached the pairs before the cursor are Completed, and once
the phase is Completed every entry is Completed and the cursor is cleared. -/
theorem syncing_progress_invariant (key : String × String) (ns name : String) (env : Env) (s : St)
    (hd : NoDrift env) (hinv : ProgressInvAt key s.world) :
    ProgressInvAt key (Reconcile ns name env s).st.world ∧
    (∀ (vr : VolumeResize) (R : Nat) (first : VolumeResizeTarget) (rest : List VolumeResizeTarget),
      vr.Spec.Volumes = first :: rest → (vr.Spec.Volumes.map (fun v => v.Name)).Nodup → 1 ≤ R →
      vr.Status.Phase = PhaseSyncing → vr.Status.CurrentReplica = some 0 →
      vr.Status.CurrentVolume = first.Name →
      vr.Status.VolumeStatuses = handleValidating.initStatuses (R : Int) vr.Spec.Volumes →
      Validated vr) ∧
    (∀ vr ∈ (Reconcile ns name env s).st.world.volumeResizes, vr.key = key →
      (∃ R : Nat, 1 ≤ R ∧
        vr.Status.VolumeStatuses.map VolumeStatus.key = replicaMajor R vr.Spec.Volumes ∧
        ∀ replica, vr.Status.CurrentReplica = some replica →
          ∃ (r j : Nat) (v : VolumeResizeTarget), r < R ∧ vr.Spec.Volumes[j]? = some v ∧
            replica = (r : Int) ∧ vr.Status.CurrentVolume = v.Name ∧
            ∀ vs ∈ vr.Status.VolumeStatuses.take (r * vr.Spec.Volumes.length + j),
              vs.Phase = VolumeStatusCompleted) ∧
      (vr.Status.Phase = PhaseCompleted →
        (∀ vs ∈ vr.Status.VolumeStatuses, vs.Phase = VolumeStatusCompleted) ∧
        vr.Status.CurrentReplica = none ∧ vr.Status.CurrentVolume = "")) := by
  have h := (keepsProgress_Reconcile key ns name).run env s hd hinv trivial
  exact ⟨h, fun vr R first rest h1 h2 h3 h4 h5 h6 h7 => validated_fresh vr R first rest h1 h2 h3 h4 h5 h6 h7,
    fun vr hvr hk => validated_spec vr (h.2 vr hvr hk)⟩

theorem syncing_progress_invariant_witness :
    (NoDrift envQuiet ∧ ProgressInvAt ("default", "resize") worldSync) ∧
    ProgressInvAt ("default", "resize")
      (Reconcile "default" "resize" envQuiet { world := worldSync }).st.world :=
  have hinv : ProgressInvAt ("default", "resize") worldSync :=
    ⟨by unfold UniqueRequests; decide, fun vr hvr _ => by
      have e : vr = vrSync := by simpa [worldSync] using hvr
      rw [e]
      exact validated_fresh vrSync 2 { Name := "data", NewSize := fiveHundredMi } [] rfl (by decide)
        (by decide) rfl rfl rfl rfl⟩
  ⟨⟨fun _ _ => rfl, hinv⟩,
   (syncing_progress_invariant ("default", "resize") "default" "resize" envQuiet
      { world := worldSync } (fun _ _ => rfl) hinv).1⟩

end MigController
